import Mathlib

/-!
# 2-D heat diffusion with MPI (`hw/hw5/programming/2dHeat.cpp`)

A shallow embedding of the domain decomposition, the construction of the
double-buffered grid, the halo exchange and the two iteration drivers, followed
by theorems about them.

Conventions of the embedding.

* C `int` values are mathematical integers (`Int`); the theorems speak about runs
  in which no intermediate `int` leaves the 32-bit range (signed overflow has no
  defined behaviour in the source language).  `/` and `%` of the source are the
  truncating `Int.tdiv` and `Int.tmod`.
* `double` values are elements of an arbitrary field `R` (exact arithmetic).
* `std::vector<double>` is `List R`; `v[i]` with an index outside the vector has no
  defined behaviour in the source and is modelled as a read of `0` and a write
  without effect.
* `exit(1)` and a failing `assert` are the `Except.error` outcomes.
-/

namespace Heat2D

/-! ## Machine-level helpers -/

/-- Division of two C `int`s: truncation towards zero. -/
def cdiv (a b : Int) : Int := Int.tdiv a b

/-- Remainder of two C `int`s: sign of the dividend. -/
def cmod (a b : Int) : Int := Int.tmod a b

/-- The conversion `int n = sqrt(double(p))` for a process count `p`: the square
root of a non-negative 32-bit integer is computed by a correctly rounded `sqrt`
and truncated, which gives the integer square root. -/
def isqrt (p : Int) : Int := Int.ofNat (Nat.sqrt p.toNat)

/-- The loop `for (int i = lo; i < hi; ++i) body(i)` as a state transformer. -/
def forLoop {σ : Type} (lo hi : Int) (body : Int → σ → σ) (s : σ) : σ :=
  (List.range (hi - lo).toNat).foldl (fun acc (k : Nat) => body (lo + Int.ofNat k) acc) s

/-- The assignment `v[i] = x` on a vector. -/
def vset {R : Type} (v : List R) (i : Int) (x : R) : List R :=
  if 0 ≤ i then v.set i.toNat x else v

/-- The read `v[i]` of a vector. -/
def vget {R : Type} [Zero R] (v : List R) (i : Int) : R :=
  if 0 ≤ i then v.getD i.toNat 0 else 0

/-! ## `simParams` -/

/-- The class `simParams`; `bc[0..3]` are the fields `topBC`, `leftBC`,
`bottomBC`, `rightBC` (the order of the accessors of the source). -/
structure simParams (R : Type) where
  nx_ : Int
  ny_ : Int
  lx_ : R
  ly_ : R
  alpha_ : R
  dt_ : R
  iters_ : Int
  dx_ : R
  dy_ : R
  ic_ : R
  xcfl_ : R
  ycfl_ : R
  order_ : Int
  gridMethod_ : Int
  synchronous_ : Bool
  topBC : R
  leftBC : R
  bottomBC : R
  rightBC : R

/-- The method `simParams::calcDtCFL`.  For an unsupported order the source only
prints a message and leaves `dt_`, `xcfl_`, `ycfl_` as they were. -/
def simParams.calcDtCFL {R : Type} [Field R] (p : simParams R) : simParams R :=
  if p.order_ = 2 then
    let dt := (0.5 - 0.0001) * (p.dx_ * p.dx_ * p.dy_ * p.dy_) /
      (p.alpha_ * (p.dx_ * p.dx_ + p.dy_ * p.dy_))
    { p with dt_ := dt
             xcfl_ := (p.alpha_ * dt) / (p.dx_ * p.dx_)
             ycfl_ := (p.alpha_ * dt) / (p.dy_ * p.dy_) }
  else if p.order_ = 4 then
    let dt := (0.5 - 0.0001) * (12 * p.dx_ * p.dx_ * p.dy_ * p.dy_) /
      (16 * p.alpha_ * (p.dx_ * p.dx_ + p.dy_ * p.dy_))
    { p with dt_ := dt
             xcfl_ := (p.alpha_ * dt) / (12 * p.dx_ * p.dx_)
             ycfl_ := (p.alpha_ * dt) / (12 * p.dy_ * p.dy_) }
  else if p.order_ = 8 then
    let dt := (0.5 - 0.0001) * (5040 * p.dx_ * p.dx_ * p.dy_ * p.dy_) /
      (8064 * p.alpha_ * (p.dx_ * p.dx_ + p.dy_ * p.dy_))
    { p with dt_ := dt
             xcfl_ := (p.alpha_ * dt) / (5040 * p.dx_ * p.dx_)
             ycfl_ := (p.alpha_ * dt) / (5040 * p.dy_ * p.dy_) }
  else p

/-- The default constructor `simParams::simParams()`.  The three fields written
only by `calcDtCFL` start at `0` here; `order_ = 2`, so `calcDtCFL` assigns all
three. -/
def simParams.ctor {R : Type} [Field R] : simParams R :=
  simParams.calcDtCFL
    { nx_ := 10, ny_ := 10
      lx_ := 1, ly_ := 1
      alpha_ := 1
      dt_ := 0
      iters_ := 1000
      dx_ := 1 / (((10 - 1 : Int) : R))
      dy_ := 1 / (((10 - 1 : Int) : R))
      ic_ := 5
      xcfl_ := 0, ycfl_ := 0
      order_ := 2
      gridMethod_ := 1
      synchronous_ := true
      topBC := 0, leftBC := 10, bottomBC := 0, rightBC := 10 }

/-! ## The decomposition step of `Grid::Grid` -/

/-- The ways in which `Grid::Grid` stops the process, and the one read of an
unassigned member. -/
inductive Fatal where
  /-- The call `exit(1)` after the message "Unsupported grid decomposition method!". -/
  | unsupportedGridMethod
  /-- The failing assertion `assert(n_grid_x*n_grid_y == totalNumProcessors)`. -/
  | notSquare
  /-- The failing assertion `assert(nx_ > 2 * borderSize_)` or
  `assert(ny_ > 2 * borderSize_)`. -/
  | haloTooLarge
  /-- The order is none of 2, 4, 8: `borderSize_` is read without having been
  assigned.  `simParams` asserts that the order is 2, 4 or 8. -/
  | borderSizeUnassigned
  deriving DecidableEq, Repr

/-- The members of `Grid` assigned by the decomposition step. -/
@[ext]
structure Topology where
  nx_ : Int
  ny_ : Int
  procLeft_ : Int
  procRight_ : Int
  procTop_ : Int
  procBot_ : Int
  deriving DecidableEq, Repr

/-- Lines 278-381 of `Grid::Grid`: neighbours and local extents from the
decomposition method, the global extents, the number of processes and the rank.
The process count is at least 1 and the rank lies in `[0, totalNumProcessors)`
for every MPI run. -/
def decomposition (gridMethod nx ny totalNumProcessors ourRank : Int) :
    Except Fatal Topology :=
  let t0 : Topology :=
    { nx_ := 0, ny_ := 0, procLeft_ := -1, procRight_ := -1, procTop_ := -1, procBot_ := -1 }
  if gridMethod = 1 then
    let t : Topology :=
      { t0 with nx_ := nx
                ny_ := cdiv (ny + totalNumProcessors - 1) totalNumProcessors }
    if totalNumProcessors = 1 then
      .ok { t with ny_ := ny }
    else if ourRank = 0 then
      .ok { t with procBot_ := ourRank + 1 }
    else if ourRank = totalNumProcessors - 1 then
      .ok { t with procTop_ := ourRank - 1
                   ny_ := ny - (totalNumProcessors - 1) * t.ny_ }
    else
      .ok { t with procTop_ := ourRank - 1
                   procBot_ := ourRank + 1 }
  else if gridMethod = 2 then
    let n_grid_x := isqrt totalNumProcessors
    let n_grid_y := n_grid_x
    if n_grid_x * n_grid_y ≠ totalNumProcessors then .error Fatal.notSquare
    else
      let t : Topology :=
        { t0 with nx_ := cdiv (nx + n_grid_x - 1) n_grid_x
                  ny_ := cdiv (ny + n_grid_y - 1) n_grid_y }
      if totalNumProcessors = 1 then
        .ok { t with nx_ := nx, ny_ := ny }
      else if cmod ourRank n_grid_x = 0 then
        let t := { t with procRight_ := ourRank + 1 }
        if ourRank = 0 then
          .ok { t with procBot_ := ourRank + n_grid_x }
        else if cdiv ourRank n_grid_x + 1 = n_grid_y then
          .ok { t with ny_ := ny - (n_grid_y - 1) * t.ny_
                       procTop_ := ourRank - n_grid_x }
        else
          .ok { t with procBot_ := ourRank + n_grid_x
                       procTop_ := ourRank - n_grid_x }
      else if ourRank < n_grid_x - 1 then
        .ok { t with procBot_ := ourRank + n_grid_x
                     procRight_ := ourRank + 1
                     procLeft_ := ourRank - 1 }
      else if cmod (ourRank + 1) n_grid_x = 0 then
        let t := { t with procLeft_ := ourRank - 1
                          nx_ := nx - (n_grid_x - 1) * t.nx_ }
        if ourRank = n_grid_x - 1 then
          .ok { t with procBot_ := ourRank + n_grid_x }
        else if cdiv (ourRank + 1) n_grid_x = n_grid_y then
          .ok { t with procTop_ := ourRank - n_grid_x
                       ny_ := ny - (n_grid_y - 1) * t.ny_ }
        else
          .ok { t with procBot_ := ourRank + n_grid_x
                       procTop_ := ourRank - n_grid_x }
      else if ourRank > n_grid_x * (n_grid_y - 1) then
        .ok { t with ny_ := ny - (n_grid_y - 1) * t.ny_
                     procTop_ := ourRank - n_grid_x
                     procRight_ := ourRank + 1
                     procLeft_ := ourRank - 1 }
      else
        .ok { t with procRight_ := ourRank + 1
                     procLeft_ := ourRank - 1
                     procTop_ := ourRank - n_grid_x
                     procBot_ := ourRank + n_grid_x }
  else .error Fatal.unsupportedGridMethod

/-- The mathematical ceiling of the quotient `a / b`, the quantity the
specification calls ceiling division. -/
def ceilDiv (a b : Int) : Int := Int.ceil ((a : ℚ) / (b : ℚ))

/-- Local `nx` of a rank after the decomposition step (`0` when the step is fatal). -/
def localNx (gridMethod nx ny totalNumProcessors ourRank : Int) : Int :=
  match decomposition gridMethod nx ny totalNumProcessors ourRank with
  | .ok t => t.nx_
  | .error _ => 0

/-- Local `ny` of a rank after the decomposition step (`0` when the step is fatal). -/
def localNy (gridMethod nx ny totalNumProcessors ourRank : Int) : Int :=
  match decomposition gridMethod nx ny totalNumProcessors ourRank with
  | .ok t => t.ny_
  | .error _ => 0

/-- The supported combinations of decomposition method and process count:
stripes with at least one process, blocks with a perfect-square process count. -/
def Supported (gridMethod totalNumProcessors : Int) : Prop :=
  (gridMethod = 1 ∧ 1 ≤ totalNumProcessors) ∨
  (gridMethod = 2 ∧ ∃ side : Int, 1 ≤ side ∧ totalNumProcessors = side * side)



/-! ## The class `Grid` -/

/-- A non-blocking send that has been started (`MPI_Isend`): the destination
rank and the values of the send buffer.  The drivers do not write a send buffer
between the start of a send and the wait for it, so the values at the start are
the values sent. -/
structure SendOp (R : Type) where
  dest : Int
  data : List R

/-- The receive buffer of a non-blocking receive: a slice of `grid_` starting at
an offset, or one of the two receive buffers (from their first element). -/
inductive RecvTarget where
  | grid (offset : Int)
  | rightBuffer
  | leftBuffer
  deriving DecidableEq, Repr

/-- A non-blocking receive that has been started (`MPI_Irecv`): the source rank,
the number of elements expected and the receive buffer. -/
structure RecvOp where
  source : Int
  count : Int
  target : RecvTarget
  deriving DecidableEq, Repr

/-- The data members of `Grid`.  An `MPI_Request` is `none` when no operation
is outstanding in it. -/
structure Grid (R : Type) where
  grid_ : List R
  gx_ : Int
  gy_ : Int
  nx_ : Int
  ny_ : Int
  borderSize_ : Int
  procLeft_ : Int
  procRight_ : Int
  procTop_ : Int
  procBot_ : Int
  curr_ : Int
  prev_ : Int
  ourRank_ : Int
  debug_ : Bool
  send_requests_ : List (Option (SendOp R))
  recv_requests_ : List (Option RecvOp)
  recv_right_buffer_ : List R
  recv_left_buffer_ : List R
  send_right_buffer_ : List R
  send_left_buffer_ : List R

/-- The method `swapState`. -/
def Grid.swapState {R : Type} (g : Grid R) : Grid R :=
  { g with prev_ := g.curr_, curr_ := Int.land (g.curr_ + 1) 1 }

/-- The reading `operator()(selector, xpos, ypos)`. -/
def Grid.read {R : Type} [Zero R] (g : Grid R) (selector xpos ypos : Int) : R :=
  vget g.grid_ (selector * g.gx_ * g.gy_ + ypos * g.gx_ + xpos)

/-- An assignment through the reference returned by
`operator()(selector, xpos, ypos)`. -/
def Grid.write {R : Type} (g : Grid R) (selector xpos ypos : Int) (x : R) : Grid R :=
  { g with grid_ := vset g.grid_ (selector * g.gx_ * g.gy_ + ypos * g.gx_ + xpos) x }

/-- Lines 383-388 of `Grid::Grid`: the border size of a discretization order;
`none` when the source assigns nothing to `borderSize_`. -/
def borderSizeOf (order : Int) : Option Int :=
  if order = 2 then some 1
  else if order = 4 then some 2
  else if order = 8 then some 4
  else none

/-- Lines 407-450 of `Grid::Grid`: the four boundary stamps on one generation, in
the order top, bottom, right, left. -/
def setBCs {R : Type} (gx gy borderSize procLeft procRight procTop procBot : Int)
    (topBC leftBC bottomBC rightBC : R) (grid : List R) : List R :=
  let grid :=
    if procTop = -1 then
      forLoop 0 gx (fun i grid =>
        forLoop 0 borderSize (fun j grid => vset grid (i + j * gx) topBC) grid) grid
    else grid
  let grid :=
    if procBot = -1 then
      forLoop 0 gx (fun i grid =>
        forLoop 0 borderSize (fun j grid =>
          vset grid (i + gx * (gy - 1) - j * gx) bottomBC) grid) grid
    else grid
  let grid :=
    if procRight = -1 then
      forLoop 0 gy (fun i grid =>
        forLoop 0 borderSize (fun j grid =>
          vset grid (gx * (i + 1) - 1 - j) rightBC) grid) grid
    else grid
  let grid :=
    if procLeft = -1 then
      forLoop 0 gy (fun i grid =>
        forLoop 0 borderSize (fun j grid => vset grid (gx * i + j) leftBC) grid) grid
    else grid
  grid

/-- The value of `number_of_request` at line 451: 4 minus the number of absent
neighbours. -/
def numberOfRequest (procLeft procRight procTop procBot : Int) : Int :=
  let n := 4
  let n := if procTop = -1 then n - 1 else n
  let n := if procBot = -1 then n - 1 else n
  let n := if procRight = -1 then n - 1 else n
  let n := if procLeft = -1 then n - 1 else n
  n

/-- Lines 392-465 of `Grid::Grid`: extents with halo, storage with initial
condition and boundary stamps, request vectors, edge buffers and the second
generation, from the result of the decomposition step and the border size. -/
def Grid.allocate {R : Type} [Zero R] (params : simParams R) (debug : Bool) (ourRank : Int)
    (t : Topology) (borderSize : Int) : Grid R :=
  let gx := t.nx_ + 2 * borderSize
  let gy := t.ny_ + 2 * borderSize
  let grid : List R := List.replicate (gx * gy).toNat params.ic_
  let grid := setBCs gx gy borderSize t.procLeft_ t.procRight_ t.procTop_ t.procBot_
    params.topBC params.leftBC params.bottomBC params.rightBC grid
  let number_of_request := numberOfRequest t.procLeft_ t.procRight_ t.procTop_ t.procBot_
  { grid_ := grid ++ grid
    gx_ := gx
    gy_ := gy
    nx_ := t.nx_
    ny_ := t.ny_
    borderSize_ := borderSize
    procLeft_ := t.procLeft_
    procRight_ := t.procRight_
    procTop_ := t.procTop_
    procBot_ := t.procBot_
    curr_ := 1
    prev_ := 0
    ourRank_ := ourRank
    debug_ := debug
    send_requests_ := List.replicate number_of_request.toNat none
    recv_requests_ := List.replicate number_of_request.toNat none
    recv_right_buffer_ :=
      if t.procRight_ ≠ -1 then List.replicate (gy * borderSize).toNat 0 else []
    recv_left_buffer_ :=
      if t.procLeft_ ≠ -1 then List.replicate (gy * borderSize).toNat 0 else []
    send_right_buffer_ :=
      if t.procRight_ ≠ -1 then List.replicate (gy * borderSize).toNat 0 else []
    send_left_buffer_ :=
      if t.procLeft_ ≠ -1 then List.replicate (gy * borderSize).toNat 0 else [] }

/-- The constructor `Grid::Grid(params, debug)` in a run with
`totalNumProcessors` processes on the process of rank `ourRank`. -/
def Grid.ctor {R : Type} [Zero R] (params : simParams R) (debug : Bool)
    (totalNumProcessors ourRank : Int) : Except Fatal (Grid R) :=
  match decomposition params.gridMethod_ params.nx_ params.ny_ totalNumProcessors ourRank with
  | .error e => .error e
  | .ok t =>
    match borderSizeOf params.order_ with
    | none => .error Fatal.borderSizeUnassigned
    | some borderSize =>
      if ¬ (t.nx_ > 2 * borderSize) then .error Fatal.haloTooLarge
      else if ¬ (t.ny_ > 2 * borderSize) then .error Fatal.haloTooLarge
      else .ok (Grid.allocate params debug ourRank t borderSize)

/-- The `count` values of a vector starting at `offset`: the buffer
`(&v[offset], count)` handed to `MPI_Isend`. -/
def vslice {R : Type} (v : List R) (offset count : Int) : List R :=
  (v.drop offset.toNat).take count.toNat

/-- Storing received values into a vector from `offset` on. -/
def vwrite {R : Type} (v : List R) (offset : Int) (data : List R) : List R :=
  forLoop 0 (data.length : Int) (fun k v =>
    match data[k.toNat]? with
    | some x => vset v (offset + k) x
    | none => v) v

/-- The method `waitForSends`: every send request is waited for and becomes
inactive. -/
def Grid.waitForSends {R : Type} (g : Grid R) : Grid R :=
  forLoop 0 (g.send_requests_.length : Int) (fun i g =>
    { g with send_requests_ := g.send_requests_.set i.toNat none }) g

/-- Completion of one receive by `MPI_Wait`: the message delivered from the
source rank, at most `count` values, is stored in the receive buffer. -/
def Grid.completeRecv {R : Type} (inbox : Int → List R) (g : Grid R) (op : RecvOp) :
    Grid R :=
  let data := (inbox op.source).take op.count.toNat
  match op.target with
  | .grid offset => { g with grid_ := vwrite g.grid_ offset data }
  | .rightBuffer => { g with recv_right_buffer_ := vwrite g.recv_right_buffer_ 0 data }
  | .leftBuffer => { g with recv_left_buffer_ := vwrite g.recv_left_buffer_ 0 data }

/-- The method `waitForRecvs`; `inbox s` is the message delivered from rank `s`
in this exchange round. -/
def Grid.waitForRecvs {R : Type} [Zero R] (inbox : Int → List R) (g : Grid R) : Grid R :=
  let g := forLoop 0 (g.recv_requests_.length : Int) (fun i g =>
    match g.recv_requests_.getD i.toNat none with
    | some op =>
      { Grid.completeRecv inbox g op with
        recv_requests_ := g.recv_requests_.set i.toNat none }
    | none => g) g
  if g.procRight_ ≠ -1 ∨ g.procLeft_ ≠ -1 then
    forLoop 0 g.gy_ (fun i g =>
      forLoop 0 g.borderSize_ (fun j g =>
        let g :=
          if g.procLeft_ ≠ -1 then
            { g with
              grid_ :=
                vset g.grid_ (g.prev_ * g.gx_ * g.gy_ + g.gx_ * i + j)
                  (vget g.recv_left_buffer_ (i * g.borderSize_ + j)) }
          else g
        let g :=
          if g.procRight_ ≠ -1 then
            { g with
              grid_ :=
                vset g.grid_
                  (g.prev_ * g.gx_ * g.gy_ + g.gx_ * i + j + g.nx_ + g.borderSize_)
                  (vget g.recv_right_buffer_ (i * g.borderSize_ + j)) }
          else g
        g) g) g
  else g

/-- A pair `MPI_Isend` / `MPI_Irecv` with the same peer that fills request slot
`i`. -/
def Grid.startPair {R : Type} (g : Grid R) (i : Int) (peer : Int) (sendData : List R)
    (count : Int) (target : RecvTarget) : Grid R :=
  { g with
    send_requests_ := g.send_requests_.set i.toNat (some { dest := peer, data := sendData })
    recv_requests_ := g.recv_requests_.set i.toNat
      (some { source := peer, count := count, target := target }) }

/-- The method `transferHaloDataASync`. -/
def Grid.transferHaloDataASync {R : Type} [Zero R] (g : Grid R) : Grid R :=
  let i : Int := 0
  let (g, i) :=
    if g.procTop_ ≠ -1 then
      (g.startPair i g.procTop_
        (vslice g.grid_ (g.prev_ * g.gx_ * g.gy_ + g.gx_ * g.borderSize_)
          (g.gx_ * g.borderSize_))
        (g.gx_ * g.borderSize_) (.grid (g.prev_ * g.gx_ * g.gy_)), i + 1)
    else (g, i)
  let (g, i) :=
    if g.procBot_ ≠ -1 then
      (g.startPair i g.procBot_
        (vslice g.grid_ (g.prev_ * g.gx_ * g.gy_ + (g.gy_ - 2 * g.borderSize_) * g.gx_)
          (g.gx_ * g.borderSize_))
        (g.gx_ * g.borderSize_)
        (.grid (g.prev_ * g.gx_ * g.gy_ + (g.gy_ - g.borderSize_) * g.gx_)), i + 1)
    else (g, i)
  let g :=
    if g.procRight_ ≠ -1 ∨ g.procLeft_ ≠ -1 then
      forLoop 0 g.gy_ (fun i g =>
        forLoop 0 g.borderSize_ (fun j g =>
          let g :=
            if g.procLeft_ ≠ -1 then
              { g with
                send_left_buffer_ :=
                  vset g.send_left_buffer_ (i * g.borderSize_ + j)
                    (vget g.grid_ (g.prev_ * g.gx_ * g.gy_ + g.gx_ * i + j + g.borderSize_)) }
            else g
          let g :=
            if g.procRight_ ≠ -1 then
              { g with
                send_right_buffer_ :=
                  vset g.send_right_buffer_ (i * g.borderSize_ + j)
                    (vget g.grid_ (g.prev_ * g.gx_ * g.gy_ + g.gx_ * i + j + g.nx_)) }
            else g
          g) g) g
    else g
  let (g, i) :=
    if g.procRight_ ≠ -1 then
      (g.startPair i g.procRight_ g.send_right_buffer_
        (g.recv_right_buffer_.length : Int) .rightBuffer, i + 1)
    else (g, i)
  let (g, _) :=
    if g.procLeft_ ≠ -1 then
      (g.startPair i g.procLeft_ g.send_left_buffer_
        (g.recv_left_buffer_.length : Int) .leftBuffer, i + 1)
    else (g, i)
  g

/-! ## Stencils -/

/-- The function `stencil2`. -/
def stencil2 {R : Type} [Ring R] (grid : Grid R) (x y : Int) (xcfl ycfl : R) (prev : Int) : R :=
  grid.read prev x y +
    xcfl * (grid.read prev (x + 1) y + grid.read prev (x - 1) y - 2 * grid.read prev x y) +
    ycfl * (grid.read prev x (y + 1) + grid.read prev x (y - 1) - 2 * grid.read prev x y)

/-- The function `stencil4`. -/
def stencil4 {R : Type} [Ring R] (grid : Grid R) (x y : Int) (xcfl ycfl : R) (prev : Int) : R :=
  grid.read prev x y +
    xcfl * (-grid.read prev (x + 2) y + 16 * grid.read prev (x + 1) y -
            30 * grid.read prev x y + 16 * grid.read prev (x - 1) y -
            grid.read prev (x - 2) y) +
    ycfl * (-grid.read prev x (y + 2) + 16 * grid.read prev x (y + 1) -
            30 * grid.read prev x y + 16 * grid.read prev x (y - 1) -
            grid.read prev x (y - 2))

/-- The function `stencil8`. -/
def stencil8 {R : Type} [Ring R] (grid : Grid R) (x y : Int) (xcfl ycfl : R) (prev : Int) : R :=
  grid.read prev x y +
    xcfl * (-9 * grid.read prev (x + 4) y + 128 * grid.read prev (x + 3) y -
            1008 * grid.read prev (x + 2) y + 8064 * grid.read prev (x + 1) y -
            14350 * grid.read prev x y +
            8064 * grid.read prev (x - 1) y - 1008 * grid.read prev (x - 2) y +
            128 * grid.read prev (x - 3) y - 9 * grid.read prev (x - 4) y) +
    ycfl * (-9 * grid.read prev x (y + 4) + 128 * grid.read prev x (y + 3) -
            1008 * grid.read prev x (y + 2) + 8064 * grid.read prev x (y + 1) -
            14350 * grid.read prev x y +
            8064 * grid.read prev x (y - 1) - 1008 * grid.read prev x (y - 2) +
            128 * grid.read prev x (y - 3) - 9 * grid.read prev x (y - 4))

/-! ## The iteration drivers

The three order branches of each driver repeat the same three loop nests with
`stencil2`, `stencil4`, `stencil8`; the loop nests are written once here with
the stencil as a parameter. -/

/-- The type of the three stencil functions. -/
abbrev Stencil (R : Type) := Grid R → Int → Int → R → R → Int → R

/-- The first loop nest of an order branch: the cells `[2b, nx) × [2b, ny)`. -/
def interiorPass {R : Type} (st : Stencil R) (xcfl ycfl : R) (curr prev : Int)
    (grid : Grid R) : Grid R :=
  forLoop (2 * grid.borderSize_) grid.ny_ (fun y grid =>
    forLoop (2 * grid.borderSize_) grid.nx_ (fun x grid =>
      grid.write curr x y (st grid x y xcfl ycfl prev)) grid) grid

/-- The loop nest commented "Top and Bottom". -/
def topBottomPass {R : Type} (st : Stencil R) (xcfl ycfl : R) (curr prev : Int)
    (grid : Grid R) : Grid R :=
  forLoop 0 grid.borderSize_ (fun y grid =>
    let y1 := y + grid.borderSize_
    let y2 := y + grid.ny_
    forLoop grid.borderSize_ (grid.nx_ + grid.borderSize_) (fun x grid =>
      let grid := grid.write curr x y1 (st grid x y1 xcfl ycfl prev)
      let grid := grid.write curr x y2 (st grid x y2 xcfl ycfl prev)
      grid) grid) grid

/-- The loop nest commented "Left and Right". -/
def leftRightPass {R : Type} (st : Stencil R) (xcfl ycfl : R) (curr prev : Int)
    (grid : Grid R) : Grid R :=
  forLoop (2 * grid.borderSize_) grid.ny_ (fun y grid =>
    forLoop 0 grid.borderSize_ (fun x grid =>
      let x1 := x + grid.borderSize_
      let x2 := x + grid.nx_
      let grid := grid.write curr x1 y (st grid x1 y xcfl ycfl prev)
      let grid := grid.write curr x2 y (st grid x2 y xcfl ycfl prev)
      grid) grid) grid

/-- One order branch of `syncComputation`: the three loop nests in sequence. -/
def syncBranch {R : Type} (st : Stencil R) (params : simParams R) (curr prev : Int)
    (grid : Grid R) : Grid R :=
  let grid := interiorPass st params.xcfl_ params.ycfl_ curr prev grid
  let grid := topBottomPass st params.xcfl_ params.ycfl_ curr prev grid
  let grid := leftRightPass st params.xcfl_ params.ycfl_ curr prev grid
  grid

/-- One order branch of `asyncComputation`: the two waits stand between the first
loop nest and the other two. -/
def asyncBranch {R : Type} [Zero R] (st : Stencil R) (params : simParams R)
    (inbox : Int → List R) (curr prev : Int) (grid : Grid R) : Grid R :=
  let grid := interiorPass st params.xcfl_ params.ycfl_ curr prev grid
  let grid := grid.waitForSends
  let grid := grid.waitForRecvs inbox
  let grid := topBottomPass st params.xcfl_ params.ycfl_ curr prev grid
  let grid := leftRightPass st params.xcfl_ params.ycfl_ curr prev grid
  grid

/-- The function `syncComputation`; `env i s` is the message delivered from rank
`s` in the exchange round of iteration `i`. -/
def syncComputation {R : Type} [Ring R] (env : Int → Int → List R) (grid : Grid R)
    (params : simParams R) : Grid R :=
  forLoop 0 params.iters_ (fun i grid =>
    let grid := grid.swapState
    let curr := grid.curr_
    let prev := grid.prev_
    let grid := grid.transferHaloDataASync
    let grid := grid.waitForSends
    let grid := grid.waitForRecvs (env i)
    if params.order_ = 2 then syncBranch stencil2 params curr prev grid
    else if params.order_ = 4 then syncBranch stencil4 params curr prev grid
    else if params.order_ = 8 then syncBranch stencil8 params curr prev grid
    else grid) grid

/-- The function `asyncComputation`; `env` as for `syncComputation`. -/
def asyncComputation {R : Type} [Ring R] (env : Int → Int → List R) (grid : Grid R)
    (params : simParams R) : Grid R :=
  forLoop 0 params.iters_ (fun i grid =>
    let grid := grid.swapState
    let curr := grid.curr_
    let prev := grid.prev_
    let grid := grid.transferHaloDataASync
    if params.order_ = 2 then asyncBranch stencil2 params (env i) curr prev grid
    else if params.order_ = 4 then asyncBranch stencil4 params (env i) curr prev grid
    else if params.order_ = 8 then asyncBranch stencil8 params (env i) curr prev grid
    else grid) grid

/-- A process without neighbours and without request slots: the state of the
communication members in a run with a single process. -/
def Grid.SingleProcess {R : Type} (g : Grid R) : Prop :=
  g.procLeft_ = -1 ∧ g.procRight_ = -1 ∧ g.procTop_ = -1 ∧ g.procBot_ = -1 ∧
  g.send_requests_ = [] ∧ g.recv_requests_ = []

/-- A transformer of a vector that keeps its length, stores `c` at every index
in `S` and leaves the other elements as they are. -/
def WritesConst {R : Type} (T : List R → List R) (S : Int → Prop) (c : R) : Prop :=
  ∀ v : List R, (T v).length = v.length ∧
    ∀ k : Nat, k < v.length →
      ((S (k : Int) → (T v)[k]? = some c) ∧ (¬ S (k : Int) → (T v)[k]? = v[k]?))

/-! ## Counting absent neighbours, snapshots -/

/-- The number of neighbour identifiers of a topology equal to the sentinel `-1`. -/
def missingCount (t : Topology) : Nat :=
  (if t.procLeft_ = -1 then 1 else 0) + (if t.procRight_ = -1 then 1 else 0) +
  (if t.procTop_ = -1 then 1 else 0) + (if t.procBot_ = -1 then 1 else 0)

/-- The number of up and down neighbour identifiers of a topology equal to `-1`. -/
def missingVertical (t : Topology) : Nat :=
  (if t.procTop_ = -1 then 1 else 0) + (if t.procBot_ = -1 then 1 else 0)

/-- The number of absent neighbours of a rank after the decomposition step (`0`
when the step is fatal). -/
def missingNeighbours (gridMethod nx ny totalNumProcessors ourRank : Int) : Nat :=
  match decomposition gridMethod nx ny totalNumProcessors ourRank with
  | .ok t => missingCount t
  | .error _ => 0

/-- The number of absent up and down neighbours of a rank after the
decomposition step (`0` when the step is fatal). -/
def missingVerticalNeighbours (gridMethod nx ny totalNumProcessors ourRank : Int) : Nat :=
  match decomposition gridMethod nx ny totalNumProcessors ourRank with
  | .ok t => missingVertical t
  | .error _ => 0

/-- The values written by `operator<<(os, grid)`, one list per output line, in the
order of emission: the loop `for (int y = grid.gy() - 1; y != -1; --y)` runs over
the rows from `gy - 1` down to `0` and the inner loop over `x` from `0` to
`gx - 1`.  Widths and precision of the formatting are left out.  For a negative
`gy` the source loop does not reach `-1`; constructed grids have `gy > 0`. -/
def snapshot {R : Type} [Zero R] (grid : Grid R) : List (List R) :=
  (List.range grid.gy_.toNat).reverse.map (fun (y : Nat) =>
    forLoop 0 grid.gx_ (fun x line => line ++ [grid.read grid.curr_ x (Int.ofNat y)]) [])

/-- The default parameters with the top boundary value changed to 1 and the
bottom boundary value changed to 2, so that the two edges can be told apart. -/
def paramsTopBottom : simParams ℚ :=
  { (simParams.ctor : simParams ℚ) with topBC := 1, bottomBC := 2 }

/-! ## Cells written by the loop nests, shape of a grid -/

/-- The values taken by the counter of `for (int i = lo; i < hi; ++i)`, in order. -/
def intRange (lo hi : Int) : List Int :=
  (List.range (hi - lo).toNat).map (fun (k : Nat) => lo + Int.ofNat k)

/-- The cells `(x, y)` assigned by the first loop nest of an order branch, in
the order of the assignments. -/
def interiorCells (b nx ny : Int) : List (Int × Int) :=
  (intRange (2 * b) ny).flatMap (fun y => (intRange (2 * b) nx).map (fun x => (x, y)))

/-- The cells assigned by the loop nest "Top and Bottom", in the order of the
assignments: for each `y` and `x` first `(x, y + b)`, then `(x, y + ny)`. -/
def topBottomCells (b nx ny : Int) : List (Int × Int) :=
  (intRange 0 b).flatMap (fun y =>
    (intRange b (nx + b)).flatMap (fun x => [(x, y + b), (x, y + ny)]))

/-- The cells assigned by the loop nest "Left and Right", in the order of the
assignments: for each `y` and `x` first `(x + b, y)`, then `(x + nx, y)`. -/
def leftRightCells (b nx ny : Int) : List (Int × Int) :=
  (intRange (2 * b) ny).flatMap (fun y =>
    (intRange 0 b).flatMap (fun x => [(x + b, y), (x + nx, y)]))

/-- The assignment `grid(curr, x, y) = st(grid, x, y, xcfl, ycfl, prev)` of the
loop nests, for the cell `c = (x, y)`. -/
def stencilWrite {R : Type} (st : Stencil R) (xcfl ycfl : R) (curr prev : Int)
    (grid : Grid R) (c : Int × Int) : Grid R :=
  grid.write curr c.1 c.2 (st grid c.1 c.2 xcfl ycfl prev)

/-- The cells read by a stencil of radius `ρ` at `(x, y)`: the cell itself and
the cells at distance at most `ρ` in the same row or the same column. -/
def InPlus (ρ x y x' y' : Int) : Prop :=
  (y' = y ∧ x - ρ ≤ x' ∧ x' ≤ x + ρ) ∨ (x' = x ∧ y - ρ ≤ y' ∧ y' ≤ y + ρ)

/-- A stencil whose value at `(x, y)` is determined by the values of the
generation `prev` on the cells read by a stencil of radius `ρ`. -/
def StencilLocal {R : Type} [Zero R] (st : Stencil R) (ρ : Int) : Prop :=
  ∀ (g g' : Grid R) (x y : Int) (xcfl ycfl : R) (prev : Int),
    (∀ x' y', InPlus ρ x y x' y' → g.read prev x' y' = g'.read prev x' y') →
    st g x y xcfl ycfl prev = st g' x y xcfl ycfl prev

/-- The shape invariant of a constructed grid: extents with halo, a border of
at least one cell that fits twice into the interior, storage for two
generations, and generation indices 0 and 1 in some order. -/
def Grid.Shaped {R : Type} (g : Grid R) : Prop :=
  1 ≤ g.borderSize_ ∧ g.nx_ > 2 * g.borderSize_ ∧ g.ny_ > 2 * g.borderSize_ ∧
  g.gx_ = g.nx_ + 2 * g.borderSize_ ∧ g.gy_ = g.ny_ + 2 * g.borderSize_ ∧
  (g.grid_.length : Int) = 2 * g.gx_ * g.gy_ ∧
  ((g.curr_ = 0 ∧ g.prev_ = 1) ∨ (g.curr_ = 1 ∧ g.prev_ = 0))

/-- Two grids that differ at most in the contents of `grid_`. -/
def Grid.SameFrame {R : Type} (g g' : Grid R) : Prop :=
  g' = { g with grid_ := g'.grid_ } ∧ g'.grid_.length = g.grid_.length

/-- The stencil function called by the branch of an order, with its radius. -/
def stencilOfOrder {R : Type} [Ring R] (order : Int) : Option (Stencil R × Int) :=
  if order = 2 then some (stencil2, 1)
  else if order = 4 then some (stencil4, 2)
  else if order = 8 then some (stencil8, 4)
  else none

/-- The grid constructed from the default parameters on a single process. -/
def defaultGrid : Grid ℚ :=
  Grid.allocate (simParams.ctor : simParams ℚ) false 0
    { nx_ := 10, ny_ := 10, procLeft_ := -1, procRight_ := -1, procTop_ := -1,
      procBot_ := -1 } 1

/-! ## The pieces of `transferHaloDataASync` and `waitForRecvs` -/

/-- Lines 505-510 of `transferHaloDataASync`: the send/receive pair with the up
neighbour; the second component is the request counter `i`. -/
def Grid.topStage {R : Type} (p : Grid R × Int) : Grid R × Int :=
  if p.1.procTop_ ≠ -1 then
    (p.1.startPair p.2 p.1.procTop_
      (vslice p.1.grid_ (p.1.prev_ * p.1.gx_ * p.1.gy_ + p.1.gx_ * p.1.borderSize_)
        (p.1.gx_ * p.1.borderSize_))
      (p.1.gx_ * p.1.borderSize_) (.grid (p.1.prev_ * p.1.gx_ * p.1.gy_)), p.2 + 1)
  else (p.1, p.2)

/-- Lines 511-516 of `transferHaloDataASync`: the pair with the down neighbour. -/
def Grid.botStage {R : Type} (p : Grid R × Int) : Grid R × Int :=
  if p.1.procBot_ ≠ -1 then
    (p.1.startPair p.2 p.1.procBot_
      (vslice p.1.grid_
        (p.1.prev_ * p.1.gx_ * p.1.gy_ + (p.1.gy_ - 2 * p.1.borderSize_) * p.1.gx_)
        (p.1.gx_ * p.1.borderSize_))
      (p.1.gx_ * p.1.borderSize_)
      (.grid (p.1.prev_ * p.1.gx_ * p.1.gy_ + (p.1.gy_ - p.1.borderSize_) * p.1.gx_)),
      p.2 + 1)
  else (p.1, p.2)

/-- Lines 517-534 of `transferHaloDataASync`: the send buffers are filled from
the columns next to the left and right halo. -/
def Grid.packBuffers {R : Type} [Zero R] (g : Grid R) : Grid R :=
  if g.procRight_ ≠ -1 ∨ g.procLeft_ ≠ -1 then
    forLoop 0 g.gy_ (fun i g =>
      forLoop 0 g.borderSize_ (fun j g =>
        let g :=
          if g.procLeft_ ≠ -1 then
            { g with
              send_left_buffer_ :=
                vset g.send_left_buffer_ (i * g.borderSize_ + j)
                  (vget g.grid_ (g.prev_ * g.gx_ * g.gy_ + g.gx_ * i + j + g.borderSize_)) }
          else g
        let g :=
          if g.procRight_ ≠ -1 then
            { g with
              send_right_buffer_ :=
                vset g.send_right_buffer_ (i * g.borderSize_ + j)
                  (vget g.grid_ (g.prev_ * g.gx_ * g.gy_ + g.gx_ * i + j + g.nx_)) }
          else g
        g) g) g
  else g

/-- Lines 535-540 of `transferHaloDataASync`: the pair with the right neighbour. -/
def Grid.rightStage {R : Type} (p : Grid R × Int) : Grid R × Int :=
  if p.1.procRight_ ≠ -1 then
    (p.1.startPair p.2 p.1.procRight_ p.1.send_right_buffer_
      (p.1.recv_right_buffer_.length : Int) .rightBuffer, p.2 + 1)
  else (p.1, p.2)

/-- Lines 541-546 of `transferHaloDataASync`: the pair with the left neighbour. -/
def Grid.leftStage {R : Type} (p : Grid R × Int) : Grid R × Int :=
  if p.1.procLeft_ ≠ -1 then
    (p.1.startPair p.2 p.1.procLeft_ p.1.send_left_buffer_
      (p.1.recv_left_buffer_.length : Int) .leftBuffer, p.2 + 1)
  else (p.1, p.2)

/-- Lines 477-481 of `waitForRecvs`: every receive request is waited for. -/
def Grid.completeAll {R : Type} (inbox : Int → List R) (g : Grid R) : Grid R :=
  forLoop 0 (g.recv_requests_.length : Int) (fun i g =>
    match g.recv_requests_.getD i.toNat none with
    | some op =>
      { Grid.completeRecv inbox g op with
        recv_requests_ := g.recv_requests_.set i.toNat none }
    | none => g) g

/-- Lines 482-499 of `waitForRecvs`: the receive buffers are copied into the
left and right halo columns of the previous generation. -/
def Grid.unpackBuffers {R : Type} [Zero R] (g : Grid R) : Grid R :=
  if g.procRight_ ≠ -1 ∨ g.procLeft_ ≠ -1 then
    forLoop 0 g.gy_ (fun i g =>
      forLoop 0 g.borderSize_ (fun j g =>
        let g :=
          if g.procLeft_ ≠ -1 then
            { g with
              grid_ :=
                vset g.grid_ (g.prev_ * g.gx_ * g.gy_ + g.gx_ * i + j)
                  (vget g.recv_left_buffer_ (i * g.borderSize_ + j)) }
          else g
        let g :=
          if g.procRight_ ≠ -1 then
            { g with
              grid_ :=
                vset g.grid_
                  (g.prev_ * g.gx_ * g.gy_ + g.gx_ * i + j + g.nx_ + g.borderSize_)
                  (vget g.recv_right_buffer_ (i * g.borderSize_ + j)) }
          else g
        g) g) g
  else g

/-- The sends started by `transferHaloDataASync`, in the order of the request
slots, for a grid whose send buffers are already filled. -/
def Grid.sendOps {R : Type} (g : Grid R) : List (SendOp R) :=
  (if g.procTop_ ≠ -1 then
    [{ dest := g.procTop_
       data := vslice g.grid_ (g.prev_ * g.gx_ * g.gy_ + g.gx_ * g.borderSize_)
         (g.gx_ * g.borderSize_) }] else []) ++
  (if g.procBot_ ≠ -1 then
    [{ dest := g.procBot_
       data := vslice g.grid_
         (g.prev_ * g.gx_ * g.gy_ + (g.gy_ - 2 * g.borderSize_) * g.gx_)
         (g.gx_ * g.borderSize_) }] else []) ++
  (if g.procRight_ ≠ -1 then
    [{ dest := g.procRight_, data := g.send_right_buffer_ }] else []) ++
  (if g.procLeft_ ≠ -1 then
    [{ dest := g.procLeft_, data := g.send_left_buffer_ }] else [])

/-- The receives started by `transferHaloDataASync`, in the order of the request
slots. -/
def Grid.recvOps {R : Type} (g : Grid R) : List RecvOp :=
  (if g.procTop_ ≠ -1 then
    [{ source := g.procTop_, count := g.gx_ * g.borderSize_
       target := .grid (g.prev_ * g.gx_ * g.gy_) }] else []) ++
  (if g.procBot_ ≠ -1 then
    [{ source := g.procBot_, count := g.gx_ * g.borderSize_
       target := .grid (g.prev_ * g.gx_ * g.gy_ + (g.gy_ - g.borderSize_) * g.gx_) }]
   else []) ++
  (if g.procRight_ ≠ -1 then
    [{ source := g.procRight_, count := (g.recv_right_buffer_.length : Int)
       target := .rightBuffer }] else []) ++
  (if g.procLeft_ ≠ -1 then
    [{ source := g.procLeft_, count := (g.recv_left_buffer_.length : Int)
       target := .leftBuffer }] else [])

/-- The message a grid has handed to MPI for the rank `dest`: the values of the
first started send with that destination (empty if there is none).  Read after
`transferHaloDataASync` and before `waitForSends`. -/
def Grid.outbox {R : Type} (g : Grid R) (dest : Int) : List R :=
  match (g.send_requests_.filterMap id).find? (fun op => decide (op.dest = dest)) with
  | some op => op.data
  | none => []

/-- The exchange round of one iteration of `syncComputation` (lines 594-596):
start the transfers, wait for the sends, wait for the receives. -/
def Grid.exchange {R : Type} [Zero R] (inbox : Int → List R) (g : Grid R) : Grid R :=
  (g.transferHaloDataASync.waitForSends).waitForRecvs inbox

/-- The sizes of the request vectors and edge buffers of a constructed grid:
one request slot per neighbour, and `gy * border` elements in the four buffers
of each horizontal neighbour. -/
def Grid.CommReady {R : Type} (g : Grid R) : Prop :=
  g.send_requests_.length =
    (numberOfRequest g.procLeft_ g.procRight_ g.procTop_ g.procBot_).toNat ∧
  g.recv_requests_.length =
    (numberOfRequest g.procLeft_ g.procRight_ g.procTop_ g.procBot_).toNat ∧
  (g.procRight_ ≠ -1 →
    (g.send_right_buffer_.length : Int) = g.gy_ * g.borderSize_ ∧
    (g.recv_right_buffer_.length : Int) = g.gy_ * g.borderSize_) ∧
  (g.procLeft_ ≠ -1 →
    (g.send_left_buffer_.length : Int) = g.gy_ * g.borderSize_ ∧
    (g.recv_left_buffer_.length : Int) = g.gy_ * g.borderSize_)

/-- The pairs `(i, j)` visited by the loop nest `for i in [0, n)`, `for j in
[0, m)`, in order. -/
def cellsIJ (n m : Int) : List (Int × Int) :=
  (intRange 0 n).flatMap (fun i => (intRange 0 m).map (fun j => (i, j)))

/-- The body of the loop nest of `packBuffers` for `i = c.1`, `j = c.2`. -/
def Grid.packCell {R : Type} [Zero R] (g : Grid R) (c : Int × Int) : Grid R :=
  let g :=
    if g.procLeft_ ≠ -1 then
      { g with
        send_left_buffer_ :=
          vset g.send_left_buffer_ (c.1 * g.borderSize_ + c.2)
            (vget g.grid_ (g.prev_ * g.gx_ * g.gy_ + g.gx_ * c.1 + c.2 + g.borderSize_)) }
    else g
  let g :=
    if g.procRight_ ≠ -1 then
      { g with
        send_right_buffer_ :=
          vset g.send_right_buffer_ (c.1 * g.borderSize_ + c.2)
            (vget g.grid_ (g.prev_ * g.gx_ * g.gy_ + g.gx_ * c.1 + c.2 + g.nx_)) }
    else g
  g

/-- The body of the loop nest of `unpackBuffers` for `i = c.1`, `j = c.2`. -/
def Grid.unpackCell {R : Type} [Zero R] (g : Grid R) (c : Int × Int) : Grid R :=
  let g :=
    if g.procLeft_ ≠ -1 then
      { g with
        grid_ :=
          vset g.grid_ (g.prev_ * g.gx_ * g.gy_ + g.gx_ * c.1 + c.2)
            (vget g.recv_left_buffer_ (c.1 * g.borderSize_ + c.2)) }
    else g
  let g :=
    if g.procRight_ ≠ -1 then
      { g with
        grid_ :=
          vset g.grid_
            (g.prev_ * g.gx_ * g.gy_ + g.gx_ * c.1 + c.2 + g.nx_ + g.borderSize_)
            (vget g.recv_right_buffer_ (c.1 * g.borderSize_ + c.2)) }
    else g
  g

/-- Two grids that differ at most in the two send buffers. -/
def Grid.PackFrame {R : Type} (g g' : Grid R) : Prop :=
  g' = { g with send_left_buffer_ := g'.send_left_buffer_
                send_right_buffer_ := g'.send_right_buffer_ }

/-- The assignments to `grid_` made by the body of the unpack loop nest of
`waitForRecvs` for `i = c.1`, `j = c.2`, as pairs of an index and a value, in
the order of the source. -/
def Grid.unpackWrites {R : Type} [Zero R] (g : Grid R) (c : Int × Int) : List (Int × R) :=
  (if g.procLeft_ ≠ -1 then
    [(g.prev_ * g.gx_ * g.gy_ + g.gx_ * c.1 + c.2,
      vget g.recv_left_buffer_ (c.1 * g.borderSize_ + c.2))] else []) ++
  (if g.procRight_ ≠ -1 then
    [(g.prev_ * g.gx_ * g.gy_ + g.gx_ * c.1 + c.2 + g.nx_ + g.borderSize_,
      vget g.recv_right_buffer_ (c.1 * g.borderSize_ + c.2))] else [])

/-- The receive areas of a grid once every receive started by
`transferHaloDataASync` has completed (lines 477-481 of `waitForRecvs`): the
top and bottom halo rows of the previous generation and the two receive
buffers hold the delivered messages, cut to the posted count. -/
def Grid.landed {R : Type} (inbox : Int → List R) (g : Grid R) : Grid R :=
  let v1 :=
    if g.procTop_ ≠ -1 then
      vwrite g.grid_ (g.prev_ * g.gx_ * g.gy_)
        ((inbox g.procTop_).take (g.gx_ * g.borderSize_).toNat)
    else g.grid_
  let v2 :=
    if g.procBot_ ≠ -1 then
      vwrite v1 (g.prev_ * g.gx_ * g.gy_ + (g.gy_ - g.borderSize_) * g.gx_)
        ((inbox g.procBot_).take (g.gx_ * g.borderSize_).toNat)
    else v1
  let rr :=
    if g.procRight_ ≠ -1 then
      vwrite g.recv_right_buffer_ 0
        ((inbox g.procRight_).take ((g.recv_right_buffer_.length : Int)).toNat)
    else g.recv_right_buffer_
  let rl :=
    if g.procLeft_ ≠ -1 then
      vwrite g.recv_left_buffer_ 0
        ((inbox g.procLeft_).take ((g.recv_left_buffer_.length : Int)).toNat)
    else g.recv_left_buffer_
  { g with grid_ := v2, recv_right_buffer_ := rr, recv_left_buffer_ := rl }

/-- The default parameters with the block decomposition selected. -/
def paramsBlock : simParams ℚ :=
  { (simParams.ctor : simParams ℚ) with gridMethod_ := 2 }

/-- The grid of rank 0 of 4 under `paramsBlock`: the upper left block. -/
def blockRank0 : Grid ℚ :=
  Grid.allocate paramsBlock false 0
    { nx_ := 5, ny_ := 5, procLeft_ := -1, procRight_ := 1, procTop_ := -1, procBot_ := 2 } 1

/-- The grid of rank 1 of 4 under `paramsBlock`: the upper right block. -/
def blockRank1 : Grid ℚ :=
  Grid.allocate paramsBlock false 1
    { nx_ := 5, ny_ := 5, procLeft_ := 0, procRight_ := -1, procTop_ := -1, procBot_ := 3 } 1

/-- The grid of rank 3 of 4 under `paramsBlock`: the lower right block. -/
def blockRank3 : Grid ℚ :=
  Grid.allocate paramsBlock false 3
    { nx_ := 5, ny_ := 5, procLeft_ := 2, procRight_ := -1, procTop_ := 1, procBot_ := -1 } 1

/-- The grid of rank 2 of 4 under `paramsBlock`: the lower left block. -/
def blockRank2 : Grid ℚ :=
  Grid.allocate paramsBlock false 2
    { nx_ := 5, ny_ := 5, procLeft_ := -1, procRight_ := 3, procTop_ := 0, procBot_ := -1 } 1

/-- The body of the loop of `syncComputation` (lines 590-692) for one iteration;
`inbox s` is the message delivered from rank `s` in its exchange round. -/
def syncIteration {R : Type} [Ring R] (inbox : Int → List R) (params : simParams R)
    (grid : Grid R) : Grid R :=
  let grid := grid.swapState
  let curr := grid.curr_
  let prev := grid.prev_
  let grid := grid.transferHaloDataASync
  let grid := grid.waitForSends
  let grid := grid.waitForRecvs inbox
  if params.order_ = 2 then syncBranch stencil2 params curr prev grid
  else if params.order_ = 4 then syncBranch stencil4 params curr prev grid
  else if params.order_ = 8 then syncBranch stencil8 params curr prev grid
  else grid

/-- The body of the loop of `asyncComputation` (lines 703-813) for one
iteration. -/
def asyncIteration {R : Type} [Ring R] (inbox : Int → List R) (params : simParams R)
    (grid : Grid R) : Grid R :=
  let grid := grid.swapState
  let curr := grid.curr_
  let prev := grid.prev_
  let grid := grid.transferHaloDataASync
  if params.order_ = 2 then asyncBranch stencil2 params inbox curr prev grid
  else if params.order_ = 4 then asyncBranch stencil4 params inbox curr prev grid
  else if params.order_ = 8 then asyncBranch stencil8 params inbox curr prev grid
  else grid

/-- Two grids with the same extents, border, generation indices, neighbours and
rank. -/
def Grid.CommFrame {R : Type} (g s : Grid R) : Prop :=
  s.gx_ = g.gx_ ∧ s.gy_ = g.gy_ ∧ s.nx_ = g.nx_ ∧ s.ny_ = g.ny_ ∧
  s.borderSize_ = g.borderSize_ ∧ s.curr_ = g.curr_ ∧ s.prev_ = g.prev_ ∧
  s.procLeft_ = g.procLeft_ ∧ s.procRight_ = g.procRight_ ∧
  s.procTop_ = g.procTop_ ∧ s.procBot_ = g.procBot_ ∧ s.ourRank_ = g.ourRank_

/-! ## Four processes in lock step -/

/-- The message addressed to rank `r` that rank `s` hands to MPI in the exchange
round of an iteration started from the states `gs`: rank `s` has swapped its
generations and called `transferHaloDataASync`. -/
def lockstepInbox {R : Type} [Zero R] (gs : Int → Grid R) (r s : Int) : List R :=
  ((gs s).swapState.transferHaloDataASync).outbox r

/-- One iteration of `syncComputation` on every rank, each halo message being
delivered unchanged to the rank it is addressed to. -/
def lockstepIteration {R : Type} [Ring R] (params : simParams R) (gs : Int → Grid R) :
    Int → Grid R :=
  fun r => syncIteration (lockstepInbox gs r) params (gs r)

/-- The states of the ranks after `n` iterations in lock step. -/
def lockstep {R : Type} [Ring R] (params : simParams R) :
    Nat → (Int → Grid R) → (Int → Grid R)
  | 0, gs => gs
  | n + 1, gs => lockstepIteration params (lockstep params n gs)

/-- The messages delivered to rank `r` in iteration `i` of the lock-step run
from the states `gs`: the argument `env` of `syncComputation` on that rank. -/
def lockstepEnv {R : Type} [Ring R] (params : simParams R) (gs : Int → Grid R) (r : Int)
    (i s : Int) : List R :=
  lockstepInbox (lockstep params i.toNat gs) r s

/-- The first global row of the band of rank `r` when the non-halo regions of
the ranks are stacked in rank order: the sum of the heights of the bands of the
ranks below `r`. -/
def stackOffset {R : Type} (gs : Int → Grid R) (r : Int) : Int :=
  ((List.range r.toNat).map (fun s : Nat => (gs (Int.ofNat s)).ny_)).sum

/-- The rows of a local grid whose cells are kept equal to those of the global
grid by the run: the non-halo rows and the halo rows on a domain edge. -/
def Grid.OwnedRow {R : Type} (g : Grid R) (y : Int) : Prop :=
  (g.borderSize_ ≤ y ∧ y < g.ny_ + g.borderSize_) ∨
  (g.procTop_ = -1 ∧ y < g.borderSize_) ∨
  (g.procBot_ = -1 ∧ g.ny_ + g.borderSize_ ≤ y)

/-- The relation between the grid `g` of rank `r` of 4 stripes and the grid `G`
of the single-process run at the same iteration: same width, border and
generation indices, no left or right neighbour, up and down neighbours
`r - 1` and `r + 1` where they exist, band height `h` (the rest on rank 3), and
on the owned rows both generations hold the cells of `G` shifted by `r * h`
rows. -/
def StripeAgree {R : Type} [Zero R] (G g : Grid R) (r h : Int) : Prop :=
  g.Shaped ∧ g.CommReady ∧
  g.nx_ = G.nx_ ∧ g.borderSize_ = G.borderSize_ ∧ g.curr_ = G.curr_ ∧ g.prev_ = G.prev_ ∧
  g.procLeft_ = -1 ∧ g.procRight_ = -1 ∧
  g.procTop_ = (if r = 0 then -1 else r - 1) ∧ g.procBot_ = (if r = 3 then -1 else r + 1) ∧
  g.ny_ = (if r = 3 then G.ny_ - 3 * h else h) ∧
  (∀ sel x y, (sel = 0 ∨ sel = 1) → 0 ≤ x → x < g.gx_ → 0 ≤ y → y < g.gy_ →
    g.OwnedRow y → g.read sel x y = G.read sel x (y + r * h))

/-- The invariant of the lock-step run of 4 stripes against the single-process
run. -/
def StripeInv {R : Type} [Zero R] (G : Grid R) (gs : Int → Grid R) (h : Int) : Prop :=
  G.Shaped ∧ G.SingleProcess ∧ ∀ r, 0 ≤ r → r < 4 → StripeAgree G (gs r) r h

/-- The default parameters with 12 rows: under the stripe decomposition on 4
processes each band has 3 rows, more than twice the border of order 2. -/
def paramsStripe : simParams ℚ :=
  { (simParams.ctor : simParams ℚ) with ny_ := 12 }

/-- The grid of rank `r` of 4 under `paramsStripe`. -/
def stripeGrid (r : Int) : Grid ℚ :=
  Grid.allocate paramsStripe false r
    { nx_ := 10, ny_ := 3, procLeft_ := -1, procRight_ := -1,
      procTop_ := if r = 0 then -1 else r - 1,
      procBot_ := if r = 3 then -1 else r + 1 } 1

/-- The grid of the single process under `paramsStripe`. -/
def stripeGlobal : Grid ℚ :=
  Grid.allocate paramsStripe false 0
    { nx_ := 10, ny_ := 12, procLeft_ := -1, procRight_ := -1, procTop_ := -1,
      procBot_ := -1 } 1
/-! ## Invariants of the single-process run -/

/-- The state kept by the iterations on a single process: shape, absence of
neighbours, the extents of the start grid and its halo cells. -/
def HaloKept {R : Type} [Zero R] (G g : Grid R) : Prop :=
  g.Shaped ∧ g.SingleProcess ∧
  g.gx_ = G.gx_ ∧ g.gy_ = G.gy_ ∧ g.nx_ = G.nx_ ∧ g.ny_ = G.ny_ ∧
  g.borderSize_ = G.borderSize_ ∧
  ∀ sel x y, sel = 0 ∨ sel = 1 → 0 ≤ x → x < G.gx_ → 0 ≤ y → y < G.gy_ →
    (x < G.borderSize_ ∨ x ≥ G.nx_ + G.borderSize_ ∨
      y < G.borderSize_ ∨ y ≥ G.ny_ + G.borderSize_) →
    g.read sel x y = G.read sel x y

/-! ## The request slots used by `transferHaloDataASync` -/

/-- The values of the request counter `i` of `transferHaloDataASync` at its
calls of `MPI_Isend(..., &send_requests_[i])` and
`MPI_Irecv(..., &recv_requests_[i])`, in call order, each with the peer of the
pair: the counter on entry of each of the four stages whose neighbour test
succeeds. -/
def Grid.transferSlots {R : Type} [Zero R] (g : Grid R) : List (Int × Int) :=
  let p0 : Grid R × Int := (g, 0)
  let p1 := Grid.topStage p0
  let p2 := Grid.botStage p1
  let p3 : Grid R × Int := (p2.1.packBuffers, p2.2)
  let p4 := Grid.rightStage p3
  (if p0.1.procTop_ ≠ -1 then [(p0.2, p0.1.procTop_)] else []) ++
  (if p1.1.procBot_ ≠ -1 then [(p1.2, p1.1.procBot_)] else []) ++
  (if p3.1.procRight_ ≠ -1 then [(p3.2, p3.1.procRight_)] else []) ++
  (if p4.1.procLeft_ ≠ -1 then [(p4.2, p4.1.procLeft_)] else [])

/-- The neighbour identifiers of a grid different from `-1`, in the order top,
bottom, right, left. -/
def Grid.peers {R : Type} (g : Grid R) : List Int :=
  [g.procTop_, g.procBot_, g.procRight_, g.procLeft_].filter (fun p => decide (p ≠ -1))

/-- Two grids with the same neighbours, row count, border and sizes of the
request vectors and edge buffers. -/
def Grid.SameSizes {R : Type} (g s : Grid R) : Prop :=
  s.procLeft_ = g.procLeft_ ∧ s.procRight_ = g.procRight_ ∧
  s.procTop_ = g.procTop_ ∧ s.procBot_ = g.procBot_ ∧
  s.gy_ = g.gy_ ∧ s.borderSize_ = g.borderSize_ ∧
  s.send_requests_.length = g.send_requests_.length ∧
  s.recv_requests_.length = g.recv_requests_.length ∧
  s.send_right_buffer_.length = g.send_right_buffer_.length ∧
  s.recv_right_buffer_.length = g.recv_right_buffer_.length ∧
  s.send_left_buffer_.length = g.send_left_buffer_.length ∧
  s.recv_left_buffer_.length = g.recv_left_buffer_.length

/-- Two grids with the same scalar members and the same storage size. -/
def Grid.SameShape {R : Type} (g s : Grid R) : Prop :=
  g.CommFrame s ∧ s.grid_.length = g.grid_.length

/-! ## The range of `int` -/

/-- The largest value of the 32-bit type `int`. -/
def INT_MAX : Int := 2147483647

/-- The smallest value of the 32-bit type `int`. -/
def INT_MIN : Int := -2147483648

/-- A value that an `int` can hold: an `int` expression whose exact value
satisfies this has that value in the program. -/
def InInt (z : Int) : Prop := INT_MIN ≤ z ∧ z ≤ INT_MAX

/-- The value of an `int` expression with exact value `z` under two's
complement wrap-around. -/
def wrap32 (z : Int) : Int := (z + 2147483648) % 4294967296 - 2147483648


/-! ## Messages stored before the wait

`MPI_Irecv` only starts a receive: MPI may store the message in the receive
buffer at any time between that call and the return of `MPI_Wait`.
`Grid.transferHaloDataASync` describes the runs in which nothing is stored
before the method returns.  The buffers of the two vertical receives are rows
of `grid_`, and the pack loop of lines 517-534, which runs after these receives
have been started, reads cells of those rows; the definitions of this section
describe every run.  The buffers of the two horizontal receives are read by the
unpack loop only, after the wait, so the time at which they are filled makes no
difference. -/

/-- Storing the elements of a received message for which `early` holds of the
index they are stored at. -/
def vwriteWhere {R : Type} (early : Int → Bool) (v : List R) (offset : Int) (data : List R) :
    List R :=
  forLoop 0 (data.length : Int) (fun k v =>
    match data[k.toNat]? with
    | some x => if early (offset + k) then vset v (offset + k) x else v
    | none => v) v

/-- The state of `grid_` when the pack loop reads it: of the messages of the up
and the down neighbour, received by lines 508 and 514 into rows `[0, b)` and
`[gy - b, gy)` of the previous generation, MPI has stored the elements whose
index in `grid_` satisfies `early`. -/
def Grid.arriveEarly {R : Type} (early : Int → Bool) (inbox : Int → List R) (g : Grid R) :
    Grid R :=
  let v1 :=
    if g.procTop_ ≠ -1 then
      vwriteWhere early g.grid_ (g.prev_ * g.gx_ * g.gy_)
        ((inbox g.procTop_).take (g.gx_ * g.borderSize_).toNat)
    else g.grid_
  let v2 :=
    if g.procBot_ ≠ -1 then
      vwriteWhere early v1 (g.prev_ * g.gx_ * g.gy_ + (g.gy_ - g.borderSize_) * g.gx_)
        ((inbox g.procBot_).take (g.gx_ * g.borderSize_).toNat)
    else v1
  { g with grid_ := v2 }

/-- The method `transferHaloDataASync` in a run in which the elements selected
by `early` are stored between the start of the vertical receives and the pack
loop; `inbox s` is the message delivered from rank `s` in this exchange round. -/
def Grid.transferHaloDataASyncEarly {R : Type} [Zero R] (early : Int → Bool)
    (inbox : Int → List R) (g : Grid R) : Grid R :=
  let p := Grid.botStage (Grid.topStage (g, 0))
  (Grid.leftStage (Grid.rightStage ((p.1.arriveEarly early inbox).packBuffers, p.2))).1

/-- The exchange round of one iteration of `syncComputation` (lines 594-596) in
such a run: the elements not yet stored are stored by the wait loop of
`waitForRecvs`. -/
def Grid.exchangeEarly {R : Type} [Zero R] (early : Int → Bool) (inbox : Int → List R)
    (g : Grid R) : Grid R :=
  ((g.transferHaloDataASyncEarly early inbox).waitForSends).waitForRecvs inbox

/-! ## Parameters read from a file -/

/-- The constructor `simParams::simParams(const char*, bool)` on a file that
holds the fourteen values in the order in which they are read; `none` when the
assertion on the order fails.  The three fields written only by `calcDtCFL`
start at `0` here. -/
def simParams.ofFile {R : Type} [Field R] (nx ny : Int) (lx ly alpha : R) (iters order : Int)
    (ic : R) (gridMethod : Int) (synchronous : Bool) (bc0 bc1 bc2 bc3 : R) :
    Option (simParams R) :=
  if order = 2 ∨ order = 4 ∨ order = 8 then
    some (simParams.calcDtCFL
      { nx_ := nx, ny_ := ny
        lx_ := lx, ly_ := ly
        alpha_ := alpha
        dt_ := 0
        iters_ := iters
        dx_ := lx / (((nx - 1 : Int) : R))
        dy_ := ly / (((ny - 1 : Int) : R))
        ic_ := ic
        xcfl_ := 0, ycfl_ := 0
        order_ := order
        gridMethod_ := gridMethod
        synchronous_ := synchronous
        topBC := bc0, leftBC := bc1, bottomBC := bc2, rightBC := bc3 })
  else none

/-! ## A run of four processes on a 6 x 6 grid -/

/-- The parameters read from a file with the lines `6 6`, `1 1`, `1`, `1000`,
`2`, `0`, `2`, `1`, `0 1 0 0`: a 6 x 6 grid, order 2, initial value 0, block
decomposition, boundary value 1 on the left edge and 0 on the others. -/
def raceParams : simParams ℚ :=
  simParams.calcDtCFL
    { nx_ := 6, ny_ := 6
      lx_ := 1, ly_ := 1
      alpha_ := 1
      dt_ := 0
      iters_ := 1000
      dx_ := 1 / (((6 - 1 : Int) : ℚ))
      dy_ := 1 / (((6 - 1 : Int) : ℚ))
      ic_ := 0
      xcfl_ := 0, ycfl_ := 0
      order_ := 2
      gridMethod_ := 2
      synchronous_ := true
      topBC := 0, leftBC := 1, bottomBC := 0, rightBC := 0 }

/-- The grids constructed by the four processes of a run with `raceParams`:
rank 0 is the upper left block, rank 1 the upper right, rank 2 the lower left
and rank 3 the lower right one. -/
def raceRanks (r : Int) : Grid ℚ :=
  Grid.allocate raceParams false r
    { nx_ := 3, ny_ := 3
      procLeft_ := if r = 1 then 0 else if r = 3 then 2 else -1
      procRight_ := if r = 0 then 1 else if r = 2 then 3 else -1
      procTop_ := if r = 2 then 0 else if r = 3 then 1 else -1
      procBot_ := if r = 0 then 2 else if r = 1 then 3 else -1 } 1

/-- The states of the four processes at the start of the exchange round of the
fourth iteration of `syncComputation`: three iterations in lock step, then
`swapState`. -/
def raceStates (r : Int) : Grid ℚ := (lockstep raceParams 3 raceRanks r).swapState

/-- The messages delivered to rank 2 in that round: the rows sent by rank 0,
its up neighbour, and the buffer sent by rank 3. -/
def raceInbox2 (s : Int) : List ℚ := lockstepInbox (lockstep raceParams 3 raceRanks) 2 s

/-- The messages delivered to rank 3 in that round when the message of rank 0
has been stored in the top halo row of rank 2 before rank 2 packs its send
buffer: from rank 2 the buffer packed by rank 2, from rank 1 the rows sent by
rank 1. -/
def raceInbox3 (s : Int) : List ℚ :=
  if s = 2 then
    ((raceStates 2).transferHaloDataASyncEarly (fun _ => true) raceInbox2).send_right_buffer_
  else lockstepInbox (lockstep raceParams 3 raceRanks) 3 s

/-- Messages delivered to rank 0 of the 2 x 2 run under `paramsBlock` in one
exchange round: from rank 1 the left send buffer packed by rank 1, from rank 2
a row of seven values 3. -/
def blockInbox0 (s : Int) : List ℚ :=
  if s = 1 then
    (blockRank1.transferHaloDataASyncEarly (fun _ => true)
      (fun _ => List.replicate 7 4)).send_left_buffer_
  else List.replicate 7 3

/-- Messages delivered to rank 1 in that round: from rank 0 the right send
buffer packed by rank 0, from rank 3 a row of seven values 4. -/
def blockInbox1 (s : Int) : List ℚ :=
  if s = 0 then
    (blockRank0.transferHaloDataASyncEarly (fun _ => true)
      (fun _ => List.replicate 7 3)).send_right_buffer_
  else List.replicate 7 4

/-! ## Checked accesses

`operator()` and the pack and unpack loops index `grid_` and the edge buffers
without a bounds check and compute the index in `int`.  In this section every
such access is checked: the result is `none` when an operation of the index
expression leaves the range of `int` (undefined behaviour in the program), when
a coordinate passed to `operator()` is outside the grid, or when an index is
outside its vector.  The buffers handed to MPI by address (lines 507-515 and
537-545) are not accessed by the program itself and are left as they are. -/

/-- A checked step followed by the rest of the computation: the rest is run on
the result of the step, and a failed step fails the whole. -/
@[noinline]
def andThen {α β : Type} (o : Option α) (k : α → Option β) : Option β := o.bind k

/-- The result of an `int` operation with exact value `z`. -/
def intOp (z : Int) : Option Int :=
  if INT_MIN ≤ z ∧ z ≤ INT_MAX then some z else none

/-- The index expression `selector * gx_ * gy_ + ypos * gx_ + xpos` of
`operator()`, evaluated in `int` in the order of the source. -/
def Grid.index {R : Type} (g : Grid R) (selector xpos ypos : Int) : Option Int :=
  andThen (intOp (selector * g.gx_)) fun a =>
  andThen (intOp (a * g.gy_)) fun b =>
  andThen (intOp (ypos * g.gx_)) fun c =>
  andThen (intOp (b + c)) fun d =>
  intOp (d + xpos)

/-- The same index expression under two's complement wrap-around. -/
def Grid.index32 {R : Type} (g : Grid R) (selector xpos ypos : Int) : Int :=
  wrap32 (wrap32 (wrap32 (wrap32 (selector * g.gx_) * g.gy_) + wrap32 (ypos * g.gx_)) + xpos)

/-- The read `v[i]` of a vector, checked. -/
def vgetC {R : Type} [Zero R] (v : List R) (i : Int) : Option R :=
  if 0 ≤ i ∧ i < v.length then some (vget v i) else none

/-- The assignment `v[i] = x` on a vector, checked. -/
def vsetC {R : Type} (v : List R) (i : Int) (x : R) : Option (List R) :=
  if 0 ≤ i ∧ i < v.length then some (vset v i x) else none

/-- The reading `operator()(selector, xpos, ypos)`, checked. -/
def Grid.readC {R : Type} [Zero R] (g : Grid R) (selector xpos ypos : Int) : Option R :=
  if (selector = 0 ∨ selector = 1) ∧ 0 ≤ xpos ∧ xpos < g.gx_ ∧ 0 ≤ ypos ∧ ypos < g.gy_ then
    andThen (g.index selector xpos ypos) fun k => vgetC g.grid_ k
  else none

/-- An assignment through the reference returned by
`operator()(selector, xpos, ypos)`, checked. -/
def Grid.writeC {R : Type} (g : Grid R) (selector xpos ypos : Int) (x : R) :
    Option (Grid R) :=
  if (selector = 0 ∨ selector = 1) ∧ 0 ≤ xpos ∧ xpos < g.gx_ ∧ 0 ≤ ypos ∧ ypos < g.gy_ then
    andThen (g.index selector xpos ypos) fun k =>
    andThen (vsetC g.grid_ k x) fun l => some { g with grid_ := l }
  else none

/-- The function `stencil2` with checked reads; each cell is read once. -/
def stencil2C {R : Type} [Ring R] (grid : Grid R) (x y : Int) (xcfl ycfl : R) (prev : Int) :
    Option R :=
  andThen (grid.readC prev x y) fun c =>
  andThen (grid.readC prev (x + 1) y) fun e1 =>
  andThen (grid.readC prev (x - 1) y) fun w1 =>
  andThen (grid.readC prev x (y + 1)) fun s1 =>
  andThen (grid.readC prev x (y - 1)) fun n1 =>
  some (c + xcfl * (e1 + w1 - 2 * c) + ycfl * (s1 + n1 - 2 * c))

/-- The function `stencil4` with checked reads. -/
def stencil4C {R : Type} [Ring R] (grid : Grid R) (x y : Int) (xcfl ycfl : R) (prev : Int) :
    Option R :=
  andThen (grid.readC prev x y) fun c =>
  andThen (grid.readC prev (x + 2) y) fun e2 =>
  andThen (grid.readC prev (x + 1) y) fun e1 =>
  andThen (grid.readC prev (x - 1) y) fun w1 =>
  andThen (grid.readC prev (x - 2) y) fun w2 =>
  andThen (grid.readC prev x (y + 2)) fun s2 =>
  andThen (grid.readC prev x (y + 1)) fun s1 =>
  andThen (grid.readC prev x (y - 1)) fun n1 =>
  andThen (grid.readC prev x (y - 2)) fun n2 =>
  some (c +
    xcfl * (-e2 + 16 * e1 - 30 * c + 16 * w1 - w2) +
    ycfl * (-s2 + 16 * s1 - 30 * c + 16 * n1 - n2))

/-- The function `stencil8` with checked reads. -/
def stencil8C {R : Type} [Ring R] (grid : Grid R) (x y : Int) (xcfl ycfl : R) (prev : Int) :
    Option R :=
  andThen (grid.readC prev x y) fun c =>
  andThen (grid.readC prev (x + 4) y) fun e4 =>
  andThen (grid.readC prev (x + 3) y) fun e3 =>
  andThen (grid.readC prev (x + 2) y) fun e2 =>
  andThen (grid.readC prev (x + 1) y) fun e1 =>
  andThen (grid.readC prev (x - 1) y) fun w1 =>
  andThen (grid.readC prev (x - 2) y) fun w2 =>
  andThen (grid.readC prev (x - 3) y) fun w3 =>
  andThen (grid.readC prev (x - 4) y) fun w4 =>
  andThen (grid.readC prev x (y + 4)) fun s4 =>
  andThen (grid.readC prev x (y + 3)) fun s3 =>
  andThen (grid.readC prev x (y + 2)) fun s2 =>
  andThen (grid.readC prev x (y + 1)) fun s1 =>
  andThen (grid.readC prev x (y - 1)) fun n1 =>
  andThen (grid.readC prev x (y - 2)) fun n2 =>
  andThen (grid.readC prev x (y - 3)) fun n3 =>
  andThen (grid.readC prev x (y - 4)) fun n4 =>
  some (c +
    xcfl * (-9 * e4 + 128 * e3 - 1008 * e2 + 8064 * e1 - 14350 * c +
            8064 * w1 - 1008 * w2 + 128 * w3 - 9 * w4) +
    ycfl * (-9 * s4 + 128 * s3 - 1008 * s2 + 8064 * s1 - 14350 * c +
            8064 * n1 - 1008 * n2 + 128 * n3 - 9 * n4))

/-- The type of the three stencil functions with checked reads. -/
abbrev StencilC (R : Type) := Grid R → Int → Int → R → R → Int → Option R

/-- The loop `for (int i = lo; i < hi; ++i) body(i)` with a body that can
fail. -/
def forLoopC {σ : Type} (lo hi : Int) (body : Int → σ → Option σ) (s : σ) : Option σ :=
  (List.range (hi - lo).toNat).foldl
    (fun acc (k : Nat) => andThen acc (body (lo + Int.ofNat k))) (some s)

/-- The first loop nest of an order branch, checked. -/
def interiorPassC {R : Type} (st : StencilC R) (xcfl ycfl : R) (curr prev : Int)
    (grid : Grid R) : Option (Grid R) :=
  forLoopC (2 * grid.borderSize_) grid.ny_ (fun y grid =>
    forLoopC (2 * grid.borderSize_) grid.nx_ (fun x grid =>
      andThen (st grid x y xcfl ycfl prev) fun v => grid.writeC curr x y v) grid) grid

/-- The loop nest commented "Top and Bottom", checked. -/
def topBottomPassC {R : Type} (st : StencilC R) (xcfl ycfl : R) (curr prev : Int)
    (grid : Grid R) : Option (Grid R) :=
  forLoopC 0 grid.borderSize_ (fun y grid =>
    let y1 := y + grid.borderSize_
    let y2 := y + grid.ny_
    forLoopC grid.borderSize_ (grid.nx_ + grid.borderSize_) (fun x grid =>
      andThen (st grid x y1 xcfl ycfl prev) fun v1 =>
      andThen (grid.writeC curr x y1 v1) fun grid =>
      andThen (st grid x y2 xcfl ycfl prev) fun v2 =>
      grid.writeC curr x y2 v2) grid) grid

/-- The loop nest commented "Left and Right", checked. -/
def leftRightPassC {R : Type} (st : StencilC R) (xcfl ycfl : R) (curr prev : Int)
    (grid : Grid R) : Option (Grid R) :=
  forLoopC (2 * grid.borderSize_) grid.ny_ (fun y grid =>
    forLoopC 0 grid.borderSize_ (fun x grid =>
      let x1 := x + grid.borderSize_
      let x2 := x + grid.nx_
      andThen (st grid x1 y xcfl ycfl prev) fun v1 =>
      andThen (grid.writeC curr x1 y v1) fun grid =>
      andThen (st grid x2 y xcfl ycfl prev) fun v2 =>
      grid.writeC curr x2 y v2) grid) grid

/-- The index expression `prev() * gx_ * gy_ + gx_*i + j` of the pack and unpack
loops, evaluated in `int` in the order of the source. -/
def Grid.rowIndex {R : Type} (g : Grid R) (i j : Int) : Option Int :=
  andThen (intOp (g.prev_ * g.gx_)) fun a =>
  andThen (intOp (a * g.gy_)) fun b =>
  andThen (intOp (g.gx_ * i)) fun c =>
  andThen (intOp (b + c)) fun d =>
  intOp (d + j)

/-- The buffer index `i*borderSize_ + j`, evaluated in `int`. -/
def Grid.bufIndex {R : Type} (g : Grid R) (i j : Int) : Option Int :=
  andThen (intOp (i * g.borderSize_)) fun a => intOp (a + j)

/-- Lines 517-534 of `transferHaloDataASync`, checked. -/
def Grid.packBuffersC {R : Type} [Zero R] (g : Grid R) : Option (Grid R) :=
  if g.procRight_ ≠ -1 ∨ g.procLeft_ ≠ -1 then
    forLoopC 0 g.gy_ (fun i g =>
      forLoopC 0 g.borderSize_ (fun j g =>
        andThen (if g.procLeft_ ≠ -1 then
          andThen (g.rowIndex i j) fun k =>
          andThen (intOp (k + g.borderSize_)) fun k =>
          andThen (vgetC g.grid_ k) fun v =>
          andThen (g.bufIndex i j) fun m =>
          andThen (vsetC g.send_left_buffer_ m v) fun buf =>
          some { g with send_left_buffer_ := buf }
        else some g) fun g =>
        if g.procRight_ ≠ -1 then
          andThen (g.rowIndex i j) fun k =>
          andThen (intOp (k + g.nx_)) fun k =>
          andThen (vgetC g.grid_ k) fun v =>
          andThen (g.bufIndex i j) fun m =>
          andThen (vsetC g.send_right_buffer_ m v) fun buf =>
          some { g with send_right_buffer_ := buf }
        else some g) g) g
  else some g

/-- Lines 482-499 of `waitForRecvs`, checked. -/
def Grid.unpackBuffersC {R : Type} [Zero R] (g : Grid R) : Option (Grid R) :=
  if g.procRight_ ≠ -1 ∨ g.procLeft_ ≠ -1 then
    forLoopC 0 g.gy_ (fun i g =>
      forLoopC 0 g.borderSize_ (fun j g =>
        andThen (if g.procLeft_ ≠ -1 then
          andThen (g.rowIndex i j) fun k =>
          andThen (g.bufIndex i j) fun m =>
          andThen (vgetC g.recv_left_buffer_ m) fun v =>
          andThen (vsetC g.grid_ k v) fun l =>
          some { g with grid_ := l }
        else some g) fun g =>
        if g.procRight_ ≠ -1 then
          andThen (g.rowIndex i j) fun k =>
          andThen (intOp (k + g.nx_)) fun k =>
          andThen (intOp (k + g.borderSize_)) fun k =>
          andThen (g.bufIndex i j) fun m =>
          andThen (vgetC g.recv_right_buffer_ m) fun v =>
          andThen (vsetC g.grid_ k v) fun l =>
          some { g with grid_ := l }
        else some g) g) g
  else some g

/-- The method `transferHaloDataASync` with the pack loop checked. -/
def Grid.transferHaloDataASyncC {R : Type} [Zero R] (g : Grid R) : Option (Grid R) :=
  let p := Grid.botStage (Grid.topStage (g, 0))
  andThen p.1.packBuffersC fun g => some (Grid.leftStage (Grid.rightStage (g, p.2))).1

/-- The method `waitForRecvs` with the unpack loop checked. -/
def Grid.waitForRecvsC {R : Type} [Zero R] (inbox : Int → List R) (g : Grid R) :
    Option (Grid R) :=
  (g.completeAll inbox).unpackBuffersC

/-- One order branch of `syncComputation`, checked. -/
def syncBranchC {R : Type} (st : StencilC R) (params : simParams R) (curr prev : Int)
    (grid : Grid R) : Option (Grid R) :=
  andThen (interiorPassC st params.xcfl_ params.ycfl_ curr prev grid) fun grid =>
  andThen (topBottomPassC st params.xcfl_ params.ycfl_ curr prev grid) fun grid =>
  leftRightPassC st params.xcfl_ params.ycfl_ curr prev grid

/-- One order branch of `asyncComputation`, checked. -/
def asyncBranchC {R : Type} [Zero R] (st : StencilC R) (params : simParams R)
    (inbox : Int → List R) (curr prev : Int) (grid : Grid R) : Option (Grid R) :=
  andThen (interiorPassC st params.xcfl_ params.ycfl_ curr prev grid) fun grid =>
  andThen (grid.waitForSends.waitForRecvsC inbox) fun grid =>
  andThen (topBottomPassC st params.xcfl_ params.ycfl_ curr prev grid) fun grid =>
  leftRightPassC st params.xcfl_ params.ycfl_ curr prev grid

/-- The body of the loop of `syncComputation` for one iteration, checked. -/
def syncIterationC {R : Type} [Ring R] (inbox : Int → List R) (params : simParams R)
    (grid : Grid R) : Option (Grid R) :=
  let grid := grid.swapState
  let curr := grid.curr_
  let prev := grid.prev_
  andThen grid.transferHaloDataASyncC fun grid =>
  andThen (grid.waitForSends.waitForRecvsC inbox) fun grid =>
  if params.order_ = 2 then syncBranchC stencil2C params curr prev grid
  else if params.order_ = 4 then syncBranchC stencil4C params curr prev grid
  else if params.order_ = 8 then syncBranchC stencil8C params curr prev grid
  else some grid

/-- The body of the loop of `asyncComputation` for one iteration, checked. -/
def asyncIterationC {R : Type} [Ring R] (inbox : Int → List R) (params : simParams R)
    (grid : Grid R) : Option (Grid R) :=
  let grid := grid.swapState
  let curr := grid.curr_
  let prev := grid.prev_
  andThen grid.transferHaloDataASyncC fun grid =>
  if params.order_ = 2 then asyncBranchC stencil2C params inbox curr prev grid
  else if params.order_ = 4 then asyncBranchC stencil4C params inbox curr prev grid
  else if params.order_ = 8 then asyncBranchC stencil8C params inbox curr prev grid
  else some grid

/-- The function `syncComputation`, checked; `env` as for `syncComputation`. -/
def syncComputationC {R : Type} [Ring R] (env : Int → Int → List R) (grid : Grid R)
    (params : simParams R) : Option (Grid R) :=
  forLoopC 0 params.iters_ (fun i grid => syncIterationC (env i) params grid) grid

/-- The function `asyncComputation`, checked. -/
def asyncComputationC {R : Type} [Ring R] (env : Int → Int → List R) (grid : Grid R)
    (params : simParams R) : Option (Grid R) :=
  forLoopC 0 params.iters_ (fun i grid => asyncIterationC (env i) params grid) grid

/-- The parameters read from a file with the lines `40000 40000`, `1 1`, `1`,
`1000`, `2`, `5`, `1`, `1`, `0 10 0 10`: the default parameters on a grid of
40000 x 40000 points. -/
def paramsLarge : simParams ℚ :=
  simParams.calcDtCFL
    { nx_ := 40000, ny_ := 40000
      lx_ := 1, ly_ := 1
      alpha_ := 1
      dt_ := 0
      iters_ := 1000
      dx_ := 1 / (((40000 - 1 : Int) : ℚ))
      dy_ := 1 / (((40000 - 1 : Int) : ℚ))
      ic_ := 5
      xcfl_ := 0, ycfl_ := 0
      order_ := 2
      gridMethod_ := 1
      synchronous_ := true
      topBC := 0, leftBC := 10, bottomBC := 0, rightBC := 10 }

/-- The grid constructed from `paramsLarge` on a single process. -/
def largeGrid : Grid ℚ :=
  Grid.allocate paramsLarge false 0
    { nx_ := 40000, ny_ := 40000, procLeft_ := -1, procRight_ := -1, procTop_ := -1,
      procBot_ := -1 } 1

/-- A grid whose storage can be indexed in `int`: the number of elements of
`grid_`, twice the number of cells of a generation, is at most `2^31`. -/
def Grid.FitsInt {R : Type} (g : Grid R) : Prop := 2 * g.gx_ * g.gy_ ≤ 2147483648

/-- A checked stencil that succeeds with the value of the unchecked one at
every cell whose distance to the edges of the grid is at least `ρ`. -/
def StencilSafe {R : Type} (stC : StencilC R) (st : Stencil R) (ρ : Int) : Prop :=
  ∀ (t : Grid R) (x y : Int) (xcfl ycfl : R) (prev : Int), t.Shaped → t.FitsInt →
    (prev = 0 ∨ prev = 1) → ρ ≤ x → x + ρ < t.gx_ → ρ ≤ y → y + ρ < t.gy_ →
    stC t x y xcfl ycfl prev = some (st t x y xcfl ycfl prev)
/-! ## Facts about the decomposition -/

theorem isqrt_sq (n : Int) (hn : 0 ≤ n) : isqrt (n * n) = n := by
  obtain ⟨m, rfl⟩ := Int.eq_ofNat_of_zero_le hn
  have : ((m : Int) * (m : Int)).toNat = m * m := by
    rw [← Int.natCast_mul]; exact Int.toNat_natCast _
  simp [isqrt, this, Nat.sqrt_eq]

theorem cdiv_nonneg_eq (a b : Int) (ha : 0 ≤ a) (hb : 0 ≤ b) : cdiv a b = a / b :=
  Int.tdiv_eq_ediv ha hb

theorem cmod_nonneg_eq (a b : Int) (ha : 0 ≤ a) (hb : 0 ≤ b) : cmod a b = a % b :=
  Int.tmod_eq_emod ha hb

/-- The stripe decomposition in closed form. -/
theorem decomposition_stripe (nx ny P r : Int) (h0 : 0 ≤ r) (hr : r < P) :
    decomposition 1 nx ny P r = .ok
      { nx_ := nx
        ny_ := if P = 1 then ny
               else if r = P - 1 then ny - (P - 1) * cdiv (ny + P - 1) P
               else cdiv (ny + P - 1) P
        procLeft_ := -1
        procRight_ := -1
        procTop_ := if r = 0 then -1 else r - 1
        procBot_ := if r = P - 1 then -1 else r + 1 } := by
  simp only [decomposition, if_true]
  split_ifs <;>
    first
      | (exfalso; omega)
      | (refine congrArg Except.ok ?_
         ext <;> dsimp only)

/-- Row-major coordinates: quotient and remainder of `n * q + c`. -/
theorem rowmajor_div (n q c : Int) (hq : 0 ≤ q) (hc : 0 ≤ c) (hcn : c < n) :
    cdiv (n * q + c) n = q ∧ cmod (n * q + c) n = c := by
  have hn : 0 < n := by omega
  have hnq : 0 ≤ n * q := Int.mul_nonneg (by omega) hq
  rw [cdiv_nonneg_eq _ _ (by omega) (by omega), cmod_nonneg_eq _ _ (by omega) (by omega)]
  constructor
  · rw [Int.add_comm, Int.add_mul_ediv_left _ _ (by omega : n ≠ 0), Int.ediv_eq_zero_of_lt hc hcn]
    simp
  · rw [Int.add_comm, Int.add_mul_emod_self_left, Int.emod_eq_of_lt hc hcn]

/-- The block decomposition in closed form, in row-major coordinates: the rank
in row `q` and column `c` of an `n × n` process grid. -/
theorem decomposition_block (nx ny n q c : Int) (hq : 0 ≤ q) (hqn : q < n)
    (hc : 0 ≤ c) (hcn : c < n) :
    decomposition 2 nx ny (n * n) (n * q + c) = .ok
      { nx_ := if c = n - 1 then nx - (n - 1) * cdiv (nx + n - 1) n else cdiv (nx + n - 1) n
        ny_ := if q = n - 1 then ny - (n - 1) * cdiv (ny + n - 1) n else cdiv (ny + n - 1) n
        procLeft_ := if c = 0 then -1 else n * q + c - 1
        procRight_ := if c = n - 1 then -1 else n * q + c + 1
        procTop_ := if q = 0 then -1 else n * q + c - n
        procBot_ := if q = n - 1 then -1 else n * q + c + n } := by
  have hn : 0 < n := by omega
  by_cases hn1 : n = 1
  · have hq0 : q = 0 := by omega
    have hc0 : c = 0 := by omega
    subst hn1; subst hq0; subst hc0
    simp [decomposition, isqrt]
  have hnq : 0 ≤ n * q := Int.mul_nonneg (by omega) hq
  have hA1 : n * q ≤ n * n - n := by
    have := Int.mul_le_mul_of_nonneg_left (by omega : q ≤ n - 1) (by omega : 0 ≤ n)
    rw [Int.mul_sub, Int.mul_one] at this; exact this
  have hA2 : q ≤ n - 2 → n * q ≤ n * n - 2 * n := by
    intro h
    have := Int.mul_le_mul_of_nonneg_left h (by omega : 0 ≤ n)
    rw [Int.mul_sub] at this; omega
  have hA3 : 1 ≤ q → n ≤ n * q := by
    intro h
    have := Int.mul_le_mul_of_nonneg_left h (by omega : 0 ≤ n)
    omega
  have hA4 : q = 0 → n * q = 0 := by intro h; subst h; simp
  have hA5 : q = n - 1 → n * q = n * n - n := by
    intro h; subst h; rw [Int.mul_sub, Int.mul_one]
  have hA6 : n * (n - 1) = n * n - n := by rw [Int.mul_sub, Int.mul_one]
  have hA7 : n * n ≠ 1 := by
    have := Int.mul_le_mul_of_nonneg_right (by omega : 2 ≤ n) (by omega : 0 ≤ n)
    omega
  obtain ⟨hd, hm⟩ := rowmajor_div n q c hq hc hcn
  have hd1 : cdiv (n * q + c + 1) n = if c = n - 1 then q + 1 else q := by
    split_ifs with h
    · have e : n * q + c + 1 = n * (q + 1) + 0 := by rw [Int.mul_add]; omega
      rw [e]; exact (rowmajor_div n (q + 1) 0 (by omega) (by omega) (by omega)).1
    · have e : n * q + c + 1 = n * q + (c + 1) := by omega
      rw [e]; exact (rowmajor_div n q (c + 1) hq (by omega) (by omega)).1
  have hd2 : cmod (n * q + c + 1) n = if c = n - 1 then 0 else c + 1 := by
    split_ifs with h
    · have e : n * q + c + 1 = n * (q + 1) + 0 := by rw [Int.mul_add]; omega
      rw [e]; exact (rowmajor_div n (q + 1) 0 (by omega) (by omega) (by omega)).2
    · have e : n * q + c + 1 = n * q + (c + 1) := by omega
      rw [e]; exact (rowmajor_div n q (c + 1) hq (by omega) (by omega)).2
  simp only [decomposition, isqrt_sq n (by omega), hd, hm, hd1, hd2, hA6, ne_eq,
    not_true_eq_false, if_false, if_true]
  simp only [show ((2 : Int) = 1) = False from by simp, hA7, if_false]
  split_ifs <;>
    first
      | (exfalso; omega)
      | (refine congrArg Except.ok ?_
         ext <;> dsimp only)

theorem rowmajor_inj (n q c q' c' : Int) (hc : 0 ≤ c) (hcn : c < n)
    (hc' : 0 ≤ c') (hcn' : c' < n) (h : n * q + c = n * q' + c') : q = q' ∧ c = c' := by
  have e1 : (n * q + c) % n = c := by
    rw [Int.add_comm, Int.add_mul_emod_self_left, Int.emod_eq_of_lt hc hcn]
  have e2 : (n * q' + c') % n = c' := by
    rw [Int.add_comm, Int.add_mul_emod_self_left, Int.emod_eq_of_lt hc' hcn']
  have hcc : c = c' := by rw [← e1, ← e2, h]
  refine ⟨?_, hcc⟩
  have : n * q = n * q' := by omega
  exact Int.eq_of_mul_eq_mul_left (by omega) this

theorem rank_coords (n r : Int) (hn : 1 ≤ n) (h0 : 0 ≤ r) (hr : r < n * n) :
    0 ≤ r / n ∧ r / n < n ∧ 0 ≤ r % n ∧ r % n < n ∧ r = n * (r / n) + r % n :=
  ⟨Int.ediv_nonneg h0 (by omega), Int.ediv_lt_of_lt_mul (by omega) hr,
    Int.emod_nonneg _ (by omega), Int.emod_lt_of_pos _ (by omega),
    (Int.ediv_add_emod r n).symm⟩

/-- The block decomposition in closed form, by rank. -/
theorem decomposition_block_rank (nx ny side r : Int) (hs : 1 ≤ side) (h0 : 0 ≤ r)
    (hr : r < side * side) :
    decomposition 2 nx ny (side * side) r = .ok
      { nx_ := if r % side = side - 1 then nx - (side - 1) * cdiv (nx + side - 1) side
               else cdiv (nx + side - 1) side
        ny_ := if r / side = side - 1 then ny - (side - 1) * cdiv (ny + side - 1) side
               else cdiv (ny + side - 1) side
        procLeft_ := if r % side = 0 then -1 else r - 1
        procRight_ := if r % side = side - 1 then -1 else r + 1
        procTop_ := if r / side = 0 then -1 else r - side
        procBot_ := if r / side = side - 1 then -1 else r + side } := by
  obtain ⟨hq, hqn, hc, hcn, e⟩ := rank_coords side r hs h0 hr
  have := decomposition_block nx ny side (r / side) (r % side) hq hqn hc hcn
  rw [← e] at this
  exact this

theorem cdiv_eq_ceilDiv (a b : Int) (ha : 0 ≤ a) (hb : 1 ≤ b) :
    cdiv (a + b - 1) b = ceilDiv a b := by
  rw [cdiv_nonneg_eq _ _ (by omega) (by omega)]
  unfold ceilDiv
  symm
  rw [Int.ceil_eq_iff]
  have hbq : (0 : ℚ) < (b : ℚ) := by exact_mod_cast (by omega : 0 < b)
  have h1 : b * ((a + b - 1) / b) ≤ a + b - 1 := Int.mul_ediv_self_le (by omega)
  have h2 : a + b - 1 < b * ((a + b - 1) / b) + b := Int.lt_mul_ediv_self_add (by omega)
  constructor
  · rw [lt_div_iff₀ hbq]
    have : ((a + b - 1) / b - 1) * b < a := by
      have e : ((a + b - 1) / b - 1) * b = b * ((a + b - 1) / b) - b := by ring
      rw [e]; omega
    exact_mod_cast this
  · rw [div_le_iff₀ hbq]
    have : a ≤ ((a + b - 1) / b) * b := by
      have e : ((a + b - 1) / b) * b = b * ((a + b - 1) / b) := by ring
      rw [e]; omega
    exact_mod_cast this

theorem isqrt_sq_iff (P : Int) : isqrt P * isqrt P = P ↔ IsSquare P := by
  constructor
  · intro h; exact ⟨isqrt P, h.symm⟩
  · rintro ⟨s, rfl⟩
    have e : s * s = (s.natAbs : Int) * (s.natAbs : Int) := (Int.natAbs_mul_self' s).symm
    rw [e, isqrt_sq _ (Int.natCast_nonneg _)]

/-! ## Claims about the decomposition -/

/-- Claim C5: in stripe mode with `P ≥ 1` processes, rank `r` has up neighbour `-1`
if `r = 0` and `r - 1` otherwise, down neighbour `-1` if `r = P - 1` and `r + 1`
otherwise, and left and right neighbours `-1`. -/
theorem stripe_neighbours (nx ny P r : Int) (hP : 1 ≤ P) (h0 : 0 ≤ r) (hr : r < P) :
    ∃ t, decomposition 1 nx ny P r = .ok t ∧
      t.procTop_ = (if r = 0 then -1 else r - 1) ∧
      t.procBot_ = (if r = P - 1 then -1 else r + 1) ∧
      t.procLeft_ = -1 ∧ t.procRight_ = -1 := by
  have _ := hP
  exact ⟨_, decomposition_stripe nx ny P r h0 hr, rfl, rfl, rfl, rfl⟩

theorem stripe_neighbours_witness :
    ∃ t, decomposition 1 10 10 4 3 = .ok t ∧
      t.procTop_ = (if (3 : Int) = 0 then -1 else 3 - 1) ∧
      t.procBot_ = (if (3 : Int) = 4 - 1 then -1 else 3 + 1) ∧
      t.procLeft_ = -1 ∧ t.procRight_ = -1 :=
  stripe_neighbours 10 10 4 3 (by decide) (by decide) (by decide)

/-- Claim C4: in block mode with `side * side` processes, rank `r` has left
neighbour `r - 1` unless `r % side = 0`, right neighbour `r + 1` unless
`r % side = side - 1`, up neighbour `r - side` unless `r / side = 0` and down
neighbour `r + side` unless `r / side = side - 1`; in the excepted cases the
identifier is `-1`. -/
theorem block_neighbours (nx ny side r : Int) (hs : 1 ≤ side) (h0 : 0 ≤ r)
    (hr : r < side * side) :
    ∃ t, decomposition 2 nx ny (side * side) r = .ok t ∧
      t.procLeft_ = (if r % side = 0 then -1 else r - 1) ∧
      t.procRight_ = (if r % side = side - 1 then -1 else r + 1) ∧
      t.procTop_ = (if r / side = 0 then -1 else r - side) ∧
      t.procBot_ = (if r / side = side - 1 then -1 else r + side) :=
  ⟨_, decomposition_block_rank nx ny side r hs h0 hr, rfl, rfl, rfl, rfl⟩

theorem block_neighbours_witness :
    ∃ t, decomposition 2 10 10 (3 * 3) 5 = .ok t ∧
      t.procLeft_ = (if (5 : Int) % 3 = 0 then -1 else 5 - 1) ∧
      t.procRight_ = (if (5 : Int) % 3 = 3 - 1 then -1 else 5 + 1) ∧
      t.procTop_ = (if (5 : Int) / 3 = 0 then -1 else 5 - 3) ∧
      t.procBot_ = (if (5 : Int) / 3 = 3 - 1 then -1 else 5 + 3) :=
  block_neighbours 10 10 3 5 (by decide) (by decide) (by decide)

/-- Claim C8: with at least one process, the decomposition step is fatal exactly
when the method is neither 1 nor 2, or the method is 2 and the process count is
not a perfect square (tested as `side * side ≠ P` with `side` the truncated
square root of `P`); in stripe mode it is never fatal. -/
theorem decomposition_fatal_iff (gridMethod nx ny P r : Int) (hP : 1 ≤ P) :
    ((∃ e, decomposition gridMethod nx ny P r = .error e) ↔
      ((gridMethod ≠ 1 ∧ gridMethod ≠ 2) ∨ (gridMethod = 2 ∧ ¬ IsSquare P))) ∧
    (IsSquare P ↔ isqrt P * isqrt P = P) ∧
    (∃ t, decomposition 1 nx ny P r = .ok t) := by
  have _ := hP
  refine ⟨?_, (isqrt_sq_iff P).symm, ?_⟩
  · rw [← isqrt_sq_iff]
    unfold decomposition
    by_cases h1 : gridMethod = 1
    · subst h1
      simp only [if_true]
      split_ifs <;> simp
    · by_cases h2 : gridMethod = 2
      · subst h2
        simp only [h1, if_false, if_true]
        split_ifs <;> simp_all
      · simp [h1, h2]
  · unfold decomposition
    simp only [if_true]
    split_ifs <;> exact ⟨_, rfl⟩

theorem decomposition_fatal_iff_witness :
    ((∃ e, decomposition 2 10 10 8 3 = .error e) ↔
      (((2 : Int) ≠ 1 ∧ (2 : Int) ≠ 2) ∨ ((2 : Int) = 2 ∧ ¬ IsSquare (8 : Int)))) ∧
    (IsSquare (8 : Int) ↔ isqrt 8 * isqrt 8 = 8) ∧
    (∃ t, decomposition 1 10 10 8 3 = .ok t) :=
  decomposition_fatal_iff 2 10 10 8 3 (by decide)

theorem sum_last_absorbs (n t total : Int) (hn : 1 ≤ n) :
    ∑ c in Finset.range n.toNat,
      (if (c : Int) = n - 1 then total - (n - 1) * t else t) = total := by
  obtain ⟨m, hm⟩ : ∃ m : Nat, n.toNat = m + 1 := ⟨n.toNat - 1, by omega⟩
  have hn' : n = (m : Int) + 1 := by omega
  rw [hm, Finset.sum_range_succ]
  have h1 : ∀ c ∈ Finset.range m,
      (if (c : Int) = n - 1 then total - (n - 1) * t else t) = t := by
    intro c hc
    have : c < m := Finset.mem_range.mp hc
    rw [if_neg (by omega)]
  rw [Finset.sum_congr rfl h1, if_pos (by omega), Finset.sum_const, Finset.card_range, hn']
  simp

theorem localNy_stripe (nx ny P r : Int) (h0 : 0 ≤ r) (hr : r < P) :
    localNy 1 nx ny P r =
      if r = P - 1 then ny - (P - 1) * cdiv (ny + P - 1) P else cdiv (ny + P - 1) P := by
  unfold localNy
  rw [decomposition_stripe nx ny P r h0 hr]
  dsimp only
  split_ifs with h1 h2 <;> first | rfl | (exfalso; omega) | (subst h1; simp)

theorem neg_cdiv_nonpos (a b : Int) (ha : a < 0) (hb : 0 < b) : cdiv a b ≤ 0 := by
  unfold cdiv
  have e : a = -(-a) := by omega
  rw [e, Int.neg_tdiv, Int.tdiv_eq_ediv (by omega) (by omega)]
  have := Int.ediv_nonneg (by omega : 0 ≤ -a) (by omega : 0 ≤ b)
  omega

/-- A global extent that lets the first rank pass the halo assertion is
positive: with a negative extent the quotient `(extent + n - 1) / n` is at most
zero, and a quotient above `2 * border ≥ 2` needs `extent + n - 1 ≥ 3 * n`. -/
theorem extent_pos_of_quotient (ext n b : Int) (hn : 1 ≤ n) (hb : 1 ≤ b)
    (h : (if n = 1 then ext else cdiv (ext + n - 1) n) > 2 * b) : 2 < ext := by
  split_ifs at h with h1
  · omega
  · rcases lt_or_le (ext + n - 1) 0 with hneg | hpos
    · have := neg_cdiv_nonpos (ext + n - 1) n hneg (by omega)
      omega
    · rw [cdiv_nonneg_eq _ _ hpos (by omega)] at h
      have h3 : 3 ≤ (ext + n - 1) / n := by omega
      have := Int.mul_le_mul_of_nonneg_left h3 (by omega : 0 ≤ n)
      have := Int.mul_ediv_self_le (x := ext + n - 1) (k := n) (by omega)
      omega

/-- The values of the `int` expressions of the stripe branch for a
non-negative `globalNy` with `globalNy + P - 1` in the range of `int`: each is
in the range of `int`, so the exact arithmetic of the model is that of the
program. -/
theorem stripe_int_range (ny P : Int) (hP : 1 ≤ P) (hny : 0 ≤ ny)
    (hfit : ny + P - 1 ≤ INT_MAX) :
    InInt (ny + P - 1) ∧ InInt (cdiv (ny + P - 1) P) ∧
    InInt ((P - 1) * cdiv (ny + P - 1) P) ∧
    InInt (ny - (P - 1) * cdiv (ny + P - 1) P) := by
  unfold InInt INT_MIN
  unfold INT_MAX at hfit ⊢
  rw [cdiv_nonneg_eq _ _ (by omega) (by omega)]
  have h1 : 0 ≤ (ny + P - 1) / P := Int.ediv_nonneg (by omega) (by omega)
  have h2 : P * ((ny + P - 1) / P) ≤ ny + P - 1 := Int.mul_ediv_self_le (by omega)
  have h3 : (ny + P - 1) / P ≤ P * ((ny + P - 1) / P) := by
    have := Int.mul_le_mul_of_nonneg_right (by omega : 1 ≤ P) h1
    omega
  have h4 : (P - 1) * ((ny + P - 1) / P) = P * ((ny + P - 1) / P) - (ny + P - 1) / P := by
    ring
  omega

/-- Claim C2: in stripe mode with `P ≥ 1` processes and a non-negative
`globalNy` (with `globalNy + P - 1` in the range of `int`, so that no `int`
expression of the branch overflows), every rank except the last gets local
`ny = ceil(globalNy / P)`, the last rank gets
`globalNy - (P - 1) * ceil(globalNy / P)`, the local `ny` of the ranks
`0..P-1` add up to `globalNy`, and local `nx` is `globalNx` on every rank. -/
theorem stripe_band_sizes (nx ny P : Int) (hP : 1 ≤ P) (hny : 0 ≤ ny)
    (hfit : ny + P - 1 ≤ INT_MAX) :
    (∀ r : Int, 0 ≤ r → r < P →
      ∃ t, decomposition 1 nx ny P r = .ok t ∧ t.nx_ = nx ∧ t.ny_ = localNy 1 nx ny P r ∧
        t.ny_ = (if r = P - 1 then ny - (P - 1) * ceilDiv ny P else ceilDiv ny P)) ∧
    (∑ r in Finset.range P.toNat, localNy 1 nx ny P (r : Int)) = ny ∧
    (InInt (ny + P - 1) ∧ InInt (ceilDiv ny P) ∧ InInt ((P - 1) * ceilDiv ny P) ∧
      InInt (ny - (P - 1) * ceilDiv ny P)) := by
  have hc := cdiv_eq_ceilDiv ny P hny hP
  refine ⟨?_, ?_, ?_⟩
  · intro r h0 hr
    have e := localNy_stripe nx ny P r h0 hr
    rw [hc] at e
    refine ⟨_, decomposition_stripe nx ny P r h0 hr, rfl, ?_, ?_⟩
    · rw [e, hc]; dsimp only
      split_ifs with h1 h2 <;> first | rfl | (exfalso; omega) | (subst h1; simp)
    · rw [hc]; dsimp only
      split_ifs with h1 h2 <;> first | rfl | (exfalso; omega) | (subst h1; simp)
  · have h1 : ∀ r ∈ Finset.range P.toNat, localNy 1 nx ny P (r : Int) =
        (if (r : Int) = P - 1 then ny - (P - 1) * cdiv (ny + P - 1) P
         else cdiv (ny + P - 1) P) := by
      intro r hr
      have : r < P.toNat := Finset.mem_range.mp hr
      exact localNy_stripe nx ny P r (by omega) (by omega)
    rw [Finset.sum_congr rfl h1]
    exact sum_last_absorbs P _ ny hP
  · rw [← hc]
    exact stripe_int_range ny P hP hny hfit

theorem stripe_band_sizes_witness :
    (1 : Int) ≤ 4 ∧ (0 : Int) ≤ 10 ∧ (10 : Int) + 4 - 1 ≤ INT_MAX ∧
    (∃ t, decomposition 1 10 10 4 3 = .ok t ∧ t.nx_ = 10 ∧ t.ny_ = localNy 1 10 10 4 3 ∧
        t.ny_ = (if (3 : Int) = 4 - 1 then 10 - (4 - 1) * ceilDiv 10 4 else ceilDiv 10 4)) ∧
    (∑ r in Finset.range (4 : Int).toNat, localNy 1 10 10 4 (r : Int)) = 10 :=
  ⟨by decide, by decide, by decide,
    (stripe_band_sizes 10 10 4 (by decide) (by decide) (by decide)).1 3 (by decide)
      (by decide),
    (stripe_band_sizes 10 10 4 (by decide) (by decide) (by decide)).2.1⟩
/-- Claim C3: in block mode with `side * side` processes and non-negative
global extents (with `globalNx + side - 1` and `globalNy + side - 1` in the
range of `int`, so that no `int` expression of the branch overflows), local
`nx` is `ceil(globalNx / side)` except in the rightmost column of ranks, where
it is `globalNx - (side - 1) * ceil(globalNx / side)`; local `ny` is
`ceil(globalNy / side)` except in the bottommost row, where it is
`globalNy - (side - 1) * ceil(globalNy / side)`; the local `nx` of the ranks of
any one row add up to `globalNx` and the local `ny` of the ranks of any one
column add up to `globalNy`. -/
theorem block_partition_sizes (nx ny side : Int) (hs : 1 ≤ side) (hnx : 0 ≤ nx)
    (hny : 0 ≤ ny) (hfx : nx + side - 1 ≤ INT_MAX) (hfy : ny + side - 1 ≤ INT_MAX) :
    (∀ r : Int, 0 ≤ r → r < side * side →
      ∃ t, decomposition 2 nx ny (side * side) r = .ok t ∧
        t.nx_ = localNx 2 nx ny (side * side) r ∧
        t.ny_ = localNy 2 nx ny (side * side) r ∧
        t.nx_ = (if r % side = side - 1 then nx - (side - 1) * ceilDiv nx side
                 else ceilDiv nx side) ∧
        t.ny_ = (if r / side = side - 1 then ny - (side - 1) * ceilDiv ny side
                 else ceilDiv ny side)) ∧
    (∀ q : Int, 0 ≤ q → q < side →
      (∑ c in Finset.range side.toNat,
        localNx 2 nx ny (side * side) (side * q + (c : Int))) = nx) ∧
    (∀ c : Int, 0 ≤ c → c < side →
      (∑ q in Finset.range side.toNat,
        localNy 2 nx ny (side * side) (side * (q : Int) + c)) = ny) ∧
    (InInt (nx + side - 1) ∧ InInt (ceilDiv nx side) ∧ InInt ((side - 1) * ceilDiv nx side) ∧
      InInt (nx - (side - 1) * ceilDiv nx side)) ∧
    (InInt (ny + side - 1) ∧ InInt (ceilDiv ny side) ∧ InInt ((side - 1) * ceilDiv ny side) ∧
      InInt (ny - (side - 1) * ceilDiv ny side)) := by
  have hcx := cdiv_eq_ceilDiv nx side hnx hs
  have hcy := cdiv_eq_ceilDiv ny side hny hs
  refine ⟨?_, ?_, ?_, ?_, ?_⟩
  · intro r h0 hr
    have e := decomposition_block_rank nx ny side r hs h0 hr
    rw [hcx, hcy] at e
    refine ⟨_, e, ?_, ?_, rfl, rfl⟩
    · unfold localNx; rw [e]
    · unfold localNy; rw [e]
  · intro q hq hqn
    have h1 : ∀ c ∈ Finset.range side.toNat,
        localNx 2 nx ny (side * side) (side * q + (c : Int)) =
        (if (c : Int) = side - 1 then nx - (side - 1) * cdiv (nx + side - 1) side
         else cdiv (nx + side - 1) side) := by
      intro c hc
      have : c < side.toNat := Finset.mem_range.mp hc
      unfold localNx
      rw [decomposition_block nx ny side q c hq hqn (by omega) (by omega)]
    rw [Finset.sum_congr rfl h1]
    exact sum_last_absorbs side _ nx hs
  · intro c hc hcn
    have h1 : ∀ q ∈ Finset.range side.toNat,
        localNy 2 nx ny (side * side) (side * (q : Int) + c) =
        (if (q : Int) = side - 1 then ny - (side - 1) * cdiv (ny + side - 1) side
         else cdiv (ny + side - 1) side) := by
      intro q hq
      have : q < side.toNat := Finset.mem_range.mp hq
      unfold localNy
      rw [decomposition_block nx ny side q c (by omega) (by omega) hc hcn]
    rw [Finset.sum_congr rfl h1]
    exact sum_last_absorbs side _ ny hs
  · rw [← hcx]
    exact stripe_int_range nx side hs hnx hfx
  · rw [← hcy]
    exact stripe_int_range ny side hs hny hfy

theorem block_partition_sizes_witness :
    (1 : Int) ≤ 3 ∧ (0 : Int) ≤ 10 ∧ (10 : Int) + 3 - 1 ≤ INT_MAX ∧
    (∃ t, decomposition 2 10 10 (3 * 3) 8 = .ok t ∧
        t.nx_ = localNx 2 10 10 (3 * 3) 8 ∧
        t.ny_ = localNy 2 10 10 (3 * 3) 8 ∧
        t.nx_ = (if (8 : Int) % 3 = 3 - 1 then 10 - (3 - 1) * ceilDiv 10 3
                 else ceilDiv 10 3) ∧
        t.ny_ = (if (8 : Int) / 3 = 3 - 1 then 10 - (3 - 1) * ceilDiv 10 3
                 else ceilDiv 10 3)) ∧
    (∑ c in Finset.range (3 : Int).toNat,
        localNx 2 10 10 (3 * 3) (3 * 1 + (c : Int))) = 10 ∧
    (∑ q in Finset.range (3 : Int).toNat,
        localNy 2 10 10 (3 * 3) (3 * (q : Int) + 2)) = 10 :=
  ⟨by decide, by decide, by decide,
    (block_partition_sizes 10 10 3 (by decide) (by decide) (by decide) (by decide)
      (by decide)).1 8 (by decide) (by decide),
    (block_partition_sizes 10 10 3 (by decide) (by decide) (by decide) (by decide)
      (by decide)).2.1 1 (by decide) (by decide),
    (block_partition_sizes 10 10 3 (by decide) (by decide) (by decide) (by decide)
      (by decide)).2.2.1 2 (by decide) (by decide)⟩

/-- Claim C1: for every supported combination of method and process count and
all ranks `A`, `B` in `[0, P)`: if the right neighbour of `A` is `B` then the left
neighbour of `B` is `A`, if the left neighbour of `A` is `B` then the right
neighbour of `B` is `A`, likewise for down/up and up/down, and every neighbour
identifier of `A` is `-1` or lies in `[0, P)`. -/
theorem topology_symmetry (gridMethod nx ny P A B : Int) (hsup : Supported gridMethod P)
    (hA0 : 0 ≤ A) (hA : A < P) (hB0 : 0 ≤ B) (hB : B < P) :
    ∃ tA tB, decomposition gridMethod nx ny P A = .ok tA ∧
      decomposition gridMethod nx ny P B = .ok tB ∧
      (tA.procRight_ = B → tB.procLeft_ = A) ∧
      (tA.procLeft_ = B → tB.procRight_ = A) ∧
      (tA.procBot_ = B → tB.procTop_ = A) ∧
      (tA.procTop_ = B → tB.procBot_ = A) ∧
      (tA.procLeft_ = -1 ∨ (0 ≤ tA.procLeft_ ∧ tA.procLeft_ < P)) ∧
      (tA.procRight_ = -1 ∨ (0 ≤ tA.procRight_ ∧ tA.procRight_ < P)) ∧
      (tA.procTop_ = -1 ∨ (0 ≤ tA.procTop_ ∧ tA.procTop_ < P)) ∧
      (tA.procBot_ = -1 ∨ (0 ≤ tA.procBot_ ∧ tA.procBot_ < P)) := by
  rcases hsup with ⟨hm, _⟩ | ⟨hm, n, hn, hPn⟩
  · subst hm
    refine ⟨_, _, decomposition_stripe nx ny P A hA0 hA,
      decomposition_stripe nx ny P B hB0 hB, ?_⟩
    dsimp only
    refine ⟨?_, ?_, ?_, ?_, ?_, ?_, ?_, ?_⟩ <;> (try split_ifs) <;> omega
  · subst hm; subst hPn
    obtain ⟨hqa, hqan, hca, hcan, ea⟩ := rank_coords n A hn hA0 hA
    obtain ⟨hqb, hqbn, hcb, hcbn, eb⟩ := rank_coords n B hn hB0 hB
    generalize A / n = qa at *
    generalize A % n = ca at *
    generalize B / n = qb at *
    generalize B % n = cb at *
    subst ea; subst eb
    refine ⟨_, _, decomposition_block nx ny n qa ca hqa hqan hca hcan,
      decomposition_block nx ny n qb cb hqb hqbn hcb hcbn, ?_⟩
    dsimp only
    have I1 : n * qa + ca + 1 = n * qb + cb → ca + 1 < n → cb = ca + 1 := by
      intro h hlt
      have := rowmajor_inj n qa (ca + 1) qb cb (by omega) hlt hcb hcbn (by omega)
      omega
    have I2 : n * qa + ca - 1 = n * qb + cb → 0 ≤ ca - 1 → cb = ca - 1 := by
      intro h hlt
      have := rowmajor_inj n qa (ca - 1) qb cb hlt (by omega) hcb hcbn (by omega)
      omega
    have I3 : n * qa + ca + n = n * qb + cb → qb = qa + 1 := by
      intro h
      have := rowmajor_inj n (qa + 1) ca qb cb hca hcan hcb hcbn
        (by rw [Int.mul_add]; omega)
      omega
    have I4 : n * qa + ca - n = n * qb + cb → qb = qa - 1 := by
      intro h
      have := rowmajor_inj n (qa - 1) ca qb cb hca hcan hcb hcbn
        (by rw [Int.mul_sub]; omega)
      omega
    have hnq : 0 ≤ n * qa := Int.mul_nonneg (by omega) hqa
    have hnqb : 0 ≤ n * qb := Int.mul_nonneg (by omega) hqb
    have hA1 : n * qa ≤ n * n - n := by
      have := Int.mul_le_mul_of_nonneg_left (by omega : qa ≤ n - 1) (by omega : 0 ≤ n)
      rw [Int.mul_sub, Int.mul_one] at this; exact this
    have hA2 : qa ≤ n - 2 → n * qa ≤ n * n - 2 * n := by
      intro h
      have := Int.mul_le_mul_of_nonneg_left h (by omega : 0 ≤ n)
      rw [Int.mul_sub] at this; omega
    have hA3 : 1 ≤ qa → n ≤ n * qa := by
      intro h
      have := Int.mul_le_mul_of_nonneg_left h (by omega : 0 ≤ n)
      omega
    refine ⟨?_, ?_, ?_, ?_, ?_, ?_, ?_, ?_⟩ <;> (try split_ifs) <;> omega

theorem topology_symmetry_witness :
    Supported 2 9 ∧
    ∃ tA tB, decomposition 2 10 10 9 4 = .ok tA ∧
      decomposition 2 10 10 9 5 = .ok tB ∧
      (tA.procRight_ = 5 → tB.procLeft_ = 4) ∧
      (tA.procLeft_ = 5 → tB.procRight_ = 4) ∧
      (tA.procBot_ = 5 → tB.procTop_ = 4) ∧
      (tA.procTop_ = 5 → tB.procBot_ = 4) ∧
      (tA.procLeft_ = -1 ∨ (0 ≤ tA.procLeft_ ∧ tA.procLeft_ < 9)) ∧
      (tA.procRight_ = -1 ∨ (0 ≤ tA.procRight_ ∧ tA.procRight_ < 9)) ∧
      (tA.procTop_ = -1 ∨ (0 ≤ tA.procTop_ ∧ tA.procTop_ < 9)) ∧
      (tA.procBot_ = -1 ∨ (0 ≤ tA.procBot_ ∧ tA.procBot_ < 9)) :=
  ⟨Or.inr ⟨rfl, 3, by decide, by decide⟩,
    topology_symmetry 2 10 10 9 4 5 (Or.inr ⟨rfl, 3, by decide, by decide⟩)
      (by decide) (by decide) (by decide) (by decide)⟩

/-! ## Loops and vectors -/

theorem forLoop_induction {σ : Type} (Q : Int → σ → Prop) (lo hi : Int) (body : Int → σ → σ)
    (s : σ) (h0 : Q lo s)
    (hstep : ∀ i s, lo ≤ i → i < hi → Q i s → Q (i + 1) (body i s)) :
    Q (max lo hi) (forLoop lo hi body s) := by
  unfold forLoop
  have key : ∀ n : Nat, (n : Int) ≤ (hi - lo).toNat →
      Q (lo + n) ((List.range n).foldl (fun acc (k : Nat) => body (lo + Int.ofNat k) acc) s) := by
    intro n
    induction n with
    | zero => intro _; simpa using h0
    | succ m ih =>
      intro hm
      rw [List.range_succ, List.foldl_append]
      simp only [List.foldl_cons, List.foldl_nil]
      have := hstep (lo + m) _ (by omega) (by omega) (ih (by omega))
      have e : lo + (m : Int) + 1 = lo + ((m + 1 : Nat) : Int) := by omega
      rw [e] at this
      exact this
  have := key (hi - lo).toNat (le_refl _)
  have e : lo + ((hi - lo).toNat : Int) = max lo hi := by omega
  rw [e] at this
  exact this

theorem vset_length {R : Type} (v : List R) (i : Int) (x : R) :
    (vset v i x).length = v.length := by
  unfold vset; split_ifs <;> simp

theorem writesConst_vset {R : Type} (i : Int) (c : R) :
    WritesConst (fun v => vset v i c) (fun k => k = i) c := by
  intro v
  refine ⟨vset_length v i c, ?_⟩
  intro k hk
  dsimp only
  unfold vset
  constructor
  · intro h
    have e : i.toNat = k := by omega
    rw [if_pos (by omega), List.getElem?_set, if_pos e, if_pos (by omega)]
  · intro h
    split_ifs with h0
    · rw [List.getElem?_set, if_neg (by omega)]
    · rfl

theorem writesConst_forLoop {R : Type} (lo hi : Int) (body : Int → List R → List R)
    (S : Int → Int → Prop) (c : R)
    (hb : ∀ i, lo ≤ i → i < hi → WritesConst (body i) (S i) c) :
    WritesConst (forLoop lo hi body) (fun k => ∃ i, lo ≤ i ∧ i < hi ∧ S i k) c := by
  intro v
  have := forLoop_induction
    (fun i (g : List R) => g.length = v.length ∧
      ∀ k : Nat, k < v.length →
        (((∃ j, lo ≤ j ∧ j < i ∧ j < hi ∧ S j k) → g[k]? = some c) ∧
         (¬ (∃ j, lo ≤ j ∧ j < i ∧ j < hi ∧ S j k) → g[k]? = v[k]?)))
    lo hi body v
    ⟨rfl, fun k _ => ⟨fun ⟨j, h1, h2, _⟩ => absurd h2 (by omega), fun _ => rfl⟩⟩
    (by
      intro i g hlo hhi ⟨hlen, hg⟩
      obtain ⟨hl, hw⟩ := hb i hlo hhi g
      refine ⟨by rw [hl, hlen], ?_⟩
      intro k hk
      obtain ⟨hw1, hw2⟩ := hw k (by rw [hlen]; exact hk)
      obtain ⟨hg1, hg2⟩ := hg k hk
      constructor
      · rintro ⟨j, h1, h2, h3, h4⟩
        by_cases hS : S i k
        · exact hw1 hS
        · rw [hw2 hS]
          apply hg1
          have : j ≠ i := by rintro rfl; exact hS h4
          exact ⟨j, h1, by omega, h3, h4⟩
      · intro hn
        have hS : ¬ S i k := fun h => hn ⟨i, hlo, by omega, hhi, h⟩
        rw [hw2 hS]
        apply hg2
        rintro ⟨j, h1, h2, h3, h4⟩
        exact hn ⟨j, h1, by omega, h3, h4⟩)
  obtain ⟨hlen, hg⟩ := this
  refine ⟨hlen, ?_⟩
  intro k hk
  obtain ⟨hg1, hg2⟩ := hg k hk
  constructor
  · rintro ⟨j, h1, h2, h3⟩
    exact hg1 ⟨j, h1, by omega, h2, h3⟩
  · intro hn
    apply hg2
    rintro ⟨j, h1, _, h3, h4⟩
    exact hn ⟨j, h1, h3, h4⟩

theorem writesConst_id {R : Type} (c : R) :
    WritesConst (fun v : List R => v) (fun _ => False) c := by
  intro v
  exact ⟨rfl, fun k _ => ⟨fun h => h.elim, fun _ => rfl⟩⟩

theorem writesConst_ite {R : Type} (p : Prop) [Decidable p] (T : List R → List R)
    (S : Int → Prop) (c : R) (h : WritesConst T S c) :
    WritesConst (fun v => if p then T v else v) (fun k => p ∧ S k) c := by
  intro v
  by_cases hp : p
  · simpa [hp] using h v
  · simp [hp]

theorem writesConst_nest {R : Type} (n m : Int) (f : Int → Int → Int) (c : R) :
    WritesConst
      (forLoop 0 n (fun i grid => forLoop 0 m (fun j grid => vset grid (f i j) c) grid))
      (fun k => ∃ i, 0 ≤ i ∧ i < n ∧ ∃ j, 0 ≤ j ∧ j < m ∧ k = f i j) c :=
  writesConst_forLoop 0 n _ (fun i k => ∃ j, 0 ≤ j ∧ j < m ∧ k = f i j) c
    (fun i _ _ => writesConst_forLoop 0 m _ (fun j k => k = f i j) c
      (fun j _ _ => writesConst_vset (f i j) c))

theorem cell_index_nonneg (gx x y : Int) (hx : 0 ≤ x) (hx' : x < gx) (hy : 0 ≤ y) :
    0 ≤ gx * y ∧ y * gx = gx * y :=
  ⟨Int.mul_nonneg (by omega) hy, Int.mul_comm _ _⟩

theorem cell_index_lt (gx gy x y : Int) (hx : 0 ≤ x) (hx' : x < gx) (hy' : y < gy) :
    gx * y + x < gx * gy := by
  have := Int.mul_le_mul_of_nonneg_left (by omega : y ≤ gy - 1) (by omega : 0 ≤ gx)
  rw [Int.mul_sub, Int.mul_one] at this
  omega

theorem setBCs_cell {R : Type} (gx gy b pl pr pt pb : Int) (tBC lBC bBC rBC : R)
    (v : List R) (hlen : (v.length : Int) = gx * gy) (hbx : b ≤ gx)
    (x y : Int) (hx : 0 ≤ x) (hx' : x < gx) (hy : 0 ≤ y) (hy' : y < gy) :
    (setBCs gx gy b pl pr pt pb tBC lBC bBC rBC v).length = v.length ∧
    (setBCs gx gy b pl pr pt pb tBC lBC bBC rBC v)[(y * gx + x).toNat]? =
      if pl = -1 ∧ x < b then some lBC
      else if pr = -1 ∧ x ≥ gx - b then some rBC
      else if pb = -1 ∧ y ≥ gy - b then some bBC
      else if pt = -1 ∧ y < b then some tBC
      else v[(y * gx + x).toNat]? := by
  obtain ⟨h0, hc⟩ := cell_index_nonneg gx x y hx hx' hy
  have hlt := cell_index_lt gx gy x y hx hx' hy'
  have hK : (((y * gx + x).toNat : Nat) : Int) = gx * y + x := by omega
  have hk : (y * gx + x).toNat < v.length := by omega
  generalize (y * gx + x).toNat = k at hK hk ⊢
  -- the four index sets, at the cell `(x, y)`
  have hT : (pt = -1 ∧ ∃ i, 0 ≤ i ∧ i < gx ∧ ∃ j, 0 ≤ j ∧ j < b ∧ (k : Int) = i + j * gx) ↔
      (pt = -1 ∧ y < b) := by
    refine and_congr_right (fun _ => ⟨?_, fun h => ⟨x, hx, hx', y, hy, h, ?_⟩⟩)
    · rintro ⟨i, hi, hi', j, hj, hj', e⟩
      have := rowmajor_inj gx y x j i hx hx' hi hi' (by linear_combination e - hK)
      omega
    · linear_combination hK
  have hB : (pb = -1 ∧ ∃ i, 0 ≤ i ∧ i < gx ∧ ∃ j, 0 ≤ j ∧ j < b ∧
        (k : Int) = i + gx * (gy - 1) - j * gx) ↔ (pb = -1 ∧ y ≥ gy - b) := by
    refine and_congr_right (fun _ =>
      ⟨?_, fun h => ⟨x, hx, hx', gy - 1 - y, by omega, by omega, ?_⟩⟩)
    · rintro ⟨i, hi, hi', j, hj, hj', e⟩
      have := rowmajor_inj gx y x (gy - 1 - j) i hx hx' hi hi' (by linear_combination e - hK)
      omega
    · linear_combination hK
  have hR : (pr = -1 ∧ ∃ i, 0 ≤ i ∧ i < gy ∧ ∃ j, 0 ≤ j ∧ j < b ∧
        (k : Int) = gx * (i + 1) - 1 - j) ↔ (pr = -1 ∧ x ≥ gx - b) := by
    refine and_congr_right (fun _ =>
      ⟨?_, fun h => ⟨y, hy, hy', gx - 1 - x, by omega, by omega, ?_⟩⟩)
    · rintro ⟨i, hi, hi', j, hj, hj', e⟩
      have := rowmajor_inj gx y x i (gx - 1 - j) hx hx' (by omega) (by omega)
        (by linear_combination e - hK)
      omega
    · linear_combination hK
  have hL : (pl = -1 ∧ ∃ i, 0 ≤ i ∧ i < gy ∧ ∃ j, 0 ≤ j ∧ j < b ∧
        (k : Int) = gx * i + j) ↔ (pl = -1 ∧ x < b) := by
    refine and_congr_right (fun _ => ⟨?_, fun h => ⟨y, hy, hy', x, hx, h, hK⟩⟩)
    rintro ⟨i, hi, hi', j, hj, hj', e⟩
    have := rowmajor_inj gx y x i j hx hx' hj (by omega) (by linear_combination e - hK)
    omega
  -- the four stamps
  unfold setBCs
  dsimp only
  have w1 := writesConst_ite (pt = -1) _ _ tBC
    (writesConst_nest gx b (fun i j => i + j * gx) tBC) v
  dsimp only at w1
  generalize (if pt = -1 then
      forLoop 0 gx (fun i grid => forLoop 0 b (fun j grid => vset grid (i + j * gx) tBC) grid) v
    else v) = v1 at w1 ⊢
  have w2 := writesConst_ite (pb = -1) _ _ bBC
    (writesConst_nest gx b (fun i j => i + gx * (gy - 1) - j * gx) bBC) v1
  dsimp only at w2
  generalize (if pb = -1 then
      forLoop 0 gx (fun i grid =>
        forLoop 0 b (fun j grid => vset grid (i + gx * (gy - 1) - j * gx) bBC) grid) v1
    else v1) = v2 at w2 ⊢
  have w3 := writesConst_ite (pr = -1) _ _ rBC
    (writesConst_nest gy b (fun i j => gx * (i + 1) - 1 - j) rBC) v2
  dsimp only at w3
  generalize (if pr = -1 then
      forLoop 0 gy (fun i grid =>
        forLoop 0 b (fun j grid => vset grid (gx * (i + 1) - 1 - j) rBC) grid) v2
    else v2) = v3 at w3 ⊢
  have w4 := writesConst_ite (pl = -1) _ _ lBC
    (writesConst_nest gy b (fun i j => gx * i + j) lBC) v3
  dsimp only at w4
  generalize (if pl = -1 then
      forLoop 0 gy (fun i grid => forLoop 0 b (fun j grid => vset grid (gx * i + j) lBC) grid) v3
    else v3) = v4 at w4 ⊢
  obtain ⟨l1, g1⟩ := w1
  obtain ⟨l2, g2⟩ := w2
  obtain ⟨l3, g3⟩ := w3
  obtain ⟨l4, g4⟩ := w4
  refine ⟨by rw [l4, l3, l2, l1], ?_⟩
  obtain ⟨a1, n1⟩ := g1 k hk
  obtain ⟨a2, n2⟩ := g2 k (by rw [l1]; exact hk)
  obtain ⟨a3, n3⟩ := g3 k (by rw [l2, l1]; exact hk)
  obtain ⟨a4, n4⟩ := g4 k (by rw [l3, l2, l1]; exact hk)
  rw [hT] at a1 n1
  rw [hB] at a2 n2
  rw [hR] at a3 n3
  rw [hL] at a4 n4
  split_ifs with c4 c3 c2 c1
  · exact a4 c4
  · rw [n4 c4]; exact a3 c3
  · rw [n4 c4, n3 c3]; exact a2 c2
  · rw [n4 c4, n3 c3, n2 c2]; exact a1 c1
  · rw [n4 c4, n3 c3, n2 c2, n1 c1]

theorem setBCs_length {R : Type} (gx gy b pl pr pt pb : Int) (tBC lBC bBC rBC : R)
    (v : List R) :
    (setBCs gx gy b pl pr pt pb tBC lBC bBC rBC v).length = v.length := by
  unfold setBCs
  dsimp only
  have w1 := fun v => (writesConst_ite (pt = -1) _ _ tBC
    (writesConst_nest gx b (fun i j => i + j * gx) tBC) v).1
  have w2 := fun v => (writesConst_ite (pb = -1) _ _ bBC
    (writesConst_nest gx b (fun i j => i + gx * (gy - 1) - j * gx) bBC) v).1
  have w3 := fun v => (writesConst_ite (pr = -1) _ _ rBC
    (writesConst_nest gy b (fun i j => gx * (i + 1) - 1 - j) rBC) v).1
  have w4 := fun v => (writesConst_ite (pl = -1) _ _ lBC
    (writesConst_nest gy b (fun i j => gx * i + j) lBC) v).1
  dsimp only at w1 w2 w3 w4
  rw [w4, w3, w2, w1]

theorem borderSizeOf_some (order b : Int) (h : borderSizeOf order = some b) :
    (order = 2 ∧ b = 1) ∨ (order = 4 ∧ b = 2) ∨ (order = 8 ∧ b = 4) := by
  unfold borderSizeOf at h
  split_ifs at h with h2 h4 h8 <;> simp at h <;> omega

theorem ctor_ok_iff {R : Type} [Zero R] (params : simParams R) (debug : Bool)
    (P rank : Int) (g : Grid R) :
    Grid.ctor params debug P rank = .ok g ↔
      ∃ t b, decomposition params.gridMethod_ params.nx_ params.ny_ P rank = .ok t ∧
        borderSizeOf params.order_ = some b ∧ t.nx_ > 2 * b ∧ t.ny_ > 2 * b ∧
        g = Grid.allocate params debug rank t b := by
  unfold Grid.ctor
  constructor
  · intro h
    split at h
    · exact absurd h (by simp)
    · rename_i t ht
      split at h
      · exact absurd h (by simp)
      · rename_i b hb
        split_ifs at h with h1 h2
        · exact ⟨t, b, ht, hb, by omega, by omega, (Except.ok.inj h).symm⟩
  · rintro ⟨t, b, ht, hb, h1, h2, rfl⟩
    rw [ht]
    dsimp only
    rw [hb]
    dsimp only
    rw [if_neg (by omega), if_neg (by omega)]

theorem vget_append_left {R : Type} [Zero R] (s : List R) (k : Int) (h0 : 0 ≤ k)
    (hk : k < s.length) : vget (s ++ s) k = vget s k := by
  unfold vget
  rw [if_pos h0, if_pos h0, List.getD_eq_getElem?_getD, List.getD_eq_getElem?_getD,
    List.getElem?_append_left (by omega)]

theorem vget_append_right {R : Type} [Zero R] (s : List R) (k : Int) (h0 : 0 ≤ k)
    (hk : k < s.length) : vget (s ++ s) ((s.length : Int) + k) = vget s k := by
  unfold vget
  rw [if_pos h0, if_pos (by omega), List.getD_eq_getElem?_getD, List.getD_eq_getElem?_getD,
    List.getElem?_append_right (by omega)]
  congr 2
  omega

/-- The cell values of both generations of an allocated grid. -/
theorem allocate_read {R : Type} [Zero R] (params : simParams R) (debug : Bool) (rank : Int)
    (t : Topology) (b : Int) (hnx : t.nx_ > 2 * b)
    (sel x y : Int) (hsel : sel = 0 ∨ sel = 1)
    (hx : 0 ≤ x) (hx' : x < t.nx_ + 2 * b) (hy : 0 ≤ y) (hy' : y < t.ny_ + 2 * b) :
    (Grid.allocate params debug rank t b).read sel x y =
      if t.procLeft_ = -1 ∧ x < b then params.leftBC
      else if t.procRight_ = -1 ∧ x ≥ t.nx_ + 2 * b - b then params.rightBC
      else if t.procBot_ = -1 ∧ y ≥ t.ny_ + 2 * b - b then params.bottomBC
      else if t.procTop_ = -1 ∧ y < b then params.topBC
      else params.ic_ := by
  have hpos : 0 ≤ (t.nx_ + 2 * b) * (t.ny_ + 2 * b) :=
    Int.mul_nonneg (by omega) (by omega)
  have hrep : ((List.replicate ((t.nx_ + 2 * b) * (t.ny_ + 2 * b)).toNat params.ic_).length : Int)
      = (t.nx_ + 2 * b) * (t.ny_ + 2 * b) := by
    rw [List.length_replicate]; omega
  obtain ⟨hl, hv⟩ := setBCs_cell (t.nx_ + 2 * b) (t.ny_ + 2 * b) b t.procLeft_ t.procRight_
    t.procTop_ t.procBot_ params.topBC params.leftBC params.bottomBC params.rightBC
    (List.replicate ((t.nx_ + 2 * b) * (t.ny_ + 2 * b)).toNat params.ic_) hrep (by omega)
    x y hx hx' hy hy'
  obtain ⟨h0, hc⟩ := cell_index_nonneg (t.nx_ + 2 * b) x y hx hx' hy
  have hlt := cell_index_lt (t.nx_ + 2 * b) (t.ny_ + 2 * b) x y hx hx' hy'
  have hrd : (Grid.allocate params debug rank t b).read sel x y =
      vget (setBCs (t.nx_ + 2 * b) (t.ny_ + 2 * b) b t.procLeft_ t.procRight_
        t.procTop_ t.procBot_ params.topBC params.leftBC params.bottomBC params.rightBC
        (List.replicate ((t.nx_ + 2 * b) * (t.ny_ + 2 * b)).toNat params.ic_))
        (y * (t.nx_ + 2 * b) + x) := by
    unfold Grid.read Grid.allocate
    dsimp only
    rcases hsel with rfl | rfl
    · rw [show (0 : Int) * (t.nx_ + 2 * b) * (t.ny_ + 2 * b) + y * (t.nx_ + 2 * b) + x
        = y * (t.nx_ + 2 * b) + x by ring]
      exact vget_append_left _ _ (by omega) (by rw [hl]; omega)
    · have e : (1 : Int) * (t.nx_ + 2 * b) * (t.ny_ + 2 * b) + y * (t.nx_ + 2 * b) + x
          = ((setBCs (t.nx_ + 2 * b) (t.ny_ + 2 * b) b t.procLeft_ t.procRight_
              t.procTop_ t.procBot_ params.topBC params.leftBC params.bottomBC params.rightBC
              (List.replicate ((t.nx_ + 2 * b) * (t.ny_ + 2 * b)).toNat params.ic_)).length : Int)
            + (y * (t.nx_ + 2 * b) + x) := by
        rw [hl, hrep]; ring
      rw [e]
      exact vget_append_right _ _ (by omega) (by rw [hl]; omega)
  rw [hrd]
  unfold vget
  rw [if_pos (by omega), List.getD_eq_getElem?_getD, hv]
  have hic : (List.replicate ((t.nx_ + 2 * b) * (t.ny_ + 2 * b)).toNat params.ic_)[
      (y * (t.nx_ + 2 * b) + x).toNat]? = some params.ic_ := by
    rw [List.getElem?_replicate, if_pos (by omega)]
  rw [hic]
  split_ifs <;> rfl

/-- The cell values of a constructed grid, by the stamping order. -/
theorem ctor_read {R : Type} [Zero R] (params : simParams R) (debug : Bool) (P rank : Int)
    (g : Grid R) (h : Grid.ctor params debug P rank = .ok g)
    (sel x y : Int) (hsel : sel = 0 ∨ sel = 1)
    (hx : 0 ≤ x) (hx' : x < g.gx_) (hy : 0 ≤ y) (hy' : y < g.gy_) :
    g.read sel x y =
      if g.procLeft_ = -1 ∧ x < g.borderSize_ then params.leftBC
      else if g.procRight_ = -1 ∧ x ≥ g.gx_ - g.borderSize_ then params.rightBC
      else if g.procBot_ = -1 ∧ y ≥ g.gy_ - g.borderSize_ then params.bottomBC
      else if g.procTop_ = -1 ∧ y < g.borderSize_ then params.topBC
      else params.ic_ := by
  obtain ⟨t, b, _, _, hnx, _, rfl⟩ := (ctor_ok_iff params debug P rank g).1 h
  exact allocate_read params debug rank t b hnx sel x y hsel hx hx' hy hy'

/-- The default parameters on a single process: the constructor succeeds. -/
theorem ctor_default {R : Type} [Field R] (debug : Bool) :
    Grid.ctor (simParams.ctor : simParams R) debug 1 0 = .ok
      (Grid.allocate (simParams.ctor : simParams R) debug 0
        { nx_ := 10, ny_ := 10, procLeft_ := -1, procRight_ := -1, procTop_ := -1,
          procBot_ := -1 } 1) := by
  rw [ctor_ok_iff]
  refine ⟨_, 1, ?_, ?_, ?_, ?_, rfl⟩
  · simp [simParams.ctor, simParams.calcDtCFL, decomposition]
  · simp [simParams.ctor, simParams.calcDtCFL, borderSizeOf]
  · decide
  · decide

/-- Claim C6: in both generations of a constructed grid the cell `(x, y)` of the
`gx × gy` array holds `leftBC` if there is no left neighbour and `x < border`,
otherwise `rightBC` if there is no right neighbour and `x ≥ gx - border`,
otherwise `bottomBC` if there is no down neighbour and `y ≥ gy - border`,
otherwise `topBC` if there is no up neighbour and `y < border`, otherwise the
initial condition; so on a column of a left or right domain edge the value is
the left or right boundary value whatever the row. -/
theorem construction_cell_values {R : Type} [Zero R] (params : simParams R) (debug : Bool)
    (P rank : Int) (g : Grid R) (h : Grid.ctor params debug P rank = .ok g)
    (sel x y : Int) (hsel : sel = 0 ∨ sel = 1)
    (hx : 0 ≤ x) (hx' : x < g.gx_) (hy : 0 ≤ y) (hy' : y < g.gy_) :
    g.read sel x y =
      (if g.procLeft_ = -1 ∧ x < g.borderSize_ then params.leftBC
       else if g.procRight_ = -1 ∧ x ≥ g.gx_ - g.borderSize_ then params.rightBC
       else if g.procBot_ = -1 ∧ y ≥ g.gy_ - g.borderSize_ then params.bottomBC
       else if g.procTop_ = -1 ∧ y < g.borderSize_ then params.topBC
       else params.ic_) ∧
    (g.procLeft_ = -1 ∧ x < g.borderSize_ → g.read sel x y = params.leftBC) ∧
    (g.procRight_ = -1 ∧ x ≥ g.gx_ - g.borderSize_ →
      g.read sel x y = params.leftBC ∨ g.read sel x y = params.rightBC) := by
  have e := ctor_read params debug P rank g h sel x y hsel hx hx' hy hy'
  refine ⟨e, ?_, ?_⟩
  · intro hl; rw [e, if_pos hl]
  · intro hr
    rw [e]
    by_cases hl : g.procLeft_ = -1 ∧ x < g.borderSize_
    · left; rw [if_pos hl]
    · right; rw [if_neg hl, if_pos hr]

theorem construction_cell_values_witness :
    (Grid.allocate (simParams.ctor : simParams ℚ) false 0
        { nx_ := 10, ny_ := 10, procLeft_ := -1, procRight_ := -1, procTop_ := -1,
          procBot_ := -1 } 1).read 1 0 11 = (10 : ℚ) := by
  have h := (construction_cell_values (simParams.ctor : simParams ℚ) false 1 0 _
    (ctor_default false) 1 0 11 (Or.inr rfl) (by decide) (by decide) (by decide) (by decide)).1
  rw [h]
  rfl

/-- Claim C7, amended: in a constructed grid (border size 1, 2 or 4), in both
generations, every cell in the columns of a left or right edge without
neighbour holds the boundary value of that edge; every cell in the rows of a top or
bottom edge without neighbour holds the boundary value of that edge unless the cell
also lies in the columns of a left or right edge without neighbour. -/
theorem boundary_invariant {R : Type} [Zero R] (params : simParams R) (debug : Bool)
    (P rank : Int) (g : Grid R) (h : Grid.ctor params debug P rank = .ok g)
    (sel x y : Int) (hsel : sel = 0 ∨ sel = 1)
    (hx : 0 ≤ x) (hx' : x < g.gx_) (hy : 0 ≤ y) (hy' : y < g.gy_) :
    (g.borderSize_ = 1 ∨ g.borderSize_ = 2 ∨ g.borderSize_ = 4) ∧
    (g.procLeft_ = -1 → x < g.borderSize_ → g.read sel x y = params.leftBC) ∧
    (g.procRight_ = -1 → x ≥ g.gx_ - g.borderSize_ → g.read sel x y = params.rightBC) ∧
    (g.procBot_ = -1 → y ≥ g.gy_ - g.borderSize_ →
      ¬ (g.procLeft_ = -1 ∧ x < g.borderSize_) →
      ¬ (g.procRight_ = -1 ∧ x ≥ g.gx_ - g.borderSize_) →
      g.read sel x y = params.bottomBC) ∧
    (g.procTop_ = -1 → y < g.borderSize_ →
      ¬ (g.procLeft_ = -1 ∧ x < g.borderSize_) →
      ¬ (g.procRight_ = -1 ∧ x ≥ g.gx_ - g.borderSize_) →
      g.read sel x y = params.topBC) := by
  have e := ctor_read params debug P rank g h sel x y hsel hx hx' hy hy'
  obtain ⟨t, b, _, hb, hnx, hny, rfl⟩ := (ctor_ok_iff params debug P rank g).1 h
  have hb' : b = 1 ∨ b = 2 ∨ b = 4 := by
    rcases borderSizeOf_some _ _ hb with ⟨_, h⟩ | ⟨_, h⟩ | ⟨_, h⟩ <;> omega
  have hgx : (Grid.allocate params debug rank t b).gx_ = t.nx_ + 2 * b := rfl
  have hgy : (Grid.allocate params debug rank t b).gy_ = t.ny_ + 2 * b := rfl
  have hbs : (Grid.allocate params debug rank t b).borderSize_ = b := rfl
  rw [hgx] at hx'
  rw [hgy] at hy'
  rw [e]
  simp only [hgx, hgy, hbs]
  refine ⟨hb', ?_, ?_, ?_, ?_⟩
  · intro h1 h2
    rw [if_pos ⟨h1, h2⟩]
  · intro h1 h2
    rw [if_neg (by omega), if_pos ⟨h1, h2⟩]
  · intro h1 h2 h3 h4
    rw [if_neg h3, if_neg h4, if_pos ⟨h1, h2⟩]
  · intro h1 h2 h3 h4
    rw [if_neg h3, if_neg h4, if_neg (by omega), if_pos ⟨h1, h2⟩]

theorem boundary_invariant_witness :
    (Grid.allocate (simParams.ctor : simParams ℚ) false 0
        { nx_ := 10, ny_ := 10, procLeft_ := -1, procRight_ := -1, procTop_ := -1,
          procBot_ := -1 } 1).read 0 3 0 = (simParams.ctor : simParams ℚ).topBC :=
  (boundary_invariant (simParams.ctor : simParams ℚ) false 1 0 _
    (ctor_default false) 0 3 0 (Or.inl rfl) (by decide) (by decide) (by decide)
    (by decide)).2.2.2.2 rfl (by decide) (by decide) (by decide)

/-- Claim C7 as stated fails at a corner: with the default parameters on a
single process, the cell `(0, 0)` lies in the rows of the top edge, which has no
neighbour, and holds the left boundary value 10, not the top boundary value 0. -/
theorem boundary_invariant_counterexample :
    ∃ g : Grid ℚ, Grid.ctor (simParams.ctor : simParams ℚ) false 1 0 = .ok g ∧
      g.procTop_ = -1 ∧ (0 : Int) < g.borderSize_ ∧
      g.read 0 0 0 = 10 ∧ (simParams.ctor : simParams ℚ).topBC = 0 ∧
      g.read 0 0 0 ≠ (simParams.ctor : simParams ℚ).topBC := by
  have e := ctor_read (simParams.ctor : simParams ℚ) false 1 0 _
    (ctor_default false) 0 0 0 (Or.inl rfl) (by decide) (by decide) (by decide) (by decide)
  have e10 : (Grid.allocate (simParams.ctor : simParams ℚ) false 0
      { nx_ := 10, ny_ := 10, procLeft_ := -1, procRight_ := -1, procTop_ := -1,
        procBot_ := -1 } 1).read 0 0 0 = 10 := by
    rw [e]; rfl
  have et : (simParams.ctor : simParams ℚ).topBC = 0 := rfl
  refine ⟨_, ctor_default false, rfl, by decide, e10, et, ?_⟩
  rw [e10, et]
  norm_num

/-- Claim C9: the border size is 1, 2, 4 for order 2, 4, 8; once the
decomposition step has succeeded and the order is supported, construction is
fatal unless local `nx > 2 * border` and local `ny > 2 * border` and succeeds
otherwise; every constructed grid has `nx > 2 * border`, `ny > 2 * border`,
`gx = nx + 2 * border`, `gy = ny + 2 * border` and `2 * gx * gy` cells. -/
theorem halo_size_precondition {R : Type} [Zero R] (params : simParams R) (debug : Bool)
    (P rank : Int) :
    (borderSizeOf 2 = some 1 ∧ borderSizeOf 4 = some 2 ∧ borderSizeOf 8 = some 4) ∧
    (∀ t b, decomposition params.gridMethod_ params.nx_ params.ny_ P rank = .ok t →
      borderSizeOf params.order_ = some b →
      (¬ (t.nx_ > 2 * b ∧ t.ny_ > 2 * b) →
        Grid.ctor params debug P rank = .error Fatal.haloTooLarge) ∧
      (t.nx_ > 2 * b ∧ t.ny_ > 2 * b →
        ∃ g, Grid.ctor params debug P rank = .ok g ∧ g.nx_ = t.nx_ ∧ g.ny_ = t.ny_ ∧
          g.borderSize_ = b)) ∧
    (∀ g, Grid.ctor params debug P rank = .ok g →
      borderSizeOf params.order_ = some g.borderSize_ ∧
      g.nx_ > 2 * g.borderSize_ ∧ g.ny_ > 2 * g.borderSize_ ∧
      g.gx_ = g.nx_ + 2 * g.borderSize_ ∧ g.gy_ = g.ny_ + 2 * g.borderSize_ ∧
      (g.grid_.length : Int) = 2 * g.gx_ * g.gy_) := by
  refine ⟨⟨rfl, rfl, rfl⟩, ?_, ?_⟩
  · intro t b ht hb
    constructor
    · intro hn
      unfold Grid.ctor
      rw [ht]; dsimp only
      rw [hb]; dsimp only
      split_ifs <;> first | rfl | (exfalso; apply hn; constructor <;> omega)
    · rintro ⟨h1, h2⟩
      exact ⟨_, (ctor_ok_iff params debug P rank _).2 ⟨t, b, ht, hb, h1, h2, rfl⟩,
        rfl, rfl, rfl⟩
  · intro g h
    obtain ⟨t, b, _, hb, hnx, hny, rfl⟩ := (ctor_ok_iff params debug P rank g).1 h
    have hb' : b = 1 ∨ b = 2 ∨ b = 4 := by
      rcases borderSizeOf_some _ _ hb with ⟨_, h⟩ | ⟨_, h⟩ | ⟨_, h⟩ <;> omega
    refine ⟨hb, hnx, hny, rfl, rfl, ?_⟩
    have hpos : 0 ≤ (t.nx_ + 2 * b) * (t.ny_ + 2 * b) :=
      Int.mul_nonneg (by omega) (by omega)
    show (((setBCs _ _ _ _ _ _ _ _ _ _ _ _ ++ setBCs _ _ _ _ _ _ _ _ _ _ _ _ : List R).length
      : Nat) : Int) = 2 * (t.nx_ + 2 * b) * (t.ny_ + 2 * b)
    rw [List.length_append, setBCs_length, List.length_replicate]
    have e : 2 * (t.nx_ + 2 * b) * (t.ny_ + 2 * b)
        = 2 * ((t.nx_ + 2 * b) * (t.ny_ + 2 * b)) := by ring
    rw [e]
    omega

theorem halo_size_precondition_witness :
    ∃ g : Grid ℚ, Grid.ctor (simParams.ctor : simParams ℚ) false 1 0 = .ok g ∧
      g.nx_ = 10 ∧ g.ny_ = 10 ∧ g.borderSize_ = 1 ∧
      (g.grid_.length : Int) = 2 * g.gx_ * g.gy_ := by
  obtain ⟨g, hg, h1, h2, h3⟩ :=
    ((halo_size_precondition (simParams.ctor : simParams ℚ) false 1 0).2.1
      { nx_ := 10, ny_ := 10, procLeft_ := -1, procRight_ := -1, procTop_ := -1,
        procBot_ := -1 } 1
      (by simp [simParams.ctor, simParams.calcDtCFL, decomposition])
      (by simp [simParams.ctor, simParams.calcDtCFL, borderSizeOf])).2
      ⟨by decide, by decide⟩
  exact ⟨g, hg, h1, h2, h3,
    ((halo_size_precondition (simParams.ctor : simParams ℚ) false 1 0).2.2 g hg).2.2.2.2.2⟩

/-! ## A single process -/

theorem forLoop_preserves {σ : Type} (Q : σ → Prop) (lo hi : Int) (body : Int → σ → σ)
    (s : σ) (h0 : Q s) (hstep : ∀ i s, Q s → Q (body i s)) : Q (forLoop lo hi body s) :=
  forLoop_induction (fun _ s => Q s) lo hi body s h0 (fun i s _ _ h => hstep i s h)

theorem forLoop_congr_inv {σ : Type} (Q : σ → Prop) (lo hi : Int) (f g : Int → σ → σ)
    (s : σ) (h0 : Q s) (hstep : ∀ i s, Q s → f i s = g i s ∧ Q (f i s)) :
    forLoop lo hi f s = forLoop lo hi g s := by
  have := forLoop_induction
    (fun i (p : σ × σ) => p.1 = p.2 ∧ Q p.1) lo hi
    (fun i p => (f i p.1, g i p.2)) (s, s) ⟨rfl, h0⟩
    (by
      rintro i ⟨a, b⟩ _ _ ⟨hab, hq⟩
      dsimp only at hab hq ⊢
      subst hab
      exact hstep i a hq)
  have hfst : ∀ n : Nat, ∀ p : σ × σ,
      ((List.range n).foldl (fun acc (k : Nat) =>
          (fun i (p : σ × σ) => (f i p.1, g i p.2)) (lo + Int.ofNat k) acc) p) =
        ((List.range n).foldl (fun acc (k : Nat) => f (lo + Int.ofNat k) acc) p.1,
         (List.range n).foldl (fun acc (k : Nat) => g (lo + Int.ofNat k) acc) p.2) := by
    intro n
    induction n with
    | zero => intro p; rfl
    | succ m ih =>
      intro p
      rw [List.range_succ, List.foldl_append, List.foldl_append, List.foldl_append, ih]
      rfl
  unfold forLoop at this ⊢
  rw [hfst] at this
  exact this.1

theorem singleProcess_write {R : Type} (g : Grid R) (sel x y : Int) (v : R) :
    (g.write sel x y v).SingleProcess ↔ g.SingleProcess := Iff.rfl

theorem singleProcess_swapState {R : Type} (g : Grid R) :
    g.swapState.SingleProcess ↔ g.SingleProcess := Iff.rfl

theorem singleProcess_interiorPass {R : Type} (st : Stencil R) (xcfl ycfl : R)
    (curr prev : Int) (g : Grid R) (h : g.SingleProcess) :
    (interiorPass st xcfl ycfl curr prev g).SingleProcess := by
  unfold interiorPass
  exact forLoop_preserves _ _ _ _ _ h (fun y g hg =>
    forLoop_preserves _ _ _ _ _ hg (fun x g hg => hg))

theorem singleProcess_topBottomPass {R : Type} (st : Stencil R) (xcfl ycfl : R)
    (curr prev : Int) (g : Grid R) (h : g.SingleProcess) :
    (topBottomPass st xcfl ycfl curr prev g).SingleProcess := by
  unfold topBottomPass
  exact forLoop_preserves _ _ _ _ _ h (fun y g hg =>
    forLoop_preserves _ _ _ _ _ hg (fun x g hg => hg))

theorem singleProcess_leftRightPass {R : Type} (st : Stencil R) (xcfl ycfl : R)
    (curr prev : Int) (g : Grid R) (h : g.SingleProcess) :
    (leftRightPass st xcfl ycfl curr prev g).SingleProcess := by
  unfold leftRightPass
  exact forLoop_preserves _ _ _ _ _ h (fun y g hg =>
    forLoop_preserves _ _ _ _ _ hg (fun x g hg => hg))

theorem transfer_singleProcess {R : Type} [Zero R] (g : Grid R) (h : g.SingleProcess) :
    g.transferHaloDataASync = g := by
  obtain ⟨h1, h2, h3, h4, _, _⟩ := h
  unfold Grid.transferHaloDataASync
  simp [h1, h2, h3, h4]

theorem waitForSends_singleProcess {R : Type} (g : Grid R) (h : g.SingleProcess) :
    g.waitForSends = g := by
  obtain ⟨_, _, _, _, h5, _⟩ := h
  unfold Grid.waitForSends forLoop
  simp [h5]

theorem waitForRecvs_singleProcess {R : Type} [Zero R] (inbox : Int → List R) (g : Grid R)
    (h : g.SingleProcess) : g.waitForRecvs inbox = g := by
  obtain ⟨h1, h2, _, _, _, h6⟩ := h
  unfold Grid.waitForRecvs forLoop
  simp [h1, h2, h6]

theorem branch_singleProcess {R : Type} [Zero R] (st : Stencil R) (params : simParams R)
    (inbox : Int → List R) (curr prev : Int) (g : Grid R) (h : g.SingleProcess) :
    syncBranch st params curr prev g = asyncBranch st params inbox curr prev g ∧
    (syncBranch st params curr prev g).SingleProcess := by
  have hi := singleProcess_interiorPass st params.xcfl_ params.ycfl_ curr prev g h
  unfold syncBranch asyncBranch
  dsimp only
  rw [waitForSends_singleProcess _ hi, waitForRecvs_singleProcess inbox _ hi]
  exact ⟨rfl, singleProcess_leftRightPass _ _ _ _ _ _
    (singleProcess_topBottomPass _ _ _ _ _ _ hi)⟩

theorem computation_singleProcess {R : Type} [Ring R] (env env' : Int → Int → List R)
    (g : Grid R) (params : simParams R) (h : g.SingleProcess) :
    syncComputation env g params = asyncComputation env' g params := by
  unfold syncComputation asyncComputation
  apply forLoop_congr_inv Grid.SingleProcess _ _ _ _ _ h
  intro i g hg
  have hs : g.swapState.SingleProcess := hg
  dsimp only
  rw [transfer_singleProcess _ hs, waitForSends_singleProcess _ hs,
    waitForRecvs_singleProcess _ _ hs]
  split_ifs
  · exact branch_singleProcess _ _ _ _ _ _ hs
  · exact branch_singleProcess _ _ _ _ _ _ hs
  · exact branch_singleProcess _ _ _ _ _ _ hs
  · exact ⟨rfl, hs⟩

theorem ctor_singleProcess {R : Type} [Zero R] (params : simParams R) (debug : Bool)
    (g : Grid R) (h : Grid.ctor params debug 1 0 = .ok g) : g.SingleProcess := by
  obtain ⟨t, b, ht, _, _, _, rfl⟩ := (ctor_ok_iff params debug 1 0 g).1 h
  have hp : t.procLeft_ = -1 ∧ t.procRight_ = -1 ∧ t.procTop_ = -1 ∧ t.procBot_ = -1 := by
    unfold decomposition at ht
    have hs : isqrt 1 = 1 := by simp [isqrt]
    simp only [hs] at ht
    split_ifs at ht <;> (cases ht; exact ⟨rfl, rfl, rfl, rfl⟩)
  obtain ⟨h1, h2, h3, h4⟩ := hp
  refine ⟨h1, h2, h3, h4, ?_, ?_⟩ <;>
    simp [Grid.allocate, numberOfRequest, h1, h2, h3, h4]

/-- Claim C10: a grid constructed in a run with one process has no neighbours and
no request slots; on every such grid, whatever its cell contents, for every
parameter set (every order, every iteration count) `syncComputation` and
`asyncComputation` end in the same state, so with the same contents of both
generations and the same current-generation index; in particular on the grid
constructed from the default parameters (order 2, 10 × 10, initial condition 5,
boundary values top 0, left 10, bottom 0, right 10) for every iteration
count. -/
theorem sync_async_single_process {R : Type} [Field R] (params : simParams R) (debug : Bool)
    (env env' : Int → Int → List R) :
    (∀ g : Grid R, Grid.ctor params debug 1 0 = .ok g → g.SingleProcess) ∧
    (∀ g : Grid R, g.SingleProcess →
      syncComputation env g params = asyncComputation env' g params ∧
      (syncComputation env g params).grid_ = (asyncComputation env' g params).grid_ ∧
      (syncComputation env g params).curr_ = (asyncComputation env' g params).curr_) ∧
    ((simParams.ctor : simParams R).order_ = 2 ∧ (simParams.ctor : simParams R).nx_ = 10 ∧
      (simParams.ctor : simParams R).ny_ = 10 ∧ (simParams.ctor : simParams R).ic_ = 5 ∧
      (simParams.ctor : simParams R).topBC = 0 ∧ (simParams.ctor : simParams R).leftBC = 10 ∧
      (simParams.ctor : simParams R).bottomBC = 0 ∧
      (simParams.ctor : simParams R).rightBC = 10) ∧
    (∀ N : Int, ∃ g0 : Grid R,
      Grid.ctor (simParams.ctor : simParams R) false 1 0 = .ok g0 ∧
      syncComputation env g0 { (simParams.ctor : simParams R) with iters_ := N } =
        asyncComputation env' g0 { (simParams.ctor : simParams R) with iters_ := N }) := by
  refine ⟨fun g h => ctor_singleProcess params debug g h, ?_, ?_, ?_⟩
  · intro g h
    have e := computation_singleProcess env env' g params h
    exact ⟨e, congrArg Grid.grid_ e, congrArg Grid.curr_ e⟩
  · simp [simParams.ctor, simParams.calcDtCFL]
  · intro N
    exact ⟨_, ctor_default false,
      computation_singleProcess env env' _ _
        (ctor_singleProcess _ false _ (ctor_default false))⟩

theorem sync_async_single_process_witness :
    (Grid.allocate (simParams.ctor : simParams ℚ) false 0
        { nx_ := 10, ny_ := 10, procLeft_ := -1, procRight_ := -1, procTop_ := -1,
          procBot_ := -1 } 1).SingleProcess ∧
    syncComputation (fun _ _ => [])
        (Grid.allocate (simParams.ctor : simParams ℚ) false 0
          { nx_ := 10, ny_ := 10, procLeft_ := -1, procRight_ := -1, procTop_ := -1,
            procBot_ := -1 } 1) (simParams.ctor : simParams ℚ) =
      asyncComputation (fun _ _ => [])
        (Grid.allocate (simParams.ctor : simParams ℚ) false 0
          { nx_ := 10, ny_ := 10, procLeft_ := -1, procRight_ := -1, procTop_ := -1,
            procBot_ := -1 } 1) (simParams.ctor : simParams ℚ) :=
  ⟨⟨rfl, rfl, rfl, rfl, rfl, rfl⟩,
    ((sync_async_single_process (simParams.ctor : simParams ℚ) false (fun _ _ => [])
      (fun _ _ => [])).2.1 _ ⟨rfl, rfl, rfl, rfl, rfl, rfl⟩).1⟩

/-! ## Generation indices -/

theorem swapState_valid {R : Type} (g : Grid R)
    (h : (g.curr_ = 0 ∧ g.prev_ = 1) ∨ (g.curr_ = 1 ∧ g.prev_ = 0)) :
    ((g.swapState.curr_ = 0 ∧ g.swapState.prev_ = 1) ∨
      (g.swapState.curr_ = 1 ∧ g.swapState.prev_ = 0)) ∧
    g.swapState.curr_ = g.prev_ ∧ g.swapState.prev_ = g.curr_ := by
  unfold Grid.swapState
  dsimp only
  rcases h with ⟨h1, h2⟩ | ⟨h1, h2⟩
  · rw [h1, h2]; exact ⟨Or.inr ⟨by decide, rfl⟩, by decide, rfl⟩
  · rw [h1, h2]; exact ⟨Or.inl ⟨by decide, rfl⟩, by decide, rfl⟩

theorem swapState_iterate {R : Type} (g : Grid R)
    (h : (g.curr_ = 0 ∧ g.prev_ = 1) ∨ (g.curr_ = 1 ∧ g.prev_ = 0)) (n : Nat) :
    (((Grid.swapState^[n]) g).curr_ = 0 ∧ ((Grid.swapState^[n]) g).prev_ = 1 ∨
      ((Grid.swapState^[n]) g).curr_ = 1 ∧ ((Grid.swapState^[n]) g).prev_ = 0) ∧
    ((Grid.swapState^[n]) g).grid_ = g.grid_ := by
  induction n with
  | zero => exact ⟨h, rfl⟩
  | succ m ih =>
    rw [Function.iterate_succ_apply']
    exact ⟨(swapState_valid _ ih.1).1, ih.2⟩

/-- Claim C12: a constructed grid has `curr = 1` and `prev = 0`; after any number
`n` of `swapState` calls both indices are in `{0, 1}` and differ; one more
`swapState` exchanges the two indices, two more restore the state, and no call
changes the storage `grid_`. -/
theorem generation_index_invariant {R : Type} [Zero R] (params : simParams R) (debug : Bool)
    (P rank : Int) (g : Grid R) (h : Grid.ctor params debug P rank = .ok g) (n : Nat) :
    g.curr_ = 1 ∧ g.prev_ = 0 ∧
    (((Grid.swapState^[n]) g).curr_ = 0 ∨ ((Grid.swapState^[n]) g).curr_ = 1) ∧
    (((Grid.swapState^[n]) g).prev_ = 0 ∨ ((Grid.swapState^[n]) g).prev_ = 1) ∧
    ((Grid.swapState^[n]) g).curr_ ≠ ((Grid.swapState^[n]) g).prev_ ∧
    ((Grid.swapState^[n]) g).swapState.curr_ = ((Grid.swapState^[n]) g).prev_ ∧
    ((Grid.swapState^[n]) g).swapState.prev_ = ((Grid.swapState^[n]) g).curr_ ∧
    ((Grid.swapState^[n]) g).swapState.swapState = (Grid.swapState^[n]) g ∧
    ((Grid.swapState^[n]) g).grid_ = g.grid_ ∧
    ((Grid.swapState^[n]) g).swapState.grid_ = ((Grid.swapState^[n]) g).grid_ := by
  obtain ⟨t, b, _, _, _, _, rfl⟩ := (ctor_ok_iff params debug P rank g).1 h
  have h0 : ((Grid.allocate params debug rank t b).curr_ = 0 ∧
      (Grid.allocate params debug rank t b).prev_ = 1) ∨
      ((Grid.allocate params debug rank t b).curr_ = 1 ∧
      (Grid.allocate params debug rank t b).prev_ = 0) := Or.inr ⟨rfl, rfl⟩
  obtain ⟨hv, hg⟩ := swapState_iterate _ h0 n
  generalize (Grid.swapState^[n]) (Grid.allocate params debug rank t b) = gn at hv hg ⊢
  obtain ⟨hv1, hc, hp⟩ := swapState_valid gn hv
  obtain ⟨_, hc2, hp2⟩ := swapState_valid _ hv1
  refine ⟨rfl, rfl, ?_, ?_, ?_, hc, hp, ?_, hg, rfl⟩
  · rcases hv with ⟨a, _⟩ | ⟨a, _⟩ <;> simp [a]
  · rcases hv with ⟨_, a⟩ | ⟨_, a⟩ <;> simp [a]
  · rcases hv with ⟨a, c⟩ | ⟨a, c⟩ <;> simp [a, c]
  · rw [hp] at hc2
    rw [hc] at hp2
    cases gn
    simp only [Grid.swapState] at hc2 hp2 ⊢
    simp only [Grid.mk.injEq, true_and, and_true]
    exact ⟨hc2, hp2⟩

theorem generation_index_invariant_witness :
    ((Grid.swapState^[3]) (Grid.allocate (simParams.ctor : simParams ℚ) false 0
        { nx_ := 10, ny_ := 10, procLeft_ := -1, procRight_ := -1, procTop_ := -1,
          procBot_ := -1 } 1)).curr_ ≠
    ((Grid.swapState^[3]) (Grid.allocate (simParams.ctor : simParams ℚ) false 0
        { nx_ := 10, ny_ := 10, procLeft_ := -1, procRight_ := -1, procTop_ := -1,
          procBot_ := -1 } 1)).prev_ :=
  (generation_index_invariant (simParams.ctor : simParams ℚ) false 1 0 _
    (ctor_default false) 3).2.2.2.2.1

/-! ## Stability of the time step -/

/-- Claim C13: for order 2, 4 or 8 and positive `dx`, `dy`, `alpha`, the
coefficients `xcfl` and `ycfl` assigned by `calcDtCFL` are both strictly less
than `0.5`, in exact arithmetic over an ordered field. -/
theorem cfl_stability {R : Type} [LinearOrderedField R] (p : simParams R)
    (ho : p.order_ = 2 ∨ p.order_ = 4 ∨ p.order_ = 8)
    (hdx : 0 < p.dx_) (hdy : 0 < p.dy_) (ha : 0 < p.alpha_) :
    p.calcDtCFL.xcfl_ < 0.5 ∧ p.calcDtCFL.ycfl_ < 0.5 := by
  have hx2 : 0 < p.dx_ * p.dx_ := mul_pos hdx hdx
  have hy2 : 0 < p.dy_ * p.dy_ := mul_pos hdy hdy
  have hs : 0 < p.dx_ * p.dx_ + p.dy_ * p.dy_ := add_pos hx2 hy2
  have hdx0 : p.dx_ ≠ 0 := ne_of_gt hdx
  have hdy0 : p.dy_ ≠ 0 := ne_of_gt hdy
  have ha0 : p.alpha_ ≠ 0 := ne_of_gt ha
  have hs0 : p.dx_ * p.dx_ + p.dy_ * p.dy_ ≠ 0 := ne_of_gt hs
  have e5 : (0.5 : R) = 1 / 2 := by norm_num
  have ec : (0.5 - 0.0001 : R) = 4999 / 10000 := by norm_num
  rcases ho with h | h | h
  · simp only [simParams.calcDtCFL, h, if_true]
    rw [ec, e5]
    have kx : p.alpha_ * (4999 / 10000 * (p.dx_ * p.dx_ * p.dy_ * p.dy_) /
        (p.alpha_ * (p.dx_ * p.dx_ + p.dy_ * p.dy_))) / (p.dx_ * p.dx_) =
        4999 / 10000 * (p.dy_ * p.dy_) / (p.dx_ * p.dx_ + p.dy_ * p.dy_) := by
      field_simp; ring
    have ky : p.alpha_ * (4999 / 10000 * (p.dx_ * p.dx_ * p.dy_ * p.dy_) /
        (p.alpha_ * (p.dx_ * p.dx_ + p.dy_ * p.dy_))) / (p.dy_ * p.dy_) =
        4999 / 10000 * (p.dx_ * p.dx_) / (p.dx_ * p.dx_ + p.dy_ * p.dy_) := by
      field_simp; ring
    rw [kx, ky, div_lt_iff₀ hs, div_lt_iff₀ hs]
    constructor <;> linarith
  · simp only [simParams.calcDtCFL, h, if_true, show ((4 : Int) = 2) = False from by simp,
      if_false]
    rw [ec, e5]
    have kx : p.alpha_ * (4999 / 10000 * (12 * p.dx_ * p.dx_ * p.dy_ * p.dy_) /
        (16 * p.alpha_ * (p.dx_ * p.dx_ + p.dy_ * p.dy_))) / (12 * p.dx_ * p.dx_) =
        4999 / 10000 * (p.dy_ * p.dy_) / (16 * (p.dx_ * p.dx_ + p.dy_ * p.dy_)) := by
      field_simp; ring
    have ky : p.alpha_ * (4999 / 10000 * (12 * p.dx_ * p.dx_ * p.dy_ * p.dy_) /
        (16 * p.alpha_ * (p.dx_ * p.dx_ + p.dy_ * p.dy_))) / (12 * p.dy_ * p.dy_) =
        4999 / 10000 * (p.dx_ * p.dx_) / (16 * (p.dx_ * p.dx_ + p.dy_ * p.dy_)) := by
      field_simp; ring
    rw [kx, ky, div_lt_iff₀ (by positivity), div_lt_iff₀ (by positivity)]
    constructor <;> linarith
  · simp only [simParams.calcDtCFL, h, if_true, show ((8 : Int) = 2) = False from by simp,
      show ((8 : Int) = 4) = False from by simp, if_false]
    rw [ec, e5]
    have kx : p.alpha_ * (4999 / 10000 * (5040 * p.dx_ * p.dx_ * p.dy_ * p.dy_) /
        (8064 * p.alpha_ * (p.dx_ * p.dx_ + p.dy_ * p.dy_))) / (5040 * p.dx_ * p.dx_) =
        4999 / 10000 * (p.dy_ * p.dy_) / (8064 * (p.dx_ * p.dx_ + p.dy_ * p.dy_)) := by
      field_simp; ring
    have ky : p.alpha_ * (4999 / 10000 * (5040 * p.dx_ * p.dx_ * p.dy_ * p.dy_) /
        (8064 * p.alpha_ * (p.dx_ * p.dx_ + p.dy_ * p.dy_))) / (5040 * p.dy_ * p.dy_) =
        4999 / 10000 * (p.dx_ * p.dx_) / (8064 * (p.dx_ * p.dx_ + p.dy_ * p.dy_)) := by
      field_simp; ring
    rw [kx, ky, div_lt_iff₀ (by positivity), div_lt_iff₀ (by positivity)]
    constructor <;> linarith

theorem cfl_stability_witness :
    (simParams.ctor : simParams ℚ).calcDtCFL.xcfl_ < 0.5 ∧
    (simParams.ctor : simParams ℚ).calcDtCFL.ycfl_ < 0.5 :=
  cfl_stability (simParams.ctor : simParams ℚ) (Or.inl rfl)
    (by norm_num [simParams.ctor, simParams.calcDtCFL])
    (by norm_num [simParams.ctor, simParams.calcDtCFL])
    (by norm_num [simParams.ctor, simParams.calcDtCFL])

/-! ## Absent neighbours -/

/-- Claim C14, amended: in block mode with `side * side` processes and
`side ≥ 2`, a corner rank (first or last row and first or last column) has
exactly two neighbour identifiers equal to `-1`, an edge rank that is no corner
exactly one and an interior rank none; with a single process (`side = 1`) the
one rank has four. -/
theorem block_missing_neighbours (nx ny side r : Int) (hs : 1 ≤ side) (h0 : 0 ≤ r)
    (hr : r < side * side) :
    ∃ t, decomposition 2 nx ny (side * side) r = .ok t ∧
      missingNeighbours 2 nx ny (side * side) r = missingCount t ∧
      (side = 1 → missingCount t = 4) ∧
      (2 ≤ side →
        ((r / side = 0 ∨ r / side = side - 1) ∧ (r % side = 0 ∨ r % side = side - 1) →
          missingCount t = 2) ∧
        ((r / side = 0 ∨ r / side = side - 1) ∧ ¬ (r % side = 0 ∨ r % side = side - 1) →
          missingCount t = 1) ∧
        (¬ (r / side = 0 ∨ r / side = side - 1) ∧ (r % side = 0 ∨ r % side = side - 1) →
          missingCount t = 1) ∧
        (¬ (r / side = 0 ∨ r / side = side - 1) ∧ ¬ (r % side = 0 ∨ r % side = side - 1) →
          missingCount t = 0)) := by
  have e := decomposition_block_rank nx ny side r hs h0 hr
  obtain ⟨hq, hqn, hc, hcn, _⟩ := rank_coords side r hs h0 hr
  refine ⟨_, e, ?_, ?_, ?_⟩
  · unfold missingNeighbours; rw [e]
  · intro h1
    subst h1
    have hr0 : r = 0 := by omega
    subst hr0
    rfl
  · intro h2
    have hA3 : 1 ≤ r / side → side ≤ side * (r / side) := by
      intro h
      have := Int.mul_le_mul_of_nonneg_left h (by omega : 0 ≤ side)
      omega
    have hr' : r = side * (r / side) + r % side := (Int.ediv_add_emod r side).symm
    have hnq : 0 ≤ side * (r / side) := Int.mul_nonneg (by omega) hq
    generalize r / side = q at *
    generalize r % side = c at *
    have n1 : r - 1 ≠ -1 ∨ c = 0 := by omega
    have n2 : r + 1 ≠ -1 := by omega
    have n3 : r - side ≠ -1 ∨ q = 0 := by
      by_cases hq1 : q = 0
      · exact Or.inr hq1
      · left; have := hA3 (by omega); omega
    have n4 : r + side ≠ -1 := by omega
    unfold missingCount
    dsimp only
    refine ⟨?_, ?_, ?_, ?_⟩ <;> intro hcase <;> split_ifs <;> omega

theorem block_missing_neighbours_witness :
    ∃ t, decomposition 2 10 10 (3 * 3) 5 = .ok t ∧
      missingNeighbours 2 10 10 (3 * 3) 5 = missingCount t ∧ missingCount t = 1 := by
  obtain ⟨t, ht, hm, _, h2⟩ :=
    block_missing_neighbours 10 10 3 5 (by decide) (by decide) (by decide)
  exact ⟨t, ht, hm, (h2 (by decide)).2.2.1 (by decide)⟩

/-- Claim C14 as stated fails for the perfect square 1: the single rank of a
`1 × 1` process grid lies in the first row and the first column, so it is a
corner rank, and all four of its neighbour identifiers are `-1`. -/
theorem block_missing_neighbours_counterexample :
    decomposition 2 10 10 (1 * 1) 0 =
      .ok { nx_ := 10, ny_ := 10, procLeft_ := -1, procRight_ := -1, procTop_ := -1,
            procBot_ := -1 } ∧
    missingNeighbours 2 10 10 (1 * 1) 0 = 4 ∧
    ((0 : Int) / 1 = 0 ∧ (0 : Int) % 1 = 0) := by
  have e : decomposition 2 10 10 (1 * 1) 0 =
      .ok { nx_ := 10, ny_ := 10, procLeft_ := -1, procRight_ := -1, procTop_ := -1,
            procBot_ := -1 } := by
    simp [decomposition, isqrt]
  refine ⟨e, ?_, by decide⟩
  unfold missingNeighbours
  rw [e]
  rfl

theorem card_filter_ends (m : Nat) (p : Nat → Prop) [DecidablePred p]
    (hp : ∀ r, r < m + 2 → (p r ↔ (r = 0 ∨ r = m + 1))) :
    ((Finset.range (m + 2)).filter p).card = 2 := by
  have : (Finset.range (m + 2)).filter p = {0, m + 1} := by
    ext r
    simp only [Finset.mem_filter, Finset.mem_range, Finset.mem_insert, Finset.mem_singleton]
    constructor
    · rintro ⟨h1, h2⟩; exact (hp r h1).1 h2
    · intro h
      have hlt : r < m + 2 := by omega
      exact ⟨hlt, (hp r hlt).2 h⟩
  rw [this, Finset.card_pair (by omega)]

/-- Claim C15, amended: in stripe mode with `P ≥ 1` processes (whether or not
`P` divides `globalNy`), exactly two ranks (exactly one if `P = 1`) have an up or
down neighbour identifier equal to `-1`; the left and right identifiers are
`-1` on every rank, so every one of the `P` ranks has an identifier equal to
`-1`. -/
theorem stripe_missing_neighbours (nx ny P : Int) (hP : 1 ≤ P) :
    ((Finset.range P.toNat).filter
        (fun r : Nat => 0 < missingVerticalNeighbours 1 nx ny P (r : Int))).card =
      (if P = 1 then 1 else 2) ∧
    (∀ r : Int, 0 ≤ r → r < P →
      ∃ t, decomposition 1 nx ny P r = .ok t ∧ t.procLeft_ = -1 ∧ t.procRight_ = -1) ∧
    ((Finset.range P.toNat).filter
        (fun r : Nat => 0 < missingNeighbours 1 nx ny P (r : Int))).card = P.toNat := by
  have hv : ∀ r : Nat, r < P.toNat →
      (0 < missingVerticalNeighbours 1 nx ny P (r : Int) ↔ (r = 0 ∨ (r : Int) = P - 1)) := by
    intro r hr
    unfold missingVerticalNeighbours
    rw [decomposition_stripe nx ny P r (by omega) (by omega)]
    unfold missingVertical
    dsimp only
    have n1 : (r : Int) - 1 ≠ -1 ∨ r = 0 := by omega
    have n2 : (r : Int) + 1 ≠ -1 := by omega
    split_ifs <;> omega
  have ha : ∀ r : Nat, r < P.toNat → 0 < missingNeighbours 1 nx ny P (r : Int) := by
    intro r hr
    unfold missingNeighbours
    rw [decomposition_stripe nx ny P r (by omega) (by omega)]
    unfold missingCount
    dsimp only
    rw [if_pos rfl]
    omega
  refine ⟨?_, ?_, ?_⟩
  · by_cases h1 : P = 1
    · subst h1
      rw [if_pos rfl]
      have : (1 : Int).toNat = 1 := rfl
      rw [this]
      have h0 := (hv 0 (by decide)).2 (Or.inl rfl)
      rw [Finset.card_eq_one]
      refine ⟨0, ?_⟩
      ext r
      simp only [Finset.mem_filter, Finset.mem_range, Finset.mem_singleton]
      constructor
      · rintro ⟨h, _⟩; omega
      · rintro rfl; exact ⟨by decide, h0⟩
    · rw [if_neg h1]
      obtain ⟨m, hm⟩ : ∃ m : Nat, P.toNat = m + 2 := ⟨P.toNat - 2, by omega⟩
      rw [hm]
      apply card_filter_ends
      intro r hr
      rw [hv r (by omega)]
      constructor
      · rintro (h | h)
        · exact Or.inl h
        · right; omega
      · rintro (h | h)
        · exact Or.inl h
        · right; omega
  · intro r h0 hr
    exact ⟨_, decomposition_stripe nx ny P r h0 hr, rfl, rfl⟩
  · have : (Finset.range P.toNat).filter
        (fun r : Nat => 0 < missingNeighbours 1 nx ny P (r : Int)) = Finset.range P.toNat := by
      apply Finset.filter_true_of_mem
      intro r hr
      exact ha r (Finset.mem_range.mp hr)
    rw [this, Finset.card_range]

theorem stripe_missing_neighbours_witness :
    ((Finset.range (4 : Int).toNat).filter
        (fun r : Nat => 0 < missingVerticalNeighbours 1 8 8 4 (r : Int))).card =
      (if (4 : Int) = 1 then 1 else 2) :=
  (stripe_missing_neighbours 8 8 4 (by decide)).1

/-- Claim C15 as stated fails: with 4 processes and `globalNy = 8` (4 divides
8), all 4 ranks, not 2, have a neighbour identifier equal to `-1`, because the
left and right identifiers are `-1` on every rank; rank 1 has both an up and a
down neighbour and still two identifiers equal to `-1`. -/
theorem stripe_missing_neighbours_counterexample :
    (8 : Int) % 4 = 0 ∧
    ((Finset.range (4 : Int).toNat).filter
        (fun r : Nat => 0 < missingNeighbours 1 8 8 4 (r : Int))).card = 4 ∧
    decomposition 1 8 8 4 1 =
      .ok { nx_ := 8, ny_ := 2, procLeft_ := -1, procRight_ := -1, procTop_ := 0,
            procBot_ := 2 } ∧
    missingNeighbours 1 8 8 4 1 = 2 := by
  refine ⟨by decide, ?_, ?_, ?_⟩
  · have h : ∀ r ∈ Finset.range (4 : Int).toNat,
        0 < missingNeighbours 1 8 8 4 ((r : Nat) : Int) := by
      intro r hr
      have hr' : r < 4 := Finset.mem_range.mp hr
      unfold missingNeighbours
      rw [decomposition_stripe 8 8 4 r (by omega) (by omega)]
      unfold missingCount
      dsimp only
      rw [if_pos rfl]
      omega
    rw [Finset.filter_true_of_mem h]
    rfl
  · rfl
  · rfl

/-! ## Snapshots -/

theorem foldl_append_singleton {α : Type} (f : Nat → α) (n : Nat) (init : List α) :
    (List.range n).foldl (fun acc (k : Nat) => acc ++ [f k]) init =
      init ++ (List.range n).map f := by
  induction n with
  | zero => simp
  | succ m ih =>
    rw [List.range_succ, List.foldl_append, ih, List.map_append]
    simp

theorem snapshot_rows {R : Type} [Zero R] (g : Grid R) (k : Nat) (hk : k < g.gy_.toNat) :
    (snapshot g).length = g.gy_.toNat ∧
    (snapshot g)[k]? = some ((List.range g.gx_.toNat).map
      (fun (x : Nat) => g.read g.curr_ (Int.ofNat x) (g.gy_ - 1 - (k : Int)))) := by
  unfold snapshot
  refine ⟨by simp, ?_⟩
  rw [List.getElem?_map, List.getElem?_reverse (by simpa using hk)]
  rw [List.getElem?_range (by rw [List.length_range]; omega)]
  simp only [Option.map_some', List.length_range]
  unfold forLoop
  have e := foldl_append_singleton
    (fun (x : Nat) => g.read g.curr_ (0 + Int.ofNat x) (Int.ofNat (g.gy_.toNat - 1 - k)))
    (g.gx_ - 0).toNat []
  rw [e]
  have e2 : ((g.gy_.toNat - 1 - k : Nat) : Int) = g.gy_ - 1 - (k : Int) := by omega
  simp [e2]

theorem ctor_single_order2 {R : Type} [Zero R] (params : simParams R) (debug : Bool)
    (hm : params.gridMethod_ = 1) (ho : params.order_ = 2)
    (hx : params.nx_ > 2) (hy : params.ny_ > 2) :
    Grid.ctor params debug 1 0 = .ok (Grid.allocate params debug 0
      { nx_ := params.nx_, ny_ := params.ny_, procLeft_ := -1, procRight_ := -1,
        procTop_ := -1, procBot_ := -1 } 1) := by
  rw [ctor_ok_iff]
  refine ⟨_, 1, ?_, ?_, ?_, ?_, rfl⟩
  · rw [hm]; simp [decomposition]
  · rw [ho]; rfl
  · simpa using hx
  · simpa using hy

/-- Claim C16, amended: for a constructed grid the stream operator emits `gy`
lines of `gx` values of the current generation, halo included, from row
`gy - 1` down to row `0`: the first line is row `gy - 1`, which carries the
bottom boundary stamp on a rank with no down neighbour, and the last line is
row `0`, which carries the top boundary stamp on a rank with no up neighbour.
The operator takes the grid by constant reference; the model returns the output
only. -/
theorem snapshot_row_order {R : Type} [Zero R] (params : simParams R) (debug : Bool)
    (P rank : Int) (g : Grid R) (h : Grid.ctor params debug P rank = .ok g) :
    (snapshot g).length = g.gy_.toNat ∧ 0 < g.gy_ ∧
    (∀ k : Nat, k < g.gy_.toNat →
      (snapshot g)[k]? = some ((List.range g.gx_.toNat).map
        (fun (x : Nat) => g.read g.curr_ (Int.ofNat x) (g.gy_ - 1 - (k : Int))))) ∧
    (snapshot g)[0]? = some ((List.range g.gx_.toNat).map
        (fun (x : Nat) => g.read g.curr_ (Int.ofNat x) (g.gy_ - 1))) ∧
    (snapshot g)[g.gy_.toNat - 1]? = some ((List.range g.gx_.toNat).map
        (fun (x : Nat) => g.read g.curr_ (Int.ofNat x) 0)) ∧
    (g.procBot_ = -1 → ∀ x : Int, g.borderSize_ ≤ x → x < g.gx_ - g.borderSize_ →
      g.read g.curr_ x (g.gy_ - 1) = params.bottomBC) ∧
    (g.procTop_ = -1 → ∀ x : Int, g.borderSize_ ≤ x → x < g.gx_ - g.borderSize_ →
      g.read g.curr_ x 0 = params.topBC) := by
  have hr := fun x y hx hx' hy hy' =>
    ctor_read params debug P rank g h g.curr_ x y
      (by
        obtain ⟨t, b, _, _, _, _, rfl⟩ := (ctor_ok_iff params debug P rank g).1 h
        exact Or.inr rfl) hx hx' hy hy'
  obtain ⟨t, b, _, hb, hnx, hny, rfl⟩ := (ctor_ok_iff params debug P rank g).1 h
  have hb' : b = 1 ∨ b = 2 ∨ b = 4 := by
    rcases borderSizeOf_some _ _ hb with ⟨_, h⟩ | ⟨_, h⟩ | ⟨_, h⟩ <;> omega
  have hgx : (Grid.allocate params debug rank t b).gx_ = t.nx_ + 2 * b := rfl
  have hgy : (Grid.allocate params debug rank t b).gy_ = t.ny_ + 2 * b := rfl
  have hbs : (Grid.allocate params debug rank t b).borderSize_ = b := rfl
  have hpos : 0 < (Grid.allocate params debug rank t b).gy_ := by rw [hgy]; omega
  have hfirst := (snapshot_rows (Grid.allocate params debug rank t b) 0 (by omega)).2
  have hlast := (snapshot_rows (Grid.allocate params debug rank t b)
    ((Grid.allocate params debug rank t b).gy_.toNat - 1) (by omega)).2
  refine ⟨(snapshot_rows _ 0 (by omega)).1, hpos, fun k hk => (snapshot_rows _ k hk).2,
    ?_, ?_, ?_, ?_⟩
  · rw [hfirst]; simp
  · rw [hlast]
    have e : (Grid.allocate params debug rank t b).gy_ - 1 -
        (((Grid.allocate params debug rank t b).gy_.toNat - 1 : Nat) : Int) = 0 := by omega
    rw [e]
  · intro hbot x hx1 hx2
    rw [hbs] at hx1 hx2
    rw [hgx] at hx2
    rw [hr x _ (by omega) (by rw [hgx]; omega) (by omega) (by omega)]
    simp only [hgx, hgy, hbs]
    rw [if_neg (by omega), if_neg (by omega), if_pos ⟨hbot, by omega⟩]
  · intro htop x hx1 hx2
    rw [hbs] at hx1 hx2
    rw [hgx] at hx2
    rw [hr x 0 (by omega) (by rw [hgx]; omega) (by omega) (by omega)]
    simp only [hgx, hgy, hbs]
    rw [if_neg (by omega), if_neg (by omega), if_neg (by omega), if_pos ⟨htop, by omega⟩]

theorem snapshot_row_order_witness :
    ∃ g : Grid ℚ, Grid.ctor paramsTopBottom false 1 0 = .ok g ∧ g.read g.curr_ 3 (g.gy_ - 1) = 2 :=
  ⟨_, ctor_single_order2 paramsTopBottom false rfl rfl (by decide) (by decide),
    (snapshot_row_order paramsTopBottom false 1 0 _
      (ctor_single_order2 paramsTopBottom false rfl rfl (by decide) (by decide))).2.2.2.2.2.1
      rfl 3 (by decide) (by decide)⟩

/-- Claim C16 as stated fails: with the default parameters changed to top
boundary value 1 and bottom boundary value 2 on a single process (no up
neighbour), the first emitted line is row `gy - 1 = 11`, whose value in column 3
is the bottom boundary value 2; the row that carries the top boundary stamp is
row 0, which is the last emitted line. -/
theorem snapshot_row_order_counterexample :
    ∃ g : Grid ℚ, Grid.ctor paramsTopBottom false 1 0 = .ok g ∧
      g.procTop_ = -1 ∧ g.gy_ = 12 ∧ paramsTopBottom.topBC = 1 ∧
      (∃ row, (snapshot g)[0]? = some row ∧ row[3]? = some (g.read g.curr_ 3 11) ∧
        row[3]? = some 2) ∧
      g.read g.curr_ 3 0 = 1 ∧
      (∃ row, (snapshot g)[11]? = some row ∧ row[3]? = some 1) := by
  have hc := ctor_single_order2 paramsTopBottom false rfl rfl (by decide) (by decide)
  have r1 := (ctor_read _ false 1 0 _ hc 1 3 11 (Or.inr rfl) (by decide) (by decide)
    (by decide) (by decide)).trans (show _ = (2 : ℚ) from rfl)
  have r2 := (ctor_read _ false 1 0 _ hc 1 3 0 (Or.inr rfl) (by decide) (by decide)
    (by decide) (by decide)).trans (show _ = (1 : ℚ) from rfl)
  refine ⟨_, hc, rfl, rfl, rfl, ⟨_, (snapshot_rows _ 0 (by decide)).2, ?_, ?_⟩, r2,
    ⟨_, (snapshot_rows _ 11 (by decide)).2, ?_⟩⟩
  · rw [List.getElem?_map, List.getElem?_range (by decide)]
    rfl
  · rw [List.getElem?_map, List.getElem?_range (by decide)]
    exact congrArg some r1
  · rw [List.getElem?_map, List.getElem?_range (by decide)]
    exact congrArg some r2

/-! ## Vectors with integer indices -/

theorem vget_vset {R : Type} [Zero R] (v : List R) (i k : Int) (x : R) :
    vget (vset v i x) k = if i = k ∧ 0 ≤ i ∧ i < v.length then x else vget v k := by
  unfold vget vset
  by_cases hi : 0 ≤ i
  · by_cases hk : 0 ≤ k
    · rw [if_pos hi, if_pos hk, if_pos hk, List.getD_eq_getElem?_getD,
        List.getD_eq_getElem?_getD, List.getElem?_set]
      by_cases hik : i = k
      · subst hik
        rw [if_pos rfl]
        by_cases hl : i < v.length
        · rw [if_pos (by omega), if_pos ⟨rfl, hi, hl⟩]; rfl
        · rw [if_neg (by omega), if_neg (fun h : i = i ∧ 0 ≤ i ∧ i < v.length => hl h.2.2)]
          rw [List.getElem?_eq_none (by omega)]
      · rw [if_neg (by omega), if_neg (fun h : i = k ∧ 0 ≤ i ∧ i < v.length => hik h.1)]
    · rw [if_pos hi, if_neg hk, if_neg hk, if_neg (fun h : i = k ∧ 0 ≤ i ∧ i < v.length => hk (h.1 ▸ hi))]
  · rw [if_neg hi, if_neg (fun h : i = k ∧ 0 ≤ i ∧ i < v.length => hi h.2.1)]

theorem vget_of_lt {R : Type} [Zero R] (v : List R) (k : Nat) (hk : k < v.length) :
    vget v (k : Int) = v[k] := by
  unfold vget
  rw [if_pos (by omega), List.getD_eq_getElem?_getD]
  simp [List.getElem?_eq_getElem hk]

theorem vget_out {R : Type} [Zero R] (v : List R) (k : Int) (hk : (v.length : Int) ≤ k) :
    vget v k = 0 := by
  unfold vget
  split_ifs with h
  · rw [List.getD_eq_getElem?_getD, List.getElem?_eq_none (by omega)]; rfl
  · rfl

/-- A sequence of assignments `v[idx c] = val c`: elements at other indices are
kept, and an index assigned once, or always with the same value, holds that
value. -/
theorem foldl_vset_spec {R γ : Type} [Zero R] (idx : γ → Int) (val : γ → R) (cs : List γ) :
    ∀ v : List R,
      (cs.foldl (fun v c => vset v (idx c) (val c)) v).length = v.length ∧
      (∀ k : Int, (∀ c ∈ cs, idx c ≠ k) →
        vget (cs.foldl (fun v c => vset v (idx c) (val c)) v) k = vget v k) ∧
      (∀ c ∈ cs, 0 ≤ idx c → idx c < v.length →
        (∀ c' ∈ cs, idx c' = idx c → val c' = val c) →
        vget (cs.foldl (fun v c => vset v (idx c) (val c)) v) (idx c) = val c) := by
  induction cs with
  | nil =>
    intro v
    exact ⟨rfl, fun _ _ => rfl, fun c hc => absurd hc (List.not_mem_nil c)⟩
  | cons a cs ih =>
    intro v
    rw [List.foldl_cons]
    obtain ⟨hl, hk, hv⟩ := ih (vset v (idx a) (val a))
    refine ⟨by rw [hl, vset_length], ?_, ?_⟩
    · intro k hne
      rw [hk k (fun c hc => hne c (List.mem_cons_of_mem a hc)), vget_vset,
        if_neg (fun h => hne a (List.mem_cons_self a cs) h.1)]
    · intro c hc h0 hlt hfun
      by_cases hcs : ∃ c' ∈ cs, idx c' = idx c
      · obtain ⟨c', hc', e⟩ := hcs
        have := hv c' hc' (by rw [e]; exact h0) (by rw [e, vset_length]; exact hlt)
          (fun c'' hc'' e'' => by
            rw [hfun c'' (List.mem_cons_of_mem a hc'') (by rw [e'', e]),
              hfun c' (List.mem_cons_of_mem a hc') e])
        rw [e] at this
        rw [this, hfun c' (List.mem_cons_of_mem a hc') e]
      · have hne : ∀ c' ∈ cs, idx c' ≠ idx c := fun c' hc' e => hcs ⟨c', hc', e⟩
        rw [hk (idx c) hne, vget_vset]
        rcases List.mem_cons.mp hc with rfl | hc'
        · rw [if_pos ⟨rfl, h0, hlt⟩]
        · exact absurd rfl (hne c hc')

/-! ## Flattened cell indices -/

theorem cellIndex_eq (gx gy sel x y : Int) :
    sel * gx * gy + y * gx + x = gx * (gy * sel + y) + x := by ring

theorem cellIndex_inj (gx gy sel x y sel' x' y' : Int)
    (hx : 0 ≤ x) (hx' : x < gx) (hy : 0 ≤ y) (hy' : y < gy)
    (hx2 : 0 ≤ x') (hx2' : x' < gx) (hy2 : 0 ≤ y') (hy2' : y' < gy)
    (h : sel * gx * gy + y * gx + x = sel' * gx * gy + y' * gx + x') :
    sel = sel' ∧ x = x' ∧ y = y' := by
  rw [cellIndex_eq, cellIndex_eq] at h
  obtain ⟨h1, h2⟩ := rowmajor_inj gx _ x _ x' hx hx' hx2 hx2' h
  obtain ⟨h3, h4⟩ := rowmajor_inj gy sel y sel' y' hy hy' hy2 hy2' h1
  exact ⟨h3, h2, h4⟩

theorem cellIndex_bounds (gx gy sel x y : Int) (hs : sel = 0 ∨ sel = 1)
    (hx : 0 ≤ x) (hx' : x < gx) (hy : 0 ≤ y) (hy' : y < gy) :
    0 ≤ sel * gx * gy + y * gx + x ∧ sel * gx * gy + y * gx + x < 2 * gx * gy := by
  have h1 : 0 ≤ gx * y := Int.mul_nonneg (by omega) hy
  have h2 := cell_index_lt gx gy x y hx hx' hy'
  have h3 : 0 < gx * gy := Int.mul_pos (by omega) (by omega)
  have e1 : y * gx = gx * y := Int.mul_comm _ _
  have e2 : 2 * gx * gy = 2 * (gx * gy) := by ring
  rcases hs with rfl | rfl
  · have e3 : (0 : Int) * gx * gy = 0 := by ring
    omega
  · have e3 : (1 : Int) * gx * gy = gx * gy := by ring
    omega

/-! ## Reading and writing cells -/

theorem read_write {R : Type} [Zero R] (g : Grid R)
    (hlen : (g.grid_.length : Int) = 2 * g.gx_ * g.gy_)
    (sel x y sel' x' y' : Int) (v : R) (hs : sel = 0 ∨ sel = 1)
    (hx : 0 ≤ x) (hx' : x < g.gx_) (hy : 0 ≤ y) (hy' : y < g.gy_)
    (hx2 : 0 ≤ x') (hx2' : x' < g.gx_) (hy2 : 0 ≤ y') (hy2' : y' < g.gy_) :
    (g.write sel x y v).read sel' x' y' =
      if sel = sel' ∧ x = x' ∧ y = y' then v else g.read sel' x' y' := by
  unfold Grid.read Grid.write
  dsimp only
  rw [vget_vset]
  obtain ⟨b1, b2⟩ := cellIndex_bounds g.gx_ g.gy_ sel x y hs hx hx' hy hy'
  by_cases h : sel = sel' ∧ x = x' ∧ y = y'
  · obtain ⟨rfl, rfl, rfl⟩ := h
    rw [if_pos ⟨rfl, b1, by omega⟩, if_pos ⟨rfl, rfl, rfl⟩]
  · rw [if_neg h, if_neg]
    rintro ⟨e, _, _⟩
    exact h (cellIndex_inj g.gx_ g.gy_ sel x y sel' x' y' hx hx' hy hy' hx2 hx2' hy2 hy2' e)

theorem sameFrame_refl {R : Type} (g : Grid R) : g.SameFrame g := ⟨rfl, rfl⟩

theorem sameFrame_write {R : Type} (g g' : Grid R) (h : g.SameFrame g') (sel x y : Int)
    (v : R) : g.SameFrame (g'.write sel x y v) := by
  obtain ⟨h1, h2⟩ := h
  constructor
  · unfold Grid.write
    rw [h1]
  · unfold Grid.write
    dsimp only
    rw [vset_length, h2]

theorem sameFrame_fields {R : Type} (g g' : Grid R) (h : g.SameFrame g') :
    g'.gx_ = g.gx_ ∧ g'.gy_ = g.gy_ ∧ g'.nx_ = g.nx_ ∧ g'.ny_ = g.ny_ ∧
    g'.borderSize_ = g.borderSize_ ∧ g'.curr_ = g.curr_ ∧ g'.prev_ = g.prev_ ∧
    g'.procLeft_ = g.procLeft_ ∧ g'.procRight_ = g.procRight_ ∧
    g'.procTop_ = g.procTop_ ∧ g'.procBot_ = g.procBot_ ∧ g'.ourRank_ = g.ourRank_ := by
  obtain ⟨h1, _⟩ := h
  rw [h1]
  exact ⟨rfl, rfl, rfl, rfl, rfl, rfl, rfl, rfl, rfl, rfl, rfl, rfl⟩

theorem sameFrame_trans {R : Type} (g g' g'' : Grid R) (h : g.SameFrame g')
    (h' : g'.SameFrame g'') : g.SameFrame g'' := by
  obtain ⟨h1, h2⟩ := h
  obtain ⟨h3, h4⟩ := h'
  constructor
  · rw [h3, h1]
  · rw [h4, h2]

/-! ## Loop nests as sequences of assignments -/

theorem forLoop_eq_foldl {σ : Type} (lo hi : Int) (body : Int → σ → σ) (s : σ) :
    forLoop lo hi body s = (intRange lo hi).foldl (fun acc i => body i acc) s := by
  unfold forLoop intRange
  rw [List.foldl_map]

theorem mem_intRange (lo hi i : Int) : i ∈ intRange lo hi ↔ lo ≤ i ∧ i < hi := by
  unfold intRange
  simp only [List.mem_map, List.mem_range]
  constructor
  · rintro ⟨k, hk, rfl⟩
    rw [Int.ofNat_eq_coe]; omega
  · rintro ⟨h1, h2⟩
    refine ⟨(i - lo).toNat, by omega, ?_⟩
    rw [Int.ofNat_eq_coe]; omega

theorem nodup_intRange (lo hi : Int) : (intRange lo hi).Nodup := by
  unfold intRange
  apply List.Nodup.map _ (List.nodup_range _)
  intro a b h
  simp only [Int.ofNat_eq_coe] at h
  omega

theorem foldl_preserves {σ β : Type} (Inv : σ → Prop) (W : σ → β → σ)
    (hW : ∀ s c, Inv s → Inv (W s c)) (cs : List β) :
    ∀ s, Inv s → Inv (cs.foldl W s) := by
  induction cs with
  | nil => intro s h; exact h
  | cons a cs ih => intro s h; exact ih _ (hW s a h)

theorem foldl_flatMap_inv {σ α β : Type} (Inv : σ → Prop) (body : α → σ → σ)
    (cells : α → List β) (W : σ → β → σ) (hW : ∀ s c, Inv s → Inv (W s c))
    (hbody : ∀ y s, Inv s → body y s = (cells y).foldl W s) (ys : List α) :
    ∀ s, Inv s → ys.foldl (fun s y => body y s) s = (ys.flatMap cells).foldl W s := by
  induction ys with
  | nil => intro s _; rfl
  | cons y ys ih =>
    intro s h
    rw [List.foldl_cons, List.flatMap_cons, List.foldl_append, hbody y s h]
    exact ih _ (foldl_preserves Inv W hW _ s h)

theorem sameFrame_stencilWrite {R : Type} (st : Stencil R) (xcfl ycfl : R) (curr prev : Int)
    (g s : Grid R) (c : Int × Int) (h : g.SameFrame s) :
    g.SameFrame (stencilWrite st xcfl ycfl curr prev s c) :=
  sameFrame_write g s h _ _ _ _

theorem interiorPass_eq {R : Type} (st : Stencil R) (xcfl ycfl : R) (curr prev : Int)
    (g : Grid R) :
    interiorPass st xcfl ycfl curr prev g =
      (interiorCells g.borderSize_ g.nx_ g.ny_).foldl (stencilWrite st xcfl ycfl curr prev) g := by
  unfold interiorPass interiorCells
  rw [forLoop_eq_foldl]
  apply foldl_flatMap_inv g.SameFrame _ _ _
    (fun s c h => sameFrame_stencilWrite st xcfl ycfl curr prev g s c h) _ _ g
    (sameFrame_refl g)
  intro y s hs
  obtain ⟨_, _, e3, _, e5, _⟩ := sameFrame_fields g s hs
  rw [forLoop_eq_foldl, e3, e5, List.foldl_map]
  rfl

theorem topBottomPass_eq {R : Type} (st : Stencil R) (xcfl ycfl : R) (curr prev : Int)
    (g : Grid R) :
    topBottomPass st xcfl ycfl curr prev g =
      (topBottomCells g.borderSize_ g.nx_ g.ny_).foldl
        (stencilWrite st xcfl ycfl curr prev) g := by
  unfold topBottomPass topBottomCells
  rw [forLoop_eq_foldl]
  apply foldl_flatMap_inv g.SameFrame _ _ _
    (fun s c h => sameFrame_stencilWrite st xcfl ycfl curr prev g s c h) _ _ g
    (sameFrame_refl g)
  intro y s hs
  obtain ⟨_, _, e3, e4, e5, _⟩ := sameFrame_fields g s hs
  dsimp only
  rw [forLoop_eq_foldl, e3, e4, e5]
  apply foldl_flatMap_inv g.SameFrame _ _ _
    (fun s c h => sameFrame_stencilWrite st xcfl ycfl curr prev g s c h) _ _ s hs
  intro x s' _
  rfl

theorem leftRightPass_eq {R : Type} (st : Stencil R) (xcfl ycfl : R) (curr prev : Int)
    (g : Grid R) :
    leftRightPass st xcfl ycfl curr prev g =
      (leftRightCells g.borderSize_ g.nx_ g.ny_).foldl
        (stencilWrite st xcfl ycfl curr prev) g := by
  unfold leftRightPass leftRightCells
  rw [forLoop_eq_foldl]
  apply foldl_flatMap_inv g.SameFrame _ _ _
    (fun s c h => sameFrame_stencilWrite st xcfl ycfl curr prev g s c h) _ _ g
    (sameFrame_refl g)
  intro y s hs
  obtain ⟨_, _, e3, e4, e5, _⟩ := sameFrame_fields g s hs
  rw [forLoop_eq_foldl, e5]
  apply foldl_flatMap_inv g.SameFrame _ _ _
    (fun s c h => sameFrame_stencilWrite st xcfl ycfl curr prev g s c h) _ _ s hs
  intro x s' hs'
  obtain ⟨_, _, f3, f4, f5, _⟩ := sameFrame_fields g s' hs'
  dsimp only
  rw [f3, f5]
  rfl

/-- The three loop nests of an order branch, one after the other, are the
sequence of the assignments to their cells. -/
theorem syncBranch_eq {R : Type} (st : Stencil R) (params : simParams R) (curr prev : Int)
    (g : Grid R) :
    syncBranch st params curr prev g =
      (interiorCells g.borderSize_ g.nx_ g.ny_ ++ topBottomCells g.borderSize_ g.nx_ g.ny_ ++
        leftRightCells g.borderSize_ g.nx_ g.ny_).foldl
        (stencilWrite st params.xcfl_ params.ycfl_ curr prev) g := by
  unfold syncBranch
  dsimp only
  have h1 : g.SameFrame (interiorPass st params.xcfl_ params.ycfl_ curr prev g) := by
    rw [interiorPass_eq]
    exact foldl_preserves g.SameFrame _
      (fun s c h => sameFrame_stencilWrite st _ _ curr prev g s c h) _ g (sameFrame_refl g)
  have h2 : g.SameFrame (topBottomPass st params.xcfl_ params.ycfl_ curr prev
      (interiorPass st params.xcfl_ params.ycfl_ curr prev g)) := by
    rw [topBottomPass_eq]
    exact foldl_preserves g.SameFrame _
      (fun s c h => sameFrame_stencilWrite st _ _ curr prev g s c h) _ _ h1
  obtain ⟨_, _, a3, a4, a5, _⟩ := sameFrame_fields g _ h1
  obtain ⟨_, _, b3, b4, b5, _⟩ := sameFrame_fields g _ h2
  rw [leftRightPass_eq, b3, b4, b5, topBottomPass_eq, a3, a4, a5, interiorPass_eq,
    List.foldl_append, List.foldl_append]

/-! ## Semantics of a sequence of stencil assignments -/

theorem foldl_stencilWrite_spec {R : Type} [Zero R] (st : Stencil R) (ρ : Int)
    (hloc : StencilLocal st ρ) (hρ : 0 ≤ ρ) (xcfl ycfl : R) (curr prev : Int)
    (hcp : (curr = 0 ∧ prev = 1) ∨ (curr = 1 ∧ prev = 0)) (g0 : Grid R)
    (hlen : (g0.grid_.length : Int) = 2 * g0.gx_ * g0.gy_) (cs : List (Int × Int)) :
    (∀ c ∈ cs, ρ ≤ c.1 ∧ c.1 < g0.gx_ - ρ ∧ ρ ≤ c.2 ∧ c.2 < g0.gy_ - ρ) →
    ∀ g : Grid R, g0.SameFrame g →
      g0.SameFrame (cs.foldl (stencilWrite st xcfl ycfl curr prev) g) ∧
      (∀ x y, 0 ≤ x → x < g0.gx_ → 0 ≤ y → y < g0.gy_ →
        (cs.foldl (stencilWrite st xcfl ycfl curr prev) g).read prev x y = g.read prev x y) ∧
      (∀ x y, 0 ≤ x → x < g0.gx_ → 0 ≤ y → y < g0.gy_ → (x, y) ∉ cs →
        (cs.foldl (stencilWrite st xcfl ycfl curr prev) g).read curr x y = g.read curr x y) ∧
      (∀ c ∈ cs, (cs.foldl (stencilWrite st xcfl ycfl curr prev) g).read curr c.1 c.2 =
        st g c.1 c.2 xcfl ycfl prev) := by
  induction cs with
  | nil =>
    intro _ g hg
    exact ⟨hg, fun _ _ _ _ _ _ => rfl, fun _ _ _ _ _ _ _ => rfl,
      fun c hc => absurd hc (List.not_mem_nil c)⟩
  | cons a cs ih =>
    intro hcs g hg
    rw [List.foldl_cons]
    have ha := hcs a (List.mem_cons_self a cs)
    have hg1 : g0.SameFrame (stencilWrite st xcfl ycfl curr prev g a) :=
      sameFrame_stencilWrite st xcfl ycfl curr prev g0 g a hg
    obtain ⟨i1, i2, i3, i4⟩ := ih (fun c hc => hcs c (List.mem_cons_of_mem a hc)) _ hg1
    obtain ⟨e1, e2, _⟩ := sameFrame_fields g0 g hg
    have hglen : (g.grid_.length : Int) = 2 * g.gx_ * g.gy_ := by
      rw [e1, e2, hg.2]; exact hlen
    have hcurr : curr = 0 ∨ curr = 1 := by omega
    have hne : curr ≠ prev := by omega
    have rw1 : ∀ sel x y, 0 ≤ x → x < g0.gx_ → 0 ≤ y → y < g0.gy_ →
        (stencilWrite st xcfl ycfl curr prev g a).read sel x y =
          if curr = sel ∧ a.1 = x ∧ a.2 = y then st g a.1 a.2 xcfl ycfl prev
          else g.read sel x y := by
      intro sel x y hx hx' hy hy'
      unfold stencilWrite
      exact read_write g hglen curr a.1 a.2 sel x y _ hcurr (by omega) (by rw [e1]; omega)
        (by omega) (by rw [e2]; omega) hx (by rw [e1]; exact hx') hy (by rw [e2]; exact hy')
    have hprev : ∀ x y, 0 ≤ x → x < g0.gx_ → 0 ≤ y → y < g0.gy_ →
        (stencilWrite st xcfl ycfl curr prev g a).read prev x y = g.read prev x y := by
      intro x y hx hx' hy hy'
      rw [rw1 prev x y hx hx' hy hy', if_neg (fun h => hne h.1)]
    have hst : ∀ c ∈ a :: cs, st (stencilWrite st xcfl ycfl curr prev g a) c.1 c.2 xcfl ycfl prev
        = st g c.1 c.2 xcfl ycfl prev := by
      intro c hc
      have hcb := hcs c hc
      apply hloc
      intro x' y' hp
      apply hprev
      all_goals rcases hp with ⟨p1, p2, p3⟩ | ⟨p1, p2, p3⟩ <;> omega
    refine ⟨i1, ?_, ?_, ?_⟩
    · intro x y hx hx' hy hy'
      rw [i2 x y hx hx' hy hy', hprev x y hx hx' hy hy']
    · intro x y hx hx' hy hy' hnm
      rw [i3 x y hx hx' hy hy' (fun h => hnm (List.mem_cons_of_mem a h)),
        rw1 curr x y hx hx' hy hy', if_neg]
      rintro ⟨_, h1, h2⟩
      exact hnm (by rw [← h1, ← h2]; exact List.mem_cons_self a cs)
    · intro c hc
      by_cases hmem : c ∈ cs
      · rw [i4 c hmem, hst c hc]
      · have hca : c = a := by
          rcases List.mem_cons.mp hc with h | h
          · exact h
          · exact absurd h hmem
        subst hca
        rw [i3 c.1 c.2 (by omega) (by omega) (by omega) (by omega) hmem,
          rw1 curr c.1 c.2 (by omega) (by omega) (by omega) (by omega),
          if_pos ⟨rfl, rfl, rfl⟩]

/-! ## The cells of the three loop nests -/

theorem mem_interiorCells (b nx ny x y : Int) :
    (x, y) ∈ interiorCells b nx ny ↔ (2 * b ≤ x ∧ x < nx) ∧ (2 * b ≤ y ∧ y < ny) := by
  unfold interiorCells
  simp only [List.mem_flatMap, List.mem_map, mem_intRange, Prod.mk.injEq]
  constructor
  · rintro ⟨y', hy, x', hx, rfl, rfl⟩; exact ⟨hx, hy⟩
  · rintro ⟨hx, hy⟩; exact ⟨y, hy, x, hx, rfl, rfl⟩

theorem mem_topBottomCells (b nx ny x y : Int) :
    (x, y) ∈ topBottomCells b nx ny ↔
      (b ≤ x ∧ x < nx + b) ∧ ((b ≤ y ∧ y < 2 * b) ∨ (ny ≤ y ∧ y < ny + b)) := by
  unfold topBottomCells
  simp only [List.mem_flatMap, mem_intRange, List.mem_cons, Prod.mk.injEq,
    List.mem_singleton, List.not_mem_nil, or_false]
  constructor
  · rintro ⟨y', hy, x', hx, (⟨rfl, rfl⟩ | ⟨rfl, rfl⟩)⟩
    · exact ⟨hx, Or.inl (by omega)⟩
    · exact ⟨hx, Or.inr (by omega)⟩
  · rintro ⟨hx, (hy | hy)⟩
    · exact ⟨y - b, by omega, x, hx, Or.inl ⟨rfl, by omega⟩⟩
    · exact ⟨y - ny, by omega, x, hx, Or.inr ⟨rfl, by omega⟩⟩

theorem mem_leftRightCells (b nx ny x y : Int) :
    (x, y) ∈ leftRightCells b nx ny ↔
      ((b ≤ x ∧ x < 2 * b) ∨ (nx ≤ x ∧ x < nx + b)) ∧ (2 * b ≤ y ∧ y < ny) := by
  unfold leftRightCells
  simp only [List.mem_flatMap, mem_intRange, List.mem_cons, Prod.mk.injEq,
    List.mem_singleton, List.not_mem_nil, or_false]
  constructor
  · rintro ⟨y', hy, x', hx, (⟨rfl, rfl⟩ | ⟨rfl, rfl⟩)⟩
    · exact ⟨Or.inl (by omega), hy⟩
    · exact ⟨Or.inr (by omega), hy⟩
  · rintro ⟨(hx | hx), hy⟩
    · exact ⟨y, hy, x - b, by omega, Or.inl ⟨by omega, rfl⟩⟩
    · exact ⟨y, hy, x - nx, by omega, Or.inr ⟨by omega, rfl⟩⟩

theorem mem_allCells (b nx ny x y : Int) (hb : 0 ≤ b) (hnx : nx > 2 * b) (hny : ny > 2 * b) :
    (x, y) ∈ interiorCells b nx ny ++ topBottomCells b nx ny ++ leftRightCells b nx ny ↔
      (b ≤ x ∧ x < nx + b) ∧ (b ≤ y ∧ y < ny + b) := by
  rw [List.mem_append, List.mem_append, mem_interiorCells, mem_topBottomCells,
    mem_leftRightCells]
  omega

theorem nodup_pair_lists (xs : List Int) (hxs : xs.Nodup) (f g : Int → Int × Int)
    (hf : ∀ a b, f a = f b → a = b) (hg : ∀ a b, g a = g b → a = b)
    (hfg : ∀ a b, a ∈ xs → b ∈ xs → f a ≠ g b) :
    (xs.flatMap (fun x => [f x, g x])).Nodup := by
  rw [List.nodup_flatMap]
  constructor
  · intro x hx
    simp only [List.nodup_cons, List.mem_singleton, List.not_mem_nil, not_false_eq_true,
      List.nodup_nil, and_true]
    exact hfg x x hx hx
  · apply hxs.pairwise_of_forall_ne
    intro a ha b hb hab
    simp only [Function.onFun, List.disjoint_left, List.mem_cons, List.mem_singleton,
      List.not_mem_nil, or_false]
    rintro c (rfl | rfl) (h | h)
    · exact hab (hf a b h)
    · exact hfg a b ha hb h
    · exact hfg b a hb ha h.symm
    · exact hab (hg a b h)

theorem nodup_interiorCells (b nx ny : Int) : (interiorCells b nx ny).Nodup := by
  unfold interiorCells
  rw [List.nodup_flatMap]
  constructor
  · intro y _
    apply List.Nodup.map _ (nodup_intRange _ _)
    intro a c h
    exact (Prod.mk.inj h).1
  · apply (nodup_intRange _ _).pairwise_of_forall_ne
    intro a _ c _ hac
    simp only [Function.onFun, List.disjoint_left, List.mem_map]
    rintro p ⟨x, _, rfl⟩ ⟨x', _, h⟩
    exact hac (Prod.mk.inj h).2.symm

theorem nodup_topBottomCells (b nx ny : Int) (hb : 0 ≤ b) (hny : ny > 2 * b) :
    (topBottomCells b nx ny).Nodup := by
  unfold topBottomCells
  rw [List.nodup_flatMap]
  constructor
  · intro y hy
    rw [mem_intRange] at hy
    apply nodup_pair_lists _ (nodup_intRange _ _)
    · intro a c h; exact (Prod.mk.inj h).1
    · intro a c h; exact (Prod.mk.inj h).1
    · intro a c _ _ h
      have := (Prod.mk.inj h).2
      omega
  · apply (nodup_intRange _ _).pairwise_of_forall_ne
    intro a ha c hc hac
    rw [mem_intRange] at ha hc
    simp only [Function.onFun, List.disjoint_left, List.mem_flatMap, List.mem_cons,
      List.mem_singleton, List.not_mem_nil, or_false]
    rintro p ⟨x, _, (rfl | rfl)⟩ ⟨x', _, (h | h)⟩ <;>
      · have := (Prod.mk.inj h).2
        omega

theorem nodup_leftRightCells (b nx ny : Int) (hnx : nx > 2 * b) :
    (leftRightCells b nx ny).Nodup := by
  unfold leftRightCells
  rw [List.nodup_flatMap]
  constructor
  · intro y _
    apply nodup_pair_lists _ (nodup_intRange _ _)
    · intro a c h
      have := (Prod.mk.inj h).1
      omega
    · intro a c h
      have := (Prod.mk.inj h).1
      omega
    · intro a c ha hc h
      rw [mem_intRange] at ha hc
      have := (Prod.mk.inj h).1
      omega
  · apply (nodup_intRange _ _).pairwise_of_forall_ne
    intro a _ c _ hac
    simp only [Function.onFun, List.disjoint_left, List.mem_flatMap, List.mem_cons,
      List.mem_singleton, List.not_mem_nil, or_false]
    rintro p ⟨x, _, (rfl | rfl)⟩ ⟨x', _, (h | h)⟩ <;>
      · have := (Prod.mk.inj h).2
        omega

theorem nodup_allCells (b nx ny : Int) (hb : 0 ≤ b) (hnx : nx > 2 * b) (hny : ny > 2 * b) :
    (interiorCells b nx ny ++ topBottomCells b nx ny ++ leftRightCells b nx ny).Nodup := by
  rw [List.nodup_append, List.nodup_append]
  refine ⟨⟨nodup_interiorCells b nx ny, nodup_topBottomCells b nx ny hb hny, ?_⟩,
    nodup_leftRightCells b nx ny hnx, ?_⟩
  · rw [List.disjoint_left]
    rintro ⟨x, y⟩ h1 h2
    rw [mem_interiorCells] at h1
    rw [mem_topBottomCells] at h2
    omega
  · rw [List.disjoint_left]
    rintro ⟨x, y⟩ h1 h2
    rw [List.mem_append, mem_interiorCells, mem_topBottomCells] at h1
    rw [mem_leftRightCells] at h2
    omega

/-! ## The three stencils read a plus-shaped neighbourhood -/

theorem stencil2_local {R : Type} [Ring R] : StencilLocal (stencil2 : Stencil R) 1 := by
  intro g g' x y xcfl ycfl prev h
  have r : ∀ x' y', InPlus 1 x y x' y' → g.read prev x' y' = g'.read prev x' y' := h
  unfold stencil2
  rw [r x y (by unfold InPlus; omega), r (x + 1) y (by unfold InPlus; omega),
    r (x - 1) y (by unfold InPlus; omega), r x (y + 1) (by unfold InPlus; omega),
    r x (y - 1) (by unfold InPlus; omega)]

theorem stencil4_local {R : Type} [Ring R] : StencilLocal (stencil4 : Stencil R) 2 := by
  intro g g' x y xcfl ycfl prev h
  have r : ∀ x' y', InPlus 2 x y x' y' → g.read prev x' y' = g'.read prev x' y' := h
  unfold stencil4
  rw [r x y (by unfold InPlus; omega), r (x + 1) y (by unfold InPlus; omega),
    r (x - 1) y (by unfold InPlus; omega), r x (y + 1) (by unfold InPlus; omega),
    r x (y - 1) (by unfold InPlus; omega), r (x + 2) y (by unfold InPlus; omega),
    r (x - 2) y (by unfold InPlus; omega), r x (y + 2) (by unfold InPlus; omega),
    r x (y - 2) (by unfold InPlus; omega)]

theorem stencil8_local {R : Type} [Ring R] : StencilLocal (stencil8 : Stencil R) 4 := by
  intro g g' x y xcfl ycfl prev h
  have r : ∀ x' y', InPlus 4 x y x' y' → g.read prev x' y' = g'.read prev x' y' := h
  unfold stencil8
  rw [r x y (by unfold InPlus; omega), r (x + 1) y (by unfold InPlus; omega),
    r (x - 1) y (by unfold InPlus; omega), r x (y + 1) (by unfold InPlus; omega),
    r x (y - 1) (by unfold InPlus; omega), r (x + 2) y (by unfold InPlus; omega),
    r (x - 2) y (by unfold InPlus; omega), r x (y + 2) (by unfold InPlus; omega),
    r x (y - 2) (by unfold InPlus; omega), r (x + 3) y (by unfold InPlus; omega),
    r (x - 3) y (by unfold InPlus; omega), r x (y + 3) (by unfold InPlus; omega),
    r x (y - 3) (by unfold InPlus; omega), r (x + 4) y (by unfold InPlus; omega),
    r (x - 4) y (by unfold InPlus; omega), r x (y + 4) (by unfold InPlus; omega),
    r x (y - 4) (by unfold InPlus; omega)]

theorem stencilOfOrder_some {R : Type} [Ring R] (order : Int) (st : Stencil R) (ρ : Int)
    (h : stencilOfOrder order = some (st, ρ)) :
    StencilLocal st ρ ∧ borderSizeOf order = some ρ ∧
    ((order = 2 ∧ st = stencil2 ∧ ρ = 1) ∨ (order = 4 ∧ st = stencil4 ∧ ρ = 2) ∨
      (order = 8 ∧ st = stencil8 ∧ ρ = 4)) := by
  unfold stencilOfOrder at h
  unfold borderSizeOf
  split_ifs at h with h2 h4 h8
  · obtain ⟨rfl, rfl⟩ := Prod.mk.inj (Option.some.inj h)
    exact ⟨stencil2_local, by rw [if_pos h2], Or.inl ⟨h2, rfl, rfl⟩⟩
  · obtain ⟨rfl, rfl⟩ := Prod.mk.inj (Option.some.inj h)
    exact ⟨stencil4_local, by rw [if_neg h2, if_pos h4], Or.inr (Or.inl ⟨h4, rfl, rfl⟩)⟩
  · obtain ⟨rfl, rfl⟩ := Prod.mk.inj (Option.some.inj h)
    exact ⟨stencil8_local, by rw [if_neg h2, if_neg h4, if_pos h8],
      Or.inr (Or.inr ⟨h8, rfl, rfl⟩)⟩

/-! ## One order branch on a shaped grid -/

theorem ctor_shaped {R : Type} [Zero R] (params : simParams R) (debug : Bool) (P rank : Int)
    (g : Grid R) (h : Grid.ctor params debug P rank = .ok g) : g.Shaped := by
  obtain ⟨t, b, _, hb, hnx, hny, rfl⟩ := (ctor_ok_iff params debug P rank g).1 h
  have hb' : b = 1 ∨ b = 2 ∨ b = 4 := by
    rcases borderSizeOf_some _ _ hb with ⟨_, h⟩ | ⟨_, h⟩ | ⟨_, h⟩ <;> omega
  refine ⟨?_, hnx, hny, rfl, rfl, ?_, Or.inr ⟨rfl, rfl⟩⟩
  · show 1 ≤ b
    omega
  · have hpos : 0 ≤ (t.nx_ + 2 * b) * (t.ny_ + 2 * b) :=
      Int.mul_nonneg (by omega) (by omega)
    show (((setBCs _ _ _ _ _ _ _ _ _ _ _ _ ++ setBCs _ _ _ _ _ _ _ _ _ _ _ _ : List R).length
      : Nat) : Int) = 2 * (t.nx_ + 2 * b) * (t.ny_ + 2 * b)
    rw [List.length_append, setBCs_length, List.length_replicate]
    have e : 2 * (t.nx_ + 2 * b) * (t.ny_ + 2 * b)
        = 2 * ((t.nx_ + 2 * b) * (t.ny_ + 2 * b)) := by ring
    rw [e]
    omega

theorem shaped_of_sameFrame {R : Type} (g g' : Grid R) (h : g.SameFrame g')
    (hs : g.Shaped) : g'.Shaped := by
  obtain ⟨e1, e2, e3, e4, e5, e6, e7, _⟩ := sameFrame_fields g g' h
  unfold Grid.Shaped
  rw [e1, e2, e3, e4, e5, e6, e7, h.2]
  exact hs

/-- The effect of the three loop nests of an order branch on a shaped grid,
started with the generation indices of the grid: the non-halo cells of the
current generation receive the stencil value computed from the previous
generation as it was before the loop nests; nothing else changes. -/
theorem syncBranch_spec {R : Type} [Zero R] (st : Stencil R) (ρ : Int)
    (hloc : StencilLocal st ρ) (hρ0 : 0 ≤ ρ) (params : simParams R) (g : Grid R)
    (hs : g.Shaped) (hρ : ρ ≤ g.borderSize_) :
    g.SameFrame (syncBranch st params g.curr_ g.prev_ g) ∧
    (∀ x y, 0 ≤ x → x < g.gx_ → 0 ≤ y → y < g.gy_ →
      (syncBranch st params g.curr_ g.prev_ g).read g.prev_ x y = g.read g.prev_ x y) ∧
    (∀ x y, 0 ≤ x → x < g.gx_ → 0 ≤ y → y < g.gy_ →
      ¬ ((g.borderSize_ ≤ x ∧ x < g.nx_ + g.borderSize_) ∧
         (g.borderSize_ ≤ y ∧ y < g.ny_ + g.borderSize_)) →
      (syncBranch st params g.curr_ g.prev_ g).read g.curr_ x y = g.read g.curr_ x y) ∧
    (∀ x y, g.borderSize_ ≤ x → x < g.nx_ + g.borderSize_ →
      g.borderSize_ ≤ y → y < g.ny_ + g.borderSize_ →
      (syncBranch st params g.curr_ g.prev_ g).read g.curr_ x y =
        st g x y params.xcfl_ params.ycfl_ g.prev_) := by
  obtain ⟨hb, hnx, hny, hgx, hgy, hlen, hcp⟩ := hs
  rw [syncBranch_eq]
  have hmem := fun x y => mem_allCells g.borderSize_ g.nx_ g.ny_ x y (by omega) hnx hny
  obtain ⟨s1, s2, s3, s4⟩ := foldl_stencilWrite_spec st ρ hloc hρ0 params.xcfl_ params.ycfl_
    g.curr_ g.prev_ hcp g hlen
    (interiorCells g.borderSize_ g.nx_ g.ny_ ++ topBottomCells g.borderSize_ g.nx_ g.ny_ ++
        leftRightCells g.borderSize_ g.nx_ g.ny_)
    (by
      rintro ⟨x, y⟩ hc
      have := (hmem x y).1 hc
      dsimp only
      omega) g (sameFrame_refl g)
  refine ⟨s1, s2, ?_, ?_⟩
  · intro x y hx hx' hy hy' hn
    exact s3 x y hx hx' hy hy' (fun h => hn ((hmem x y).1 h))
  · intro x y h1 h2 h3 h4
    exact s4 (x, y) ((hmem x y).2 ⟨⟨h1, h2⟩, ⟨h3, h4⟩⟩)

theorem interiorPass_spec {R : Type} [Zero R] (st : Stencil R) (ρ : Int)
    (hloc : StencilLocal st ρ) (hρ0 : 0 ≤ ρ) (xcfl ycfl : R) (g : Grid R)
    (hs : g.Shaped) (hρ : ρ ≤ g.borderSize_) :
    g.SameFrame (interiorPass st xcfl ycfl g.curr_ g.prev_ g) ∧
    (∀ x y, 0 ≤ x → x < g.gx_ → 0 ≤ y → y < g.gy_ →
      (interiorPass st xcfl ycfl g.curr_ g.prev_ g).read g.prev_ x y = g.read g.prev_ x y) ∧
    (∀ x y, 0 ≤ x → x < g.gx_ → 0 ≤ y → y < g.gy_ →
      ¬ ((2 * g.borderSize_ ≤ x ∧ x < g.nx_) ∧ (2 * g.borderSize_ ≤ y ∧ y < g.ny_)) →
      (interiorPass st xcfl ycfl g.curr_ g.prev_ g).read g.curr_ x y = g.read g.curr_ x y) ∧
    (∀ x y, 2 * g.borderSize_ ≤ x → x < g.nx_ → 2 * g.borderSize_ ≤ y → y < g.ny_ →
      (interiorPass st xcfl ycfl g.curr_ g.prev_ g).read g.curr_ x y =
        st g x y xcfl ycfl g.prev_) := by
  obtain ⟨hb, hnx, hny, hgx, hgy, hlen, hcp⟩ := hs
  rw [interiorPass_eq]
  obtain ⟨s1, s2, s3, s4⟩ := foldl_stencilWrite_spec st ρ hloc hρ0 xcfl ycfl
    g.curr_ g.prev_ hcp g hlen (interiorCells g.borderSize_ g.nx_ g.ny_)
    (by
      rintro ⟨x, y⟩ hc
      have := (mem_interiorCells _ _ _ x y).1 hc
      dsimp only
      omega) g (sameFrame_refl g)
  refine ⟨s1, s2, ?_, ?_⟩
  · intro x y hx hx' hy hy' hn
    exact s3 x y hx hx' hy hy' (fun h => hn ((mem_interiorCells _ _ _ x y).1 h))
  · intro x y h1 h2 h3 h4
    exact s4 (x, y) ((mem_interiorCells _ _ _ x y).2 ⟨⟨h1, h2⟩, ⟨h3, h4⟩⟩)

/-- Claim C18: for order 2, 4 or 8 (stencil radius equal to the border size `b`)
on a grid with `nx > 2b`, `ny > 2b`: every cell read by the stencil at a cell of
`[2b, nx) × [2b, ny)` lies in the non-halo region `[b, nx+b) × [b, ny+b)`, the
stencil value is determined by the cells it reads, and two grids of the same
shape that agree on the non-halo cells of the previous generation (and differ
arbitrarily elsewhere) get the same values from the interior pass, namely the
stencil values of the grid before the pass. -/
theorem interior_pass_halo_independent {R : Type} [Ring R] (order : Int) (st : Stencil R)
    (ρ : Int) (hso : stencilOfOrder order = some (st, ρ)) (xcfl ycfl : R) (g g' : Grid R)
    (hs : g.Shaped) (hb : borderSizeOf order = some g.borderSize_) (hf : g.SameFrame g')
    (hagree : ∀ x y, g.borderSize_ ≤ x → x < g.nx_ + g.borderSize_ →
      g.borderSize_ ≤ y → y < g.ny_ + g.borderSize_ →
      g.read g.prev_ x y = g'.read g.prev_ x y) :
    ρ = g.borderSize_ ∧ StencilLocal st ρ ∧
    (∀ x y x' y', (x, y) ∈ interiorCells g.borderSize_ g.nx_ g.ny_ → InPlus ρ x y x' y' →
      (g.borderSize_ ≤ x' ∧ x' < g.nx_ + g.borderSize_) ∧
      (g.borderSize_ ≤ y' ∧ y' < g.ny_ + g.borderSize_)) ∧
    (∀ x y, (x, y) ∈ interiorCells g.borderSize_ g.nx_ g.ny_ →
      (interiorPass st xcfl ycfl g.curr_ g.prev_ g).read g.curr_ x y =
        st g x y xcfl ycfl g.prev_ ∧
      (interiorPass st xcfl ycfl g.curr_ g.prev_ g).read g.curr_ x y =
        (interiorPass st xcfl ycfl g.curr_ g.prev_ g').read g.curr_ x y) := by
  obtain ⟨hloc, hbo, _⟩ := stencilOfOrder_some order st ρ hso
  have hρ : ρ = g.borderSize_ := by
    rw [hbo] at hb; exact Option.some.inj hb
  have hs' := shaped_of_sameFrame g g' hf hs
  obtain ⟨e1, e2, e3, e4, e5, e6, e7, _⟩ := sameFrame_fields g g' hf
  have hb1 : 1 ≤ g.borderSize_ := hs.1
  have hreads : ∀ x y x' y', (x, y) ∈ interiorCells g.borderSize_ g.nx_ g.ny_ →
      InPlus ρ x y x' y' →
      (g.borderSize_ ≤ x' ∧ x' < g.nx_ + g.borderSize_) ∧
      (g.borderSize_ ≤ y' ∧ y' < g.ny_ + g.borderSize_) := by
    intro x y x' y' hm hp
    rw [mem_interiorCells] at hm
    rcases hp with ⟨p1, p2, p3⟩ | ⟨p1, p2, p3⟩ <;> omega
  refine ⟨hρ, hloc, hreads, ?_⟩
  intro x y hm
  have hm' := (mem_interiorCells _ _ _ x y).1 hm
  obtain ⟨_, _, _, a4⟩ := interiorPass_spec st ρ hloc (by omega) xcfl ycfl g hs (by omega)
  obtain ⟨_, _, _, b4⟩ := interiorPass_spec st ρ hloc (by omega) xcfl ycfl g' hs'
    (by rw [e5]; omega)
  rw [e3, e4, e5, e6, e7] at b4
  have v1 := a4 x y hm'.1.1 hm'.1.2 hm'.2.1 hm'.2.2
  have v2 := b4 x y hm'.1.1 hm'.1.2 hm'.2.1 hm'.2.2
  refine ⟨v1, ?_⟩
  rw [v1, v2]
  apply hloc
  intro x' y' hp
  obtain ⟨q1, q2⟩ := hreads x y x' y' hm hp
  exact hagree x' y' q1.1 q1.2 q2.1 q2.2

theorem defaultGrid_ctor :
    Grid.ctor (simParams.ctor : simParams ℚ) false 1 0 = .ok defaultGrid :=
  ctor_default false

theorem interior_pass_halo_independent_witness :
    (defaultGrid.write 0 0 0 99).read 0 0 0 = 99 ∧ defaultGrid.read 0 0 0 = 10 ∧
    (interiorPass stencil2 (1 / 4) (1 / 4) 1 0 defaultGrid).read 1 2 2 =
      (interiorPass stencil2 (1 / 4) (1 / 4) 1 0 (defaultGrid.write 0 0 0 99)).read 1 2 2 := by
  have hs : defaultGrid.Shaped := ctor_shaped _ _ _ _ _ defaultGrid_ctor
  have hlen := hs.2.2.2.2.2.1
  have hw : ∀ x y, 0 ≤ x → x < 12 → 0 ≤ y → y < 12 →
      (defaultGrid.write 0 0 0 99).read 0 x y =
        if (0 : Int) = 0 ∧ 0 = x ∧ 0 = y then 99 else defaultGrid.read 0 x y :=
    fun x y hx hx' hy hy' =>
      read_write defaultGrid hlen 0 0 0 0 x y 99 (Or.inl rfl) (by decide) (by decide)
        (by decide) (by decide) hx hx' hy hy'
  refine ⟨?_, ?_, ?_⟩
  · rw [hw 0 0 (by decide) (by decide) (by decide) (by decide)]
    rfl
  · exact (ctor_read _ false 1 0 _ defaultGrid_ctor 0 0 0 (Or.inl rfl) (by decide)
      (by decide) (by decide) (by decide)).trans rfl
  · exact ((interior_pass_halo_independent 2 stencil2 1 rfl (1 / 4) (1 / 4) defaultGrid
      (defaultGrid.write 0 0 0 99) hs rfl
      (sameFrame_write defaultGrid defaultGrid (sameFrame_refl _) 0 0 0 99)
      (by
        intro x y h1 h2 h3 h4
        have b1 : defaultGrid.borderSize_ = 1 := rfl
        have b2 : defaultGrid.nx_ = 10 := rfl
        have b3 : defaultGrid.ny_ = 10 := rfl
        have b4 : defaultGrid.prev_ = 0 := rfl
        rw [b1] at h1 h2 h3 h4
        rw [b2] at h2
        rw [b3] at h4
        rw [b4, hw x y (by omega) (by omega) (by omega) (by omega), if_neg (by omega)])).2.2.2
      2 2 ((mem_interiorCells _ _ _ 2 2).2 (by decide))).2

/-! ## `transferHaloDataASync` in stages -/

theorem transfer_eq_stages {R : Type} [Zero R] (g : Grid R) :
    g.transferHaloDataASync =
      (Grid.leftStage (Grid.rightStage
        ((Grid.botStage (Grid.topStage (g, 0))).1.packBuffers,
          (Grid.botStage (Grid.topStage (g, 0))).2))).1 := rfl

theorem waitForRecvs_eq {R : Type} [Zero R] (inbox : Int → List R) (g : Grid R) :
    g.waitForRecvs inbox = (g.completeAll inbox).unpackBuffers := rfl

theorem mem_cellsIJ (n m i j : Int) :
    (i, j) ∈ cellsIJ n m ↔ (0 ≤ i ∧ i < n) ∧ (0 ≤ j ∧ j < m) := by
  unfold cellsIJ
  simp only [List.mem_flatMap, List.mem_map, mem_intRange, Prod.mk.injEq]
  constructor
  · rintro ⟨i', hi, j', hj, rfl, rfl⟩; exact ⟨hi, hj⟩
  · rintro ⟨hi, hj⟩; exact ⟨i, hi, j, hj, rfl, rfl⟩

theorem packFrame_packCell {R : Type} [Zero R] (g s : Grid R) (c : Int × Int)
    (h : g.PackFrame s) : g.PackFrame (s.packCell c) := by
  unfold Grid.PackFrame at h ⊢
  unfold Grid.packCell
  dsimp only
  split_ifs <;> (rw [h])

theorem packBuffers_eq {R : Type} [Zero R] (g : Grid R) :
    g.packBuffers =
      if g.procRight_ ≠ -1 ∨ g.procLeft_ ≠ -1 then
        (cellsIJ g.gy_ g.borderSize_).foldl Grid.packCell g
      else g := by
  unfold Grid.packBuffers cellsIJ
  split_ifs with hf
  · rw [forLoop_eq_foldl]
    apply foldl_flatMap_inv g.PackFrame _ _ _
      (fun s c h => packFrame_packCell g s c h) _ _ g rfl
    intro i s hs
    have e : s.borderSize_ = g.borderSize_ := by rw [hs]
    rw [forLoop_eq_foldl, e, List.foldl_map]
    rfl
  · rfl

theorem packFrame_fields {R : Type} (g s : Grid R) (h : g.PackFrame s) :
    s.grid_ = g.grid_ ∧ s.gx_ = g.gx_ ∧ s.gy_ = g.gy_ ∧ s.nx_ = g.nx_ ∧ s.ny_ = g.ny_ ∧
    s.borderSize_ = g.borderSize_ ∧ s.curr_ = g.curr_ ∧ s.prev_ = g.prev_ ∧
    s.procLeft_ = g.procLeft_ ∧ s.procRight_ = g.procRight_ ∧
    s.procTop_ = g.procTop_ ∧ s.procBot_ = g.procBot_ ∧ s.ourRank_ = g.ourRank_ ∧
    s.send_requests_ = g.send_requests_ ∧ s.recv_requests_ = g.recv_requests_ ∧
    s.recv_left_buffer_ = g.recv_left_buffer_ ∧
    s.recv_right_buffer_ = g.recv_right_buffer_ := by
  unfold Grid.PackFrame at h
  rw [h]
  exact ⟨rfl, rfl, rfl, rfl, rfl, rfl, rfl, rfl, rfl, rfl, rfl, rfl, rfl, rfl, rfl, rfl, rfl⟩

theorem packCell_buffers {R : Type} [Zero R] (g s : Grid R) (c : Int × Int)
    (h : g.PackFrame s) :
    (s.packCell c).send_right_buffer_ =
      (if g.procRight_ ≠ -1 then
        vset s.send_right_buffer_ (c.1 * g.borderSize_ + c.2)
          (vget g.grid_ (g.prev_ * g.gx_ * g.gy_ + g.gx_ * c.1 + c.2 + g.nx_))
       else s.send_right_buffer_) ∧
    (s.packCell c).send_left_buffer_ =
      (if g.procLeft_ ≠ -1 then
        vset s.send_left_buffer_ (c.1 * g.borderSize_ + c.2)
          (vget g.grid_ (g.prev_ * g.gx_ * g.gy_ + g.gx_ * c.1 + c.2 + g.borderSize_))
       else s.send_left_buffer_) := by
  obtain ⟨e0, e1, e2, e3, _, e5, _, e7, e8, e9, _⟩ := packFrame_fields g s h
  unfold Grid.packCell
  dsimp only
  rw [← e0, ← e1, ← e2, ← e3, ← e5, ← e7, ← e8, ← e9]
  split_ifs <;> exact ⟨rfl, rfl⟩

theorem foldl_packCell_spec {R : Type} [Zero R] (g : Grid R) (cs : List (Int × Int)) :
    ∀ s : Grid R, g.PackFrame s →
      g.PackFrame (cs.foldl Grid.packCell s) ∧
      (cs.foldl Grid.packCell s).send_right_buffer_ =
        (if g.procRight_ ≠ -1 then
          cs.foldl (fun v c => vset v (c.1 * g.borderSize_ + c.2)
            (vget g.grid_ (g.prev_ * g.gx_ * g.gy_ + g.gx_ * c.1 + c.2 + g.nx_)))
            s.send_right_buffer_
         else s.send_right_buffer_) ∧
      (cs.foldl Grid.packCell s).send_left_buffer_ =
        (if g.procLeft_ ≠ -1 then
          cs.foldl (fun v c => vset v (c.1 * g.borderSize_ + c.2)
            (vget g.grid_ (g.prev_ * g.gx_ * g.gy_ + g.gx_ * c.1 + c.2 + g.borderSize_)))
            s.send_left_buffer_
         else s.send_left_buffer_) := by
  induction cs with
  | nil =>
    intro s h
    refine ⟨h, ?_, ?_⟩ <;> split_ifs <;> rfl
  | cons a cs ih =>
    intro s h
    rw [List.foldl_cons]
    obtain ⟨i1, i2, i3⟩ := ih (s.packCell a) (packFrame_packCell g s a h)
    obtain ⟨p1, p2⟩ := packCell_buffers g s a h
    refine ⟨i1, ?_, ?_⟩
    · rw [i2, p1]
      split_ifs <;> rfl
    · rw [i3, p2]
      split_ifs <;> rfl

theorem bufIndex_inj (b i j i' j' : Int) (hj : 0 ≤ j) (hj' : j < b)
    (hj2 : 0 ≤ j') (hj2' : j' < b) (h : i * b + j = i' * b + j') : i = i' ∧ j = j' :=
  rowmajor_inj b i j i' j' hj hj' hj2 hj2' (by linear_combination h)

theorem bufIndex_bounds (b n i j : Int) (hi : 0 ≤ i) (hi' : i < n) (hj : 0 ≤ j)
    (hj' : j < b) : 0 ≤ i * b + j ∧ i * b + j < n * b := by
  have h1 : 0 ≤ b * i := Int.mul_nonneg (by omega) hi
  have h2 := cell_index_lt b n j i hj hj' hi'
  have e1 : i * b = b * i := Int.mul_comm _ _
  have e2 : n * b = b * n := Int.mul_comm _ _
  omega

/-- The contents of the send buffers after the pack loop. -/
theorem packBuffers_spec {R : Type} [Zero R] (g : Grid R) :
    g.PackFrame g.packBuffers ∧
    g.packBuffers.send_right_buffer_.length = g.send_right_buffer_.length ∧
    g.packBuffers.send_left_buffer_.length = g.send_left_buffer_.length ∧
    (g.procRight_ ≠ -1 → (g.send_right_buffer_.length : Int) = g.gy_ * g.borderSize_ →
      ∀ i j, 0 ≤ i → i < g.gy_ → 0 ≤ j → j < g.borderSize_ →
        vget g.packBuffers.send_right_buffer_ (i * g.borderSize_ + j) =
          g.read g.prev_ (g.nx_ + j) i) ∧
    (g.procLeft_ ≠ -1 → (g.send_left_buffer_.length : Int) = g.gy_ * g.borderSize_ →
      ∀ i j, 0 ≤ i → i < g.gy_ → 0 ≤ j → j < g.borderSize_ →
        vget g.packBuffers.send_left_buffer_ (i * g.borderSize_ + j) =
          g.read g.prev_ (g.borderSize_ + j) i) := by
  rw [packBuffers_eq]
  by_cases hf : g.procRight_ ≠ -1 ∨ g.procLeft_ ≠ -1
  · rw [if_pos hf]
    obtain ⟨f1, f2, f3⟩ := foldl_packCell_spec g (cellsIJ g.gy_ g.borderSize_) g rfl
    refine ⟨f1, ?_, ?_, ?_, ?_⟩
    · rw [f2]
      split_ifs
      · exact (foldl_vset_spec _ _ _ _).1
      · rfl
    · rw [f3]
      split_ifs
      · exact (foldl_vset_spec _ _ _ _).1
      · rfl
    · intro hR hlen i j hi hi' hj hj'
      rw [f2, if_pos hR]
      obtain ⟨b1, b2⟩ := bufIndex_bounds g.borderSize_ g.gy_ i j hi hi' hj hj'
      have := (foldl_vset_spec (fun c : Int × Int => c.1 * g.borderSize_ + c.2)
        (fun c : Int × Int =>
          vget g.grid_ (g.prev_ * g.gx_ * g.gy_ + g.gx_ * c.1 + c.2 + g.nx_))
        (cellsIJ g.gy_ g.borderSize_) g.send_right_buffer_).2.2 (i, j)
        ((mem_cellsIJ _ _ i j).2 ⟨⟨hi, hi'⟩, ⟨hj, hj'⟩⟩) b1 (by rw [hlen]; exact b2)
        (by
          rintro ⟨i', j'⟩ hc e
          obtain ⟨_, q⟩ := (mem_cellsIJ _ _ i' j').1 hc
          obtain ⟨rfl, rfl⟩ := bufIndex_inj g.borderSize_ i' j' i j q.1 q.2 hj hj' e
          rfl)
      rw [this]
      unfold Grid.read
      congr 1
      ring
    · intro hL hlen i j hi hi' hj hj'
      rw [f3, if_pos hL]
      obtain ⟨b1, b2⟩ := bufIndex_bounds g.borderSize_ g.gy_ i j hi hi' hj hj'
      have := (foldl_vset_spec (fun c : Int × Int => c.1 * g.borderSize_ + c.2)
        (fun c : Int × Int =>
          vget g.grid_ (g.prev_ * g.gx_ * g.gy_ + g.gx_ * c.1 + c.2 + g.borderSize_))
        (cellsIJ g.gy_ g.borderSize_) g.send_left_buffer_).2.2 (i, j)
        ((mem_cellsIJ _ _ i j).2 ⟨⟨hi, hi'⟩, ⟨hj, hj'⟩⟩) b1 (by rw [hlen]; exact b2)
        (by
          rintro ⟨i', j'⟩ hc e
          obtain ⟨_, q⟩ := (mem_cellsIJ _ _ i' j').1 hc
          obtain ⟨rfl, rfl⟩ := bufIndex_inj g.borderSize_ i' j' i j q.1 q.2 hj hj' e
          rfl)
      rw [this]
      unfold Grid.read
      congr 1
      ring
  · rw [if_neg hf]
    refine ⟨rfl, rfl, rfl, fun h => absurd (Or.inl h) hf, fun h => absurd (Or.inr h) hf⟩

/-! ## The request slots after `transferHaloDataASync` -/

theorem length_eq_four {α : Type} (l : List α) (h : l.length = 4) :
    ∃ a b c d, l = [a, b, c, d] := by
  match l, h with
  | [a, b, c, d], _ => exact ⟨a, b, c, d, rfl⟩

theorem numberOfRequest_cases (pl pr pt pb : Int) :
    numberOfRequest pl pr pt pb =
      (if pt ≠ -1 then 1 else 0) + (if pb ≠ -1 then 1 else 0) +
      (if pr ≠ -1 then 1 else 0) + (if pl ≠ -1 then 1 else 0) := by
  unfold numberOfRequest
  dsimp only
  split_ifs <;> omega

theorem packCell_reqs {R : Type} [Zero R] (g : Grid R) (a : List (Option (SendOp R)))
    (b : List (Option RecvOp)) (c : Int × Int) :
    ({ g with send_requests_ := a, recv_requests_ := b } : Grid R).packCell c =
      { g.packCell c with send_requests_ := a, recv_requests_ := b } := by
  unfold Grid.packCell
  dsimp only
  split_ifs <;> rfl

theorem foldl_packCell_reqs {R : Type} [Zero R] (a : List (Option (SendOp R)))
    (b : List (Option RecvOp)) (cs : List (Int × Int)) :
    ∀ g : Grid R,
      cs.foldl Grid.packCell ({ g with send_requests_ := a, recv_requests_ := b } : Grid R) =
        { cs.foldl Grid.packCell g with send_requests_ := a, recv_requests_ := b } := by
  induction cs with
  | nil => intro g; rfl
  | cons x cs ih =>
    intro g
    rw [List.foldl_cons, List.foldl_cons, packCell_reqs, ih]

theorem packBuffers_reqs {R : Type} [Zero R] (g : Grid R) (a : List (Option (SendOp R)))
    (b : List (Option RecvOp)) :
    ({ g with send_requests_ := a, recv_requests_ := b } : Grid R).packBuffers =
      { g.packBuffers with send_requests_ := a, recv_requests_ := b } := by
  rw [packBuffers_eq, packBuffers_eq]
  dsimp only
  split_ifs
  · exact foldl_packCell_reqs a b _ g
  · rfl

/-- The state after `transferHaloDataASync`: grid, extents, neighbours and
receive buffers are kept, the send buffers are those of the pack loop, and the
request slots hold the started sends and receives in the order top, bottom,
right, left. -/
theorem transfer_spec {R : Type} [Zero R] (g : Grid R) (hc : g.CommReady) :
    g.transferHaloDataASync =
      { g with
        send_requests_ := g.packBuffers.sendOps.map some,
        recv_requests_ := g.recvOps.map some,
        send_left_buffer_ := g.packBuffers.send_left_buffer_,
        send_right_buffer_ := g.packBuffers.send_right_buffer_ } := by
  obtain ⟨c1, c2, _, _⟩ := hc
  rw [numberOfRequest_cases] at c1 c2
  have hpk : g.packBuffers =
      { g with
        send_left_buffer_ := g.packBuffers.send_left_buffer_,
        send_right_buffer_ := g.packBuffers.send_right_buffer_ } := (packBuffers_spec g).1
  rw [transfer_eq_stages]
  generalize g.packBuffers.send_left_buffer_ = SL at hpk ⊢
  generalize g.packBuffers.send_right_buffer_ = SR at hpk ⊢
  by_cases hT : g.procTop_ = -1 <;> by_cases hB : g.procBot_ = -1 <;>
    by_cases hR : g.procRight_ = -1 <;> by_cases hL : g.procLeft_ = -1
  all_goals
    replace hT := eq_true hT
    replace hB := eq_true hB
    replace hR := eq_true hR
    replace hL := eq_true hL
    simp only [hT, hB, hR, hL, ne_eq, not_true_eq_false, not_false_eq_true, if_false,
      if_true] at c1 c2
    simp only [Grid.topStage, Grid.botStage, Grid.startPair, hT, hB, ne_eq,
      not_true_eq_false, not_false_eq_true, if_false, if_true, packBuffers_reqs, hpk,
      Grid.rightStage, Grid.leftStage, hR, hL, Grid.sendOps, Grid.recvOps]
    generalize g.send_requests_ = A at c1 ⊢
    generalize g.recv_requests_ = B at c2 ⊢
    rcases A with _ | ⟨a1, _ | ⟨a2, _ | ⟨a3, _ | ⟨a4, _ | ⟨a5, A⟩⟩⟩⟩⟩ <;>
      simp at c1
    rcases B with _ | ⟨b1, _ | ⟨b2, _ | ⟨b3, _ | ⟨b4, _ | ⟨b5, B⟩⟩⟩⟩⟩ <;>
      simp at c2
    rfl
/-! ## Waiting for sends and receives -/

theorem vwrite_eq {R : Type} [Zero R] (v : List R) (off : Int) (data : List R) :
    vwrite v off data =
      (intRange 0 data.length).foldl (fun v k => vset v (off + k) (vget data k)) v := by
  unfold vwrite
  rw [forLoop_eq_foldl]
  apply List.foldl_ext
  intro v k hk
  rw [mem_intRange] at hk
  have hlt : k.toNat < data.length := by omega
  have e : vget data k = data[k.toNat] := by
    have := vget_of_lt data k.toNat hlt
    rwa [Int.toNat_of_nonneg hk.1] at this
  rw [List.getElem?_eq_getElem hlt, e]

/-- Storing a received message: the length is kept, elements outside the
written range are kept, and an element inside it holds the message value. -/
theorem vwrite_spec {R : Type} [Zero R] (v : List R) (off : Int) (data : List R) :
    (vwrite v off data).length = v.length ∧
    (∀ k : Int, ¬ (off ≤ k ∧ k < off + data.length) →
      vget (vwrite v off data) k = vget v k) ∧
    (∀ k : Int, off ≤ k → k < off + data.length → 0 ≤ k → k < v.length →
      vget (vwrite v off data) k = vget data (k - off)) := by
  rw [vwrite_eq]
  obtain ⟨h1, h2, h3⟩ := foldl_vset_spec (fun k : Int => off + k) (fun k : Int => vget data k)
    (intRange 0 data.length) v
  refine ⟨h1, ?_, ?_⟩
  · intro k hk
    apply h2
    intro c hc e
    rw [mem_intRange] at hc
    exact hk (by omega)
  · intro k hk1 hk2 hk3 hk4
    have := h3 (k - off) ((mem_intRange _ _ _).2 (by omega)) (by omega) (by omega)
      (by
        intro c' _ e
        have : c' = k - off := by omega
        rw [this])
    have e : off + (k - off) = k := by omega
    rwa [e] at this

theorem waitForSends_spec {R : Type} (g : Grid R) :
    ∃ l : List (Option (SendOp R)),
      g.waitForSends = { g with send_requests_ := l } ∧
      l.length = g.send_requests_.length := by
  unfold Grid.waitForSends
  apply forLoop_preserves
    (fun s : Grid R => ∃ l : List (Option (SendOp R)),
      s = { g with send_requests_ := l } ∧ l.length = g.send_requests_.length)
  · exact ⟨g.send_requests_, rfl, rfl⟩
  · rintro i s ⟨l, rfl, hl⟩
    exact ⟨l.set i.toNat none, rfl, by rw [List.length_set]; exact hl⟩

theorem completeRecv_reqs {R : Type} (inbox : Int → List R) (g : Grid R)
    (l : List (Option RecvOp)) (op : RecvOp) :
    Grid.completeRecv inbox { g with recv_requests_ := l } op =
      { Grid.completeRecv inbox g op with recv_requests_ := l } := by
  rcases op with ⟨s, c, t⟩
  cases t <;> rfl

theorem completeRecv_recv_requests {R : Type} (inbox : Int → List R) (g : Grid R)
    (op : RecvOp) : (Grid.completeRecv inbox g op).recv_requests_ = g.recv_requests_ := by
  rcases op with ⟨s, c, t⟩
  cases t <;> rfl

/-- The wait loop of `waitForRecvs` on a grid whose request slots are all
active: the receives are completed in slot order and every slot becomes
inactive. -/
theorem completeAll_spec {R : Type} (inbox : Int → List R) (ops : List RecvOp) (g : Grid R)
    (h : g.recv_requests_ = ops.map some) :
    g.completeAll inbox =
      { ops.foldl (Grid.completeRecv inbox) g with
        recv_requests_ := List.replicate ops.length none } := by
  unfold Grid.completeAll forLoop
  have hn : ((g.recv_requests_.length : Int) - 0).toNat = ops.length := by
    rw [h, List.length_map]; omega
  rw [hn]
  have key : ∀ n : Nat, n ≤ ops.length →
      (List.range n).foldl (fun acc (k : Nat) =>
        (fun (i : Int) (g : Grid R) =>
          match g.recv_requests_.getD i.toNat none with
          | some op =>
            { Grid.completeRecv inbox g op with
              recv_requests_ := g.recv_requests_.set i.toNat none }
          | none => g) (0 + Int.ofNat k) acc) g =
        { (ops.take n).foldl (Grid.completeRecv inbox) g with
          recv_requests_ := List.replicate n none ++ (ops.drop n).map some } := by
    intro n
    induction n with
    | zero =>
      intro _
      simp only [List.range_zero, List.foldl_nil, List.take_zero, List.replicate_zero,
        List.nil_append, List.drop_zero, ← h]
    | succ m ih =>
      intro hm
      have hlt : m < ops.length := by omega
      rw [List.range_succ, List.foldl_append, ih (by omega)]
      simp only [List.foldl_cons, List.foldl_nil]
      have e0 : ((0 : Int) + Int.ofNat m).toNat = m := by
        rw [Int.ofNat_eq_coe]; omega
      rw [e0]
      have e1 : (List.replicate m (none : Option RecvOp) ++ (ops.drop m).map some).getD m none
          = some ops[m] := by
        rw [List.getD_eq_getElem?_getD, List.getElem?_append_right (by simp)]
        simp [List.getElem?_drop, List.getElem?_eq_getElem hlt]
      rw [e1]
      dsimp only
      rw [completeRecv_reqs]
      have e2 : (List.replicate m (none : Option RecvOp) ++ (ops.drop m).map some).set m none
          = List.replicate (m + 1) none ++ (ops.drop (m + 1)).map some := by
        rw [List.drop_eq_getElem_cons hlt, List.map_cons, List.set_append_right _ _ (by simp)]
        simp [List.replicate_succ']
      have e3 : (ops.take (m + 1)).foldl (Grid.completeRecv inbox) g =
          Grid.completeRecv inbox ((ops.take m).foldl (Grid.completeRecv inbox) g) ops[m] := by
        rw [List.take_succ, List.foldl_append, List.getElem?_eq_getElem hlt]
        rfl
      rw [e3]
      dsimp only
      rw [e2]
  refine (key ops.length (le_refl _)).trans ?_
  rw [List.take_length, List.drop_length]
  simp
/-! ## The unpack loop of `waitForRecvs` -/

theorem unpackCell_eq {R : Type} [Zero R] (g s : Grid R) (c : Int × Int)
    (h : g.SameFrame s) :
    s.unpackCell c =
      { g with grid_ := (g.unpackWrites c).foldl (fun v a => vset v a.1 a.2) s.grid_ } := by
  have h1 := h.1
  revert h1
  generalize s.grid_ = v
  intro h1
  subst h1
  unfold Grid.unpackCell Grid.unpackWrites
  by_cases hL : g.procLeft_ = -1 <;> by_cases hR : g.procRight_ = -1
  all_goals
    replace hL := eq_true hL
    replace hR := eq_true hR
    simp only [hL, hR, ne_eq, not_true_eq_false, not_false_eq_true, if_false, if_true,
      List.nil_append, List.singleton_append, List.foldl_cons, List.foldl_nil]

theorem foldl_vset_length {R γ : Type} (idx : γ → Int) (val : γ → R) (cs : List γ)
    (v : List R) : (cs.foldl (fun v c => vset v (idx c) (val c)) v).length = v.length := by
  induction cs generalizing v with
  | nil => rfl
  | cons a cs ih => rw [List.foldl_cons, ih, vset_length]

theorem foldl_unpackCell_eq {R : Type} [Zero R] (g : Grid R) (cs : List (Int × Int)) :
    ∀ s : Grid R, g.SameFrame s →
      cs.foldl Grid.unpackCell s =
        { g with
          grid_ := (cs.flatMap g.unpackWrites).foldl (fun v a => vset v a.1 a.2) s.grid_ } := by
  induction cs with
  | nil => intro s h; exact h.1
  | cons a cs ih =>
    intro s h
    rw [List.foldl_cons, List.flatMap_cons, List.foldl_append]
    have hs : g.SameFrame (s.unpackCell a) := by
      rw [unpackCell_eq g s a h]
      exact ⟨rfl, (foldl_vset_length _ _ _ _).trans h.2⟩
    rw [ih _ hs, unpackCell_eq g s a h]

theorem unpackBuffers_eq {R : Type} [Zero R] (g : Grid R) :
    g.unpackBuffers =
      if g.procRight_ ≠ -1 ∨ g.procLeft_ ≠ -1 then
        { g with
          grid_ := ((cellsIJ g.gy_ g.borderSize_).flatMap g.unpackWrites).foldl
            (fun v a => vset v a.1 a.2) g.grid_ }
      else g := by
  have e : g.unpackBuffers =
      if g.procRight_ ≠ -1 ∨ g.procLeft_ ≠ -1 then
        (cellsIJ g.gy_ g.borderSize_).foldl Grid.unpackCell g
      else g := by
    unfold Grid.unpackBuffers cellsIJ
    split_ifs with hf
    · rw [forLoop_eq_foldl]
      apply foldl_flatMap_inv g.SameFrame _ _ _ _ _ _ g (sameFrame_refl g)
      · intro s c hs
        rw [unpackCell_eq g s c hs]
        exact ⟨rfl, (foldl_vset_length _ _ _ _).trans hs.2⟩
      · intro i s hs
        have e : s.borderSize_ = g.borderSize_ := (sameFrame_fields g s hs).2.2.2.2.1
        rw [forLoop_eq_foldl, e, List.foldl_map]
        rfl
    · rfl
  rw [e]
  split_ifs
  · exact foldl_unpackCell_eq g _ g (sameFrame_refl g)
  · rfl
theorem mem_unpackList {R : Type} [Zero R] (g : Grid R) (a : Int × R) :
    a ∈ (cellsIJ g.gy_ g.borderSize_).flatMap g.unpackWrites ↔
      ∃ i j, (0 ≤ i ∧ i < g.gy_) ∧ (0 ≤ j ∧ j < g.borderSize_) ∧
        ((g.procLeft_ ≠ -1 ∧
          a = (g.prev_ * g.gx_ * g.gy_ + i * g.gx_ + j,
            vget g.recv_left_buffer_ (i * g.borderSize_ + j))) ∨
         (g.procRight_ ≠ -1 ∧
          a = (g.prev_ * g.gx_ * g.gy_ + i * g.gx_ + (j + g.nx_ + g.borderSize_),
            vget g.recv_right_buffer_ (i * g.borderSize_ + j)))) := by
  have eL : ∀ i j : Int, g.prev_ * g.gx_ * g.gy_ + g.gx_ * i + j =
      g.prev_ * g.gx_ * g.gy_ + i * g.gx_ + j := by intro i j; ring
  have eR : ∀ i j : Int, g.prev_ * g.gx_ * g.gy_ + g.gx_ * i + j + g.nx_ + g.borderSize_ =
      g.prev_ * g.gx_ * g.gy_ + i * g.gx_ + (j + g.nx_ + g.borderSize_) := by intro i j; ring
  rw [List.mem_flatMap]
  constructor
  · rintro ⟨⟨i, j⟩, hc, ha⟩
    rw [mem_cellsIJ] at hc
    refine ⟨i, j, hc.1, hc.2, ?_⟩
    unfold Grid.unpackWrites at ha
    rw [List.mem_append] at ha
    rcases ha with ha | ha
    · left
      split_ifs at ha with hL
      · rw [List.mem_singleton] at ha
        exact ⟨hL, by rw [ha, eL]⟩
      · exact absurd ha (List.not_mem_nil _)
    · right
      split_ifs at ha with hR
      · rw [List.mem_singleton] at ha
        exact ⟨hR, by rw [ha, eR]⟩
      · exact absurd ha (List.not_mem_nil _)
  · rintro ⟨i, j, hi, hj, h⟩
    refine ⟨(i, j), (mem_cellsIJ _ _ _ _).2 ⟨hi, hj⟩, ?_⟩
    unfold Grid.unpackWrites
    rw [List.mem_append]
    rcases h with ⟨hL, rfl⟩ | ⟨hR, rfl⟩
    · left
      rw [if_pos hL, List.mem_singleton, eL]
    · right
      rw [if_pos hR, List.mem_singleton, eR]

theorem unpackBuffers_frame {R : Type} [Zero R] (g : Grid R) :
    g.SameFrame g.unpackBuffers := by
  rw [unpackBuffers_eq]
  split_ifs
  · exact ⟨rfl, foldl_vset_length _ _ _ _⟩
  · exact sameFrame_refl g

/-- The cells of a grid after the unpack loop of `waitForRecvs`: the left halo
columns of the previous generation hold the left receive buffer, the right
halo columns the right receive buffer, every other cell is kept. -/
theorem unpackBuffers_read {R : Type} [Zero R] (g : Grid R) (hs : g.Shaped)
    (sel x y : Int) (hsel : sel = 0 ∨ sel = 1)
    (hx : 0 ≤ x) (hx' : x < g.gx_) (hy : 0 ≤ y) (hy' : y < g.gy_) :
    g.unpackBuffers.read sel x y =
      if sel = g.prev_ ∧ g.procLeft_ ≠ -1 ∧ x < g.borderSize_ then
        vget g.recv_left_buffer_ (y * g.borderSize_ + x)
      else if sel = g.prev_ ∧ g.procRight_ ≠ -1 ∧ g.nx_ + g.borderSize_ ≤ x then
        vget g.recv_right_buffer_ (y * g.borderSize_ + (x - g.nx_ - g.borderSize_))
      else g.read sel x y := by
  obtain ⟨s1, s2, s3, s4, s5, s6, s7⟩ := hs
  have hp : g.prev_ = 0 ∨ g.prev_ = 1 := by omega
  rw [unpackBuffers_eq]
  by_cases hf : g.procRight_ ≠ -1 ∨ g.procLeft_ ≠ -1
  swap
  · rw [if_neg hf, if_neg (fun h => hf (Or.inr h.2.1)), if_neg (fun h => hf (Or.inl h.2.1))]
  rw [if_pos hf]
  unfold Grid.read
  dsimp only
  obtain ⟨_, f2, f3⟩ := foldl_vset_spec (fun a : Int × R => a.1) (fun a : Int × R => a.2)
    ((cellsIJ g.gy_ g.borderSize_).flatMap g.unpackWrites) g.grid_
  obtain ⟨b1, b2⟩ := cellIndex_bounds g.gx_ g.gy_ sel x y hsel hx hx' hy hy'
  have key : ∀ a ∈ (cellsIJ g.gy_ g.borderSize_).flatMap g.unpackWrites,
      a.1 = sel * g.gx_ * g.gy_ + y * g.gx_ + x →
      (sel = g.prev_ ∧ g.procLeft_ ≠ -1 ∧ x < g.borderSize_ ∧
        a.2 = vget g.recv_left_buffer_ (y * g.borderSize_ + x)) ∨
      (sel = g.prev_ ∧ g.procRight_ ≠ -1 ∧ g.nx_ + g.borderSize_ ≤ x ∧
        a.2 = vget g.recv_right_buffer_
          (y * g.borderSize_ + (x - g.nx_ - g.borderSize_))) := by
    intro a ha e
    rw [mem_unpackList] at ha
    obtain ⟨i, j, hi, hj, h⟩ := ha
    rcases h with ⟨hL, rfl⟩ | ⟨hR, rfl⟩
    · obtain ⟨q1, q2, q3⟩ := cellIndex_inj g.gx_ g.gy_ g.prev_ j i sel x y hj.1 (by omega)
        hi.1 hi.2 hx hx' hy hy' e
      subst q1 q2 q3
      exact Or.inl ⟨rfl, hL, hj.2, rfl⟩
    · obtain ⟨q1, q2, q3⟩ := cellIndex_inj g.gx_ g.gy_ g.prev_ (j + g.nx_ + g.borderSize_) i
        sel x y (by omega) (by omega) hi.1 hi.2 hx hx' hy hy' e
      subst q1 q2 q3
      refine Or.inr ⟨rfl, hR, by omega, ?_⟩
      dsimp only
      congr 2
      omega
  by_cases hA : sel = g.prev_ ∧ g.procLeft_ ≠ -1 ∧ x < g.borderSize_
  · rw [if_pos hA]
    obtain ⟨rfl, hL, hxb⟩ := hA
    have hm : ((g.prev_ * g.gx_ * g.gy_ + y * g.gx_ + x,
        vget g.recv_left_buffer_ (y * g.borderSize_ + x)) : Int × R) ∈
        (cellsIJ g.gy_ g.borderSize_).flatMap g.unpackWrites :=
      (mem_unpackList g _).2 ⟨y, x, ⟨hy, hy'⟩, ⟨hx, hxb⟩, Or.inl ⟨hL, rfl⟩⟩
    refine f3 _ hm b1 (by rw [s6]; exact b2) ?_
    intro a' ha' e'
    rcases key a' ha' e' with ⟨_, _, _, h⟩ | ⟨_, _, h, _⟩
    · exact h
    · omega
  · rw [if_neg hA]
    by_cases hB : sel = g.prev_ ∧ g.procRight_ ≠ -1 ∧ g.nx_ + g.borderSize_ ≤ x
    · rw [if_pos hB]
      obtain ⟨rfl, hR, hxb⟩ := hB
      have hm : ((g.prev_ * g.gx_ * g.gy_ + y * g.gx_ + x,
          vget g.recv_right_buffer_ (y * g.borderSize_ + (x - g.nx_ - g.borderSize_))) :
            Int × R) ∈ (cellsIJ g.gy_ g.borderSize_).flatMap g.unpackWrites := by
        refine (mem_unpackList g _).2 ⟨y, x - g.nx_ - g.borderSize_, ⟨hy, hy'⟩,
          ⟨by omega, by omega⟩, Or.inr ⟨hR, ?_⟩⟩
        congr 2
        omega
      refine f3 _ hm b1 (by rw [s6]; exact b2) ?_
      intro a' ha' e'
      rcases key a' ha' e' with ⟨_, _, h, _⟩ | ⟨_, _, _, h⟩
      · omega
      · exact h
    · rw [if_neg hB]
      apply f2
      intro a' ha' e'
      rcases key a' ha' e' with ⟨h1, h2, h3, _⟩ | ⟨h1, h2, h3, _⟩
      · exact hA ⟨h1, h2, h3⟩
      · exact hB ⟨h1, h2, h3⟩
/-! ## The exchange round -/

theorem foldl_completeRecv_recvOps {R : Type} (inbox : Int → List R) (g : Grid R) :
    g.recvOps.foldl (Grid.completeRecv inbox) g = g.landed inbox := by
  unfold Grid.recvOps Grid.landed
  by_cases hT : g.procTop_ = -1 <;> by_cases hB : g.procBot_ = -1 <;>
    by_cases hR : g.procRight_ = -1 <;> by_cases hL : g.procLeft_ = -1
  all_goals
    replace hT := eq_true hT
    replace hB := eq_true hB
    replace hR := eq_true hR
    replace hL := eq_true hL
    simp only [hT, hB, hR, hL, ne_eq, not_true_eq_false, not_false_eq_true, if_false,
      if_true, List.nil_append, List.append_nil, List.singleton_append, List.foldl_cons,
      List.foldl_nil, List.cons_append, List.foldl_append, Grid.completeRecv]

theorem sendOps_length {R : Type} (g : Grid R) :
    g.sendOps.length =
      (numberOfRequest g.procLeft_ g.procRight_ g.procTop_ g.procBot_).toNat := by
  rw [numberOfRequest_cases]
  unfold Grid.sendOps
  split_ifs <;> rfl

theorem recvOps_length {R : Type} (g : Grid R) :
    g.recvOps.length =
      (numberOfRequest g.procLeft_ g.procRight_ g.procTop_ g.procBot_).toNat := by
  rw [numberOfRequest_cases]
  unfold Grid.recvOps
  split_ifs <;> rfl

/-- The state after the wait loop of `waitForRecvs` (lines 477-481) in an
exchange round: the send buffers are packed, the receive areas hold the
delivered messages, every request slot is inactive. -/
theorem received_eq {R : Type} [Zero R] (inbox : Int → List R) (g : Grid R)
    (hc : g.CommReady) :
    ∃ l : List (Option (SendOp R)), l.length = g.send_requests_.length ∧
      (g.transferHaloDataASync.waitForSends).completeAll inbox =
          { g.landed inbox with
            send_requests_ := l,
            recv_requests_ := List.replicate g.recvOps.length none,
            send_left_buffer_ := g.packBuffers.send_left_buffer_,
            send_right_buffer_ := g.packBuffers.send_right_buffer_ } := by
  rw [transfer_spec g hc]
  obtain ⟨l, hl, hlen⟩ := waitForSends_spec
    { g with
      send_requests_ := g.packBuffers.sendOps.map some,
      recv_requests_ := g.recvOps.map some,
      send_left_buffer_ := g.packBuffers.send_left_buffer_,
      send_right_buffer_ := g.packBuffers.send_right_buffer_ }
  rw [hl]
  refine ⟨l, ?_, ?_⟩
  · rw [hlen]
    dsimp only
    rw [List.length_map, sendOps_length, hc.1]
    obtain ⟨_, _, _, _, _, _, _, _, e8, e9, e10, e11, _⟩ :=
      packFrame_fields g _ (packBuffers_spec g).1
    rw [e8, e9, e10, e11]
  · rw [completeAll_spec inbox g.recvOps _ rfl]
    have := foldl_completeRecv_recvOps inbox
      { g with
        send_requests_ := l,
        recv_requests_ := g.recvOps.map some,
        send_left_buffer_ := g.packBuffers.send_left_buffer_,
        send_right_buffer_ := g.packBuffers.send_right_buffer_ }
    have e : Grid.recvOps
      { g with
        send_requests_ := l,
        recv_requests_ := g.recvOps.map some,
        send_left_buffer_ := g.packBuffers.send_left_buffer_,
        send_right_buffer_ := g.packBuffers.send_right_buffer_ } = g.recvOps := rfl
    rw [e] at this
    dsimp only
    rw [this]
    rfl

/-- The exchange round as a whole: the state after the wait loop, with the
receive buffers unpacked into the halo columns. -/
theorem exchange_eq {R : Type} [Zero R] (inbox : Int → List R) (g : Grid R)
    (hc : g.CommReady) :
    ∃ l : List (Option (SendOp R)), l.length = g.send_requests_.length ∧
      g.exchange inbox =
        Grid.unpackBuffers
          { g.landed inbox with
            send_requests_ := l,
            recv_requests_ := List.replicate g.recvOps.length none,
            send_left_buffer_ := g.packBuffers.send_left_buffer_,
            send_right_buffer_ := g.packBuffers.send_right_buffer_ } := by
  obtain ⟨l, hl, he⟩ := received_eq inbox g hc
  refine ⟨l, hl, ?_⟩
  unfold Grid.exchange
  rw [waitForRecvs_eq, he]

theorem mul_block (gx m n x : Int) (hx : 0 ≤ x) (hx' : x < gx) :
    (gx * m ≤ gx * n + x ↔ m ≤ n) ∧ (gx * n + x < gx * m ↔ n < m) := by
  rcases le_or_lt m n with h | h
  · have := Int.mul_le_mul_of_nonneg_left h (by omega : 0 ≤ gx)
    exact ⟨⟨fun _ => h, fun _ => by omega⟩, ⟨fun _ => by omega, fun _ => by omega⟩⟩
  · have := Int.mul_le_mul_of_nonneg_left (by omega : n + 1 ≤ m) (by omega : 0 ≤ gx)
    rw [Int.mul_add, Int.mul_one] at this
    exact ⟨⟨fun _ => by omega, fun _ => by omega⟩, ⟨fun _ => h, fun _ => by omega⟩⟩

/-- The cells of the previous generation in the rows `[r0, r0 + b)` are the
storage range of `gx * b` elements that starts at row `r0`. -/
theorem row_block_iff (gx gy b sel prev x y r0 : Int) (hsel : sel = 0 ∨ sel = 1)
    (hprev : prev = 0 ∨ prev = 1) (hx : 0 ≤ x) (hx' : x < gx) (hy : 0 ≤ y) (hy' : y < gy)
    (hr : 0 ≤ r0) (hr' : r0 + b ≤ gy) :
    (prev * gx * gy + r0 * gx ≤ sel * gx * gy + y * gx + x ∧
      sel * gx * gy + y * gx + x < prev * gx * gy + r0 * gx + gx * b) ↔
    (sel = prev ∧ r0 ≤ y ∧ y < r0 + b) := by
  have e1 : sel * gx * gy + y * gx + x = gx * (gy * sel + y) + x := by ring
  have e2 : prev * gx * gy + r0 * gx = gx * (gy * prev + r0) := by ring
  have e3 : prev * gx * gy + r0 * gx + gx * b = gx * (gy * prev + r0 + b) := by ring
  rw [e1, e3, e2, (mul_block gx _ _ x hx hx').1, (mul_block gx _ _ x hx hx').2]
  rcases hsel with rfl | rfl <;> rcases hprev with rfl | rfl <;>
    simp only [Int.mul_zero, Int.mul_one, true_and] <;> omega

theorem vget_take {R : Type} [Zero R] (l : List R) (n : Nat) (k : Int) (hk : k < n) :
    vget (l.take n) k = vget l k := by
  unfold vget
  split_ifs with h
  · rw [List.getD_eq_getElem?_getD, List.getD_eq_getElem?_getD, List.getElem?_take_of_lt (by omega)]
  · rfl

theorem landed_read {R : Type} [Zero R] (inbox : Int → List R) (g : Grid R) (hs : g.Shaped)
    (hT : g.procTop_ ≠ -1 → g.gx_ * g.borderSize_ ≤ (inbox g.procTop_).length)
    (hB : g.procBot_ ≠ -1 → g.gx_ * g.borderSize_ ≤ (inbox g.procBot_).length)
    (sel x y : Int) (hsel : sel = 0 ∨ sel = 1)
    (hx : 0 ≤ x) (hx' : x < g.gx_) (hy : 0 ≤ y) (hy' : y < g.gy_) :
    (g.landed inbox).read sel x y =
      if sel = g.prev_ ∧ g.procTop_ ≠ -1 ∧ y < g.borderSize_ then
        vget (inbox g.procTop_) (y * g.gx_ + x)
      else if sel = g.prev_ ∧ g.procBot_ ≠ -1 ∧ g.gy_ - g.borderSize_ ≤ y then
        vget (inbox g.procBot_) ((y - (g.gy_ - g.borderSize_)) * g.gx_ + x)
      else g.read sel x y := by
  obtain ⟨s1, s2, s3, s4, s5, s6, s7⟩ := hs
  have hp : g.prev_ = 0 ∨ g.prev_ = 1 := by omega
  obtain ⟨b1, b2⟩ := cellIndex_bounds g.gx_ g.gy_ sel x y hsel hx hx' hy hy'
  have hgb : 0 ≤ g.gx_ * g.borderSize_ := Int.mul_nonneg (by omega) (by omega)
  have iT := row_block_iff g.gx_ g.gy_ g.borderSize_ sel g.prev_ x y 0 hsel hp hx hx' hy hy'
    (le_refl _) (by omega)
  have iB := row_block_iff g.gx_ g.gy_ g.borderSize_ sel g.prev_ x y (g.gy_ - g.borderSize_)
    hsel hp hx hx' hy hy' (by omega) (by omega)
  have z0 : (0 : Int) * g.gx_ = 0 := by ring
  rw [z0] at iT
  have lenT : g.procTop_ ≠ -1 →
      (((inbox g.procTop_).take (g.gx_ * g.borderSize_).toNat).length : Int) =
        g.gx_ * g.borderSize_ := by
    intro h
    have := hT h
    rw [List.length_take]
    omega
  have lenB : g.procBot_ ≠ -1 →
      (((inbox g.procBot_).take (g.gx_ * g.borderSize_).toNat).length : Int) =
        g.gx_ * g.borderSize_ := by
    intro h
    have := hB h
    rw [List.length_take]
    omega
  -- the value stored by the write of the message from above
  have topVal : ∀ v : List R, (v.length : Int) = 2 * g.gx_ * g.gy_ → g.procTop_ ≠ -1 →
      vget (vwrite v (g.prev_ * g.gx_ * g.gy_)
        ((inbox g.procTop_).take (g.gx_ * g.borderSize_).toNat))
        (sel * g.gx_ * g.gy_ + y * g.gx_ + x) =
      if sel = g.prev_ ∧ y < g.borderSize_ then vget (inbox g.procTop_) (y * g.gx_ + x)
      else vget v (sel * g.gx_ * g.gy_ + y * g.gx_ + x) := by
    intro v hv h
    obtain ⟨_, w2, w3⟩ := vwrite_spec v (g.prev_ * g.gx_ * g.gy_)
      ((inbox g.procTop_).take (g.gx_ * g.borderSize_).toNat)
    rw [lenT h] at w2 w3
    by_cases hc : sel = g.prev_ ∧ y < g.borderSize_
    · rw [if_pos hc]
      have hr := iT.2 ⟨hc.1, hy, by omega⟩
      rw [w3 _ (by omega) (by omega) b1 (by omega), vget_take _ _ _ (by omega)]
      congr 1
      rw [hc.1]
      ring
    · rw [if_neg hc]
      apply w2
      intro hr
      have := iT.1 ⟨by omega, by omega⟩
      exact hc ⟨this.1, by omega⟩
  have botVal : ∀ v : List R, (v.length : Int) = 2 * g.gx_ * g.gy_ → g.procBot_ ≠ -1 →
      vget (vwrite v (g.prev_ * g.gx_ * g.gy_ + (g.gy_ - g.borderSize_) * g.gx_)
        ((inbox g.procBot_).take (g.gx_ * g.borderSize_).toNat))
        (sel * g.gx_ * g.gy_ + y * g.gx_ + x) =
      if sel = g.prev_ ∧ g.gy_ - g.borderSize_ ≤ y then
        vget (inbox g.procBot_) ((y - (g.gy_ - g.borderSize_)) * g.gx_ + x)
      else vget v (sel * g.gx_ * g.gy_ + y * g.gx_ + x) := by
    intro v hv h
    obtain ⟨_, w2, w3⟩ := vwrite_spec v
      (g.prev_ * g.gx_ * g.gy_ + (g.gy_ - g.borderSize_) * g.gx_)
      ((inbox g.procBot_).take (g.gx_ * g.borderSize_).toNat)
    rw [lenB h] at w2 w3
    by_cases hc : sel = g.prev_ ∧ g.gy_ - g.borderSize_ ≤ y
    · rw [if_pos hc]
      have hr := iB.2 ⟨hc.1, hc.2, by omega⟩
      rw [w3 _ hr.1 hr.2 b1 (by omega), vget_take _ _ _ (by omega)]
      congr 1
      rw [hc.1]
      ring
    · rw [if_neg hc]
      apply w2
      intro hr
      have := iB.1 hr
      exact hc ⟨this.1, this.2.1⟩
  unfold Grid.landed Grid.read
  dsimp only
  by_cases fT : g.procTop_ ≠ -1 <;> by_cases fB : g.procBot_ ≠ -1
  · rw [if_pos fB, if_pos fT, botVal _ (by rw [(vwrite_spec _ _ _).1]; exact s6) fB,
      topVal _ s6 fT]
    split_ifs <;> first | rfl | omega
  · rw [if_neg fB, if_pos fT, topVal _ s6 fT]
    split_ifs <;> first | rfl | omega
  · rw [if_pos fB, if_neg fT, botVal _ s6 fB]
    split_ifs <;> first | rfl | omega
  · rw [if_neg fB, if_neg fT]
    split_ifs <;> first | rfl | omega
theorem landed_fields {R : Type} [Zero R] (inbox : Int → List R) (g : Grid R) :
    (g.landed inbox).grid_.length = g.grid_.length ∧
    (g.landed inbox).recv_right_buffer_.length = g.recv_right_buffer_.length ∧
    (g.landed inbox).recv_left_buffer_.length = g.recv_left_buffer_.length := by
  unfold Grid.landed
  dsimp only
  refine ⟨?_, ?_, ?_⟩
  · split_ifs <;>
      simp only [(vwrite_spec _ _ _).1]
  · split_ifs
    · exact (vwrite_spec _ _ _).1
    · rfl
  · split_ifs
    · exact (vwrite_spec _ _ _).1
    · rfl

theorem landed_buffers {R : Type} [Zero R] (inbox : Int → List R) (g : Grid R) (k : Int)
    (hk : 0 ≤ k) :
    (g.procRight_ ≠ -1 → k < g.recv_right_buffer_.length →
      k < (inbox g.procRight_).length →
      vget (g.landed inbox).recv_right_buffer_ k = vget (inbox g.procRight_) k) ∧
    (g.procLeft_ ≠ -1 → k < g.recv_left_buffer_.length →
      k < (inbox g.procLeft_).length →
      vget (g.landed inbox).recv_left_buffer_ k = vget (inbox g.procLeft_) k) := by
  unfold Grid.landed
  dsimp only
  constructor
  · intro h h1 h2
    rw [if_pos h, (vwrite_spec _ _ _).2.2 k (by omega)
      (by rw [List.length_take]; omega) hk h1, vget_take _ _ _ (by omega)]
    congr 1
    omega
  · intro h h1 h2
    rw [if_pos h, (vwrite_spec _ _ _).2.2 k (by omega)
      (by rw [List.length_take]; omega) hk h1, vget_take _ _ _ (by omega)]
    congr 1
    omega

theorem commReady_of_fields {R : Type} (g s : Grid R) (hc : g.CommReady)
    (h1 : s.procLeft_ = g.procLeft_) (h2 : s.procRight_ = g.procRight_)
    (h3 : s.procTop_ = g.procTop_) (h4 : s.procBot_ = g.procBot_)
    (h5 : s.gy_ = g.gy_) (h6 : s.borderSize_ = g.borderSize_)
    (h7 : s.send_requests_.length = g.send_requests_.length)
    (h8 : s.recv_requests_.length = g.recv_requests_.length)
    (h9 : s.send_right_buffer_.length = g.send_right_buffer_.length)
    (h10 : s.recv_right_buffer_.length = g.recv_right_buffer_.length)
    (h11 : s.send_left_buffer_.length = g.send_left_buffer_.length)
    (h12 : s.recv_left_buffer_.length = g.recv_left_buffer_.length) : s.CommReady := by
  unfold Grid.CommReady at hc ⊢
  rw [h1, h2, h3, h4, h5, h6, h7, h8, h9, h10, h11, h12]
  exact hc

/-- The fields an exchange round keeps. -/
theorem exchange_frame {R : Type} [Zero R] (inbox : Int → List R) (g : Grid R)
    (hc : g.CommReady) :
    (g.exchange inbox).gx_ = g.gx_ ∧ (g.exchange inbox).gy_ = g.gy_ ∧
    (g.exchange inbox).nx_ = g.nx_ ∧ (g.exchange inbox).ny_ = g.ny_ ∧
    (g.exchange inbox).borderSize_ = g.borderSize_ ∧
    (g.exchange inbox).curr_ = g.curr_ ∧ (g.exchange inbox).prev_ = g.prev_ ∧
    (g.exchange inbox).procLeft_ = g.procLeft_ ∧
    (g.exchange inbox).procRight_ = g.procRight_ ∧
    (g.exchange inbox).procTop_ = g.procTop_ ∧ (g.exchange inbox).procBot_ = g.procBot_ ∧
    (g.exchange inbox).ourRank_ = g.ourRank_ ∧
    (g.exchange inbox).grid_.length = g.grid_.length ∧
    (g.exchange inbox).CommReady := by
  obtain ⟨l, hl, he⟩ := exchange_eq inbox g hc
  obtain ⟨l1, l2, l3⟩ := landed_fields inbox g
  obtain ⟨p1, p2, p3, _⟩ := packBuffers_spec g
  rw [he]
  have hf := unpackBuffers_frame
    ({ g.landed inbox with
        send_requests_ := l,
        recv_requests_ := List.replicate g.recvOps.length none,
        send_left_buffer_ := g.packBuffers.send_left_buffer_,
        send_right_buffer_ := g.packBuffers.send_right_buffer_ } : Grid R)
  obtain ⟨hf1, hf2⟩ := hf
  rw [hf1]
  refine ⟨rfl, rfl, rfl, rfl, rfl, rfl, rfl, rfl, rfl, rfl, rfl, rfl, ?_, ?_⟩
  · exact hf2.trans l1
  · refine commReady_of_fields g _ hc rfl rfl rfl rfl rfl rfl hl ?_ p2 l2 p3 l3
    show (List.replicate g.recvOps.length (none : Option RecvOp)).length = _
    rw [List.length_replicate, recvOps_length, hc.2.1]

theorem exchange_shaped {R : Type} [Zero R] (inbox : Int → List R) (g : Grid R)
    (hs : g.Shaped) (hc : g.CommReady) : (g.exchange inbox).Shaped := by
  obtain ⟨e1, e2, e3, e4, e5, e6, e7, _, _, _, _, _, e13, _⟩ := exchange_frame inbox g hc
  unfold Grid.Shaped at hs ⊢
  rw [e1, e2, e3, e4, e5, e6, e7, e13]
  exact hs

/-- The cells of a grid after an exchange round in which every neighbour
delivers a full message: the left and right halo columns of the previous
generation hold the messages of the left and right neighbour (on all `gy`
rows), the remaining cells of the top and bottom halo rows hold the messages
of the up and down neighbour, and every other cell is kept. -/
theorem exchange_read {R : Type} [Zero R] (inbox : Int → List R) (g : Grid R)
    (hs : g.Shaped) (hc : g.CommReady)
    (mT : g.procTop_ ≠ -1 → g.gx_ * g.borderSize_ ≤ (inbox g.procTop_).length)
    (mB : g.procBot_ ≠ -1 → g.gx_ * g.borderSize_ ≤ (inbox g.procBot_).length)
    (mR : g.procRight_ ≠ -1 → g.gy_ * g.borderSize_ ≤ (inbox g.procRight_).length)
    (mL : g.procLeft_ ≠ -1 → g.gy_ * g.borderSize_ ≤ (inbox g.procLeft_).length)
    (sel x y : Int) (hsel : sel = 0 ∨ sel = 1)
    (hx : 0 ≤ x) (hx' : x < g.gx_) (hy : 0 ≤ y) (hy' : y < g.gy_) :
    (g.exchange inbox).read sel x y =
      if sel = g.prev_ ∧ g.procLeft_ ≠ -1 ∧ x < g.borderSize_ then
        vget (inbox g.procLeft_) (y * g.borderSize_ + x)
      else if sel = g.prev_ ∧ g.procRight_ ≠ -1 ∧ g.nx_ + g.borderSize_ ≤ x then
        vget (inbox g.procRight_) (y * g.borderSize_ + (x - g.nx_ - g.borderSize_))
      else if sel = g.prev_ ∧ g.procTop_ ≠ -1 ∧ y < g.borderSize_ then
        vget (inbox g.procTop_) (y * g.gx_ + x)
      else if sel = g.prev_ ∧ g.procBot_ ≠ -1 ∧ g.gy_ - g.borderSize_ ≤ y then
        vget (inbox g.procBot_) ((y - (g.gy_ - g.borderSize_)) * g.gx_ + x)
      else g.read sel x y := by
  obtain ⟨l, hl, he⟩ := exchange_eq inbox g hc
  obtain ⟨l1, l2, l3⟩ := landed_fields inbox g
  have hsm : Grid.Shaped
      ({ g.landed inbox with
        send_requests_ := l,
        recv_requests_ := List.replicate g.recvOps.length none,
        send_left_buffer_ := g.packBuffers.send_left_buffer_,
        send_right_buffer_ := g.packBuffers.send_right_buffer_ } : Grid R) := by
    obtain ⟨s1, s2, s3, s4, s5, s6, s7⟩ := hs
    refine ⟨s1, s2, s3, s4, s5, ?_, s7⟩
    show (((g.landed inbox).grid_.length : Nat) : Int) = 2 * g.gx_ * g.gy_
    rw [l1]
    exact s6
  have hu := unpackBuffers_read _ hsm sel x y hsel hx hx' hy hy'
  rw [he, hu]
  have hlr := landed_read inbox g hs mT mB sel x y hsel hx hx' hy hy'
  obtain ⟨s1, s2, s3, s4, s5, s6, s7⟩ := hs
  obtain ⟨c1, c2, c3, c4⟩ := hc
  show (if sel = g.prev_ ∧ g.procLeft_ ≠ -1 ∧ x < g.borderSize_ then
        vget (g.landed inbox).recv_left_buffer_ (y * g.borderSize_ + x)
      else if sel = g.prev_ ∧ g.procRight_ ≠ -1 ∧ g.nx_ + g.borderSize_ ≤ x then
        vget (g.landed inbox).recv_right_buffer_
          (y * g.borderSize_ + (x - g.nx_ - g.borderSize_))
      else (g.landed inbox).read sel x y) = _
  rw [hlr]
  by_cases hA : sel = g.prev_ ∧ g.procLeft_ ≠ -1 ∧ x < g.borderSize_
  · rw [if_pos hA, if_pos hA]
    obtain ⟨q1, q2⟩ := bufIndex_bounds g.borderSize_ g.gy_ y x hy hy' hx hA.2.2
    have := mL hA.2.1
    exact (landed_buffers inbox g _ q1).2 hA.2.1 (by have := (c4 hA.2.1).2; omega) (by omega)
  · rw [if_neg hA, if_neg hA]
    by_cases hB : sel = g.prev_ ∧ g.procRight_ ≠ -1 ∧ g.nx_ + g.borderSize_ ≤ x
    · rw [if_pos hB, if_pos hB]
      obtain ⟨q1, q2⟩ := bufIndex_bounds g.borderSize_ g.gy_ y (x - g.nx_ - g.borderSize_)
        hy hy' (by omega) (by omega)
      have := mR hB.2.1
      exact (landed_buffers inbox g _ q1).1 hB.2.1 (by have := (c3 hB.2.1).2; omega)
        (by omega)
    · rw [if_neg hB, if_neg hB]
/-! ## Constructed grids are ready for the exchange -/

theorem allocate_commReady {R : Type} [Zero R] (params : simParams R) (debug : Bool)
    (rank : Int) (t : Topology) (b : Int) (hb : 0 ≤ b) (hny : 0 ≤ t.ny_) :
    (Grid.allocate params debug rank t b).CommReady := by
  have hpos : 0 ≤ (t.ny_ + 2 * b) * b := Int.mul_nonneg (by omega) hb
  unfold Grid.CommReady Grid.allocate
  dsimp only
  refine ⟨List.length_replicate _ _, List.length_replicate _ _, ?_, ?_⟩
  · intro h
    rw [if_pos h, List.length_replicate]
    omega
  · intro h
    rw [if_pos h, List.length_replicate]
    omega

theorem ctor_commReady {R : Type} [Zero R] (params : simParams R) (debug : Bool)
    (P rank : Int) (g : Grid R) (h : Grid.ctor params debug P rank = .ok g) :
    g.CommReady := by
  obtain ⟨t, b, _, hb, hnx, hny, rfl⟩ := (ctor_ok_iff params debug P rank g).1 h
  have hb' : b = 1 ∨ b = 2 ∨ b = 4 := by
    rcases borderSizeOf_some _ _ hb with ⟨_, h⟩ | ⟨_, h⟩ | ⟨_, h⟩ <;> omega
  exact allocate_commReady params debug rank t b (by omega) (by omega)

/-- The halo columns after an exchange round, whatever the up and down
neighbours deliver: the unpack loop is the last assignment to them. -/
theorem exchange_read_cols {R : Type} [Zero R] (inbox : Int → List R) (g : Grid R)
    (hs : g.Shaped) (hc : g.CommReady) (x y : Int)
    (hx : 0 ≤ x) (hx' : x < g.gx_) (hy : 0 ≤ y) (hy' : y < g.gy_) :
    (g.procLeft_ ≠ -1 → x < g.borderSize_ →
      g.gy_ * g.borderSize_ ≤ (inbox g.procLeft_).length →
      (g.exchange inbox).read g.prev_ x y =
        vget (inbox g.procLeft_) (y * g.borderSize_ + x)) ∧
    (g.procRight_ ≠ -1 → g.nx_ + g.borderSize_ ≤ x →
      g.gy_ * g.borderSize_ ≤ (inbox g.procRight_).length →
      (g.exchange inbox).read g.prev_ x y =
        vget (inbox g.procRight_) (y * g.borderSize_ + (x - g.nx_ - g.borderSize_))) := by
  obtain ⟨l, hl, he⟩ := exchange_eq inbox g hc
  obtain ⟨l1, l2, l3⟩ := landed_fields inbox g
  have hsm : Grid.Shaped
      ({ g.landed inbox with
        send_requests_ := l,
        recv_requests_ := List.replicate g.recvOps.length none,
        send_left_buffer_ := g.packBuffers.send_left_buffer_,
        send_right_buffer_ := g.packBuffers.send_right_buffer_ } : Grid R) := by
    obtain ⟨s1, s2, s3, s4, s5, s6, s7⟩ := hs
    refine ⟨s1, s2, s3, s4, s5, ?_, s7⟩
    show (((g.landed inbox).grid_.length : Nat) : Int) = 2 * g.gx_ * g.gy_
    rw [l1]
    exact s6
  obtain ⟨s1, s2, s3, s4, s5, s6, s7⟩ := hs
  have hp : g.prev_ = 0 ∨ g.prev_ = 1 := by omega
  have hu := unpackBuffers_read _ hsm g.prev_ x y hp hx hx' hy hy'
  obtain ⟨c1, c2, c3, c4⟩ := hc
  have hu' : (g.exchange inbox).read g.prev_ x y =
      (if g.prev_ = g.prev_ ∧ g.procLeft_ ≠ -1 ∧ x < g.borderSize_ then
        vget (g.landed inbox).recv_left_buffer_ (y * g.borderSize_ + x)
      else if g.prev_ = g.prev_ ∧ g.procRight_ ≠ -1 ∧ g.nx_ + g.borderSize_ ≤ x then
        vget (g.landed inbox).recv_right_buffer_
          (y * g.borderSize_ + (x - g.nx_ - g.borderSize_))
      else (g.landed inbox).read g.prev_ x y) := by
    rw [he]
    exact hu
  rw [hu']
  constructor
  · intro hL hxb hm
    rw [if_pos ⟨rfl, hL, hxb⟩]
    obtain ⟨q1, q2⟩ := bufIndex_bounds g.borderSize_ g.gy_ y x hy hy' hx hxb
    exact (landed_buffers inbox g _ q1).2 hL (by have := (c4 hL).2; omega) (by omega)
  · intro hR hxb hm
    rw [if_neg (fun h => by omega), if_pos ⟨rfl, hR, hxb⟩]
    obtain ⟨q1, q2⟩ := bufIndex_bounds g.borderSize_ g.gy_ y (x - g.nx_ - g.borderSize_)
      hy hy' (by omega) (by omega)
    exact (landed_buffers inbox g _ q1).1 hR (by have := (c3 hR).2; omega) (by omega)
/-! ## The blocks of a 2 x 2 run -/

theorem blockRank0_ctor : Grid.ctor paramsBlock false 4 0 = .ok blockRank0 :=
  (ctor_ok_iff paramsBlock false 4 0 blockRank0).2
    ⟨_, 1, decomposition_block 10 10 2 0 0 (by decide) (by decide) (by decide) (by decide),
      rfl, by decide, by decide, rfl⟩

theorem blockRank1_ctor : Grid.ctor paramsBlock false 4 1 = .ok blockRank1 :=
  (ctor_ok_iff paramsBlock false 4 1 blockRank1).2
    ⟨_, 1, decomposition_block 10 10 2 0 1 (by decide) (by decide) (by decide) (by decide),
      rfl, by decide, by decide, rfl⟩

theorem blockRank3_ctor : Grid.ctor paramsBlock false 4 3 = .ok blockRank3 :=
  (ctor_ok_iff paramsBlock false 4 3 blockRank3).2
    ⟨_, 1, decomposition_block 10 10 2 1 1 (by decide) (by decide) (by decide) (by decide),
      rfl, by decide, by decide, rfl⟩
/-! ## Horizontal halo exchange -/

theorem transfer_send_requests {R : Type} [Zero R] (g : Grid R) (hc : g.CommReady) :
    (g.procRight_ ≠ -1 →
      some ({ dest := g.procRight_, data := g.transferHaloDataASync.send_right_buffer_ } :
        SendOp R) ∈ g.transferHaloDataASync.send_requests_) ∧
    (g.procLeft_ ≠ -1 →
      some ({ dest := g.procLeft_, data := g.transferHaloDataASync.send_left_buffer_ } :
        SendOp R) ∈ g.transferHaloDataASync.send_requests_) := by
  obtain ⟨_, _, _, _, _, _, _, _, e8, e9, _⟩ := packFrame_fields g _ (packBuffers_spec g).1
  rw [transfer_spec g hc]
  dsimp only
  unfold Grid.sendOps
  rw [e8, e9]
  constructor
  · intro h
    rw [if_pos h]
    simp
  · intro h
    rw [if_pos h]
    simp

/-! ## Vertical halo exchange -/

theorem vslice_spec {R : Type} [Zero R] (v : List R) (off cnt : Int) (hoff : 0 ≤ off)
    (hcnt : 0 ≤ cnt) (hlen : off + cnt ≤ v.length) :
    ((vslice v off cnt).length : Int) = cnt ∧
    ∀ k : Int, 0 ≤ k → k < cnt → vget (vslice v off cnt) k = vget v (off + k) := by
  unfold vslice
  constructor
  · rw [List.length_take, List.length_drop]
    omega
  · intro k hk hk'
    rw [vget_take _ _ _ (by omega)]
    unfold vget
    rw [if_pos hk, if_pos (by omega), List.getD_eq_getElem?_getD, List.getD_eq_getElem?_getD,
      List.getElem?_drop]
    congr 2
    omega

/-- The rows `[r0, r0 + b)` of the previous generation as a contiguous slice
of `gx * b` values. -/
theorem rowSlice_spec {R : Type} [Zero R] (g : Grid R) (hs : g.Shaped) (r0 : Int)
    (hr : 0 ≤ r0) (hr' : r0 + g.borderSize_ ≤ g.gy_) :
    ((vslice g.grid_ (g.prev_ * g.gx_ * g.gy_ + r0 * g.gx_)
      (g.gx_ * g.borderSize_)).length : Int) = g.gx_ * g.borderSize_ ∧
    ∀ x y, 0 ≤ x → x < g.gx_ → 0 ≤ y → y < g.borderSize_ →
      vget (vslice g.grid_ (g.prev_ * g.gx_ * g.gy_ + r0 * g.gx_) (g.gx_ * g.borderSize_))
        (y * g.gx_ + x) = g.read g.prev_ x (r0 + y) := by
  obtain ⟨s1, s2, s3, s4, s5, s6, s7⟩ := hs
  have hp : g.prev_ = 0 ∨ g.prev_ = 1 := by omega
  have hgb : 0 ≤ g.gx_ * g.borderSize_ := Int.mul_nonneg (by omega) (by omega)
  obtain ⟨b1, b2⟩ := cellIndex_bounds g.gx_ g.gy_ g.prev_ 0 r0 hp (le_refl _) (by omega) hr
    (by omega)
  obtain ⟨b3, b4⟩ := cellIndex_bounds g.gx_ g.gy_ g.prev_ (g.gx_ - 1) (r0 + g.borderSize_ - 1)
    hp (by omega) (by omega) (by omega) (by omega)
  have e : g.prev_ * g.gx_ * g.gy_ + (r0 + g.borderSize_ - 1) * g.gx_ + (g.gx_ - 1) =
      g.prev_ * g.gx_ * g.gy_ + r0 * g.gx_ + g.gx_ * g.borderSize_ - 1 := by ring
  obtain ⟨v1, v2⟩ := vslice_spec g.grid_ (g.prev_ * g.gx_ * g.gy_ + r0 * g.gx_)
    (g.gx_ * g.borderSize_) (by omega) hgb (by omega)
  refine ⟨v1, ?_⟩
  intro x y hx hx' hy hy'
  have h1 : 0 ≤ g.gx_ * y := Int.mul_nonneg (by omega) hy
  have h2 := cell_index_lt g.gx_ g.borderSize_ x y hx hx' hy'
  have e1 : y * g.gx_ = g.gx_ * y := Int.mul_comm _ _
  rw [v2 _ (by omega) (by omega)]
  unfold Grid.read
  congr 1
  ring

theorem transfer_send_vertical {R : Type} [Zero R] (g : Grid R) (hc : g.CommReady) :
    (g.procTop_ ≠ -1 →
      some ({ dest := g.procTop_
              data := vslice g.grid_ (g.prev_ * g.gx_ * g.gy_ + g.borderSize_ * g.gx_)
                (g.gx_ * g.borderSize_) } : SendOp R) ∈
        g.transferHaloDataASync.send_requests_) ∧
    (g.procBot_ ≠ -1 →
      some ({ dest := g.procBot_
              data := vslice g.grid_
                (g.prev_ * g.gx_ * g.gy_ + (g.gy_ - 2 * g.borderSize_) * g.gx_)
                (g.gx_ * g.borderSize_) } : SendOp R) ∈
        g.transferHaloDataASync.send_requests_) := by
  obtain ⟨e0, e1, e2, _, _, e5, _, e7, _, _, e10, e11, _⟩ :=
    packFrame_fields g _ (packBuffers_spec g).1
  rw [transfer_spec g hc]
  dsimp only
  unfold Grid.sendOps
  rw [e0, e1, e2, e5, e7, e10, e11]
  have ec : g.borderSize_ * g.gx_ = g.gx_ * g.borderSize_ := Int.mul_comm _ _
  constructor
  · intro h
    rw [if_pos h, ec]
    simp
  · intro h
    rw [if_pos h]
    simp

/-- The cells after an exchange round in terms of the receive areas: the
unpack loop assigns the halo columns on all `gy` rows, every other cell is the
one of the grid in which the receives have landed. -/
theorem exchange_read_unpack {R : Type} [Zero R] (inbox : Int → List R) (g : Grid R)
    (hs : g.Shaped) (hc : g.CommReady) (sel x y : Int) (hsel : sel = 0 ∨ sel = 1)
    (hx : 0 ≤ x) (hx' : x < g.gx_) (hy : 0 ≤ y) (hy' : y < g.gy_) :
    (g.exchange inbox).read sel x y =
      if sel = g.prev_ ∧ g.procLeft_ ≠ -1 ∧ x < g.borderSize_ then
        vget (g.landed inbox).recv_left_buffer_ (y * g.borderSize_ + x)
      else if sel = g.prev_ ∧ g.procRight_ ≠ -1 ∧ g.nx_ + g.borderSize_ ≤ x then
        vget (g.landed inbox).recv_right_buffer_
          (y * g.borderSize_ + (x - g.nx_ - g.borderSize_))
      else (g.landed inbox).read sel x y := by
  obtain ⟨l, hl, he⟩ := exchange_eq inbox g hc
  obtain ⟨l1, l2, l3⟩ := landed_fields inbox g
  have hsm : Grid.Shaped
      ({ g.landed inbox with
        send_requests_ := l,
        recv_requests_ := List.replicate g.recvOps.length none,
        send_left_buffer_ := g.packBuffers.send_left_buffer_,
        send_right_buffer_ := g.packBuffers.send_right_buffer_ } : Grid R) := by
    obtain ⟨s1, s2, s3, s4, s5, s6, s7⟩ := hs
    refine ⟨s1, s2, s3, s4, s5, ?_, s7⟩
    show (((g.landed inbox).grid_.length : Nat) : Int) = 2 * g.gx_ * g.gy_
    rw [l1]
    exact s6
  rw [he]
  exact unpackBuffers_read _ hsm sel x y hsel hx hx' hy hy'

/-- The halo rows of the grid in which the receives have landed: rows `[0, b)`
hold the message of the up neighbour, rows `[gy - b, gy)` the message of the
down neighbour. -/
theorem landed_read_rows {R : Type} [Zero R] (inbox : Int → List R) (g : Grid R)
    (hs : g.Shaped) (x y : Int)
    (hx : 0 ≤ x) (hx' : x < g.gx_) (hy : 0 ≤ y) (hy' : y < g.gy_) :
    (g.procTop_ ≠ -1 → g.gx_ * g.borderSize_ ≤ (inbox g.procTop_).length →
      y < g.borderSize_ →
      (g.landed inbox).read g.prev_ x y = vget (inbox g.procTop_) (y * g.gx_ + x)) ∧
    (g.procBot_ ≠ -1 → g.gx_ * g.borderSize_ ≤ (inbox g.procBot_).length →
      g.gy_ - g.borderSize_ ≤ y →
      (g.landed inbox).read g.prev_ x y =
        vget (inbox g.procBot_) ((y - (g.gy_ - g.borderSize_)) * g.gx_ + x)) := by
  obtain ⟨s1, s2, s3, s4, s5, s6, s7⟩ := hs
  have hp : g.prev_ = 0 ∨ g.prev_ = 1 := by omega
  obtain ⟨b1, b2⟩ := cellIndex_bounds g.gx_ g.gy_ g.prev_ x y hp hx hx' hy hy'
  have hgb : 0 ≤ g.gx_ * g.borderSize_ := Int.mul_nonneg (by omega) (by omega)
  have iT := row_block_iff g.gx_ g.gy_ g.borderSize_ g.prev_ g.prev_ x y 0 hp hp hx hx' hy hy'
    (le_refl _) (by omega)
  have iB := row_block_iff g.gx_ g.gy_ g.borderSize_ g.prev_ g.prev_ x y
    (g.gy_ - g.borderSize_) hp hp hx hx' hy hy' (by omega) (by omega)
  have z0 : (0 : Int) * g.gx_ = 0 := by ring
  rw [z0] at iT
  unfold Grid.landed Grid.read
  dsimp only
  constructor
  · intro fT mT hyb
    have hr := iT.2 ⟨rfl, hy, by omega⟩
    have top : vget (vwrite g.grid_ (g.prev_ * g.gx_ * g.gy_)
        ((inbox g.procTop_).take (g.gx_ * g.borderSize_).toNat))
        (g.prev_ * g.gx_ * g.gy_ + y * g.gx_ + x) =
        vget (inbox g.procTop_) (y * g.gx_ + x) := by
      rw [(vwrite_spec _ _ _).2.2 _ (by omega) (by rw [List.length_take]; omega) b1
        (by omega), vget_take _ _ _ (by omega)]
      congr 1
      ring
    rw [if_pos fT]
    split_ifs with fB
    · rw [(vwrite_spec _ _ _).2.1 _ (by
        intro h
        have hl : (((inbox g.procBot_).take (g.gx_ * g.borderSize_).toNat).length : Int) ≤
            g.gx_ * g.borderSize_ := by
          rw [List.length_take]; omega
        have := iB.1 ⟨h.1, by omega⟩
        omega)]
      exact top
    · exact top
  · intro fB mB hyb
    have hr := iB.2 ⟨rfl, hyb, by omega⟩
    rw [if_pos fB]
    have hv1 : ((if g.procTop_ ≠ -1 then
        vwrite g.grid_ (g.prev_ * g.gx_ * g.gy_)
          ((inbox g.procTop_).take (g.gx_ * g.borderSize_).toNat)
        else g.grid_).length : Int) = 2 * g.gx_ * g.gy_ := by
      split_ifs
      · rw [(vwrite_spec _ _ _).1]; exact s6
      · exact s6
    rw [(vwrite_spec _ _ _).2.2 _ hr.1 (by rw [List.length_take]; omega) b1 (by omega),
      vget_take _ _ _ (by omega)]
    congr 1
    ring

theorem exchange_read_mid {R : Type} [Zero R] (inbox : Int → List R) (g : Grid R)
    (hs : g.Shaped) (hc : g.CommReady) (x y : Int)
    (hx : 0 ≤ x) (hx' : x < g.gx_) (hy : 0 ≤ y) (hy' : y < g.gy_)
    (hl : g.procLeft_ = -1 ∨ g.borderSize_ ≤ x)
    (hr : g.procRight_ = -1 ∨ x < g.nx_ + g.borderSize_) :
    (g.exchange inbox).read g.prev_ x y = (g.landed inbox).read g.prev_ x y := by
  have hp : g.prev_ = 0 ∨ g.prev_ = 1 := by
    have := hs.2.2.2.2.2.2
    omega
  rw [exchange_read_unpack inbox g hs hc g.prev_ x y hp hx hx' hy hy',
    if_neg (fun h => by omega), if_neg (fun h => by omega)]
theorem blockRank2_ctor : Grid.ctor paramsBlock false 4 2 = .ok blockRank2 :=
  (ctor_ok_iff paramsBlock false 4 2 blockRank2).2
    ⟨_, 1, decomposition_block 10 10 2 1 0 (by decide) (by decide) (by decide) (by decide),
      rfl, by decide, by decide, rfl⟩

/-! ## The fields kept by the communication methods -/

theorem syncComputation_eq_iterations {R : Type} [Ring R] (env : Int → Int → List R)
    (grid : Grid R) (params : simParams R) :
    syncComputation env grid params =
      forLoop 0 params.iters_ (fun i g => syncIteration (env i) params g) grid := rfl

theorem asyncComputation_eq_iterations {R : Type} [Ring R] (env : Int → Int → List R)
    (grid : Grid R) (params : simParams R) :
    asyncComputation env grid params =
      forLoop 0 params.iters_ (fun i g => asyncIteration (env i) params g) grid := rfl

theorem commFrame_refl {R : Type} (g : Grid R) : g.CommFrame g :=
  ⟨rfl, rfl, rfl, rfl, rfl, rfl, rfl, rfl, rfl, rfl, rfl, rfl⟩

theorem commFrame_trans {R : Type} (g s t : Grid R) (h : g.CommFrame s) (h' : s.CommFrame t) :
    g.CommFrame t := by
  obtain ⟨a1, a2, a3, a4, a5, a6, a7, a8, a9, a10, a11, a12⟩ := h
  obtain ⟨b1, b2, b3, b4, b5, b6, b7, b8, b9, b10, b11, b12⟩ := h'
  exact ⟨b1.trans a1, b2.trans a2, b3.trans a3, b4.trans a4, b5.trans a5, b6.trans a6,
    b7.trans a7, b8.trans a8, b9.trans a9, b10.trans a10, b11.trans a11, b12.trans a12⟩

theorem commFrame_of_sameFrame {R : Type} (g s : Grid R) (h : g.SameFrame s) :
    g.CommFrame s := by
  obtain ⟨h1, _⟩ := h
  rw [h1]
  exact commFrame_refl g

theorem commFrame_of_packFrame {R : Type} (g s : Grid R) (h : g.PackFrame s) :
    g.CommFrame s := by
  unfold Grid.PackFrame at h
  rw [h]
  exact commFrame_refl g

theorem transfer_commFrame {R : Type} [Zero R] (g : Grid R) :
    g.CommFrame g.transferHaloDataASync := by
  rw [transfer_eq_stages]
  have h2 : g.CommFrame (Grid.botStage (Grid.topStage (g, 0))).1 := by
    unfold Grid.botStage Grid.topStage Grid.startPair
    dsimp only
    split_ifs <;> exact commFrame_refl g
  have h3 := commFrame_of_packFrame _ _
    (packBuffers_spec (Grid.botStage (Grid.topStage (g, 0))).1).1
  have h4 : ∀ (s : Grid R) (i : Int),
      s.CommFrame (Grid.leftStage (Grid.rightStage (s, i))).1 := by
    intro s i
    unfold Grid.leftStage Grid.rightStage Grid.startPair
    dsimp only
    split_ifs <;> exact commFrame_refl s
  exact commFrame_trans _ _ _ (commFrame_trans _ _ _ h2 h3) (h4 _ _)

theorem waitForSends_commFrame {R : Type} (g : Grid R) : g.CommFrame g.waitForSends := by
  obtain ⟨l, hl, _⟩ := waitForSends_spec g
  rw [hl]
  exact commFrame_refl g

theorem completeRecv_commFrame {R : Type} (inbox : Int → List R) (g : Grid R) (op : RecvOp) :
    g.CommFrame (Grid.completeRecv inbox g op) := by
  rcases op with ⟨s, c, t⟩
  cases t <;> exact commFrame_refl g

theorem waitForRecvs_commFrame {R : Type} [Zero R] (inbox : Int → List R) (g : Grid R) :
    g.CommFrame (g.waitForRecvs inbox) := by
  rw [waitForRecvs_eq]
  refine commFrame_trans _ _ _ ?_ (commFrame_of_sameFrame _ _ (unpackBuffers_frame _))
  unfold Grid.completeAll
  apply forLoop_preserves (fun s : Grid R => g.CommFrame s)
  · exact commFrame_refl g
  · intro i s hs
    dsimp only
    split
    · rename_i op _
      exact commFrame_trans _ _ _ hs
        (commFrame_trans _ _ _ (completeRecv_commFrame inbox s op)
          ⟨rfl, rfl, rfl, rfl, rfl, rfl, rfl, rfl, rfl, rfl, rfl, rfl⟩)
    · exact hs

theorem foldl_stencilWrite_sameFrame {R : Type} (st : Stencil R) (xcfl ycfl : R)
    (curr prev : Int) (cs : List (Int × Int)) (g : Grid R) :
    g.SameFrame (cs.foldl (stencilWrite st xcfl ycfl curr prev) g) :=
  foldl_preserves g.SameFrame _
    (fun s c h => sameFrame_stencilWrite st xcfl ycfl curr prev g s c h) _ g (sameFrame_refl g)
/-! ## Stencil coverage of one iteration -/

theorem exchange_commFrame {R : Type} [Zero R] (inbox : Int → List R) (g : Grid R) :
    g.CommFrame (g.exchange inbox) :=
  commFrame_trans _ _ _
    (commFrame_trans _ _ _ (transfer_commFrame g) (waitForSends_commFrame _))
    (waitForRecvs_commFrame inbox _)

theorem syncIteration_eq {R : Type} [Ring R] (order : Int) (st : Stencil R) (ρ : Int)
    (hso : stencilOfOrder order = some (st, ρ)) (params : simParams R)
    (hord : params.order_ = order) (inbox : Int → List R) (g : Grid R) :
    syncIteration inbox params g =
      syncBranch st params g.swapState.curr_ g.swapState.prev_ (g.swapState.exchange inbox) := by
  obtain ⟨_, _, h⟩ := stencilOfOrder_some order st ρ hso
  unfold syncIteration Grid.exchange
  dsimp only
  rw [hord]
  rcases h with ⟨rfl, rfl, _⟩ | ⟨rfl, rfl, _⟩ | ⟨rfl, rfl, _⟩
  · rw [if_pos rfl]
  · rw [if_neg (by decide), if_pos rfl]
  · rw [if_neg (by decide), if_neg (by decide), if_pos rfl]

theorem asyncIteration_eq {R : Type} [Ring R] (order : Int) (st : Stencil R) (ρ : Int)
    (hso : stencilOfOrder order = some (st, ρ)) (params : simParams R)
    (hord : params.order_ = order) (inbox : Int → List R) (g : Grid R) :
    asyncIteration inbox params g =
      asyncBranch st params inbox g.swapState.curr_ g.swapState.prev_
        g.swapState.transferHaloDataASync := by
  obtain ⟨_, _, h⟩ := stencilOfOrder_some order st ρ hso
  unfold asyncIteration
  dsimp only
  rw [hord]
  rcases h with ⟨rfl, rfl, _⟩ | ⟨rfl, rfl, _⟩ | ⟨rfl, rfl, _⟩
  · rw [if_pos rfl]
  · rw [if_neg (by decide), if_pos rfl]
  · rw [if_neg (by decide), if_neg (by decide), if_pos rfl]

/-- Claim C17: in one iteration of `syncComputation` or `asyncComputation` with
order 2, 4 or 8 on a grid with `nx > 2b`, `ny > 2b`, the assignments of the
three loop nests are the stencil assignments to the cells of three lists:
`[2b, nx) × [2b, ny)`, then rows `[b, 2b)` and `[ny, ny + b)` over columns
`[b, nx + b)`, then columns `[b, 2b)` and `[nx, nx + b)` over rows `[2b, ny)`
(in the asynchronous variant the two waits stand after the first list).  Each
assignment stores into the cell of the current generation named by the list
entry; the three lists together have no repetition and hold exactly the
cells of `[b, nx + b) × [b, ny + b)`, so each such cell is assigned exactly
once; the cells of the four corner blocks are in the second list and in
neither of the others. -/
theorem stencil_coverage {R : Type} [Ring R] (order : Int) (st : Stencil R) (ρ : Int)
    (hso : stencilOfOrder order = some (st, ρ)) (params : simParams R)
    (hord : params.order_ = order) (inbox : Int → List R) (g : Grid R)
    (hb : borderSizeOf order = some g.borderSize_)
    (hnx : g.nx_ > 2 * g.borderSize_) (hny : g.ny_ > 2 * g.borderSize_) :
    syncIteration inbox params g =
      (interiorCells g.borderSize_ g.nx_ g.ny_ ++ topBottomCells g.borderSize_ g.nx_ g.ny_ ++
        leftRightCells g.borderSize_ g.nx_ g.ny_).foldl
        (stencilWrite st params.xcfl_ params.ycfl_ g.swapState.curr_ g.swapState.prev_)
        (g.swapState.exchange inbox) ∧
    asyncIteration inbox params g =
      (topBottomCells g.borderSize_ g.nx_ g.ny_ ++ leftRightCells g.borderSize_ g.nx_ g.ny_).foldl
        (stencilWrite st params.xcfl_ params.ycfl_ g.swapState.curr_ g.swapState.prev_)
        ((((interiorCells g.borderSize_ g.nx_ g.ny_).foldl
          (stencilWrite st params.xcfl_ params.ycfl_ g.swapState.curr_ g.swapState.prev_)
          g.swapState.transferHaloDataASync).waitForSends).waitForRecvs inbox) ∧
    (∀ (s : Grid R) (c : Int × Int),
      stencilWrite st params.xcfl_ params.ycfl_ g.swapState.curr_ g.swapState.prev_ s c =
        s.write g.swapState.curr_ c.1 c.2
          (st s c.1 c.2 params.xcfl_ params.ycfl_ g.swapState.prev_)) ∧
    (∀ x y, ((x, y) ∈ interiorCells g.borderSize_ g.nx_ g.ny_ ↔
        (2 * g.borderSize_ ≤ x ∧ x < g.nx_) ∧ (2 * g.borderSize_ ≤ y ∧ y < g.ny_)) ∧
      ((x, y) ∈ topBottomCells g.borderSize_ g.nx_ g.ny_ ↔
        (g.borderSize_ ≤ x ∧ x < g.nx_ + g.borderSize_) ∧
        ((g.borderSize_ ≤ y ∧ y < 2 * g.borderSize_) ∨
          (g.ny_ ≤ y ∧ y < g.ny_ + g.borderSize_))) ∧
      ((x, y) ∈ leftRightCells g.borderSize_ g.nx_ g.ny_ ↔
        ((g.borderSize_ ≤ x ∧ x < 2 * g.borderSize_) ∨
          (g.nx_ ≤ x ∧ x < g.nx_ + g.borderSize_)) ∧
        (2 * g.borderSize_ ≤ y ∧ y < g.ny_))) ∧
    (interiorCells g.borderSize_ g.nx_ g.ny_ ++ topBottomCells g.borderSize_ g.nx_ g.ny_ ++
      leftRightCells g.borderSize_ g.nx_ g.ny_).Nodup ∧
    (∀ x y, g.borderSize_ ≤ x → x < g.nx_ + g.borderSize_ →
      g.borderSize_ ≤ y → y < g.ny_ + g.borderSize_ →
      (interiorCells g.borderSize_ g.nx_ g.ny_ ++ topBottomCells g.borderSize_ g.nx_ g.ny_ ++
        leftRightCells g.borderSize_ g.nx_ g.ny_).countP (fun c => decide (c = (x, y))) = 1) ∧
    (∀ x y, (x, y) ∈ interiorCells g.borderSize_ g.nx_ g.ny_ ++
        topBottomCells g.borderSize_ g.nx_ g.ny_ ++ leftRightCells g.borderSize_ g.nx_ g.ny_ →
      (g.borderSize_ ≤ x ∧ x < g.nx_ + g.borderSize_) ∧
      (g.borderSize_ ≤ y ∧ y < g.ny_ + g.borderSize_)) ∧
    (∀ x y, ((g.borderSize_ ≤ x ∧ x < 2 * g.borderSize_) ∨
        (g.nx_ ≤ x ∧ x < g.nx_ + g.borderSize_)) →
      ((g.borderSize_ ≤ y ∧ y < 2 * g.borderSize_) ∨
        (g.ny_ ≤ y ∧ y < g.ny_ + g.borderSize_)) →
      (x, y) ∈ topBottomCells g.borderSize_ g.nx_ g.ny_ ∧
      (x, y) ∉ leftRightCells g.borderSize_ g.nx_ g.ny_ ∧
      (x, y) ∉ interiorCells g.borderSize_ g.nx_ g.ny_) := by
  have hb0 : 0 ≤ g.borderSize_ := by
    rcases borderSizeOf_some _ _ hb with ⟨_, h⟩ | ⟨_, h⟩ | ⟨_, h⟩ <;> omega
  have hnd := nodup_allCells g.borderSize_ g.nx_ g.ny_ hb0 hnx hny
  have hmem := mem_allCells g.borderSize_ g.nx_ g.ny_
  refine ⟨?_, ?_, fun s c => rfl,
    fun x y => ⟨mem_interiorCells _ _ _ x y, mem_topBottomCells _ _ _ x y,
      mem_leftRightCells _ _ _ x y⟩, hnd, ?_, ?_, ?_⟩
  · rw [syncIteration_eq order st ρ hso params hord, syncBranch_eq]
    obtain ⟨_, _, e3, e4, e5, _⟩ := exchange_commFrame inbox g.swapState
    rw [e3, e4, e5]
    rfl
  · rw [asyncIteration_eq order st ρ hso params hord]
    unfold asyncBranch
    dsimp only
    rw [List.foldl_append, leftRightPass_eq, topBottomPass_eq, interiorPass_eq]
    obtain ⟨_, _, a3, a4, a5, _⟩ := transfer_commFrame g.swapState
    rw [a3, a4, a5]
    have f1 := commFrame_of_sameFrame _ _ (foldl_stencilWrite_sameFrame st params.xcfl_
      params.ycfl_ g.swapState.curr_ g.swapState.prev_
      (interiorCells g.swapState.borderSize_ g.swapState.nx_ g.swapState.ny_)
      g.swapState.transferHaloDataASync)
    have f2 := commFrame_trans _ _ _ (commFrame_trans _ _ _ (transfer_commFrame g.swapState) f1)
      (commFrame_trans _ _ _ (waitForSends_commFrame _) (waitForRecvs_commFrame inbox _))
    have f3 := commFrame_trans _ _ _ f2 (commFrame_of_sameFrame _ _
      (foldl_stencilWrite_sameFrame st params.xcfl_ params.ycfl_ g.swapState.curr_
        g.swapState.prev_ (topBottomCells g.swapState.borderSize_ g.swapState.nx_
          g.swapState.ny_) _))
    obtain ⟨_, _, b3, b4, b5, _⟩ := f2
    obtain ⟨_, _, c3, c4, c5, _⟩ := f3
    rw [b3, b4, b5, c3, c4, c5]
    rfl
  · intro x y h1 h2 h3 h4
    exact List.count_eq_one_of_mem hnd ((hmem x y hb0 hnx hny).2 ⟨⟨h1, h2⟩, ⟨h3, h4⟩⟩)
  · intro x y h
    exact (hmem x y hb0 hnx hny).1 h
  · intro x y hx hy
    rw [mem_topBottomCells, mem_leftRightCells, mem_interiorCells]
    omega

theorem stencil_coverage_witness :
    stencilOfOrder (2 : Int) = some ((stencil2 : Stencil ℚ), 1) ∧
    (simParams.ctor : simParams ℚ).order_ = 2 ∧
    borderSizeOf 2 = some defaultGrid.borderSize_ ∧
    defaultGrid.nx_ > 2 * defaultGrid.borderSize_ ∧
    defaultGrid.ny_ > 2 * defaultGrid.borderSize_ ∧
    (∀ x y, defaultGrid.borderSize_ ≤ x → x < defaultGrid.nx_ + defaultGrid.borderSize_ →
      defaultGrid.borderSize_ ≤ y → y < defaultGrid.ny_ + defaultGrid.borderSize_ →
      (interiorCells defaultGrid.borderSize_ defaultGrid.nx_ defaultGrid.ny_ ++
        topBottomCells defaultGrid.borderSize_ defaultGrid.nx_ defaultGrid.ny_ ++
        leftRightCells defaultGrid.borderSize_ defaultGrid.nx_ defaultGrid.ny_).countP
          (fun c => decide (c = (x, y))) = 1) :=
  ⟨rfl, rfl, rfl, by decide, by decide,
    (stencil_coverage 2 stencil2 1 rfl (simParams.ctor : simParams ℚ) rfl (fun _ => [])
      defaultGrid rfl (by decide) (by decide)).2.2.2.2.2.1⟩
/-! ## Stencils on a band of the global grid -/

/-- The stencil value at `(x, y)` of a grid whose plus-shaped neighbourhood
holds the cells of a second grid `off` rows further down is the stencil value
of the second grid at `(x, y + off)`. -/
theorem stencilOfOrder_shift {R : Type} [Ring R] (order : Int) (st : Stencil R) (ρ : Int)
    (hso : stencilOfOrder order = some (st, ρ)) (g G : Grid R) (x y off : Int)
    (xcfl ycfl : R) (prev : Int)
    (h : ∀ x' y', InPlus ρ x y x' y' → g.read prev x' y' = G.read prev x' (y' + off)) :
    st g x y xcfl ycfl prev = st G x (y + off) xcfl ycfl prev := by
  obtain ⟨_, _, hc⟩ := stencilOfOrder_some order st ρ hso
  have e1 : y + 1 + off = y + off + 1 := by omega
  have e2 : y - 1 + off = y + off - 1 := by omega
  have e3 : y + 2 + off = y + off + 2 := by omega
  have e4 : y - 2 + off = y + off - 2 := by omega
  have e5 : y + 3 + off = y + off + 3 := by omega
  have e6 : y - 3 + off = y + off - 3 := by omega
  have e7 : y + 4 + off = y + off + 4 := by omega
  have e8 : y - 4 + off = y + off - 4 := by omega
  rcases hc with ⟨_, rfl, rfl⟩ | ⟨_, rfl, rfl⟩ | ⟨_, rfl, rfl⟩
  · unfold stencil2
    rw [h x y (by unfold InPlus; omega), h (x + 1) y (by unfold InPlus; omega),
      h (x - 1) y (by unfold InPlus; omega), h x (y + 1) (by unfold InPlus; omega),
      h x (y - 1) (by unfold InPlus; omega), e1, e2]
  · unfold stencil4
    rw [h x y (by unfold InPlus; omega), h (x + 1) y (by unfold InPlus; omega),
      h (x - 1) y (by unfold InPlus; omega), h x (y + 1) (by unfold InPlus; omega),
      h x (y - 1) (by unfold InPlus; omega), h (x + 2) y (by unfold InPlus; omega),
      h (x - 2) y (by unfold InPlus; omega), h x (y + 2) (by unfold InPlus; omega),
      h x (y - 2) (by unfold InPlus; omega), e1, e2, e3, e4]
  · unfold stencil8
    rw [h x y (by unfold InPlus; omega), h (x + 1) y (by unfold InPlus; omega),
      h (x - 1) y (by unfold InPlus; omega), h x (y + 1) (by unfold InPlus; omega),
      h x (y - 1) (by unfold InPlus; omega), h (x + 2) y (by unfold InPlus; omega),
      h (x - 2) y (by unfold InPlus; omega), h x (y + 2) (by unfold InPlus; omega),
      h x (y - 2) (by unfold InPlus; omega), h (x + 3) y (by unfold InPlus; omega),
      h (x - 3) y (by unfold InPlus; omega), h x (y + 3) (by unfold InPlus; omega),
      h x (y - 3) (by unfold InPlus; omega), h (x + 4) y (by unfold InPlus; omega),
      h (x - 4) y (by unfold InPlus; omega), h x (y + 4) (by unfold InPlus; omega),
      h x (y - 4) (by unfold InPlus; omega), e1, e2, e3, e4, e5, e6, e7, e8]

/-! ## Messages of a stripe -/

theorem packBuffers_stripe {R : Type} [Zero R] (g : Grid R) (hL : g.procLeft_ = -1)
    (hR : g.procRight_ = -1) : g.packBuffers = g := by
  rw [packBuffers_eq, if_neg (by rw [hL, hR]; simp)]

/-- The message a stripe hands to MPI for the rank `dest`: the rows `[b, 2b)` of
the previous generation if `dest` is its up neighbour, otherwise the rows
`[ny, ny + b)` if `dest` is its down neighbour. -/
theorem outbox_stripe {R : Type} [Zero R] (g : Grid R) (hc : g.CommReady)
    (hL : g.procLeft_ = -1) (hR : g.procRight_ = -1) (dest : Int) (hd : dest ≠ -1) :
    (g.procTop_ = dest →
      g.transferHaloDataASync.outbox dest =
        vslice g.grid_ (g.prev_ * g.gx_ * g.gy_ + g.borderSize_ * g.gx_)
          (g.gx_ * g.borderSize_)) ∧
    (g.procTop_ ≠ dest → g.procBot_ = dest →
      g.transferHaloDataASync.outbox dest =
        vslice g.grid_ (g.prev_ * g.gx_ * g.gy_ + (g.gy_ - 2 * g.borderSize_) * g.gx_)
          (g.gx_ * g.borderSize_)) := by
  have ec : g.gx_ * g.borderSize_ = g.borderSize_ * g.gx_ := Int.mul_comm _ _
  unfold Grid.outbox
  rw [transfer_spec g hc, packBuffers_stripe g hL hR]
  dsimp only
  have hfm : ∀ l : List (SendOp R), (l.map some).filterMap id = l := by
    intro l
    induction l with
    | nil => rfl
    | cons a l ih => simp [List.filterMap_cons, ih]
  rw [hfm]
  unfold Grid.sendOps
  rw [hL, hR]
  constructor
  · intro hT
    have hT' : g.procTop_ ≠ -1 := by rw [hT]; exact hd
    rw [if_pos hT']
    simp [hT, ec]
  · intro hT hB
    have hB' : g.procBot_ ≠ -1 := by rw [hB]; exact hd
    rw [if_pos hB']
    by_cases hT' : g.procTop_ ≠ -1
    · rw [if_pos hT']
      simp [hT, hB]
    · rw [if_neg hT']
      simp [hB]

/-! ## `swapState` and the single process -/

theorem swapState_shaped {R : Type} (g : Grid R) (hs : g.Shaped) : g.swapState.Shaped := by
  obtain ⟨s1, s2, s3, s4, s5, s6, s7⟩ := hs
  exact ⟨s1, s2, s3, s4, s5, s6, (swapState_valid g s7).1⟩

theorem swapState_commReady {R : Type} (g : Grid R) (hc : g.CommReady) :
    g.swapState.CommReady := hc

theorem exchange_singleProcess {R : Type} [Zero R] (inbox : Int → List R) (g : Grid R)
    (h : g.SingleProcess) : g.exchange inbox = g := by
  unfold Grid.exchange
  rw [transfer_singleProcess g h, waitForSends_singleProcess g h,
    waitForRecvs_singleProcess inbox g h]
/-! ## One lock-step iteration of a stripe against the single process -/

theorem commReady_of_sameFrame {R : Type} (g s : Grid R) (h : g.SameFrame s)
    (hc : g.CommReady) : s.CommReady := by
  obtain ⟨h1, _⟩ := h
  unfold Grid.CommReady at hc ⊢
  rw [h1]
  exact hc

/-- The order branch keeps a band equal to the global grid: if before the loop
nests every cell of the previous generation of the band, and the owned rows of
its current generation, hold the cells of the global grid `off` rows further
down, the same is true on the owned rows after the loop nests. -/
theorem branch_agree {R : Type} [Ring R] (order : Int) (st : Stencil R) (ρ : Int)
    (hso : stencilOfOrder order = some (st, ρ)) (params : simParams R)
    (G g : Grid R) (off : Int)
    (hbo : borderSizeOf order = some G.borderSize_)
    (hsG : G.Shaped) (hs : g.Shaped)
    (hnx : g.nx_ = G.nx_) (hb : g.borderSize_ = G.borderSize_)
    (hcu : g.curr_ = G.curr_) (hpr : g.prev_ = G.prev_)
    (hoff : 0 ≤ off) (hoff' : off + g.ny_ ≤ G.ny_)
    (hT0 : g.procTop_ = -1 → off = 0) (hB0 : g.procBot_ = -1 → off + g.ny_ = G.ny_)
    (hprev : ∀ x y, 0 ≤ x → x < g.gx_ → 0 ≤ y → y < g.gy_ →
      g.read g.prev_ x y = G.read g.prev_ x (y + off))
    (hcurr : ∀ x y, 0 ≤ x → x < g.gx_ → 0 ≤ y → y < g.gy_ → g.OwnedRow y →
      g.read g.curr_ x y = G.read g.curr_ x (y + off))
    (sel x y : Int) (hsel : sel = 0 ∨ sel = 1)
    (hx : 0 ≤ x) (hx' : x < g.gx_) (hy : 0 ≤ y) (hy' : y < g.gy_) (ho : g.OwnedRow y) :
    (syncBranch st params g.curr_ g.prev_ g).read sel x y =
      (syncBranch st params G.curr_ G.prev_ G).read sel x (y + off) := by
  obtain ⟨hloc, hbo', _⟩ := stencilOfOrder_some order st ρ hso
  have hρ : ρ = G.borderSize_ := by
    rw [hbo'] at hbo; exact Option.some.inj hbo
  have hρ0 : 0 ≤ ρ := by rw [hρ]; exact le_trans (by decide) hsG.1
  obtain ⟨_, a2, a3, a4⟩ := syncBranch_spec st ρ hloc hρ0 params g hs
    (by rw [hρ]; exact le_of_eq hb.symm)
  obtain ⟨_, b2, b3, b4⟩ := syncBranch_spec st ρ hloc hρ0 params G hsG (le_of_eq hρ)
  obtain ⟨s1, s2, s3, s4, s5, s6, s7⟩ := hs
  obtain ⟨t1, t2, t3, t4, t5, t6, t7⟩ := hsG
  have hyG : y + off < G.gy_ := by omega
  have hyG0 : 0 ≤ y + off := by omega
  have hxG : x < G.gx_ := by omega
  have hselc : sel = g.curr_ ∨ sel = g.prev_ := by omega
  rcases hselc with rfl | rfl
  · by_cases hin : (g.borderSize_ ≤ x ∧ x < g.nx_ + g.borderSize_) ∧
        (g.borderSize_ ≤ y ∧ y < g.ny_ + g.borderSize_)
    · have e1 := a4 x y hin.1.1 hin.1.2 hin.2.1 hin.2.2
      have e2 := b4 x (y + off) (by omega) (by omega) (by omega) (by omega)
      rw [e1, hcu, e2, ← hpr]
      apply stencilOfOrder_shift order st ρ hso
      intro x' y' hp
      have hb' : 0 ≤ x' ∧ x' < g.gx_ ∧ 0 ≤ y' ∧ y' < g.gy_ := by
        rcases hp with ⟨p1, p2, p3⟩ | ⟨p1, p2, p3⟩ <;> omega
      exact hprev x' y' hb'.1 hb'.2.1 hb'.2.2.1 hb'.2.2.2
    · have e1 := a3 x y hx hx' hy hy' hin
      have hnG : ¬ ((G.borderSize_ ≤ x ∧ x < G.nx_ + G.borderSize_) ∧
          (G.borderSize_ ≤ y + off ∧ y + off < G.ny_ + G.borderSize_)) := by
        unfold Grid.OwnedRow at ho
        intro h
        apply hin
        by_cases hT : g.procTop_ = -1
        · have := hT0 hT
          by_cases hB : g.procBot_ = -1
          · have := hB0 hB
            omega
          · omega
        · by_cases hB : g.procBot_ = -1
          · have := hB0 hB
            omega
          · omega
      have e2 := b3 x (y + off) hx hxG hyG0 hyG hnG
      rw [e1, hcurr x y hx hx' hy hy' ho, hcu]
      exact e2.symm
  · have e1 := a2 x y hx hx' hy hy'
    have e2 := b2 x (y + off) hx hxG hyG0 hyG
    rw [e1, hprev x y hx hx' hy hy', hpr]
    exact e2.symm

/-- The exchange round of a stripe whose neighbours deliver the rows of the
global grid: afterwards every cell of the new previous generation, and the
owned rows of the new current generation, hold the cells of the global grid
`off` rows further down. -/
theorem stripe_exchange_agree {R : Type} [Zero R] (G g : Grid R) (off : Int)
    (inbox : Int → List R) (hs : g.Shaped) (hc : g.CommReady)
    (hL : g.procLeft_ = -1) (hR : g.procRight_ = -1)
    (hown : ∀ sel x y, (sel = 0 ∨ sel = 1) → 0 ≤ x → x < g.gx_ → 0 ≤ y → y < g.gy_ →
      g.OwnedRow y → g.read sel x y = G.read sel x (y + off))
    (mT : g.procTop_ ≠ -1 → g.gx_ * g.borderSize_ ≤ (inbox g.procTop_).length ∧
      ∀ x y, 0 ≤ x → x < g.gx_ → 0 ≤ y → y < g.borderSize_ →
        vget (inbox g.procTop_) (y * g.gx_ + x) = G.read g.curr_ x (y + off))
    (mB : g.procBot_ ≠ -1 → g.gx_ * g.borderSize_ ≤ (inbox g.procBot_).length ∧
      ∀ x y, 0 ≤ x → x < g.gx_ → 0 ≤ y → y < g.borderSize_ →
        vget (inbox g.procBot_) (y * g.gx_ + x) =
          G.read g.curr_ x (g.ny_ + g.borderSize_ + y + off))
    (x y : Int) (hx : 0 ≤ x) (hx' : x < g.gx_) (hy : 0 ≤ y) (hy' : y < g.gy_) :
    (g.swapState.exchange inbox).read g.curr_ x y = G.read g.curr_ x (y + off) ∧
    (g.OwnedRow y →
      (g.swapState.exchange inbox).read g.prev_ x y = G.read g.prev_ x (y + off)) := by
  have hs1 := swapState_shaped g hs
  have hc1 := swapState_commReady g hc
  obtain ⟨_, _, v3⟩ := swapState_valid g hs.2.2.2.2.2.2
  obtain ⟨s1, s2, s3, s4, s5, s6, s7⟩ := hs
  have hex : ∀ sel, (sel = 0 ∨ sel = 1) →
      (g.swapState.exchange inbox).read sel x y =
        if sel = g.curr_ ∧ g.procTop_ ≠ -1 ∧ y < g.borderSize_ then
          vget (inbox g.procTop_) (y * g.gx_ + x)
        else if sel = g.curr_ ∧ g.procBot_ ≠ -1 ∧ g.gy_ - g.borderSize_ ≤ y then
          vget (inbox g.procBot_) ((y - (g.gy_ - g.borderSize_)) * g.gx_ + x)
        else g.read sel x y := by
    intro sel hsel
    have := exchange_read inbox g.swapState hs1 hc1 (fun h => (mT h).1) (fun h => (mB h).1)
      (fun h => absurd hR h) (fun h => absurd hL h) sel x y hsel hx hx' hy hy'
    rw [this, if_neg (fun h => h.2.1 hL), if_neg (fun h => h.2.1 hR), v3]
    rfl
  constructor
  · have hsel : g.curr_ = 0 ∨ g.curr_ = 1 := by omega
    rw [hex g.curr_ hsel]
    by_cases c1 : g.procTop_ ≠ -1 ∧ y < g.borderSize_
    · rw [if_pos ⟨rfl, c1.1, c1.2⟩]
      exact (mT c1.1).2 x y hx hx' hy c1.2
    · rw [if_neg (fun h => c1 ⟨h.2.1, h.2.2⟩)]
      by_cases c2 : g.procBot_ ≠ -1 ∧ g.gy_ - g.borderSize_ ≤ y
      · have hy2 : 0 ≤ y - (g.gy_ - g.borderSize_) := by omega
        have hy3 : y - (g.gy_ - g.borderSize_) < g.borderSize_ := by omega
        have e : g.ny_ + g.borderSize_ + (y - (g.gy_ - g.borderSize_)) + off = y + off := by
          omega
        rw [if_pos ⟨rfl, c2.1, c2.2⟩,
          (mB c2.1).2 x (y - (g.gy_ - g.borderSize_)) hx hx' hy2 hy3, e]
      · rw [if_neg (fun h => c2 ⟨h.2.1, h.2.2⟩)]
        apply hown g.curr_ x y hsel hx hx' hy hy'
        unfold Grid.OwnedRow
        by_cases hT : g.procTop_ = -1
        · by_cases hB : g.procBot_ = -1
          · omega
          · have : ¬ (g.gy_ - g.borderSize_ ≤ y) := fun h => c2 ⟨hB, h⟩
            omega
        · have : ¬ (y < g.borderSize_) := fun h => c1 ⟨hT, h⟩
          by_cases hB : g.procBot_ = -1
          · omega
          · have : ¬ (g.gy_ - g.borderSize_ ≤ y) := fun h => c2 ⟨hB, h⟩
            omega
  · intro ho
    have hsel : g.prev_ = 0 ∨ g.prev_ = 1 := by omega
    have hne : g.prev_ ≠ g.curr_ := by omega
    rw [hex g.prev_ hsel, if_neg (fun h => hne h.1), if_neg (fun h => hne h.1)]
    exact hown g.prev_ x y hsel hx hx' hy hy' ho

theorem ownedRow_congr {R : Type} (g s : Grid R) (h : g.CommFrame s) (y : Int) :
    s.OwnedRow y ↔ g.OwnedRow y := by
  obtain ⟨_, _, _, e4, e5, _, _, _, _, e10, e11, _⟩ := h
  unfold Grid.OwnedRow
  rw [e4, e5, e10, e11]

/-- One iteration of `syncComputation` on a stripe whose neighbours deliver the
rows of the global grid, against the same iteration of the single process:
shape, buffers and neighbours of the stripe are kept, and the owned rows of
both generations still hold the cells of the global grid `off` rows further
down. -/
theorem stripe_step_core {R : Type} [Ring R] (order : Int) (st : Stencil R) (ρ : Int)
    (hso : stencilOfOrder order = some (st, ρ)) (params : simParams R)
    (hord : params.order_ = order) (G g : Grid R) (off : Int) (inbox env0 : Int → List R)
    (hbo : borderSizeOf order = some G.borderSize_)
    (hsG : G.Shaped) (hpG : G.SingleProcess) (hs : g.Shaped) (hc : g.CommReady)
    (hnx : g.nx_ = G.nx_) (hb : g.borderSize_ = G.borderSize_)
    (hcu : g.curr_ = G.curr_) (hpr : g.prev_ = G.prev_)
    (hL : g.procLeft_ = -1) (hR : g.procRight_ = -1)
    (hoff : 0 ≤ off) (hoff' : off + g.ny_ ≤ G.ny_)
    (hT0 : g.procTop_ = -1 → off = 0) (hB0 : g.procBot_ = -1 → off + g.ny_ = G.ny_)
    (hown : ∀ sel x y, (sel = 0 ∨ sel = 1) → 0 ≤ x → x < g.gx_ → 0 ≤ y → y < g.gy_ →
      g.OwnedRow y → g.read sel x y = G.read sel x (y + off))
    (mT : g.procTop_ ≠ -1 → g.gx_ * g.borderSize_ ≤ (inbox g.procTop_).length ∧
      ∀ x y, 0 ≤ x → x < g.gx_ → 0 ≤ y → y < g.borderSize_ →
        vget (inbox g.procTop_) (y * g.gx_ + x) = G.read g.curr_ x (y + off))
    (mB : g.procBot_ ≠ -1 → g.gx_ * g.borderSize_ ≤ (inbox g.procBot_).length ∧
      ∀ x y, 0 ≤ x → x < g.gx_ → 0 ≤ y → y < g.borderSize_ →
        vget (inbox g.procBot_) (y * g.gx_ + x) =
          G.read g.curr_ x (g.ny_ + g.borderSize_ + y + off)) :
    (syncIteration env0 params G).Shaped ∧ (syncIteration env0 params G).SingleProcess ∧
    G.swapState.CommFrame (syncIteration env0 params G) ∧
    (syncIteration inbox params g).Shaped ∧ (syncIteration inbox params g).CommReady ∧
    g.swapState.CommFrame (syncIteration inbox params g) ∧
    (∀ sel x y, (sel = 0 ∨ sel = 1) → 0 ≤ x → x < g.gx_ → 0 ≤ y → y < g.gy_ →
      g.OwnedRow y →
      (syncIteration inbox params g).read sel x y =
        (syncIteration env0 params G).read sel x (y + off)) := by
  obtain ⟨hloc, hbo', _⟩ := stencilOfOrder_some order st ρ hso
  have hρ : ρ = G.borderSize_ := by
    rw [hbo'] at hbo; exact Option.some.inj hbo
  have hρ0 : 0 ≤ ρ := by rw [hρ]; exact le_trans (by decide) hsG.1
  have hs1 := swapState_shaped g hs
  have hc1 := swapState_commReady g hc
  have hsG1 := swapState_shaped G hsG
  have hpG1 : G.swapState.SingleProcess := hpG
  obtain ⟨_, v2, v3⟩ := swapState_valid g hs.2.2.2.2.2.2
  obtain ⟨_, w2, w3⟩ := swapState_valid G hsG.2.2.2.2.2.2
  rw [syncIteration_eq order st ρ hso params hord inbox g,
    syncIteration_eq order st ρ hso params hord env0 G, exchange_singleProcess env0 _ hpG1]
  have hs2 := exchange_shaped inbox _ hs1 hc1
  obtain ⟨f1, f2, f3, f4, f5, f6, f7, f8, f9, f10, f11, f12, f13, hc2⟩ :=
    exchange_frame inbox _ hc1
  have hfr2 : g.swapState.CommFrame (g.swapState.exchange inbox) :=
    ⟨f1, f2, f3, f4, f5, f6, f7, f8, f9, f10, f11, f12⟩
  rw [← f6, ← f7]
  obtain ⟨a1, _⟩ := syncBranch_spec st ρ hloc hρ0 params (g.swapState.exchange inbox) hs2
    (by rw [f5, hρ]; exact le_of_eq hb.symm)
  obtain ⟨b1, _⟩ := syncBranch_spec st ρ hloc hρ0 params G.swapState hsG1 (le_of_eq hρ)
  refine ⟨shaped_of_sameFrame _ _ b1 hsG1, (branch_singleProcess st params env0 _ _ _ hpG1).2,
    commFrame_of_sameFrame _ _ b1, shaped_of_sameFrame _ _ a1 hs2,
    commReady_of_sameFrame _ _ a1 hc2,
    commFrame_trans _ _ _ hfr2 (commFrame_of_sameFrame _ _ a1), ?_⟩
  intro sel x y hsel hx hx' hy hy' ho
  have hcu2 : (g.swapState.exchange inbox).curr_ = G.swapState.curr_ := by
    rw [f6, v2, w2, hpr]
  have hpr2 : (g.swapState.exchange inbox).prev_ = G.swapState.prev_ := by
    rw [f7, v3, w3, hcu]
  have hpc : (g.swapState.exchange inbox).prev_ = g.curr_ := by rw [f7, v3]
  have hcp : (g.swapState.exchange inbox).curr_ = g.prev_ := by rw [f6, v2]
  refine branch_agree order st ρ hso params G.swapState (g.swapState.exchange inbox) off hbo
    hsG1 hs2 (f3.trans hnx) (f5.trans hb) hcu2 hpr2 hoff (by rw [f4]; exact hoff')
    (by rw [f10]; exact hT0) (by rw [f11, f4]; exact hB0) ?_ ?_ sel x y hsel hx
    (by rw [f1]; exact hx') hy (by rw [f2]; exact hy')
    ((ownedRow_congr _ _ hfr2 y).2 ho)
  · intro x' y' h1 h2 h3 h4
    rw [f1] at h2
    rw [f2] at h4
    rw [hpc]
    exact (stripe_exchange_agree G g off inbox hs hc hL hR hown mT mB x' y' h1 h2 h3 h4).1
  · intro x' y' h1 h2 h3 h4 ho'
    rw [f1] at h2
    rw [f2] at h4
    rw [hcp]
    exact (stripe_exchange_agree G g off inbox hs hc hL hR hown mT mB x' y' h1 h2 h3 h4).2
      ((ownedRow_congr _ _ hfr2 y').1 ho')
/-! ## The invariant of the lock-step run -/

/-- The message delivered to a stripe from its up neighbour in the lock-step
run: the rows `[ny, ny + b)` of that neighbour, which hold the rows of the
global grid just above the band. -/
theorem stripe_message_top {R : Type} [Zero R] (G : Grid R) (gs : Int → Grid R) (h r : Int)
    (hr0 : 1 ≤ r) (hr : r < 4) (hn : StripeAgree G (gs (r - 1)) (r - 1) h)
    (hg : StripeAgree G (gs r) r h) :
    (gs r).gx_ * (gs r).borderSize_ ≤ (lockstepInbox gs r (r - 1)).length ∧
    ∀ x y, 0 ≤ x → x < (gs r).gx_ → 0 ≤ y → y < (gs r).borderSize_ →
      vget (lockstepInbox gs r (r - 1)) (y * (gs r).gx_ + x) =
        G.read (gs r).curr_ x (y + r * h) := by
  obtain ⟨ns, nc, n1, n2, n3, n4, n5, n6, n7, n8, n9, nown⟩ := hn
  obtain ⟨gsh, _, g1, g2, g3, g4, _, _, _, _, _, _⟩ := hg
  rw [if_neg (by omega)] at n8 n9
  have hs1 := swapState_shaped _ ns
  obtain ⟨_, _, v3⟩ := swapState_valid _ ns.2.2.2.2.2.2
  have hout := (outbox_stripe (gs (r - 1)).swapState (swapState_commReady _ nc) n5 n6 r
    (by omega)).2
    (by
      show (gs (r - 1)).procTop_ ≠ r
      rw [n7]
      split_ifs <;> omega)
    (by
      show (gs (r - 1)).procBot_ = r
      rw [n8]
      omega)
  obtain ⟨q1, q2, q3, q4, q5, q6, q7⟩ := ns
  obtain ⟨p1, p2, p3, p4, p5, p6, p7⟩ := gsh
  have hgx : (gs r).gx_ = (gs (r - 1)).gx_ := by omega
  have sgx : (gs (r - 1)).swapState.gx_ = (gs (r - 1)).gx_ := rfl
  have sgy : (gs (r - 1)).swapState.gy_ = (gs (r - 1)).gy_ := rfl
  have sb : (gs (r - 1)).swapState.borderSize_ = (gs (r - 1)).borderSize_ := rfl
  obtain ⟨l1, l2⟩ := rowSlice_spec (gs (r - 1)).swapState hs1
    ((gs (r - 1)).swapState.gy_ - 2 * (gs (r - 1)).swapState.borderSize_)
    (by omega) (by omega)
  rw [show lockstepInbox gs r (r - 1) = _ from hout]
  constructor
  · rw [l1, sgx, sb, hgx, g2, n2]
  · intro x y hx hx' hy hy'
    have e := l2 x y hx (by omega) hy (by omega)
    rw [hgx, ← sgx]
    refine e.trans ?_
    rw [v3]
    have hrh : (r - 1) * h + h = r * h := by ring
    have := nown (gs (r - 1)).curr_ x
      ((gs (r - 1)).swapState.gy_ - 2 * (gs (r - 1)).swapState.borderSize_ + y)
      (by omega) hx (by omega) (by omega) (by omega) (Or.inl ⟨by omega, by omega⟩)
    rw [g3, ← n3]
    refine this.trans ?_
    congr 1
    omega

/-- The message delivered to a stripe from its down neighbour in the lock-step
run: the rows `[b, 2b)` of that neighbour, which hold the rows of the global
grid just below the band. -/
theorem stripe_message_bot {R : Type} [Zero R] (G : Grid R) (gs : Int → Grid R) (h r : Int)
    (hr0 : 0 ≤ r) (hr : r < 3) (hn : StripeAgree G (gs (r + 1)) (r + 1) h)
    (hg : StripeAgree G (gs r) r h) :
    (gs r).gx_ * (gs r).borderSize_ ≤ (lockstepInbox gs r (r + 1)).length ∧
    ∀ x y, 0 ≤ x → x < (gs r).gx_ → 0 ≤ y → y < (gs r).borderSize_ →
      vget (lockstepInbox gs r (r + 1)) (y * (gs r).gx_ + x) =
        G.read (gs r).curr_ x ((gs r).ny_ + (gs r).borderSize_ + y + r * h) := by
  obtain ⟨ns, nc, n1, n2, n3, n4, n5, n6, n7, n8, n9, nown⟩ := hn
  obtain ⟨gsh, _, g1, g2, g3, g4, _, _, _, _, g9, _⟩ := hg
  rw [if_neg (by omega)] at n7 g9
  have hs1 := swapState_shaped _ ns
  obtain ⟨_, _, v3⟩ := swapState_valid _ ns.2.2.2.2.2.2
  have hout := (outbox_stripe (gs (r + 1)).swapState (swapState_commReady _ nc) n5 n6 r
    (by omega)).1
    (by
      show (gs (r + 1)).procTop_ = r
      rw [n7]
      omega)
  obtain ⟨q1, q2, q3, q4, q5, q6, q7⟩ := ns
  obtain ⟨p1, p2, p3, p4, p5, p6, p7⟩ := gsh
  have hgx : (gs r).gx_ = (gs (r + 1)).gx_ := by omega
  have sgx : (gs (r + 1)).swapState.gx_ = (gs (r + 1)).gx_ := rfl
  have sgy : (gs (r + 1)).swapState.gy_ = (gs (r + 1)).gy_ := rfl
  have sb : (gs (r + 1)).swapState.borderSize_ = (gs (r + 1)).borderSize_ := rfl
  obtain ⟨l1, l2⟩ := rowSlice_spec (gs (r + 1)).swapState hs1
    (gs (r + 1)).swapState.borderSize_ (by omega) (by omega)
  rw [show lockstepInbox gs r (r + 1) = _ from hout]
  constructor
  · rw [l1, sgx, sb, hgx, g2, n2]
  · intro x y hx hx' hy hy'
    have e := l2 x y hx (by omega) hy (by omega)
    rw [hgx, ← sgx]
    refine e.trans ?_
    rw [v3]
    have hrh : (r + 1) * h = r * h + h := by ring
    have := nown (gs (r + 1)).curr_ x ((gs (r + 1)).swapState.borderSize_ + y)
      (by omega) hx (by omega) (by omega) (by omega) (Or.inl ⟨by omega, by omega⟩)
    rw [g3, ← n3]
    refine this.trans ?_
    congr 1
    omega

/-- One lock-step iteration keeps the invariant of the run of 4 stripes. -/
theorem stripeInv_step {R : Type} [Ring R] (order : Int) (st : Stencil R) (ρ : Int)
    (hso : stencilOfOrder order = some (st, ρ)) (params : simParams R)
    (hord : params.order_ = order) (G : Grid R) (gs : Int → Grid R) (h : Int)
    (env0 : Int → List R) (hbo : borderSizeOf order = some G.borderSize_)
    (hinv : StripeInv G gs h) :
    StripeInv (syncIteration env0 params G) (lockstepIteration params gs) h := by
  obtain ⟨hsG, hpG, hall⟩ := hinv
  have h0 := hall 0 (le_refl _) (by decide)
  have h3 := hall 3 (by decide) (by decide)
  have hh : 0 < h := by
    obtain ⟨s0, _, _, _, _, _, _, _, _, _, e9, _⟩ := h0
    rw [if_neg (by decide)] at e9
    have := s0.1
    have := s0.2.2.1
    omega
  have h3h : 3 * h < G.ny_ := by
    obtain ⟨s3, _, _, _, _, _, _, _, _, _, e9, _⟩ := h3
    rw [if_pos rfl] at e9
    have := s3.1
    have := s3.2.2.1
    omega
  have core : ∀ r, 0 ≤ r → r < 4 →
      (syncIteration env0 params G).Shaped ∧ (syncIteration env0 params G).SingleProcess ∧
      StripeAgree (syncIteration env0 params G) (lockstepIteration params gs r) r h := by
    intro r hr0 hr
    have hg := hall r hr0 hr
    obtain ⟨gS, gC, g1, g2, g3, g4, g5, g6, g7, g8, g9, gown⟩ := hg
    have hrh0 : 0 ≤ r * h := Int.mul_nonneg hr0 (le_of_lt hh)
    have hrh2 : r ≤ 2 → r * h ≤ 2 * h := fun hr2 =>
      Int.mul_le_mul_of_nonneg_right hr2 (le_of_lt hh)
    have hr3 : r = 3 → r * h = 3 * h := fun e => by rw [e]
    have hr0' : r = 0 → r * h = 0 := fun e => by rw [e]; exact Int.zero_mul h
    obtain ⟨c1, c2, c3, c4, c5, c6, c7⟩ := stripe_step_core order st ρ hso params hord G (gs r)
      (r * h) (lockstepInbox gs r) env0 hbo hsG hpG gS gC g1 g2 g3 g4 g5 g6 hrh0
      (by
        rw [g9]
        split_ifs with e
        · have := hr3 e
          omega
        · have := hrh2 (by omega)
          omega)
      (by
        intro hT
        rw [g7] at hT
        split_ifs at hT with e
        · exact hr0' e
        · omega)
      (by
        intro hB
        rw [g8] at hB
        split_ifs at hB with e
        · rw [g9, if_pos e]
          have := hr3 e
          omega
        · omega)
      gown
      (by
        intro hT
        have hr1 : r ≠ 0 := by
          intro e
          rw [g7, if_pos e] at hT
          exact hT rfl
        have e : (gs r).procTop_ = r - 1 := by rw [g7, if_neg hr1]
        rw [e]
        exact stripe_message_top G gs h r (by omega) hr (hall (r - 1) (by omega) (by omega))
          (hall r hr0 hr))
      (by
        intro hB
        have hr1 : r ≠ 3 := by
          intro e
          rw [g8, if_pos e] at hB
          exact hB rfl
        have e : (gs r).procBot_ = r + 1 := by rw [g8, if_neg hr1]
        rw [e]
        exact stripe_message_bot G gs h r hr0 (by omega) (hall (r + 1) (by omega) (by omega))
          (hall r hr0 hr))
    obtain ⟨_, v2, v3⟩ := swapState_valid (gs r) gS.2.2.2.2.2.2
    obtain ⟨_, w2, w3⟩ := swapState_valid G hsG.2.2.2.2.2.2
    obtain ⟨_, _, G3, G4, G5, G6, G7, _⟩ := c3
    obtain ⟨d1, d2, d3, d4, d5, d6, d7, d8, d9, d10, d11, d12⟩ := c6
    refine ⟨c1, c2, c4, c5, ?_, ?_, ?_, ?_, ?_, ?_, ?_, ?_, ?_, ?_⟩
    · exact (d3.trans g1).trans G3.symm
    · exact (d5.trans g2).trans G5.symm
    · rw [G6, w2]
      exact (d6.trans v2).trans g4
    · rw [G7, w3]
      exact (d7.trans v3).trans g3
    · exact d8.trans g5
    · exact d9.trans g6
    · exact d10.trans g7
    · exact d11.trans g8
    · rw [G4]
      exact d4.trans g9
    · intro sel x y hsel hx hx' hy hy' ho
      exact c7 sel x y hsel hx (lt_of_lt_of_eq hx' d1) hy (lt_of_lt_of_eq hy' d2)
        ((ownedRow_congr _ _ ⟨d1, d2, d3, d4, d5, d6, d7, d8, d9, d10, d11, d12⟩ y).1 ho)
  exact ⟨(core 0 (le_refl _) (by decide)).1, (core 0 (le_refl _) (by decide)).2.1,
    fun r hr0 hr => (core r hr0 hr).2.2⟩
/-! ## The constructed grids of 4 stripes -/

theorem ite_chain_congr {α : Type} (a1 a2 a3 a4 b1 b2 b3 b4 : Prop)
    [Decidable a1] [Decidable a2] [Decidable a3] [Decidable a4]
    [Decidable b1] [Decidable b2] [Decidable b3] [Decidable b4] (v1 v2 v3 v4 v5 : α)
    (h1 : a1 ↔ b1) (h2 : a2 ↔ b2) (h3 : ¬ a1 → ¬ a2 → (a3 ↔ b3))
    (h4 : ¬ a1 → ¬ a2 → ¬ a3 → (a4 ↔ b4)) :
    (if a1 then v1 else if a2 then v2 else if a3 then v3 else if a4 then v4 else v5) =
      (if b1 then v1 else if b2 then v2 else if b3 then v3 else if b4 then v4 else v5) := by
  by_cases c1 : a1
  · rw [if_pos c1, if_pos (h1.1 c1)]
  · rw [if_neg c1, if_neg (fun h => c1 (h1.2 h))]
    by_cases c2 : a2
    · rw [if_pos c2, if_pos (h2.1 c2)]
    · rw [if_neg c2, if_neg (fun h => c2 (h2.2 h))]
      by_cases c3 : a3
      · rw [if_pos c3, if_pos ((h3 c1 c2).1 c3)]
      · rw [if_neg c3, if_neg (fun h => c3 ((h3 c1 c2).2 h))]
        by_cases c4 : a4
        · rw [if_pos c4, if_pos ((h4 c1 c2 c3).1 c4)]
        · rw [if_neg c4, if_neg (fun h => c4 ((h4 c1 c2 c3).2 h))]

theorem ctor_stripe_fields {R : Type} [Zero R] (params : simParams R) (debug : Bool)
    (P r : Int) (g : Grid R) (hm : params.gridMethod_ = 1) (hr0 : 0 ≤ r) (hr : r < P)
    (h : Grid.ctor params debug P r = .ok g) :
    borderSizeOf params.order_ = some g.borderSize_ ∧
    g.nx_ = params.nx_ ∧
    g.ny_ = (if P = 1 then params.ny_
      else if r = P - 1 then params.ny_ - (P - 1) * cdiv (params.ny_ + P - 1) P
      else cdiv (params.ny_ + P - 1) P) ∧
    g.procLeft_ = -1 ∧ g.procRight_ = -1 ∧
    g.procTop_ = (if r = 0 then -1 else r - 1) ∧
    g.procBot_ = (if r = P - 1 then -1 else r + 1) ∧
    g.curr_ = 1 ∧ g.prev_ = 0 := by
  obtain ⟨t, b, ht, hb, _, _, rfl⟩ := (ctor_ok_iff params debug P r g).1 h
  rw [hm, decomposition_stripe params.nx_ params.ny_ P r hr0 hr] at ht
  cases ht
  exact ⟨hb, rfl, rfl, rfl, rfl, rfl, rfl, rfl, rfl⟩

/-- On the owned rows, the cells of a constructed stripe are the cells of the
constructed single-process grid `off` rows further down. -/
theorem stripe_ctor_agree {R : Type} [Zero R] (params : simParams R) (debug : Bool)
    (P r : Int) (G g : Grid R) (off : Int)
    (hG : Grid.ctor params debug 1 0 = .ok G) (hc : Grid.ctor params debug P r = .ok g)
    (hL : g.procLeft_ = -1) (hR : g.procRight_ = -1) (hnx : g.nx_ = G.nx_)
    (hoff : 0 ≤ off) (hoff' : off + g.ny_ ≤ G.ny_)
    (hT0 : g.procTop_ = -1 → off = 0) (hB0 : g.procBot_ = -1 → off + g.ny_ = G.ny_)
    (sel x y : Int) (hsel : sel = 0 ∨ sel = 1)
    (hx : 0 ≤ x) (hx' : x < g.gx_) (hy : 0 ≤ y) (hy' : y < g.gy_) (ho : g.OwnedRow y) :
    g.read sel x y = G.read sel x (y + off) := by
  obtain ⟨GpL, GpR, GpT, GpB, _, _⟩ := ctor_singleProcess params debug G hG
  have hbb : g.borderSize_ = G.borderSize_ := by
    obtain ⟨t, b, _, hb1, _, _, e1⟩ := (ctor_ok_iff params debug 1 0 G).1 hG
    obtain ⟨t', b', _, hb2, _, _, e2⟩ := (ctor_ok_iff params debug P r g).1 hc
    rw [hb2] at hb1
    rw [e1, e2]
    exact Option.some.inj hb1
  obtain ⟨s1, s2, s3, s4, s5, _, _⟩ := ctor_shaped params debug P r _ hc
  obtain ⟨t1, t2, t3, t4, t5, _, _⟩ := ctor_shaped params debug 1 0 _ hG
  unfold Grid.OwnedRow at ho
  rw [ctor_read params debug P r _ hc sel x y hsel hx hx' hy hy',
    ctor_read params debug 1 0 _ hG sel x (y + off) hsel hx (by omega) (by omega) (by omega)]
  clear hG hc
  exact ite_chain_congr _ _ _ _ _ _ _ _ _ _ _ _ _ (by omega) (by omega)
    (fun _ _ => by omega) (fun _ _ _ => by omega)

/-- The grids constructed for 4 stripes and for a single process satisfy the
invariant of the lock-step run, with the band height of the decomposition. -/
theorem stripeInv_ctor {R : Type} [Zero R] (params : simParams R) (debug : Bool)
    (G : Grid R) (gs : Int → Grid R) (hm : params.gridMethod_ = 1)
    (hG : Grid.ctor params debug 1 0 = .ok G)
    (hgs : ∀ r, 0 ≤ r → r < 4 → Grid.ctor params debug 4 r = .ok (gs r)) :
    StripeInv G gs (cdiv (params.ny_ + 4 - 1) 4) := by
  obtain ⟨Gb, Gnx, Gny, _, _, _, _, Gc, Gp⟩ :=
    ctor_stripe_fields params debug 1 0 G hm (le_refl _) (by decide) hG
  rw [if_pos rfl] at Gny
  have hall : ∀ r, 0 ≤ r → r < 4 →
      borderSizeOf params.order_ = some (gs r).borderSize_ ∧
      (gs r).nx_ = params.nx_ ∧
      (gs r).ny_ = (if r = 3 then params.ny_ - 3 * cdiv (params.ny_ + 4 - 1) 4
        else cdiv (params.ny_ + 4 - 1) 4) ∧
      (gs r).procLeft_ = -1 ∧ (gs r).procRight_ = -1 ∧
      (gs r).procTop_ = (if r = 0 then -1 else r - 1) ∧
      (gs r).procBot_ = (if r = 3 then -1 else r + 1) ∧
      (gs r).curr_ = 1 ∧ (gs r).prev_ = 0 := by
    intro r hr0 hr
    have := ctor_stripe_fields params debug 4 r (gs r) hm hr0 hr (hgs r hr0 hr)
    rw [if_neg (by decide)] at this
    exact this
  have hhpos : 0 < cdiv (params.ny_ + 4 - 1) 4 := by
    obtain ⟨_, _, e, _⟩ := hall 0 (le_refl _) (by decide)
    rw [if_neg (by decide)] at e
    obtain ⟨q1, _, q3, _⟩ := ctor_shaped params debug 4 0 (gs 0) (hgs 0 (le_refl _) (by decide))
    omega
  have h3h : 3 * cdiv (params.ny_ + 4 - 1) 4 < params.ny_ := by
    obtain ⟨_, _, e, _⟩ := hall 3 (by decide) (by decide)
    rw [if_pos rfl] at e
    obtain ⟨q1, _, q3, _⟩ := ctor_shaped params debug 4 3 (gs 3) (hgs 3 (by decide) (by decide))
    omega
  refine ⟨ctor_shaped params debug 1 0 G hG, ctor_singleProcess params debug G hG, ?_⟩
  intro r hr0 hr
  have hc := hgs r hr0 hr
  obtain ⟨gb, gnx, gny, gL, gR, gT, gB, gc, gp⟩ := hall r hr0 hr
  have hbb : (gs r).borderSize_ = G.borderSize_ := by
    rw [gb] at Gb
    exact Option.some.inj Gb
  refine ⟨ctor_shaped params debug 4 r (gs r) hc, ctor_commReady params debug 4 r (gs r) hc,
    gnx.trans Gnx.symm, hbb, gc.trans Gc.symm, gp.trans Gp.symm, gL, gR, gT, gB, ?_, ?_⟩
  · rw [gny, Gny]
  · have hrh0 : 0 ≤ r * cdiv (params.ny_ + 4 - 1) 4 := Int.mul_nonneg hr0 (le_of_lt hhpos)
    have hrh2 : r ≤ 2 → r * cdiv (params.ny_ + 4 - 1) 4 ≤ 2 * cdiv (params.ny_ + 4 - 1) 4 :=
      fun hr2 => Int.mul_le_mul_of_nonneg_right hr2 (le_of_lt hhpos)
    have hr3 : r = 3 → r * cdiv (params.ny_ + 4 - 1) 4 = 3 * cdiv (params.ny_ + 4 - 1) 4 :=
      fun e => by rw [e]
    have hr0' : r = 0 → r * cdiv (params.ny_ + 4 - 1) 4 = 0 :=
      fun e => by rw [e]; exact Int.zero_mul _
    exact stripe_ctor_agree params debug 4 r G (gs r) _ hG hc gL gR (gnx.trans Gnx.symm) hrh0
      (by
        rw [gny, Gny]
        split_ifs with e
        · have := hr3 e
          omega
        · have := hrh2 (by omega)
          omega)
      (by
        intro hT
        rw [gT] at hT
        split_ifs at hT with e
        · exact hr0' e
        · omega)
      (by
        intro hB
        rw [gB] at hB
        split_ifs at hB with e
        · rw [gny, Gny, if_pos e]
          have := hr3 e
          omega
        · omega)
/-! ## The lock-step run and `syncComputation` -/

theorem syncComputation_eq_foldl {R : Type} [Ring R] (env : Int → Int → List R)
    (grid : Grid R) (params : simParams R) :
    syncComputation env grid params =
      (List.range params.iters_.toNat).foldl
        (fun acc (k : Nat) => syncIteration (env (Int.ofNat k)) params acc) grid := by
  rw [syncComputation_eq_iterations]
  unfold forLoop
  rw [Int.sub_zero]
  apply List.foldl_ext
  intro a k _
  rw [Int.zero_add]

/-- The run of `syncComputation` on rank `r` with the messages of the lock-step
run is the state of rank `r` after `iters_` lock-step iterations. -/
theorem syncComputation_lockstep {R : Type} [Ring R] (params : simParams R)
    (gs : Int → Grid R) (r : Int) :
    syncComputation (lockstepEnv params gs r) (gs r) params =
      lockstep params params.iters_.toNat gs r := by
  rw [syncComputation_eq_foldl]
  generalize params.iters_.toNat = n
  induction n with
  | zero => rfl
  | succ m ih =>
    rw [List.range_succ, List.foldl_append, ih]
    rfl

theorem syncIteration_commFrame {R : Type} [Ring R] (inbox : Int → List R)
    (params : simParams R) (g : Grid R) :
    g.swapState.CommFrame (syncIteration inbox params g) := by
  have hex : g.swapState.CommFrame
      (((g.swapState.transferHaloDataASync).waitForSends).waitForRecvs inbox) :=
    exchange_commFrame inbox g.swapState
  have hbr : ∀ st : Stencil R, g.swapState.CommFrame
      (syncBranch st params g.swapState.curr_ g.swapState.prev_
        (((g.swapState.transferHaloDataASync).waitForSends).waitForRecvs inbox)) := by
    intro st
    rw [syncBranch_eq]
    exact commFrame_trans _ _ _ hex
      (commFrame_of_sameFrame _ _ (foldl_stencilWrite_sameFrame st _ _ _ _ _ _))
  unfold syncIteration
  dsimp only
  split_ifs
  · exact hbr stencil2
  · exact hbr stencil4
  · exact hbr stencil8
  · exact hex

/-- The invariant holds after any number of lock-step iterations. -/
theorem stripeInv_lockstep {R : Type} [Ring R] (order : Int) (st : Stencil R) (ρ : Int)
    (hso : stencilOfOrder order = some (st, ρ)) (params : simParams R)
    (hord : params.order_ = order) (env0 : Int → Int → List R) (G : Grid R)
    (gs : Int → Grid R) (h : Int) (hbo : borderSizeOf order = some G.borderSize_)
    (hinv : StripeInv G gs h) (n : Nat) :
    StripeInv
      ((List.range n).foldl
        (fun acc (k : Nat) => syncIteration (env0 (Int.ofNat k)) params acc) G)
      (lockstep params n gs) h ∧
    ((List.range n).foldl
      (fun acc (k : Nat) => syncIteration (env0 (Int.ofNat k)) params acc) G).borderSize_ =
        G.borderSize_ ∧
    ((List.range n).foldl
      (fun acc (k : Nat) => syncIteration (env0 (Int.ofNat k)) params acc) G).nx_ = G.nx_ ∧
    ((List.range n).foldl
      (fun acc (k : Nat) => syncIteration (env0 (Int.ofNat k)) params acc) G).ny_ = G.ny_ := by
  induction n with
  | zero => exact ⟨hinv, rfl, rfl, rfl⟩
  | succ m ih =>
    rw [List.range_succ, List.foldl_append]
    obtain ⟨i1, i2, i3, i4⟩ := ih
    obtain ⟨_, _, f3, f4, f5, _⟩ := syncIteration_commFrame (env0 (Int.ofNat m)) params
      ((List.range m).foldl
        (fun acc (k : Nat) => syncIteration (env0 (Int.ofNat k)) params acc) G)
    exact ⟨stripeInv_step order st ρ hso params hord _ _ h (env0 (Int.ofNat m))
      (by rw [i2]; exact hbo) i1, f5.trans i2, f3.trans i3, f4.trans i4⟩

theorem stencilOfOrder_of_border {R : Type} [Ring R] (order b : Int)
    (h : borderSizeOf order = some b) :
    ∃ (st : Stencil R) (ρ : Int), stencilOfOrder order = some (st, ρ) := by
  unfold stencilOfOrder
  rcases borderSizeOf_some _ _ h with ⟨h2, _⟩ | ⟨h4, _⟩ | ⟨h8, _⟩
  · exact ⟨stencil2, 1, by rw [if_pos h2]⟩
  · exact ⟨stencil4, 2, by rw [h4]; rfl⟩
  · exact ⟨stencil8, 4, by rw [h8]; rfl⟩

theorem stackOffset_stripe {R : Type} [Zero R] (G : Grid R) (gs : Int → Grid R) (h : Int)
    (hinv : StripeInv G gs h) :
    (∀ r, 0 ≤ r → r < 4 → stackOffset gs r = r * h) ∧ stackOffset gs 4 = G.ny_ := by
  obtain ⟨_, _, hall⟩ := hinv
  obtain ⟨_, _, _, _, _, _, _, _, _, _, e0, _⟩ := hall 0 (by decide) (by decide)
  obtain ⟨_, _, _, _, _, _, _, _, _, _, e1, _⟩ := hall 1 (by decide) (by decide)
  obtain ⟨_, _, _, _, _, _, _, _, _, _, e2, _⟩ := hall 2 (by decide) (by decide)
  obtain ⟨_, _, _, _, _, _, _, _, _, _, e3, _⟩ := hall 3 (by decide) (by decide)
  rw [if_neg (by decide)] at e0 e1 e2
  rw [if_pos rfl] at e3
  have s0 : stackOffset gs 0 = 0 := rfl
  have s1 : stackOffset gs 1 = (gs 0).ny_ := by
    simp [stackOffset, List.range_succ]
  have s2 : stackOffset gs 2 = (gs 0).ny_ + (gs 1).ny_ := by
    simp [stackOffset, List.range_succ]
  have s3 : stackOffset gs 3 = (gs 0).ny_ + (gs 1).ny_ + (gs 2).ny_ := by
    simp [stackOffset, List.range_succ, add_assoc]
  have s4 : stackOffset gs 4 = (gs 0).ny_ + (gs 1).ny_ + (gs 2).ny_ + (gs 3).ny_ := by
    simp [stackOffset, List.range_succ, add_assoc]
  constructor
  · intro r hr0 hr
    have hr' : r = 0 ∨ r = 1 ∨ r = 2 ∨ r = 3 := by omega
    rcases hr' with rfl | rfl | rfl | rfl
    · rw [s0]; omega
    · rw [s1]; omega
    · rw [s2]; omega
    · rw [s3]; omega
  · rw [s4]; omega

/-- Claim C11: for parameters with the stripe decomposition for which the
constructor succeeds on each of the 4 ranks (each band satisfies the halo-size
precondition), the 4 ranks are run in lock step for `iters_` iterations of
`syncComputation`, each halo message being delivered unchanged to the rank it
is addressed to.  The bands stacked in rank order fill the `ny` rows of the
global problem, and every non-halo cell `(x, y)` of the current generation of
rank `r` holds the value of the cell `(x, y + stackOffset gs r)` of the
current generation of the run with a single process, for any number of
iterations (the arithmetic is that of the ring `R`). -/
theorem stripe_multiprocess_equivalence {R : Type} [Ring R] (params : simParams R)
    (debug : Bool) (env0 : Int → Int → List R) (G : Grid R) (gs : Int → Grid R)
    (hm : params.gridMethod_ = 1)
    (hG : Grid.ctor params debug 1 0 = .ok G)
    (hgs : ∀ r, 0 ≤ r → r < 4 → Grid.ctor params debug 4 r = .ok (gs r)) :
    stackOffset gs 4 = G.ny_ ∧
    ∀ r, 0 ≤ r → r < 4 →
      syncComputation (lockstepEnv params gs r) (gs r) params =
        lockstep params params.iters_.toNat gs r ∧
      (gs r).nx_ = G.nx_ ∧ (gs r).borderSize_ = G.borderSize_ ∧
      stackOffset gs r + (gs r).ny_ ≤ G.ny_ ∧
      (syncComputation (lockstepEnv params gs r) (gs r) params).curr_ =
        (syncComputation env0 G params).curr_ ∧
      ∀ x y, (gs r).borderSize_ ≤ x → x < (gs r).nx_ + (gs r).borderSize_ →
        (gs r).borderSize_ ≤ y → y < (gs r).ny_ + (gs r).borderSize_ →
        (syncComputation (lockstepEnv params gs r) (gs r) params).read
            (syncComputation (lockstepEnv params gs r) (gs r) params).curr_ x y =
          (syncComputation env0 G params).read (syncComputation env0 G params).curr_ x
            (y + stackOffset gs r) := by
  obtain ⟨Gb, _⟩ := ctor_stripe_fields params debug 1 0 G hm (le_refl _) (by decide) hG
  obtain ⟨st, ρ, hso⟩ := stencilOfOrder_of_border (R := R) params.order_ G.borderSize_ Gb
  have hinv0 := stripeInv_ctor params debug G gs hm hG hgs
  obtain ⟨hoffs, htot⟩ := stackOffset_stripe G gs _ hinv0
  obtain ⟨⟨_, _, hallN⟩, Nb, Nnx, Nny⟩ := stripeInv_lockstep params.order_ st ρ hso params rfl
    env0 G gs _ Gb hinv0 params.iters_.toNat
  obtain ⟨_, _, hall0⟩ := hinv0
  refine ⟨htot, ?_⟩
  intro r hr0 hr
  rw [syncComputation_lockstep, syncComputation_eq_foldl, hoffs r hr0 hr]
  obtain ⟨aS, _, a1, a2, a3, _, _, _, _, _, a9, aown⟩ := hallN r hr0 hr
  obtain ⟨bS, _, b1, b2, _, _, _, _, _, _, b9, _⟩ := hall0 r hr0 hr
  rw [Nnx] at a1
  rw [Nb] at a2
  rw [Nny] at a9
  have hnx : (lockstep params params.iters_.toNat gs r).nx_ = (gs r).nx_ := a1.trans b1.symm
  have hb : (lockstep params params.iters_.toNat gs r).borderSize_ = (gs r).borderSize_ :=
    a2.trans b2.symm
  have hny : (lockstep params params.iters_.toNat gs r).ny_ = (gs r).ny_ := a9.trans b9.symm
  have hle : r * cdiv (params.ny_ + 4 - 1) 4 + (gs r).ny_ ≤ G.ny_ := by
    obtain ⟨c0, _, _, _, _, _, _, _, _, _, c9, _⟩ := hall0 0 (le_refl _) (by decide)
    obtain ⟨c3, _, _, _, _, _, _, _, _, _, d9, _⟩ := hall0 3 (by decide) (by decide)
    rw [if_neg (by decide)] at c9
    rw [if_pos rfl] at d9
    have := c0.1
    have := c0.2.2.1
    have := c3.1
    have := c3.2.2.1
    have hr' : r = 0 ∨ r = 1 ∨ r = 2 ∨ r = 3 := by omega
    rw [b9]
    rcases hr' with rfl | rfl | rfl | rfl
    · rw [if_neg (by decide)]; omega
    · rw [if_neg (by decide)]; omega
    · rw [if_neg (by decide)]; omega
    · rw [if_pos rfl]; omega
  refine ⟨rfl, b1, b2, hle, a3, ?_⟩
  intro x y hx hx' hy hy'
  obtain ⟨s1, s2, s3, s4, s5, s6, s7⟩ := aS
  rw [← a3]
  exact aown _ x y (by omega) (by omega) (by omega) (by omega) (by omega)
    (Or.inl ⟨by omega, by omega⟩)

theorem stripeGlobal_ctor : Grid.ctor paramsStripe false 1 0 = .ok stripeGlobal :=
  (ctor_ok_iff paramsStripe false 1 0 stripeGlobal).2
    ⟨_, 1, decomposition_stripe 10 12 1 0 (by decide) (by decide), rfl, by decide, by decide,
      rfl⟩

theorem stripeGrid_ctor (r : Int) (hr0 : 0 ≤ r) (hr : r < 4) :
    Grid.ctor paramsStripe false 4 r = .ok (stripeGrid r) := by
  have hr' : r = 0 ∨ r = 1 ∨ r = 2 ∨ r = 3 := by omega
  rcases hr' with rfl | rfl | rfl | rfl
  · exact (ctor_ok_iff paramsStripe false 4 0 (stripeGrid 0)).2
      ⟨_, 1, decomposition_stripe 10 12 4 0 (by decide) (by decide), rfl, by decide,
        by decide, rfl⟩
  · exact (ctor_ok_iff paramsStripe false 4 1 (stripeGrid 1)).2
      ⟨_, 1, decomposition_stripe 10 12 4 1 (by decide) (by decide), rfl, by decide,
        by decide, rfl⟩
  · exact (ctor_ok_iff paramsStripe false 4 2 (stripeGrid 2)).2
      ⟨_, 1, decomposition_stripe 10 12 4 2 (by decide) (by decide), rfl, by decide,
        by decide, rfl⟩
  · exact (ctor_ok_iff paramsStripe false 4 3 (stripeGrid 3)).2
      ⟨_, 1, decomposition_stripe 10 12 4 3 (by decide) (by decide), rfl, by decide,
        by decide, rfl⟩

theorem stripe_multiprocess_equivalence_witness :
    paramsStripe.gridMethod_ = 1 ∧
    Grid.ctor paramsStripe false 1 0 = .ok stripeGlobal ∧
    (∀ r, 0 ≤ r → r < 4 → Grid.ctor paramsStripe false 4 r = .ok (stripeGrid r)) ∧
    stackOffset stripeGrid 4 = stripeGlobal.ny_ ∧ stripeGlobal.ny_ = 12 ∧
    (stripeGrid 1).ny_ = 3 ∧ stackOffset stripeGrid 1 = 3 ∧
    (∀ x y, (stripeGrid 1).borderSize_ ≤ x →
      x < (stripeGrid 1).nx_ + (stripeGrid 1).borderSize_ →
      (stripeGrid 1).borderSize_ ≤ y → y < (stripeGrid 1).ny_ + (stripeGrid 1).borderSize_ →
      (syncComputation (lockstepEnv paramsStripe stripeGrid 1) (stripeGrid 1)
          paramsStripe).read
        (syncComputation (lockstepEnv paramsStripe stripeGrid 1) (stripeGrid 1)
          paramsStripe).curr_ x y =
      (syncComputation (fun _ _ => []) stripeGlobal paramsStripe).read
        (syncComputation (fun _ _ => []) stripeGlobal paramsStripe).curr_ x
        (y + stackOffset stripeGrid 1)) :=
  ⟨rfl, stripeGlobal_ctor, stripeGrid_ctor,
    (stripe_multiprocess_equivalence paramsStripe false (fun _ _ => []) stripeGlobal
      stripeGrid rfl stripeGlobal_ctor stripeGrid_ctor).1,
    rfl, rfl, by decide,
    ((stripe_multiprocess_equivalence paramsStripe false (fun _ _ => []) stripeGlobal
      stripeGrid rfl stripeGlobal_ctor stripeGrid_ctor).2 1 (by decide)
        (by decide)).2.2.2.2.2⟩
/-! ## A uniform field is a fixed point of the stencils -/

/-- Claim C25: for `stencil2`, `stencil4` and `stencil8` and all `xcfl`, `ycfl`,
if every previous-generation cell read by the stencil at `(x, y)` holds the
same value `c`, the stencil returns `c`; the coefficients of each directional
difference sum to zero. -/
theorem uniform_fixed_point {R : Type} [Ring R] (order : Int) (st : Stencil R) (ρ : Int)
    (hso : stencilOfOrder order = some (st, ρ)) (g : Grid R) (x y : Int) (xcfl ycfl : R)
    (prev : Int) (c : R)
    (h : ∀ x' y', InPlus ρ x y x' y' → g.read prev x' y' = c) :
    st g x y xcfl ycfl prev = c ∧
    ((1 : Int) + 1 - 2 = 0 ∧ (-1 : Int) + 16 - 30 + 16 - 1 = 0 ∧
      (-9 : Int) + 128 - 1008 + 8064 - 14350 + 8064 - 1008 + 128 - 9 = 0) := by
  obtain ⟨_, _, hc⟩ := stencilOfOrder_some order st ρ hso
  refine ⟨?_, by decide, by decide, by decide⟩
  rcases hc with ⟨_, rfl, rfl⟩ | ⟨_, rfl, rfl⟩ | ⟨_, rfl, rfl⟩
  · unfold stencil2
    rw [h x y (by unfold InPlus; omega), h (x + 1) y (by unfold InPlus; omega),
      h (x - 1) y (by unfold InPlus; omega), h x (y + 1) (by unfold InPlus; omega),
      h x (y - 1) (by unfold InPlus; omega)]
    have e : c + c - 2 * c = 0 := by noncomm_ring
    rw [e, mul_zero, mul_zero, add_zero, add_zero]
  · unfold stencil4
    rw [h x y (by unfold InPlus; omega), h (x + 1) y (by unfold InPlus; omega),
      h (x - 1) y (by unfold InPlus; omega), h x (y + 1) (by unfold InPlus; omega),
      h x (y - 1) (by unfold InPlus; omega), h (x + 2) y (by unfold InPlus; omega),
      h (x - 2) y (by unfold InPlus; omega), h x (y + 2) (by unfold InPlus; omega),
      h x (y - 2) (by unfold InPlus; omega)]
    have e : -c + 16 * c - 30 * c + 16 * c - c = 0 := by noncomm_ring
    rw [e, mul_zero, mul_zero, add_zero, add_zero]
  · unfold stencil8
    rw [h x y (by unfold InPlus; omega), h (x + 1) y (by unfold InPlus; omega),
      h (x - 1) y (by unfold InPlus; omega), h x (y + 1) (by unfold InPlus; omega),
      h x (y - 1) (by unfold InPlus; omega), h (x + 2) y (by unfold InPlus; omega),
      h (x - 2) y (by unfold InPlus; omega), h x (y + 2) (by unfold InPlus; omega),
      h x (y - 2) (by unfold InPlus; omega), h (x + 3) y (by unfold InPlus; omega),
      h (x - 3) y (by unfold InPlus; omega), h x (y + 3) (by unfold InPlus; omega),
      h x (y - 3) (by unfold InPlus; omega), h (x + 4) y (by unfold InPlus; omega),
      h (x - 4) y (by unfold InPlus; omega), h x (y + 4) (by unfold InPlus; omega),
      h x (y - 4) (by unfold InPlus; omega)]
    have e : -9 * c + 128 * c - 1008 * c + 8064 * c - 14350 * c + 8064 * c -
        1008 * c + 128 * c - 9 * c = 0 := by noncomm_ring
    rw [e, mul_zero, mul_zero, add_zero, add_zero]

theorem uniform_fixed_point_witness :
    stencilOfOrder (2 : Int) = some ((stencil2 : Stencil ℚ), 1) ∧
    (∀ x' y', InPlus 1 5 5 x' y' → defaultGrid.read 0 x' y' = 5) ∧
    stencil2 defaultGrid 5 5 (1 / 4) (1 / 4) 0 = 5 := by
  have h : ∀ x' y', InPlus 1 5 5 x' y' → defaultGrid.read 0 x' y' = 5 := by
    intro x' y' hin
    have b1 : defaultGrid.borderSize_ = 1 := rfl
    have b2 : defaultGrid.gx_ = 12 := rfl
    have b3 : defaultGrid.gy_ = 12 := rfl
    have hr := ctor_read _ false 1 0 _ defaultGrid_ctor 0 x' y' (Or.inl rfl)
      (by unfold InPlus at hin; omega) (by rw [b2]; unfold InPlus at hin; omega)
      (by unfold InPlus at hin; omega) (by rw [b3]; unfold InPlus at hin; omega)
    rw [hr, b1, b2, b3]
    unfold InPlus at hin
    rw [if_neg (by omega), if_neg (by omega), if_neg (by omega), if_neg (by omega)]
    rfl
  exact ⟨rfl, h, (uniform_fixed_point 2 stencil2 1 rfl defaultGrid 5 5 (1 / 4) (1 / 4) 0 5 h).1⟩

/-! ## The discrete maximum principle at order 2 -/

/-- The value of `stencil2` as a combination of the five cells it reads. -/
theorem stencil2_combination {R : Type} [CommRing R] (g : Grid R) (x y : Int) (xcfl ycfl : R)
    (prev : Int) :
    stencil2 g x y xcfl ycfl prev =
      (1 - 2 * xcfl - 2 * ycfl) * g.read prev x y +
        xcfl * g.read prev (x + 1) y + xcfl * g.read prev (x - 1) y +
        ycfl * g.read prev x (y + 1) + ycfl * g.read prev x (y - 1) := by
  unfold stencil2
  ring

/-- The order-2 coefficients of `calcDtCFL` for positive `dx`, `dy`, `alpha`. -/
theorem calcDtCFL_order2 {R : Type} [LinearOrderedField R] (p : simParams R)
    (ho : p.order_ = 2) (hdx : 0 < p.dx_) (hdy : 0 < p.dy_) (ha : 0 < p.alpha_) :
    p.calcDtCFL.xcfl_ =
      4999 / 10000 * (p.dy_ * p.dy_) / (p.dx_ * p.dx_ + p.dy_ * p.dy_) ∧
    p.calcDtCFL.ycfl_ =
      4999 / 10000 * (p.dx_ * p.dx_) / (p.dx_ * p.dx_ + p.dy_ * p.dy_) := by
  have hx2 : 0 < p.dx_ * p.dx_ := mul_pos hdx hdx
  have hy2 : 0 < p.dy_ * p.dy_ := mul_pos hdy hdy
  have hs : 0 < p.dx_ * p.dx_ + p.dy_ * p.dy_ := add_pos hx2 hy2
  have hdx0 : p.dx_ ≠ 0 := ne_of_gt hdx
  have hdy0 : p.dy_ ≠ 0 := ne_of_gt hdy
  have ha0 : p.alpha_ ≠ 0 := ne_of_gt ha
  have hs0 : p.dx_ * p.dx_ + p.dy_ * p.dy_ ≠ 0 := ne_of_gt hs
  have ec : (0.5 - 0.0001 : R) = 4999 / 10000 := by norm_num
  simp only [simParams.calcDtCFL, ho, if_true]
  rw [ec]
  constructor
  · field_simp; ring
  · field_simp; ring

/-- Claim C26: for `xcfl` and `ycfl` assigned by `calcDtCFL` with order 2 from
positive `dx`, `dy`, `alpha` in exact arithmetic, `xcfl ≥ 0`, `ycfl ≥ 0`,
`xcfl + ycfl = 0.4999`, `1 - 2*xcfl - 2*ycfl > 0`, and the value of `stencil2`
at `(x, y)` lies between the minimum and the maximum of the five
previous-generation values it reads. -/
theorem maximum_principle_order2 {R : Type} [LinearOrderedField R] (p : simParams R)
    (ho : p.order_ = 2) (hdx : 0 < p.dx_) (hdy : 0 < p.dy_) (ha : 0 < p.alpha_)
    (g : Grid R) (x y prev : Int) :
    0 ≤ p.calcDtCFL.xcfl_ ∧ 0 ≤ p.calcDtCFL.ycfl_ ∧
    p.calcDtCFL.xcfl_ + p.calcDtCFL.ycfl_ = 0.4999 ∧
    0 < 1 - 2 * p.calcDtCFL.xcfl_ - 2 * p.calcDtCFL.ycfl_ ∧
    min (g.read prev x y) (min (g.read prev (x + 1) y) (min (g.read prev (x - 1) y)
        (min (g.read prev x (y + 1)) (g.read prev x (y - 1))))) ≤
      stencil2 g x y p.calcDtCFL.xcfl_ p.calcDtCFL.ycfl_ prev ∧
    stencil2 g x y p.calcDtCFL.xcfl_ p.calcDtCFL.ycfl_ prev ≤
      max (g.read prev x y) (max (g.read prev (x + 1) y) (max (g.read prev (x - 1) y)
        (max (g.read prev x (y + 1)) (g.read prev x (y - 1))))) := by
  obtain ⟨ex, ey⟩ := calcDtCFL_order2 p ho hdx hdy ha
  have hx2 : 0 < p.dx_ * p.dx_ := mul_pos hdx hdx
  have hy2 : 0 < p.dy_ * p.dy_ := mul_pos hdy hdy
  have hs : 0 < p.dx_ * p.dx_ + p.dy_ * p.dy_ := add_pos hx2 hy2
  have hX : 0 ≤ p.calcDtCFL.xcfl_ := by
    rw [ex]; positivity
  have hY : 0 ≤ p.calcDtCFL.ycfl_ := by
    rw [ey]; positivity
  have hsum : p.calcDtCFL.xcfl_ + p.calcDtCFL.ycfl_ = 4999 / 10000 := by
    rw [ex, ey]
    field_simp
    ring
  have hZ : 0 < 1 - 2 * p.calcDtCFL.xcfl_ - 2 * p.calcDtCFL.ycfl_ := by linarith
  refine ⟨hX, hY, by rw [hsum]; norm_num, hZ, ?_, ?_⟩
  · rw [stencil2_combination]
    generalize p.calcDtCFL.xcfl_ = X at hX hZ
    generalize p.calcDtCFL.ycfl_ = Y at hY hZ
    generalize g.read prev x y = u0
    generalize g.read prev (x + 1) y = uE
    generalize g.read prev (x - 1) y = uW
    generalize g.read prev x (y + 1) = uN
    generalize g.read prev x (y - 1) = uS
    set m := min u0 (min uE (min uW (min uN uS))) with hm
    have m0 : m ≤ u0 := min_le_left _ _
    have m1 : m ≤ uE := le_trans (min_le_right _ _) (min_le_left _ _)
    have m2 : m ≤ uW :=
      le_trans (min_le_right _ _) (le_trans (min_le_right _ _) (min_le_left _ _))
    have m3 : m ≤ uN :=
      le_trans (min_le_right _ _) (le_trans (min_le_right _ _)
        (le_trans (min_le_right _ _) (min_le_left _ _)))
    have m4 : m ≤ uS :=
      le_trans (min_le_right _ _) (le_trans (min_le_right _ _)
        (le_trans (min_le_right _ _) (min_le_right _ _)))
    have k0 := mul_le_mul_of_nonneg_left m0 (le_of_lt hZ)
    have k1 := mul_le_mul_of_nonneg_left m1 hX
    have k2 := mul_le_mul_of_nonneg_left m2 hX
    have k3 := mul_le_mul_of_nonneg_left m3 hY
    have k4 := mul_le_mul_of_nonneg_left m4 hY
    linarith
  · rw [stencil2_combination]
    generalize p.calcDtCFL.xcfl_ = X at hX hZ
    generalize p.calcDtCFL.ycfl_ = Y at hY hZ
    generalize g.read prev x y = u0
    generalize g.read prev (x + 1) y = uE
    generalize g.read prev (x - 1) y = uW
    generalize g.read prev x (y + 1) = uN
    generalize g.read prev x (y - 1) = uS
    set m := max u0 (max uE (max uW (max uN uS))) with hm
    have m0 : u0 ≤ m := le_max_left _ _
    have m1 : uE ≤ m := le_trans (le_max_left _ _) (le_max_right _ _)
    have m2 : uW ≤ m :=
      le_trans (le_max_left _ _) (le_trans (le_max_right _ _) (le_max_right _ _))
    have m3 : uN ≤ m :=
      le_trans (le_max_left _ _) (le_trans (le_max_right _ _)
        (le_trans (le_max_right _ _) (le_max_right _ _)))
    have m4 : uS ≤ m :=
      le_trans (le_max_right _ _) (le_trans (le_max_right _ _)
        (le_trans (le_max_right _ _) (le_max_right _ _)))
    have k0 := mul_le_mul_of_nonneg_left m0 (le_of_lt hZ)
    have k1 := mul_le_mul_of_nonneg_left m1 hX
    have k2 := mul_le_mul_of_nonneg_left m2 hX
    have k3 := mul_le_mul_of_nonneg_left m3 hY
    have k4 := mul_le_mul_of_nonneg_left m4 hY
    linarith

theorem maximum_principle_order2_witness :
    (simParams.ctor : simParams ℚ).order_ = 2 ∧
    0 ≤ (simParams.ctor : simParams ℚ).calcDtCFL.xcfl_ ∧
    (simParams.ctor : simParams ℚ).calcDtCFL.xcfl_ +
      (simParams.ctor : simParams ℚ).calcDtCFL.ycfl_ = 0.4999 ∧
    stencil2 defaultGrid 1 1 (simParams.ctor : simParams ℚ).calcDtCFL.xcfl_
        (simParams.ctor : simParams ℚ).calcDtCFL.ycfl_ 0 ≤
      max (defaultGrid.read 0 1 1) (max (defaultGrid.read 0 (1 + 1) 1)
        (max (defaultGrid.read 0 (1 - 1) 1)
          (max (defaultGrid.read 0 1 (1 + 1)) (defaultGrid.read 0 1 (1 - 1))))) :=
  have h := maximum_principle_order2 (simParams.ctor : simParams ℚ) rfl
    (by norm_num [simParams.ctor, simParams.calcDtCFL])
    (by norm_num [simParams.ctor, simParams.calcDtCFL])
    (by norm_num [simParams.ctor, simParams.calcDtCFL]) defaultGrid 1 1 0
  ⟨rfl, h.1, h.2.2.1, h.2.2.2.2.2⟩
/-! ## Domain-edge halo cells under the computation -/

/-- One iteration on a shaped grid of a single process: the iteration is the
order branch on the swapped grid, the two variants coincide, the frame is
kept, no cell of the previous generation changes and no halo cell of either
generation changes. -/
theorem iteration_singleProcess {R : Type} [Ring R] (q : simParams R) (inbox : Int → List R)
    (g : Grid R) (hs : g.Shaped) (hp : g.SingleProcess)
    (hb : borderSizeOf q.order_ = some g.borderSize_) :
    asyncIteration inbox q g = syncIteration inbox q g ∧
    (syncIteration inbox q g).Shaped ∧ (syncIteration inbox q g).SingleProcess ∧
    g.swapState.SameFrame (syncIteration inbox q g) ∧
    (∀ x y, 0 ≤ x → x < g.gx_ → 0 ≤ y → y < g.gy_ →
      (syncIteration inbox q g).read g.swapState.prev_ x y =
        g.read g.swapState.prev_ x y) ∧
    (∀ sel x y, sel = 0 ∨ sel = 1 → 0 ≤ x → x < g.gx_ → 0 ≤ y → y < g.gy_ →
      (x < g.borderSize_ ∨ x ≥ g.nx_ + g.borderSize_ ∨
        y < g.borderSize_ ∨ y ≥ g.ny_ + g.borderSize_) →
      (syncIteration inbox q g).read sel x y = g.read sel x y) := by
  obtain ⟨st, ρ, hso⟩ := stencilOfOrder_of_border (R := R) q.order_ g.borderSize_ hb
  obtain ⟨hloc, hbρ, hc⟩ := stencilOfOrder_some q.order_ st ρ hso
  have hρ : ρ = g.borderSize_ := by
    rw [hbρ] at hb
    exact Option.some.inj hb
  have hsS : g.swapState.Shaped := swapState_shaped g hs
  have hpS : g.swapState.SingleProcess := hp
  have e1 : syncIteration inbox q g =
      syncBranch st q g.swapState.curr_ g.swapState.prev_ g.swapState := by
    rw [syncIteration_eq q.order_ st ρ hso q rfl inbox g, exchange_singleProcess inbox _ hpS]
  have e2 : asyncIteration inbox q g =
      syncBranch st q g.swapState.curr_ g.swapState.prev_ g.swapState := by
    rw [asyncIteration_eq q.order_ st ρ hso q rfl inbox g, transfer_singleProcess _ hpS]
    exact (branch_singleProcess st q inbox _ _ _ hpS).1.symm
  have hρ0 : 0 ≤ ρ := by
    rcases hc with ⟨_, _, h⟩ | ⟨_, _, h⟩ | ⟨_, _, h⟩ <;> omega
  obtain ⟨s1, s2, s3, _⟩ := syncBranch_spec st ρ hloc hρ0 q g.swapState hsS (le_of_eq hρ)
  rw [e2, e1]
  refine ⟨rfl, shaped_of_sameFrame _ _ s1 hsS,
    (branch_singleProcess st q inbox _ _ _ hpS).2, s1, ?_, ?_⟩
  · intro x y hx hx' hy hy'
    exact s2 x y hx hx' hy hy'
  · intro sel x y hsel hx hx' hy hy' hh
    have hcp := hsS.2.2.2.2.2.2
    have hsel' : sel = g.swapState.prev_ ∨ sel = g.swapState.curr_ := by
      rcases hcp with ⟨a, b⟩ | ⟨a, b⟩ <;> rw [a, b] <;> omega
    rcases hsel' with rfl | rfl
    · exact s2 x y hx hx' hy hy'
    · exact s3 x y hx hx' hy hy' (by
        have b1 : g.swapState.borderSize_ = g.borderSize_ := rfl
        have b2 : g.swapState.nx_ = g.nx_ := rfl
        have b3 : g.swapState.ny_ = g.ny_ := rfl
        rw [b1, b2, b3]
        omega)

theorem haloKept_step {R : Type} [Ring R] (G : Grid R) (q : simParams R)
    (hb : borderSizeOf q.order_ = some G.borderSize_) (inbox : Int → List R) (g : Grid R)
    (h : HaloKept G g) : HaloKept G (syncIteration inbox q g) := by
  obtain ⟨hs, hp, e1, e2, e3, e4, e5, hh⟩ := h
  obtain ⟨_, a2, a3, a4, _, a6⟩ :=
    iteration_singleProcess q inbox g hs hp (by rw [e5]; exact hb)
  obtain ⟨f1, f2, f3, f4, f5, _⟩ := sameFrame_fields _ _ a4
  have g1 : g.swapState.gx_ = g.gx_ := rfl
  have g2 : g.swapState.gy_ = g.gy_ := rfl
  have g3 : g.swapState.nx_ = g.nx_ := rfl
  have g4 : g.swapState.ny_ = g.ny_ := rfl
  have g5 : g.swapState.borderSize_ = g.borderSize_ := rfl
  refine ⟨a2, a3, by rw [f1, g1, e1], by rw [f2, g2, e2], by rw [f3, g3, e3],
    by rw [f4, g4, e4], by rw [f5, g5, e5], ?_⟩
  intro sel x y hsel hx hx' hy hy' hc
  rw [a6 sel x y hsel hx (by rw [e1]; exact hx') hy (by rw [e2]; exact hy')
    (by rw [e3, e4, e5]; exact hc)]
  exact hh sel x y hsel hx hx' hy hy' hc

theorem haloKept_ctor {R : Type} [Zero R] (params : simParams R) (debug : Bool) (G : Grid R)
    (h : Grid.ctor params debug 1 0 = .ok G) : HaloKept G G :=
  ⟨ctor_shaped _ _ _ _ _ h, ctor_singleProcess _ _ _ h, rfl, rfl, rfl, rfl, rfl,
    fun _ _ _ _ _ _ _ _ _ => rfl⟩

theorem haloKept_syncComputation {R : Type} [Ring R] (G : Grid R) (q : simParams R)
    (hb : borderSizeOf q.order_ = some G.borderSize_) (env : Int → Int → List R)
    (h : HaloKept G G) : HaloKept G (syncComputation env G q) := by
  rw [syncComputation_eq_iterations]
  exact forLoop_preserves _ _ _ _ _ h (fun i g hg => haloKept_step G q hb (env i) g hg)

theorem ctor_border {R : Type} [Zero R] (params : simParams R) (debug : Bool) (P rank : Int)
    (g : Grid R) (h : Grid.ctor params debug P rank = .ok g) :
    borderSizeOf params.order_ = some g.borderSize_ := by
  obtain ⟨t, b, _, hb, _, _, rfl⟩ := (ctor_ok_iff params debug P rank g).1 h
  exact hb

/-- The loop body of `syncComputation` as the stencil assignments to the cells
of the three loop nests, after the exchange round. -/
theorem syncIteration_fold {R : Type} [Ring R] (order : Int) (st : Stencil R) (ρ : Int)
    (hso : stencilOfOrder order = some (st, ρ)) (params : simParams R)
    (hord : params.order_ = order) (inbox : Int → List R) (g : Grid R) :
    syncIteration inbox params g =
      (interiorCells g.borderSize_ g.nx_ g.ny_ ++ topBottomCells g.borderSize_ g.nx_ g.ny_ ++
        leftRightCells g.borderSize_ g.nx_ g.ny_).foldl
        (stencilWrite st params.xcfl_ params.ycfl_ g.swapState.curr_ g.swapState.prev_)
        (g.swapState.exchange inbox) := by
  rw [syncIteration_eq order st ρ hso params hord, syncBranch_eq]
  obtain ⟨_, _, e3, e4, e5, _⟩ := exchange_commFrame inbox g.swapState
  rw [e3, e4, e5]
  rfl

/-- The loop body of `asyncComputation` as stencil assignments: the first loop
nest after the start of the transfers, the other two after the waits. -/
theorem asyncIteration_fold {R : Type} [Ring R] (order : Int) (st : Stencil R) (ρ : Int)
    (hso : stencilOfOrder order = some (st, ρ)) (params : simParams R)
    (hord : params.order_ = order) (inbox : Int → List R) (g : Grid R) :
    asyncIteration inbox params g =
      (topBottomCells g.borderSize_ g.nx_ g.ny_ ++ leftRightCells g.borderSize_ g.nx_ g.ny_).foldl
        (stencilWrite st params.xcfl_ params.ycfl_ g.swapState.curr_ g.swapState.prev_)
        ((((interiorCells g.borderSize_ g.nx_ g.ny_).foldl
          (stencilWrite st params.xcfl_ params.ycfl_ g.swapState.curr_ g.swapState.prev_)
          g.swapState.transferHaloDataASync).waitForSends).waitForRecvs inbox) := by
  rw [asyncIteration_eq order st ρ hso params hord]
  unfold asyncBranch
  dsimp only
  rw [List.foldl_append, leftRightPass_eq, topBottomPass_eq, interiorPass_eq]
  obtain ⟨_, _, a3, a4, a5, _⟩ := transfer_commFrame g.swapState
  rw [a3, a4, a5]
  have f1 := commFrame_of_sameFrame _ _ (foldl_stencilWrite_sameFrame st params.xcfl_
    params.ycfl_ g.swapState.curr_ g.swapState.prev_
    (interiorCells g.swapState.borderSize_ g.swapState.nx_ g.swapState.ny_)
    g.swapState.transferHaloDataASync)
  have f2 := commFrame_trans _ _ _ (commFrame_trans _ _ _ (transfer_commFrame g.swapState) f1)
    (commFrame_trans _ _ _ (waitForSends_commFrame _) (waitForRecvs_commFrame inbox _))
  have f3 := commFrame_trans _ _ _ f2 (commFrame_of_sameFrame _ _
    (foldl_stencilWrite_sameFrame st params.xcfl_ params.ycfl_ g.swapState.curr_
      g.swapState.prev_ (topBottomCells g.swapState.borderSize_ g.swapState.nx_
        g.swapState.ny_) _))
  obtain ⟨_, _, b3, b4, b5, _⟩ := f2
  obtain ⟨_, _, c3, c4, c5, _⟩ := f3
  rw [b3, b4, b5, c3, c4, c5]
  rfl

/-- Claim C21: on a grid constructed in a run with one process (all four
neighbours absent, order 2, 4 or 8), after any number of iterations of
`syncComputation` or `asyncComputation` every halo cell (`x < b`, `x ≥ nx + b`,
`y < b` or `y ≥ ny + b`) of both generations holds the value it had right
after construction; and one further iteration of either variant writes only
to the current generation: it is a sequence of stencil assignments to the
generation `curr`, different from `prev`, and leaves every cell of the
previous generation as it was. -/
theorem domain_edge_halo_kept {R : Type} [Ring R] (params : simParams R) (debug : Bool)
    (G : Grid R) (h : Grid.ctor params debug 1 0 = .ok G)
    (q : simParams R) (hq : q.order_ = params.order_) (env : Int → Int → List R) :
    (params.order_ = 2 ∨ params.order_ = 4 ∨ params.order_ = 8) ∧
    (G.procLeft_ = -1 ∧ G.procRight_ = -1 ∧ G.procTop_ = -1 ∧ G.procBot_ = -1) ∧
    asyncComputation env G q = syncComputation env G q ∧
    (∀ sel x y, sel = 0 ∨ sel = 1 → 0 ≤ x → x < G.gx_ → 0 ≤ y → y < G.gy_ →
      (x < G.borderSize_ ∨ x ≥ G.nx_ + G.borderSize_ ∨
        y < G.borderSize_ ∨ y ≥ G.ny_ + G.borderSize_) →
      (syncComputation env G q).read sel x y = G.read sel x y) ∧
    (∀ (inbox : Int → List R),
      asyncIteration inbox q (syncComputation env G q) =
        syncIteration inbox q (syncComputation env G q) ∧
      (∃ (st : Stencil R) (ρ : Int), stencilOfOrder q.order_ = some (st, ρ) ∧
        syncIteration inbox q (syncComputation env G q) =
          (interiorCells G.borderSize_ G.nx_ G.ny_ ++ topBottomCells G.borderSize_ G.nx_ G.ny_ ++
            leftRightCells G.borderSize_ G.nx_ G.ny_).foldl
            (stencilWrite st q.xcfl_ q.ycfl_ (syncComputation env G q).swapState.curr_
              (syncComputation env G q).swapState.prev_)
            (syncComputation env G q).swapState) ∧
      (syncComputation env G q).swapState.curr_ ≠ (syncComputation env G q).swapState.prev_ ∧
      ∀ x y, 0 ≤ x → x < G.gx_ → 0 ≤ y → y < G.gy_ →
        (syncIteration inbox q (syncComputation env G q)).read
            (syncComputation env G q).swapState.prev_ x y =
          (syncComputation env G q).read (syncComputation env G q).swapState.prev_ x y) := by
  have hb0 := ctor_border params debug 1 0 G h
  have hb : borderSizeOf q.order_ = some G.borderSize_ := by rw [hq]; exact hb0
  have hG := haloKept_ctor params debug G h
  have hK := haloKept_syncComputation G q hb env hG
  obtain ⟨ks, kp, k1, k2, k3, k4, k5, kh⟩ := hK
  refine ⟨?_, ?_, (computation_singleProcess env env G q hG.2.1).symm, kh, ?_⟩
  · rcases borderSizeOf_some _ _ hb0 with ⟨o, _⟩ | ⟨o, _⟩ | ⟨o, _⟩
    · exact Or.inl o
    · exact Or.inr (Or.inl o)
    · exact Or.inr (Or.inr o)
  · exact ⟨hG.2.1.1, hG.2.1.2.1, hG.2.1.2.2.1, hG.2.1.2.2.2.1⟩
  · intro inbox
    have hbg : borderSizeOf q.order_ = some (syncComputation env G q).borderSize_ := by
      rw [k5]; exact hb
    obtain ⟨a1, _, _, _, a5, _⟩ :=
      iteration_singleProcess q inbox (syncComputation env G q) ks kp hbg
    obtain ⟨st, ρ, hso⟩ := stencilOfOrder_of_border (R := R) q.order_ G.borderSize_ hb
    refine ⟨a1, ⟨st, ρ, hso, ?_⟩, ?_, ?_⟩
    · have hc := syncIteration_fold q.order_ st ρ hso q rfl inbox (syncComputation env G q)
      rw [exchange_singleProcess inbox (syncComputation env G q).swapState kp, k3, k4, k5] at hc
      exact hc
    · have hcp := (swapState_shaped _ ks).2.2.2.2.2.2
      rcases hcp with ⟨a, b⟩ | ⟨a, b⟩ <;> rw [a, b] <;> decide
    · intro x y hx hx' hy hy'
      exact a5 x y hx (by rw [k1]; exact hx') hy (by rw [k2]; exact hy')

theorem domain_edge_halo_kept_witness :
    Grid.ctor (simParams.ctor : simParams ℚ) false 1 0 = .ok defaultGrid ∧
    (simParams.ctor : simParams ℚ).iters_ = 1000 ∧
    defaultGrid.read 0 0 3 = 10 ∧
    (syncComputation (fun _ _ => []) defaultGrid (simParams.ctor : simParams ℚ)).read 0 0 3 =
      defaultGrid.read 0 0 3 :=
  ⟨defaultGrid_ctor, rfl,
    (ctor_read _ false 1 0 _ defaultGrid_ctor 0 0 3 (Or.inl rfl) (by decide) (by decide)
      (by decide) (by decide)).trans (if_pos ⟨rfl, by decide⟩),
    (domain_edge_halo_kept (simParams.ctor : simParams ℚ) false defaultGrid defaultGrid_ctor
      (simParams.ctor : simParams ℚ) rfl (fun _ _ => [])).2.2.2.1 0 0 3 (Or.inl rfl)
      (by decide) (by decide) (by decide) (by decide) (Or.inl (by decide))⟩
/-! ## Request bookkeeping -/

/-- The wait loop of `waitForSends` leaves every slot inactive. -/
theorem waitForSends_none {R : Type} (g : Grid R) :
    g.waitForSends =
      { g with send_requests_ := List.replicate g.send_requests_.length none } := by
  unfold Grid.waitForSends forLoop
  have hn : ((g.send_requests_.length : Int) - 0).toNat = g.send_requests_.length := by omega
  rw [hn]
  have key : ∀ n : Nat, n ≤ g.send_requests_.length →
      (List.range n).foldl (fun acc (k : Nat) =>
        (fun (i : Int) (g : Grid R) =>
          { g with send_requests_ := g.send_requests_.set i.toNat none })
          (0 + Int.ofNat k) acc) g =
        { g with
          send_requests_ := List.replicate n none ++ g.send_requests_.drop n } := by
    intro n
    induction n with
    | zero =>
      intro _
      simp only [List.range_zero, List.foldl_nil, List.replicate_zero, List.nil_append,
        List.drop_zero]
    | succ m ih =>
      intro hm
      have hlt : m < g.send_requests_.length := by omega
      rw [List.range_succ, List.foldl_append, ih (by omega)]
      simp only [List.foldl_cons, List.foldl_nil]
      have e0 : ((0 : Int) + Int.ofNat m).toNat = m := by
        rw [Int.ofNat_eq_coe]; omega
      rw [e0]
      have e2 : (List.replicate m (none : Option (SendOp R)) ++ g.send_requests_.drop m).set
          m none = List.replicate (m + 1) none ++ g.send_requests_.drop (m + 1) := by
        rw [List.drop_eq_getElem_cons hlt, List.set_append_right _ _ (by simp),
          List.length_replicate, Nat.sub_self, List.set_cons_zero, List.replicate_succ',
          List.append_assoc]
        rfl
      rw [e2]
  refine (key _ (le_refl _)).trans ?_
  rw [List.drop_length, List.append_nil]

theorem topStage_spec {R : Type} (p : Grid R × Int) :
    p.1.CommFrame (Grid.topStage p).1 ∧
    (Grid.topStage p).2 = p.2 + (if p.1.procTop_ ≠ -1 then 1 else 0) := by
  unfold Grid.topStage Grid.startPair
  split_ifs
  · exact ⟨commFrame_refl _, rfl⟩
  · exact ⟨commFrame_refl _, (Int.add_zero _).symm⟩

theorem botStage_spec {R : Type} (p : Grid R × Int) :
    p.1.CommFrame (Grid.botStage p).1 ∧
    (Grid.botStage p).2 = p.2 + (if p.1.procBot_ ≠ -1 then 1 else 0) := by
  unfold Grid.botStage Grid.startPair
  split_ifs
  · exact ⟨commFrame_refl _, rfl⟩
  · exact ⟨commFrame_refl _, (Int.add_zero _).symm⟩

theorem rightStage_spec {R : Type} (p : Grid R × Int) :
    p.1.CommFrame (Grid.rightStage p).1 ∧
    (Grid.rightStage p).2 = p.2 + (if p.1.procRight_ ≠ -1 then 1 else 0) := by
  unfold Grid.rightStage Grid.startPair
  split_ifs
  · exact ⟨commFrame_refl _, rfl⟩
  · exact ⟨commFrame_refl _, (Int.add_zero _).symm⟩

theorem leftStage_spec {R : Type} (p : Grid R × Int) :
    p.1.CommFrame (Grid.leftStage p).1 ∧
    (Grid.leftStage p).2 = p.2 + (if p.1.procLeft_ ≠ -1 then 1 else 0) := by
  unfold Grid.leftStage Grid.startPair
  split_ifs
  · exact ⟨commFrame_refl _, rfl⟩
  · exact ⟨commFrame_refl _, (Int.add_zero _).symm⟩

/-- The request counter of `transferHaloDataASync` takes the values
`0, 1, ..., k - 1` in turn, one for each neighbour in the order top, bottom,
right, left, and ends at `k`. -/
theorem transferSlots_eq {R : Type} [Zero R] (g : Grid R) :
    g.transferSlots.map Prod.fst =
      intRange 0 (numberOfRequest g.procLeft_ g.procRight_ g.procTop_ g.procBot_) ∧
    g.transferSlots.map Prod.snd = g.peers ∧
    (Grid.leftStage (Grid.rightStage
        ((Grid.botStage (Grid.topStage (g, 0))).1.packBuffers,
          (Grid.botStage (Grid.topStage (g, 0))).2))).2 =
      numberOfRequest g.procLeft_ g.procRight_ g.procTop_ g.procBot_ := by
  obtain ⟨t1, t2⟩ := topStage_spec ((g, 0) : Grid R × Int)
  obtain ⟨b1, b2⟩ := botStage_spec (Grid.topStage ((g, 0) : Grid R × Int))
  have pk := commFrame_of_packFrame _ _
    (packBuffers_spec (Grid.botStage (Grid.topStage ((g, 0) : Grid R × Int))).1).1
  obtain ⟨r1, r2⟩ := rightStage_spec
    (((Grid.botStage (Grid.topStage (g, 0))).1.packBuffers,
      (Grid.botStage (Grid.topStage (g, 0))).2) : Grid R × Int)
  obtain ⟨l1, l2⟩ := leftStage_spec (Grid.rightStage
    (((Grid.botStage (Grid.topStage (g, 0))).1.packBuffers,
      (Grid.botStage (Grid.topStage (g, 0))).2) : Grid R × Int))
  have c3 := commFrame_trans _ _ _ (commFrame_trans _ _ _ t1 b1) pk
  have c4 := commFrame_trans _ _ _ c3 r1
  obtain ⟨_, _, _, _, _, _, _, _, _, _, t11, _⟩ := t1
  obtain ⟨_, _, _, _, _, _, _, _, c39, _, _, _⟩ := c3
  obtain ⟨_, _, _, _, _, _, _, c48, _, _, _, _⟩ := c4
  dsimp only at t2 b2 r2 l2 t11 c39 c48
  rw [t11] at b2
  rw [c39] at r2
  rw [c48] at l2
  rw [numberOfRequest_cases]
  unfold Grid.transferSlots Grid.peers
  dsimp only
  rw [c48, c39, t11, l2, r2, b2, t2]
  have q1 : intRange 0 1 = [0] := by decide
  have q2 : intRange 0 2 = [0, 1] := by decide
  have q3 : intRange 0 3 = [0, 1, 2] := by decide
  have q4 : intRange 0 4 = [0, 1, 2, 3] := by decide
  have q0 : intRange 0 0 = [] := by decide
  by_cases hT : g.procTop_ = -1 <;> by_cases hB : g.procBot_ = -1 <;>
    by_cases hR : g.procRight_ = -1 <;> by_cases hL : g.procLeft_ = -1
  all_goals
    simp [hT, hB, hR, hL, List.filter, q0, q1, q2, q3, q4]

/-! ### The sizes of the request vectors are kept -/

theorem sameSizes_refl {R : Type} (g : Grid R) : g.SameSizes g :=
  ⟨rfl, rfl, rfl, rfl, rfl, rfl, rfl, rfl, rfl, rfl, rfl, rfl⟩

theorem sameSizes_trans {R : Type} (g s t : Grid R) (h : g.SameSizes s) (h' : s.SameSizes t) :
    g.SameSizes t := by
  obtain ⟨a1, a2, a3, a4, a5, a6, a7, a8, a9, a10, a11, a12⟩ := h
  obtain ⟨b1, b2, b3, b4, b5, b6, b7, b8, b9, b10, b11, b12⟩ := h'
  exact ⟨b1.trans a1, b2.trans a2, b3.trans a3, b4.trans a4, b5.trans a5, b6.trans a6,
    b7.trans a7, b8.trans a8, b9.trans a9, b10.trans a10, b11.trans a11, b12.trans a12⟩

theorem commReady_of_sameSizes {R : Type} (g s : Grid R) (hc : g.CommReady)
    (h : g.SameSizes s) : s.CommReady := by
  obtain ⟨a1, a2, a3, a4, a5, a6, a7, a8, a9, a10, a11, a12⟩ := h
  exact commReady_of_fields g s hc a1 a2 a3 a4 a5 a6 a7 a8 a9 a10 a11 a12

theorem sameSizes_of_sameFrame {R : Type} (g s : Grid R) (h : g.SameFrame s) :
    g.SameSizes s := by
  obtain ⟨h1, _⟩ := h
  rw [h1]
  exact sameSizes_refl g

theorem sameSizes_transfer {R : Type} [Zero R] (g : Grid R) (hc : g.CommReady) :
    g.SameSizes g.transferHaloDataASync := by
  obtain ⟨_, p2, p3, _⟩ := packBuffers_spec g
  have hs := sendOps_length g.packBuffers
  obtain ⟨_, _, _, _, _, _, _, _, e8, e9, e10, e11, _⟩ :=
    packFrame_fields g _ (packBuffers_spec g).1
  rw [e8, e9, e10, e11] at hs
  rw [transfer_spec g hc]
  refine ⟨rfl, rfl, rfl, rfl, rfl, rfl, ?_, ?_, p2, rfl, p3, rfl⟩
  · show (g.packBuffers.sendOps.map some).length = _
    rw [List.length_map, hs, hc.1]
  · show (g.recvOps.map some).length = _
    rw [List.length_map, recvOps_length, hc.2.1]

theorem sameSizes_waitForSends {R : Type} (g : Grid R) : g.SameSizes g.waitForSends := by
  rw [waitForSends_none]
  exact ⟨rfl, rfl, rfl, rfl, rfl, rfl, List.length_replicate _ _, rfl, rfl, rfl, rfl, rfl⟩

theorem sameSizes_completeRecv {R : Type} [Zero R] (inbox : Int → List R) (g : Grid R)
    (op : RecvOp) : g.SameSizes (Grid.completeRecv inbox g op) := by
  rcases op with ⟨s, c, t⟩
  cases t
  · exact sameSizes_refl g
  · exact ⟨rfl, rfl, rfl, rfl, rfl, rfl, rfl, rfl, rfl, (vwrite_spec _ _ _).1, rfl, rfl⟩
  · exact ⟨rfl, rfl, rfl, rfl, rfl, rfl, rfl, rfl, rfl, rfl, rfl, (vwrite_spec _ _ _).1⟩

theorem sameSizes_waitForRecvs {R : Type} [Zero R] (inbox : Int → List R) (g : Grid R) :
    g.SameSizes (g.waitForRecvs inbox) := by
  rw [waitForRecvs_eq]
  refine sameSizes_trans _ _ _ ?_ (sameSizes_of_sameFrame _ _ (unpackBuffers_frame _))
  unfold Grid.completeAll
  apply forLoop_preserves (fun s : Grid R => g.SameSizes s)
  · exact sameSizes_refl g
  · intro i s hs
    dsimp only
    split
    · rename_i op _
      exact sameSizes_trans _ _ _ hs
        (sameSizes_trans _ _ _ (sameSizes_completeRecv inbox s op)
          ⟨rfl, rfl, rfl, rfl, rfl, rfl, rfl,
            (List.length_set _ _ _).trans
              (congrArg List.length (completeRecv_recv_requests inbox s op)).symm,
            rfl, rfl, rfl, rfl⟩)
    · exact hs

theorem sameSizes_syncBranch {R : Type} (st : Stencil R) (params : simParams R)
    (curr prev : Int) (g : Grid R) : g.SameSizes (syncBranch st params curr prev g) := by
  rw [syncBranch_eq]
  exact sameSizes_of_sameFrame _ _ (foldl_stencilWrite_sameFrame st _ _ _ _ _ _)

theorem sameSizes_asyncBranch {R : Type} [Zero R] (st : Stencil R) (params : simParams R)
    (inbox : Int → List R) (curr prev : Int) (g : Grid R) :
    g.SameSizes (asyncBranch st params inbox curr prev g) := by
  unfold asyncBranch
  dsimp only
  rw [leftRightPass_eq, topBottomPass_eq, interiorPass_eq]
  exact sameSizes_trans _ _ _
    (sameSizes_trans _ _ _
      (sameSizes_trans _ _ _
        (sameSizes_trans _ _ _
          (sameSizes_of_sameFrame _ _ (foldl_stencilWrite_sameFrame st _ _ _ _ _ _))
          (sameSizes_waitForSends _))
        (sameSizes_waitForRecvs inbox _))
      (sameSizes_of_sameFrame _ _ (foldl_stencilWrite_sameFrame st _ _ _ _ _ _)))
    (sameSizes_of_sameFrame _ _ (foldl_stencilWrite_sameFrame st _ _ _ _ _ _))

theorem sameSizes_syncIteration {R : Type} [Ring R] (inbox : Int → List R)
    (params : simParams R) (g : Grid R) (hc : g.CommReady) :
    g.SameSizes (syncIteration inbox params g) := by
  have h0 : g.SameSizes g.swapState := sameSizes_refl g
  have hex : g.SameSizes
      (((g.swapState.transferHaloDataASync).waitForSends).waitForRecvs inbox) :=
    sameSizes_trans _ _ _
      (sameSizes_trans _ _ _
        (sameSizes_trans _ _ _ h0 (sameSizes_transfer _ (swapState_commReady g hc)))
        (sameSizes_waitForSends _))
      (sameSizes_waitForRecvs inbox _)
  unfold syncIteration
  dsimp only
  split_ifs
  · exact sameSizes_trans _ _ _ hex (sameSizes_syncBranch _ _ _ _ _)
  · exact sameSizes_trans _ _ _ hex (sameSizes_syncBranch _ _ _ _ _)
  · exact sameSizes_trans _ _ _ hex (sameSizes_syncBranch _ _ _ _ _)
  · exact hex

theorem sameSizes_asyncIteration {R : Type} [Ring R] (inbox : Int → List R)
    (params : simParams R) (g : Grid R) (hc : g.CommReady) :
    g.SameSizes (asyncIteration inbox params g) := by
  have h0 : g.SameSizes g.swapState := sameSizes_refl g
  have hex : g.SameSizes g.swapState.transferHaloDataASync :=
    sameSizes_trans _ _ _ h0 (sameSizes_transfer _ (swapState_commReady g hc))
  unfold asyncIteration
  dsimp only
  split_ifs
  · exact sameSizes_trans _ _ _ hex (sameSizes_asyncBranch _ _ _ _ _ _)
  · exact sameSizes_trans _ _ _ hex (sameSizes_asyncBranch _ _ _ _ _ _)
  · exact sameSizes_trans _ _ _ hex (sameSizes_asyncBranch _ _ _ _ _ _)
  · exact hex

theorem sameSizes_computation {R : Type} [Ring R] (env : Int → Int → List R) (G : Grid R)
    (q : simParams R) (hc : G.CommReady) :
    G.SameSizes (syncComputation env G q) ∧ G.SameSizes (asyncComputation env G q) := by
  rw [syncComputation_eq_iterations, asyncComputation_eq_iterations]
  constructor
  · exact forLoop_preserves (fun s : Grid R => G.SameSizes s) _ _ _ _ (sameSizes_refl G)
      (fun i s hs => sameSizes_trans _ _ _ hs
        (sameSizes_syncIteration (env i) q s (commReady_of_sameSizes G s hc hs)))
  · exact forLoop_preserves (fun s : Grid R => G.SameSizes s) _ _ _ _ (sameSizes_refl G)
      (fun i s hs => sameSizes_trans _ _ _ hs
        (sameSizes_asyncIteration (env i) q s (commReady_of_sameSizes G s hc hs)))
/-! ### The request slots between the iterations -/

theorem sameFrame_requests {R : Type} (g s : Grid R) (h : g.SameFrame s) :
    s.send_requests_ = g.send_requests_ ∧ s.recv_requests_ = g.recv_requests_ := by
  obtain ⟨h1, _⟩ := h
  rw [h1]
  exact ⟨rfl, rfl⟩

theorem completeRecv_send_requests {R : Type} (inbox : Int → List R) (g : Grid R)
    (op : RecvOp) : (Grid.completeRecv inbox g op).send_requests_ = g.send_requests_ := by
  rcases op with ⟨s, c, t⟩
  cases t <;> rfl

theorem foldl_completeRecv_send_requests {R : Type} (inbox : Int → List R)
    (ops : List RecvOp) (g : Grid R) :
    (ops.foldl (Grid.completeRecv inbox) g).send_requests_ = g.send_requests_ :=
  foldl_preserves (fun s : Grid R => s.send_requests_ = g.send_requests_) _
    (fun s op h => (completeRecv_send_requests inbox s op).trans h) ops g rfl

/-- The two wait methods on a grid whose receive slots are all active: every
slot of both request vectors is inactive afterwards. -/
theorem waits_requests {R : Type} [Zero R] (inbox : Int → List R) (u : Grid R)
    (ops : List RecvOp) (hr : u.recv_requests_ = ops.map some) :
    ((u.waitForSends).waitForRecvs inbox).send_requests_ =
      List.replicate u.send_requests_.length none ∧
    ((u.waitForSends).waitForRecvs inbox).recv_requests_ =
      List.replicate ops.length none := by
  have hw : u.waitForSends.recv_requests_ = ops.map some := by
    rw [waitForSends_none]; exact hr
  have hs : u.waitForSends.send_requests_ = List.replicate u.send_requests_.length none := by
    rw [waitForSends_none]
  obtain ⟨f1, f2⟩ := sameFrame_requests _ _
    (unpackBuffers_frame (u.waitForSends.completeAll inbox))
  rw [waitForRecvs_eq, f1, f2, completeAll_spec inbox ops u.waitForSends hw]
  exact ⟨(foldl_completeRecv_send_requests inbox ops _).trans hs, rfl⟩

theorem passes_requests {R : Type} (st : Stencil R) (xcfl ycfl : R) (curr prev : Int)
    (g : Grid R) :
    ((interiorPass st xcfl ycfl curr prev g).send_requests_ = g.send_requests_ ∧
      (interiorPass st xcfl ycfl curr prev g).recv_requests_ = g.recv_requests_) ∧
    ((topBottomPass st xcfl ycfl curr prev g).send_requests_ = g.send_requests_ ∧
      (topBottomPass st xcfl ycfl curr prev g).recv_requests_ = g.recv_requests_) ∧
    ((leftRightPass st xcfl ycfl curr prev g).send_requests_ = g.send_requests_ ∧
      (leftRightPass st xcfl ycfl curr prev g).recv_requests_ = g.recv_requests_) := by
  rw [interiorPass_eq, topBottomPass_eq, leftRightPass_eq]
  exact ⟨sameFrame_requests _ _ (foldl_stencilWrite_sameFrame st _ _ _ _ _ _),
    sameFrame_requests _ _ (foldl_stencilWrite_sameFrame st _ _ _ _ _ _),
    sameFrame_requests _ _ (foldl_stencilWrite_sameFrame st _ _ _ _ _ _)⟩

/-- One iteration of either variant with order 2, 4 or 8 on a grid whose
request vectors have the sizes given at construction: every request slot is
inactive at the end of the iteration. -/
theorem iteration_requests {R : Type} [Ring R] (order : Int) (st : Stencil R) (ρ : Int)
    (hso : stencilOfOrder order = some (st, ρ)) (q : simParams R) (hord : q.order_ = order)
    (inbox : Int → List R) (g : Grid R) (hc : g.CommReady) :
    ((syncIteration inbox q g).send_requests_ = List.replicate g.send_requests_.length none ∧
      (syncIteration inbox q g).recv_requests_ =
        List.replicate g.recv_requests_.length none) ∧
    ((asyncIteration inbox q g).send_requests_ = List.replicate g.send_requests_.length none ∧
      (asyncIteration inbox q g).recv_requests_ =
        List.replicate g.recv_requests_.length none) := by
  have hcs : g.swapState.CommReady := swapState_commReady g hc
  have ht := transfer_spec g.swapState hcs
  have hts : g.swapState.transferHaloDataASync.send_requests_.length =
      g.send_requests_.length := (sameSizes_transfer _ hcs).2.2.2.2.2.2.1
  have htr : g.swapState.transferHaloDataASync.recv_requests_ = g.swapState.recvOps.map some := by
    rw [ht]
  have hrl : g.swapState.recvOps.length = g.recv_requests_.length := by
    rw [recvOps_length]
    exact hc.2.1.symm
  constructor
  · rw [syncIteration_eq order st ρ hso q hord inbox g, syncBranch_eq]
    obtain ⟨f1, f2⟩ := sameFrame_requests _ _
      (foldl_stencilWrite_sameFrame st q.xcfl_ q.ycfl_ g.swapState.curr_ g.swapState.prev_
        (interiorCells (g.swapState.exchange inbox).borderSize_
            (g.swapState.exchange inbox).nx_ (g.swapState.exchange inbox).ny_ ++
          topBottomCells (g.swapState.exchange inbox).borderSize_
            (g.swapState.exchange inbox).nx_ (g.swapState.exchange inbox).ny_ ++
          leftRightCells (g.swapState.exchange inbox).borderSize_
            (g.swapState.exchange inbox).nx_ (g.swapState.exchange inbox).ny_)
        (g.swapState.exchange inbox))
    rw [f1, f2]
    unfold Grid.exchange
    obtain ⟨w1, w2⟩ := waits_requests inbox g.swapState.transferHaloDataASync
      g.swapState.recvOps htr
    rw [w1, w2, hts, hrl]
    exact ⟨rfl, rfl⟩
  · rw [asyncIteration_eq order st ρ hso q hord inbox g]
    unfold asyncBranch
    dsimp only
    obtain ⟨⟨a1, a2⟩, _, _⟩ := passes_requests st q.xcfl_ q.ycfl_ g.swapState.curr_
      g.swapState.prev_ g.swapState.transferHaloDataASync
    obtain ⟨w1, w2⟩ := waits_requests inbox
      (interiorPass st q.xcfl_ q.ycfl_ g.swapState.curr_ g.swapState.prev_
        g.swapState.transferHaloDataASync) g.swapState.recvOps (a2.trans htr)
    obtain ⟨_, ⟨b1, b2⟩, _⟩ := passes_requests st q.xcfl_ q.ycfl_ g.swapState.curr_
      g.swapState.prev_
      (((interiorPass st q.xcfl_ q.ycfl_ g.swapState.curr_ g.swapState.prev_
        g.swapState.transferHaloDataASync).waitForSends).waitForRecvs inbox)
    obtain ⟨_, _, ⟨c1, c2⟩⟩ := passes_requests st q.xcfl_ q.ycfl_ g.swapState.curr_
      g.swapState.prev_
      (topBottomPass st q.xcfl_ q.ycfl_ g.swapState.curr_ g.swapState.prev_
        (((interiorPass st q.xcfl_ q.ycfl_ g.swapState.curr_ g.swapState.prev_
          g.swapState.transferHaloDataASync).waitForSends).waitForRecvs inbox))
    rw [c1, c2, b1, b2, w1, w2, a1, hts, hrl]
    exact ⟨rfl, rfl⟩
theorem peers_length {R : Type} (g : Grid R) :
    (g.peers.length : Int) = numberOfRequest g.procLeft_ g.procRight_ g.procTop_ g.procBot_ ∧
    g.peers.length ≤ 4 := by
  rw [numberOfRequest_cases]
  unfold Grid.peers
  by_cases hT : g.procTop_ = -1 <;> by_cases hB : g.procBot_ = -1 <;>
    by_cases hR : g.procRight_ = -1 <;> by_cases hL : g.procLeft_ = -1
  all_goals
    simp [hT, hB, hR, hL, List.filter]

theorem ops_peers {R : Type} (g : Grid R) :
    g.sendOps.map SendOp.dest = g.peers ∧ g.recvOps.map RecvOp.source = g.peers := by
  unfold Grid.peers Grid.sendOps Grid.recvOps
  by_cases hT : g.procTop_ = -1 <;> by_cases hB : g.procBot_ = -1 <;>
    by_cases hR : g.procRight_ = -1 <;> by_cases hL : g.procLeft_ = -1
  all_goals
    simp [hT, hB, hR, hL, List.filter]

theorem peers_of_sameSizes {R : Type} (g s : Grid R) (h : g.SameSizes s) :
    s.peers = g.peers := by
  obtain ⟨a1, a2, a3, a4, _⟩ := h
  unfold Grid.peers
  rw [a1, a2, a3, a4]

theorem ctor_requests {R : Type} [Zero R] (params : simParams R) (debug : Bool)
    (P rank : Int) (g : Grid R) (h : Grid.ctor params debug P rank = .ok g) :
    g.send_requests_ = List.replicate g.send_requests_.length none ∧
    g.recv_requests_ = List.replicate g.recv_requests_.length none := by
  obtain ⟨t, b, _, _, _, _, rfl⟩ := (ctor_ok_iff params debug P rank g).1 h
  unfold Grid.allocate
  dsimp only
  constructor <;> rw [List.length_replicate]

/-- After any number of iterations of either variant with order 2, 4 or 8 the
request vectors have the sizes given at construction and every slot is
inactive. -/
theorem idle_computation {R : Type} [Ring R] (order : Int) (st : Stencil R) (ρ : Int)
    (hso : stencilOfOrder order = some (st, ρ)) (q : simParams R) (hord : q.order_ = order)
    (env : Int → Int → List R) (G : Grid R) (hc : G.CommReady)
    (h0 : G.send_requests_ = List.replicate G.send_requests_.length none ∧
      G.recv_requests_ = List.replicate G.recv_requests_.length none)
    (s : Grid R) (hs : s = syncComputation env G q ∨ s = asyncComputation env G q) :
    G.SameSizes s ∧
    s.send_requests_ = List.replicate G.send_requests_.length none ∧
    s.recv_requests_ = List.replicate G.recv_requests_.length none := by
  rcases hs with rfl | rfl
  · rw [syncComputation_eq_iterations]
    apply forLoop_preserves (fun s : Grid R => G.SameSizes s ∧
      s.send_requests_ = List.replicate G.send_requests_.length none ∧
      s.recv_requests_ = List.replicate G.recv_requests_.length none)
    · exact ⟨sameSizes_refl G, h0⟩
    · rintro i s ⟨hs, _, _⟩
      have hcs := commReady_of_sameSizes G s hc hs
      obtain ⟨⟨r1, r2⟩, _⟩ := iteration_requests order st ρ hso q hord (env i) s hcs
      refine ⟨sameSizes_trans _ _ _ hs (sameSizes_syncIteration (env i) q s hcs), ?_, ?_⟩
      · rw [r1, hs.2.2.2.2.2.2.1]
      · rw [r2, hs.2.2.2.2.2.2.2.1]
  · rw [asyncComputation_eq_iterations]
    apply forLoop_preserves (fun s : Grid R => G.SameSizes s ∧
      s.send_requests_ = List.replicate G.send_requests_.length none ∧
      s.recv_requests_ = List.replicate G.recv_requests_.length none)
    · exact ⟨sameSizes_refl G, h0⟩
    · rintro i s ⟨hs, _, _⟩
      have hcs := commReady_of_sameSizes G s hc hs
      obtain ⟨_, ⟨r1, r2⟩⟩ := iteration_requests order st ρ hso q hord (env i) s hcs
      refine ⟨sameSizes_trans _ _ _ hs (sameSizes_asyncIteration (env i) q s hcs), ?_, ?_⟩
      · rw [r1, hs.2.2.2.2.2.2.1]
      · rw [r2, hs.2.2.2.2.2.2.2.1]

/-- Claim C22: after construction `send_requests_` and `recv_requests_` each
have as many slots as there are neighbour identifiers different from `-1`
(`k`, between 0 and 4), all inactive.  In every state `s` reached from the
constructed grid by any number of iterations of either variant the vectors
still have `k` inactive slots; the call of `transferHaloDataASync` of the next
iteration uses the slot indices `0, 1, ..., k - 1` once each, for the
neighbours in the order top, bottom, right, left, each index inside both
vectors; after the call every slot holds the operation started by this call;
the wait loops then leave every slot inactive, and the first loop nest of
`asyncComputation`, run between the call and the waits, changes no slot. -/
theorem request_bookkeeping {R : Type} [Ring R] (params : simParams R) (debug : Bool)
    (P rank : Int) (G : Grid R) (h : Grid.ctor params debug P rank = .ok G)
    (q : simParams R) (hq : q.order_ = params.order_) (env : Int → Int → List R)
    (s : Grid R) (hs : s = syncComputation env G q ∨ s = asyncComputation env G q)
    (inbox : Int → List R) :
    (G.peers.length ≤ 4 ∧
      G.send_requests_ = List.replicate G.peers.length none ∧
      G.recv_requests_ = List.replicate G.peers.length none) ∧
    (s.peers = G.peers ∧
      s.send_requests_ = List.replicate G.peers.length none ∧
      s.recv_requests_ = List.replicate G.peers.length none) ∧
    (s.swapState.transferSlots.map Prod.fst = intRange 0 (G.peers.length : Int) ∧
      s.swapState.transferSlots.map Prod.snd = G.peers ∧
      ∀ p ∈ s.swapState.transferSlots,
        0 ≤ p.1 ∧ p.1 < (s.swapState.send_requests_.length : Int) ∧
          p.1 < (s.swapState.recv_requests_.length : Int)) ∧
    (s.swapState.transferHaloDataASync.send_requests_ =
        s.swapState.packBuffers.sendOps.map some ∧
      s.swapState.transferHaloDataASync.recv_requests_ = s.swapState.recvOps.map some ∧
      s.swapState.packBuffers.sendOps.map SendOp.dest = G.peers ∧
      s.swapState.recvOps.map RecvOp.source = G.peers) ∧
    (((s.swapState.transferHaloDataASync.waitForSends).waitForRecvs inbox).send_requests_ =
        List.replicate G.peers.length none ∧
      ((s.swapState.transferHaloDataASync.waitForSends).waitForRecvs inbox).recv_requests_ =
        List.replicate G.peers.length none) ∧
    (∀ (st : Stencil R) (xcfl ycfl : R) (curr prev : Int),
      (interiorPass st xcfl ycfl curr prev s.swapState.transferHaloDataASync).send_requests_ =
        s.swapState.transferHaloDataASync.send_requests_ ∧
      (interiorPass st xcfl ycfl curr prev s.swapState.transferHaloDataASync).recv_requests_ =
        s.swapState.transferHaloDataASync.recv_requests_) := by
  have hC : G.CommReady := ctor_commReady params debug P rank G h
  obtain ⟨hk, hk4⟩ := peers_length G
  have hls : G.send_requests_.length = G.peers.length := by
    have := hC.1
    omega
  have hlr : G.recv_requests_.length = G.peers.length := by
    have := hC.2.1
    omega
  obtain ⟨n1, n2⟩ := ctor_requests params debug P rank G h
  obtain ⟨st, ρ, hso⟩ := stencilOfOrder_of_border (R := R) q.order_ G.borderSize_
    (by rw [hq]; exact ctor_border params debug P rank G h)
  obtain ⟨hS, i1, i2⟩ := idle_computation q.order_ st ρ hso q rfl env G hC ⟨n1, n2⟩ s hs
  have hcs : s.swapState.CommReady :=
    swapState_commReady s (commReady_of_sameSizes G s hC hS)
  have hSw : G.SameSizes s.swapState := hS
  have hpe : s.swapState.peers = G.peers := peers_of_sameSizes G _ hSw
  obtain ⟨t1, t2, _⟩ := transferSlots_eq s.swapState
  obtain ⟨pk, _, _⟩ := packBuffers_spec s.swapState
  have hpp : s.swapState.packBuffers.peers = s.swapState.peers := by
    obtain ⟨_, _, _, _, _, _, _, _, e8, e9, e10, e11, _⟩ := packFrame_fields _ _ pk
    unfold Grid.peers
    rw [e8, e9, e10, e11]
  have hnr : numberOfRequest s.swapState.procLeft_ s.swapState.procRight_
      s.swapState.procTop_ s.swapState.procBot_ = (G.peers.length : Int) := by
    rw [← (peers_length s.swapState).1, hpe]
  have ht := transfer_spec s.swapState hcs
  have htr : s.swapState.transferHaloDataASync.recv_requests_ =
      s.swapState.recvOps.map some := by rw [ht]
  have hts : s.swapState.transferHaloDataASync.send_requests_ =
      s.swapState.packBuffers.sendOps.map some := by rw [ht]
  obtain ⟨w1, w2⟩ := waits_requests inbox s.swapState.transferHaloDataASync
    s.swapState.recvOps htr
  refine ⟨⟨hk4, ?_, ?_⟩, ⟨peers_of_sameSizes G s hS, ?_, ?_⟩, ⟨?_, ?_, ?_⟩,
    ⟨hts, htr, ?_, ?_⟩, ⟨?_, ?_⟩, ?_⟩
  · rw [← hls]; exact n1
  · rw [← hlr]; exact n2
  · rw [← hls]; exact i1
  · rw [← hlr]; exact i2
  · rw [t1, hnr]
  · rw [t2, hpe]
  · intro p hp
    have hm : p.1 ∈ s.swapState.transferSlots.map Prod.fst := List.mem_map_of_mem _ hp
    rw [t1, hnr, mem_intRange] at hm
    have e1 : s.swapState.send_requests_.length = G.peers.length :=
      hSw.2.2.2.2.2.2.1.trans hls
    have e2 : s.swapState.recv_requests_.length = G.peers.length :=
      hSw.2.2.2.2.2.2.2.1.trans hlr
    rw [e1, e2]
    omega
  · rw [(ops_peers _).1, hpp, hpe]
  · rw [(ops_peers _).2, hpe]
  · rw [w1, hts, List.length_map, ← hpe, ← hpp, ← (ops_peers _).1, List.length_map]
  · rw [w2, ← hpe, ← (ops_peers s.swapState).2, List.length_map]
  · intro st xcfl ycfl curr prev
    exact (passes_requests st xcfl ycfl curr prev _).1

theorem request_bookkeeping_witness :
    Grid.ctor paramsBlock false 4 0 = .ok blockRank0 ∧
    blockRank0.peers = [2, 1] ∧
    (syncComputation (fun _ _ => []) blockRank0 paramsBlock).swapState.transferSlots.map
        Prod.fst = intRange 0 (blockRank0.peers.length : Int) ∧
    (syncComputation (fun _ _ => []) blockRank0 paramsBlock).swapState.transferSlots.map
        Prod.snd = blockRank0.peers :=
  have hw := request_bookkeeping paramsBlock false 4 0 blockRank0 blockRank0_ctor paramsBlock
    rfl (fun _ _ => []) (syncComputation (fun _ _ => []) blockRank0 paramsBlock) (Or.inl rfl)
    (fun _ => [])
  ⟨blockRank0_ctor, by decide, hw.2.2.1.1, hw.2.2.1.2.1⟩
/-! ## Message lengths of neighbouring ranks -/

theorem decomposition_ok_method (m nx ny P r : Int) (t : Topology)
    (h : decomposition m nx ny P r = .ok t) :
    m = 1 ∨ (m = 2 ∧ isqrt P * isqrt P = P) := by
  by_cases h1 : m = 1
  · exact Or.inl h1
  · by_cases h2 : m = 2
    · refine Or.inr ⟨h2, ?_⟩
      by_contra hne
      unfold decomposition at h
      simp only [h1, if_false, h2, if_true, ne_eq, hne, not_false_eq_true] at h
      exact absurd h (by simp)
    · unfold decomposition at h
      simp only [h1, h2, if_false] at h
      exact absurd h (by simp)

/-- A rank and its down or right neighbour after the decomposition step: the
down neighbour has the same local `nx` and has the rank as up neighbour, the
right neighbour has the same local `ny` and has the rank as left neighbour. -/
theorem neighbour_extents (m nx ny P rA rB : Int) (tA tB : Topology) (hP : 1 ≤ P)
    (h0 : 0 ≤ rA) (hr : rA < P) (h0B : 0 ≤ rB)
    (hA : decomposition m nx ny P rA = .ok tA) (hB : decomposition m nx ny P rB = .ok tB) :
    (tA.procBot_ = rB → tB.procTop_ = rA ∧ tA.nx_ = tB.nx_) ∧
    (tA.procRight_ = rB → tB.procLeft_ = rA ∧ tA.ny_ = tB.ny_) := by
  rcases decomposition_ok_method m nx ny P rA tA hA with rfl | ⟨rfl, hsq⟩
  · rw [decomposition_stripe nx ny P rA h0 hr] at hA
    have eA := (Except.ok.inj hA).symm
    subst eA
    dsimp only
    constructor
    · intro hb
      have hne : ¬ rA = P - 1 := by
        intro e
        rw [if_pos e] at hb
        omega
      rw [if_neg hne] at hb
      rw [decomposition_stripe nx ny P rB h0B (by omega)] at hB
      have eB := (Except.ok.inj hB).symm
      subst eB
      dsimp only
      rw [if_neg (by omega)]
      exact ⟨by omega, rfl⟩
    · intro hb
      omega
  · generalize hn : isqrt P = n at hsq
    have hn1 : 1 ≤ n := by
      rcases le_or_lt n 0 with hle | hlt
      · exfalso
        have : 0 ≤ isqrt P := by unfold isqrt; exact Int.natCast_nonneg _
        have hn0 : n = 0 := by omega
        rw [hn0] at hsq
        omega
      · omega
    subst hsq
    obtain ⟨hq, hqn, hc, hcn, e⟩ := rank_coords n rA hn1 h0 hr
    generalize rA / n = q at hq hqn e
    generalize rA % n = c at hc hcn e
    subst e
    rw [decomposition_block nx ny n q c hq hqn hc hcn] at hA
    have eA := (Except.ok.inj hA).symm
    subst eA
    dsimp only
    constructor
    · intro hb
      have hne : ¬ q = n - 1 := by
        intro e
        rw [if_pos e] at hb
        have := Int.mul_nonneg (by omega : 0 ≤ n) hq
        omega
      rw [if_neg hne] at hb
      have e2 : rB = n * (q + 1) + c := by
        rw [← hb]; ring
      subst e2
      rw [decomposition_block nx ny n (q + 1) c (by omega) (by omega) hc hcn] at hB
      have eB := (Except.ok.inj hB).symm
      subst eB
      dsimp only
      rw [if_neg (by omega)]
      exact ⟨by ring, rfl⟩
    · intro hb
      have hne : ¬ c = n - 1 := by
        intro e
        rw [if_pos e] at hb
        omega
      rw [if_neg hne] at hb
      have e2 : rB = n * q + (c + 1) := by
        rw [← hb]; ring
      subst e2
      rw [decomposition_block nx ny n q (c + 1) hq hqn (by omega) (by omega)] at hB
      have eB := (Except.ok.inj hB).symm
      subst eB
      dsimp only
      rw [if_neg (by omega)]
      exact ⟨by ring, rfl⟩

/-- Claim C24: in both decomposition modes, for two constructed ranks `A` and
`B` of one run: if the down neighbour of `A` is `B`, then the up neighbour of
`B` is `A`, the two have the same `gx` and border, the message `A` sends down
has as many values (`gx * border`) as `B` posts to receive from above, and the
message `B` sends up as many as `A` posts to receive from below; if the right
neighbour of `A` is `B`, then the left neighbour of `B` is `A`, the two have
the same `gy` and border, and the right buffers of `A` and the left buffers of
`B` all have `gy * border` elements, so each message has the posted length. -/
theorem neighbour_message_lengths {R : Type} [Zero R] (params : simParams R) (debug : Bool)
    (P rA rB : Int) (A B : Grid R) (hP : 1 ≤ P) (h0 : 0 ≤ rA) (hr : rA < P) (h0B : 0 ≤ rB)
    (hA : Grid.ctor params debug P rA = .ok A) (hB : Grid.ctor params debug P rB = .ok B) :
    (A.procBot_ = rB →
      B.procTop_ = rA ∧ A.gx_ = B.gx_ ∧ A.borderSize_ = B.borderSize_ ∧
      ({ dest := rB
         data := vslice A.grid_
           (A.prev_ * A.gx_ * A.gy_ + (A.gy_ - 2 * A.borderSize_) * A.gx_)
           (A.gx_ * A.borderSize_) } : SendOp R) ∈ A.sendOps ∧
      ({ source := rA, count := B.gx_ * B.borderSize_
         target := .grid (B.prev_ * B.gx_ * B.gy_) } : RecvOp) ∈ B.recvOps ∧
      ((vslice A.grid_ (A.prev_ * A.gx_ * A.gy_ + (A.gy_ - 2 * A.borderSize_) * A.gx_)
        (A.gx_ * A.borderSize_)).length : Int) = B.gx_ * B.borderSize_ ∧
      ({ dest := rA
         data := vslice B.grid_ (B.prev_ * B.gx_ * B.gy_ + B.gx_ * B.borderSize_)
           (B.gx_ * B.borderSize_) } : SendOp R) ∈ B.sendOps ∧
      ({ source := rB, count := A.gx_ * A.borderSize_
         target := .grid (A.prev_ * A.gx_ * A.gy_ + (A.gy_ - A.borderSize_) * A.gx_) } :
        RecvOp) ∈ A.recvOps ∧
      ((vslice B.grid_ (B.prev_ * B.gx_ * B.gy_ + B.gx_ * B.borderSize_)
        (B.gx_ * B.borderSize_)).length : Int) = A.gx_ * A.borderSize_) ∧
    (A.procRight_ = rB →
      B.procLeft_ = rA ∧ A.gy_ = B.gy_ ∧ A.borderSize_ = B.borderSize_ ∧
      ({ dest := rB, data := A.send_right_buffer_ } : SendOp R) ∈ A.sendOps ∧
      ({ source := rA, count := (B.recv_left_buffer_.length : Int)
         target := .leftBuffer } : RecvOp) ∈ B.recvOps ∧
      (A.send_right_buffer_.length : Int) = A.gy_ * A.borderSize_ ∧
      (B.recv_left_buffer_.length : Int) = B.gy_ * B.borderSize_ ∧
      A.send_right_buffer_.length = B.recv_left_buffer_.length ∧
      ({ dest := rA, data := B.send_left_buffer_ } : SendOp R) ∈ B.sendOps ∧
      ({ source := rB, count := (A.recv_right_buffer_.length : Int)
         target := .rightBuffer } : RecvOp) ∈ A.recvOps ∧
      (B.send_left_buffer_.length : Int) = B.gy_ * B.borderSize_ ∧
      (A.recv_right_buffer_.length : Int) = A.gy_ * A.borderSize_ ∧
      B.send_left_buffer_.length = A.recv_right_buffer_.length) := by
  obtain ⟨tA, b, dA, hb, _, _, eA⟩ := (ctor_ok_iff params debug P rA A).1 hA
  obtain ⟨tB, b', dB, hb', _, _, eB⟩ := (ctor_ok_iff params debug P rB B).1 hB
  have ebb : b' = b := by
    rw [hb] at hb'
    exact (Option.some.inj hb').symm
  subst ebb
  obtain ⟨hdown, hright⟩ := neighbour_extents params.gridMethod_ params.nx_ params.ny_ P rA rB
    tA tB hP h0 hr h0B dA dB
  have sA := ctor_shaped params debug P rA A hA
  have sB := ctor_shaped params debug P rB B hB
  have cA := ctor_commReady params debug P rA A hA
  have cB := ctor_commReady params debug P rB B hB
  have fA : A.procBot_ = tA.procBot_ ∧ A.procRight_ = tA.procRight_ ∧
      A.gx_ = tA.nx_ + 2 * b' ∧ A.gy_ = tA.ny_ + 2 * b' ∧ A.borderSize_ = b' := by
    rw [eA]; exact ⟨rfl, rfl, rfl, rfl, rfl⟩
  have fB : B.procTop_ = tB.procTop_ ∧ B.procLeft_ = tB.procLeft_ ∧
      B.gx_ = tB.nx_ + 2 * b' ∧ B.gy_ = tB.ny_ + 2 * b' ∧ B.borderSize_ = b' := by
    rw [eB]; exact ⟨rfl, rfl, rfl, rfl, rfl⟩
  obtain ⟨fA1, fA2, fA3, fA4, fA5⟩ := fA
  obtain ⟨fB1, fB2, fB3, fB4, fB5⟩ := fB
  have hbb : A.borderSize_ = B.borderSize_ := fA5.trans fB5.symm
  constructor
  · intro hd
    obtain ⟨d1, d2⟩ := hdown (fA1.symm.trans hd)
    have hgx : A.gx_ = B.gx_ := by rw [fA3, fB3, d2]
    have hT : B.procTop_ = rA := fB1.trans d1
    have hneA : A.procBot_ ≠ -1 := by omega
    have hneB : B.procTop_ ≠ -1 := by omega
    have hcnt : A.gx_ * A.borderSize_ = B.gx_ * B.borderSize_ := by rw [hgx, hbb]
    have lA := (rowSlice_spec A sA (A.gy_ - 2 * A.borderSize_)
      (by obtain ⟨s1, s2, s3, s4, s5, _⟩ := sA; omega) (by
        obtain ⟨s1, s2, s3, s4, s5, _⟩ := sA; omega)).1
    have lB := (rowSlice_spec B sB B.borderSize_
      (by obtain ⟨s1, s2, s3, s4, s5, _⟩ := sB; omega) (by
        obtain ⟨s1, s2, s3, s4, s5, _⟩ := sB; omega)).1
    rw [Int.mul_comm B.borderSize_ B.gx_] at lB
    refine ⟨hT, hgx, hbb, ?_, ?_, lA.trans hcnt, ?_, ?_, lB.trans hcnt.symm⟩
    · subst hd
      unfold Grid.sendOps
      rw [if_pos hneA]
      simp
    · subst hT
      unfold Grid.recvOps
      rw [if_pos hneB]
      simp
    · subst hT
      unfold Grid.sendOps
      rw [if_pos hneB]
      simp
    · subst hd
      unfold Grid.recvOps
      rw [if_pos hneA]
      simp
  · intro hd
    obtain ⟨d1, d2⟩ := hright (fA2.symm.trans hd)
    have hgy : A.gy_ = B.gy_ := by rw [fA4, fB4, d2]
    have hL : B.procLeft_ = rA := fB2.trans d1
    have hneA : A.procRight_ ≠ -1 := by omega
    have hneB : B.procLeft_ ≠ -1 := by omega
    obtain ⟨a1, a2⟩ := cA.2.2.1 hneA
    obtain ⟨b1, b2⟩ := cB.2.2.2 hneB
    have hcnt : A.gy_ * A.borderSize_ = B.gy_ * B.borderSize_ := by rw [hgy, hbb]
    refine ⟨hL, hgy, hbb, ?_, ?_, a1, b2, by omega, ?_, ?_, b1, a2, by omega⟩
    · subst hd
      unfold Grid.sendOps
      rw [if_pos hneA]
      simp
    · subst hL
      unfold Grid.recvOps
      rw [if_pos hneB]
      simp
    · subst hL
      unfold Grid.sendOps
      rw [if_pos hneB]
      simp
    · subst hd
      unfold Grid.recvOps
      rw [if_pos hneA]
      simp

theorem neighbour_message_lengths_witness :
    Grid.ctor paramsBlock false 4 0 = .ok blockRank0 ∧
    Grid.ctor paramsBlock false 4 2 = .ok blockRank2 ∧
    Grid.ctor paramsBlock false 4 1 = .ok blockRank1 ∧
    blockRank0.procBot_ = 2 ∧ blockRank0.procRight_ = 1 ∧
    (blockRank2.procTop_ = 0 ∧ blockRank0.gx_ = blockRank2.gx_) ∧
    (blockRank1.procLeft_ = 0 ∧ blockRank0.gy_ = blockRank1.gy_) :=
  have hd := (neighbour_message_lengths paramsBlock false 4 0 2 blockRank0 blockRank2
    (by decide) (by decide) (by decide) (by decide) blockRank0_ctor blockRank2_ctor).1 rfl
  have hr := (neighbour_message_lengths paramsBlock false 4 0 1 blockRank0 blockRank1
    (by decide) (by decide) (by decide) (by decide) blockRank0_ctor blockRank1_ctor).2 rfl
  ⟨blockRank0_ctor, blockRank2_ctor, blockRank1_ctor, rfl, rfl, ⟨hd.1, hd.2.1⟩,
    ⟨hr.1, hr.2.1⟩⟩
/-! ## Index safety -/

theorem sameShape_refl {R : Type} (g : Grid R) : g.SameShape g :=
  ⟨commFrame_refl g, rfl⟩

theorem sameShape_trans {R : Type} (g s t : Grid R) (h : g.SameShape s) (h' : s.SameShape t) :
    g.SameShape t :=
  ⟨commFrame_trans _ _ _ h.1 h'.1, h'.2.trans h.2⟩

theorem sameShape_of_sameFrame {R : Type} (g s : Grid R) (h : g.SameFrame s) :
    g.SameShape s :=
  ⟨commFrame_of_sameFrame g s h, h.2⟩

theorem shaped_of_sameShape {R : Type} (g s : Grid R) (h : g.SameShape s) (hs : g.Shaped) :
    s.Shaped := by
  obtain ⟨⟨e1, e2, e3, e4, e5, e6, e7, _⟩, hl⟩ := h
  unfold Grid.Shaped
  rw [e1, e2, e3, e4, e5, e6, e7, hl]
  exact hs

theorem sameShape_transfer {R : Type} [Zero R] (g : Grid R) (hc : g.CommReady) :
    g.SameShape g.transferHaloDataASync := by
  refine ⟨transfer_commFrame g, ?_⟩
  rw [transfer_spec g hc]

theorem sameShape_waitForSends {R : Type} (g : Grid R) : g.SameShape g.waitForSends := by
  refine ⟨waitForSends_commFrame g, ?_⟩
  rw [waitForSends_none]

theorem completeRecv_grid_length {R : Type} [Zero R] (inbox : Int → List R) (g : Grid R)
    (op : RecvOp) : (Grid.completeRecv inbox g op).grid_.length = g.grid_.length := by
  rcases op with ⟨s, c, t⟩
  cases t
  · exact (vwrite_spec _ _ _).1
  · rfl
  · rfl

theorem sameShape_waitForRecvs {R : Type} [Zero R] (inbox : Int → List R) (g : Grid R) :
    g.SameShape (g.waitForRecvs inbox) := by
  refine ⟨waitForRecvs_commFrame inbox g, ?_⟩
  rw [waitForRecvs_eq, (unpackBuffers_frame _).2]
  unfold Grid.completeAll
  apply forLoop_preserves (fun s : Grid R => s.grid_.length = g.grid_.length)
  · rfl
  · intro i s hs
    dsimp only
    split
    · rename_i op _
      exact (completeRecv_grid_length inbox s op).trans hs
    · exact hs

theorem sameShape_syncBranch {R : Type} (st : Stencil R) (params : simParams R)
    (curr prev : Int) (g : Grid R) : g.SameShape (syncBranch st params curr prev g) := by
  rw [syncBranch_eq]
  exact sameShape_of_sameFrame _ _ (foldl_stencilWrite_sameFrame st _ _ _ _ _ _)

theorem sameShape_asyncBranch {R : Type} [Zero R] (st : Stencil R) (params : simParams R)
    (inbox : Int → List R) (curr prev : Int) (g : Grid R) :
    g.SameShape (asyncBranch st params inbox curr prev g) := by
  unfold asyncBranch
  dsimp only
  rw [leftRightPass_eq, topBottomPass_eq, interiorPass_eq]
  exact sameShape_trans _ _ _
    (sameShape_trans _ _ _
      (sameShape_trans _ _ _
        (sameShape_trans _ _ _
          (sameShape_of_sameFrame _ _ (foldl_stencilWrite_sameFrame st _ _ _ _ _ _))
          (sameShape_waitForSends _))
        (sameShape_waitForRecvs inbox _))
      (sameShape_of_sameFrame _ _ (foldl_stencilWrite_sameFrame st _ _ _ _ _ _)))
    (sameShape_of_sameFrame _ _ (foldl_stencilWrite_sameFrame st _ _ _ _ _ _))

theorem sameShape_syncIteration {R : Type} [Ring R] (inbox : Int → List R)
    (params : simParams R) (g : Grid R) (hc : g.CommReady) :
    g.swapState.SameShape (syncIteration inbox params g) := by
  have hex : g.swapState.SameShape
      (((g.swapState.transferHaloDataASync).waitForSends).waitForRecvs inbox) :=
    sameShape_trans _ _ _
      (sameShape_trans _ _ _ (sameShape_transfer _ (swapState_commReady g hc))
        (sameShape_waitForSends _))
      (sameShape_waitForRecvs inbox _)
  unfold syncIteration
  dsimp only
  split_ifs
  · exact sameShape_trans _ _ _ hex (sameShape_syncBranch _ _ _ _ _)
  · exact sameShape_trans _ _ _ hex (sameShape_syncBranch _ _ _ _ _)
  · exact sameShape_trans _ _ _ hex (sameShape_syncBranch _ _ _ _ _)
  · exact hex

theorem sameShape_asyncIteration {R : Type} [Ring R] (inbox : Int → List R)
    (params : simParams R) (g : Grid R) (hc : g.CommReady) :
    g.swapState.SameShape (asyncIteration inbox params g) := by
  have hex : g.swapState.SameShape g.swapState.transferHaloDataASync :=
    sameShape_transfer _ (swapState_commReady g hc)
  unfold asyncIteration
  dsimp only
  split_ifs
  · exact sameShape_trans _ _ _ hex (sameShape_asyncBranch _ _ _ _ _ _)
  · exact sameShape_trans _ _ _ hex (sameShape_asyncBranch _ _ _ _ _ _)
  · exact sameShape_trans _ _ _ hex (sameShape_asyncBranch _ _ _ _ _ _)
  · exact hex

/-- Every state reached by the iterations of either variant has the shape and
the extents of the start grid. -/
theorem shaped_computation {R : Type} [Ring R] (env : Int → Int → List R) (G : Grid R)
    (q : simParams R) (hs : G.Shaped) (hc : G.CommReady) (s : Grid R)
    (hr : s = syncComputation env G q ∨ s = asyncComputation env G q) :
    s.Shaped ∧ s.CommReady ∧ s.gx_ = G.gx_ ∧ s.gy_ = G.gy_ ∧ s.nx_ = G.nx_ ∧ s.ny_ = G.ny_ ∧
    s.borderSize_ = G.borderSize_ := by
  have step : ∀ (f : (Int → List R) → simParams R → Grid R → Grid R),
      (∀ inbox (g : Grid R), g.CommReady → g.swapState.SameShape (f inbox q g)) →
      (∀ inbox (g : Grid R), g.CommReady → g.SameSizes (f inbox q g)) →
      ∀ (i : Int) (s : Grid R),
        (s.Shaped ∧ s.CommReady ∧ s.gx_ = G.gx_ ∧ s.gy_ = G.gy_ ∧ s.nx_ = G.nx_ ∧
          s.ny_ = G.ny_ ∧ s.borderSize_ = G.borderSize_) →
        ((f (env i) q s).Shaped ∧ (f (env i) q s).CommReady ∧ (f (env i) q s).gx_ = G.gx_ ∧
          (f (env i) q s).gy_ = G.gy_ ∧ (f (env i) q s).nx_ = G.nx_ ∧
          (f (env i) q s).ny_ = G.ny_ ∧ (f (env i) q s).borderSize_ = G.borderSize_) := by
    rintro f h1 h2 i s ⟨a1, a2, a3, a4, a5, a6, a7⟩
    have hsh := h1 (env i) s a2
    obtain ⟨e1, e2, e3, e4, e5, _⟩ := hsh.1
    exact ⟨shaped_of_sameShape _ _ hsh (swapState_shaped s a1),
      commReady_of_sameSizes s _ a2 (h2 (env i) s a2),
      e1.trans a3, e2.trans a4, e3.trans a5, e4.trans a6, e5.trans a7⟩
  rcases hr with rfl | rfl
  · rw [syncComputation_eq_iterations]
    exact forLoop_preserves _ _ _ _ _ ⟨hs, hc, rfl, rfl, rfl, rfl, rfl⟩
      (step syncIteration (fun inbox g h => sameShape_syncIteration inbox q g h)
        (fun inbox g h => sameSizes_syncIteration inbox q g h))
  · rw [asyncComputation_eq_iterations]
    exact forLoop_preserves _ _ _ _ _ ⟨hs, hc, rfl, rfl, rfl, rfl, rfl⟩
      (step asyncIteration (fun inbox g h => sameShape_asyncIteration inbox q g h)
        (fun inbox g h => sameSizes_asyncIteration inbox q g h))

/-! ## Inputs accepted by the constructor -/

/-- In stripe mode the constructor succeeds on rank 0 only for a positive
`globalNy`. -/
theorem ctor_stripe_ny_pos {R : Type} [Zero R] (params : simParams R) (debug : Bool)
    (P : Int) (g : Grid R) (hm : params.gridMethod_ = 1) (hP : 1 ≤ P)
    (h : Grid.ctor params debug P 0 = .ok g) : 2 < params.ny_ := by
  obtain ⟨t, b, ht, hb, _, hny, _⟩ := (ctor_ok_iff params debug P 0 g).1 h
  rw [hm, decomposition_stripe params.nx_ params.ny_ P 0 (le_refl _) (by omega)] at ht
  have et := (Except.ok.inj ht).symm
  subst et
  dsimp only at hny
  have hb1 : 1 ≤ b := by
    rcases borderSizeOf_some _ _ hb with ⟨_, h⟩ | ⟨_, h⟩ | ⟨_, h⟩ <;> omega
  apply extent_pos_of_quotient params.ny_ P b hP hb1
  by_cases h1 : P = 1
  · rw [if_pos h1] at hny ⊢
    exact hny
  · rw [if_neg h1, if_neg (by omega)] at hny
    rw [if_neg h1]
    exact hny


/-- In block mode the constructor succeeds on rank 0 only for positive global
extents. -/
theorem ctor_block_extent_pos {R : Type} [Zero R] (params : simParams R) (debug : Bool)
    (side : Int) (g : Grid R) (hm : params.gridMethod_ = 2) (hs : 1 ≤ side)
    (h : Grid.ctor params debug (side * side) 0 = .ok g) :
    2 < params.nx_ ∧ 2 < params.ny_ := by
  obtain ⟨t, b, ht, hb, hnx, hny, _⟩ := (ctor_ok_iff params debug (side * side) 0 g).1 h
  have h0 := decomposition_block params.nx_ params.ny_ side 0 0 (le_refl _) (by omega)
    (le_refl _) (by omega)
  rw [Int.mul_zero, Int.add_zero] at h0
  rw [hm, h0] at ht
  have et := (Except.ok.inj ht).symm
  subst et
  dsimp only at hnx hny
  have hb1 : 1 ≤ b := by
    rcases borderSizeOf_some _ _ hb with ⟨_, h⟩ | ⟨_, h⟩ | ⟨_, h⟩ <;> omega
  constructor
  · apply extent_pos_of_quotient params.nx_ side b hs hb1
    by_cases h1 : side = 1
    · subst h1
      rw [if_pos (by decide)] at hnx
      rw [if_pos rfl]
      omega
    · rw [if_neg (by omega)] at hnx
      rw [if_neg h1]
      exact hnx
  · apply extent_pos_of_quotient params.ny_ side b hs hb1
    by_cases h1 : side = 1
    · subst h1
      rw [if_pos (by decide)] at hny
      rw [if_pos rfl]
      omega
    · rw [if_neg (by omega)] at hny
      rw [if_neg h1]
      exact hny
/-! ## Messages stored before the wait -/

theorem foldl_filter_ite {α β : Type} (p : α → Bool) (f : β → α → β) (l : List α) :
    ∀ s : β, (l.filter p).foldl f s = l.foldl (fun s a => if p a = true then f s a else s) s := by
  induction l with
  | nil => intro s; rfl
  | cons a l ih =>
    intro s
    rw [List.filter_cons, List.foldl_cons]
    by_cases h : p a = true
    · rw [if_pos h, if_pos h, List.foldl_cons, ih]
    · rw [if_neg h, if_neg h, ih]

theorem vwriteWhere_eq {R : Type} [Zero R] (early : Int → Bool) (v : List R) (off : Int)
    (data : List R) :
    vwriteWhere early v off data =
      ((intRange 0 data.length).filter (fun k => early (off + k))).foldl
        (fun v k => vset v (off + k) (vget data k)) v := by
  unfold vwriteWhere
  rw [forLoop_eq_foldl, foldl_filter_ite]
  apply List.foldl_ext
  intro v k hk
  rw [mem_intRange] at hk
  have hlt : k.toNat < data.length := by omega
  have e : vget data k = data[k.toNat] := by
    have := vget_of_lt data k.toNat hlt
    rwa [Int.toNat_of_nonneg hk.1] at this
  rw [List.getElem?_eq_getElem hlt, e]

/-- Storing the early part of a message: the length is kept, an element that is
outside the written range or not early is kept, and an early element inside the
range holds the message value. -/
theorem vwriteWhere_spec {R : Type} [Zero R] (early : Int → Bool) (v : List R) (off : Int)
    (data : List R) :
    (vwriteWhere early v off data).length = v.length ∧
    (∀ k : Int, ¬ (off ≤ k ∧ k < off + data.length ∧ early k = true) →
      vget (vwriteWhere early v off data) k = vget v k) ∧
    (∀ k : Int, off ≤ k → k < off + data.length → early k = true → 0 ≤ k → k < v.length →
      vget (vwriteWhere early v off data) k = vget data (k - off)) := by
  rw [vwriteWhere_eq]
  obtain ⟨h1, h2, h3⟩ := foldl_vset_spec (fun k : Int => off + k) (fun k : Int => vget data k)
    ((intRange 0 data.length).filter (fun k => early (off + k))) v
  refine ⟨h1, ?_, ?_⟩
  · intro k hk
    apply h2
    intro c hc e
    rw [List.mem_filter, mem_intRange] at hc
    apply hk
    rw [← e]
    exact ⟨by omega, by omega, hc.2⟩
  · intro k hk1 hk2 hk3 hk4 hk5
    have e : off + (k - off) = k := by omega
    have := h3 (k - off)
      (List.mem_filter.2 ⟨(mem_intRange _ _ _).2 (by omega), by
        show early (off + (k - off)) = true
        rw [e]; exact hk3⟩)
      (by omega) (by omega)
      (by
        intro c' _ e'
        have : c' = k - off := by omega
        rw [this])
    rwa [e] at this

/-- When no element is early, nothing is stored. -/
theorem vwriteWhere_never {R : Type} (v : List R) (off : Int) (data : List R) :
    vwriteWhere (fun _ => false) v off data = v := by
  unfold vwriteWhere
  apply forLoop_preserves (fun w : List R => w = v)
  · rfl
  · intro i s hs
    subst hs
    cases data[i.toNat]? <;> rfl

theorem arriveEarly_never {R : Type} (inbox : Int → List R) (g : Grid R) :
    g.arriveEarly (fun _ => false) inbox = g := by
  unfold Grid.arriveEarly
  simp only [vwriteWhere_never, ite_self]

/-- The run in which nothing is stored before the method returns is the one
described by `Grid.transferHaloDataASync`. -/
theorem transferEarly_never {R : Type} [Zero R] (inbox : Int → List R) (g : Grid R) :
    g.transferHaloDataASyncEarly (fun _ => false) inbox = g.transferHaloDataASync := by
  unfold Grid.transferHaloDataASyncEarly
  dsimp only
  rw [arriveEarly_never, transfer_eq_stages]

theorem arriveEarly_sameFrame {R : Type} [Zero R] (early : Int → Bool) (inbox : Int → List R)
    (g : Grid R) : g.SameFrame (g.arriveEarly early inbox) := by
  constructor
  · rfl
  · unfold Grid.arriveEarly
    dsimp only
    split_ifs <;> simp only [(vwriteWhere_spec _ _ _ _).1]

theorem arriveEarly_shaped {R : Type} [Zero R] (early : Int → Bool) (inbox : Int → List R)
    (g : Grid R) (hs : g.Shaped) : (g.arriveEarly early inbox).Shaped :=
  shaped_of_sameFrame g _ (arriveEarly_sameFrame early inbox g) hs

theorem arriveEarly_commReady {R : Type} (early : Int → Bool) (inbox : Int → List R)
    (g : Grid R) (hc : g.CommReady) : (g.arriveEarly early inbox).CommReady :=
  commReady_of_fields g _ hc rfl rfl rfl rfl rfl rfl rfl rfl rfl rfl rfl rfl

/-- The elements of `grid_` outside the two receive areas are not touched by
a message that is stored early. -/
theorem arriveEarly_kept {R : Type} [Zero R] (early : Int → Bool) (inbox : Int → List R)
    (g : Grid R) (k : Int)
    (hT : ¬ (g.prev_ * g.gx_ * g.gy_ ≤ k ∧
      k < g.prev_ * g.gx_ * g.gy_ + g.gx_ * g.borderSize_))
    (hB : ¬ (g.prev_ * g.gx_ * g.gy_ + (g.gy_ - g.borderSize_) * g.gx_ ≤ k ∧
      k < g.prev_ * g.gx_ * g.gy_ + (g.gy_ - g.borderSize_) * g.gx_ +
        g.gx_ * g.borderSize_)) :
    vget (g.arriveEarly early inbox).grid_ k = vget g.grid_ k := by
  have len : ∀ l : List R, ((l.take (g.gx_ * g.borderSize_).toNat).length : Int) ≤
      max (g.gx_ * g.borderSize_) 0 := by
    intro l
    rw [List.length_take]
    omega
  have top : ∀ l : List R,
      vget (vwriteWhere early g.grid_ (g.prev_ * g.gx_ * g.gy_)
        (l.take (g.gx_ * g.borderSize_).toNat)) k = vget g.grid_ k := by
    intro l
    apply (vwriteWhere_spec _ _ _ _).2.1
    intro h
    have := len l
    exact hT ⟨h.1, by omega⟩
  have bot : ∀ (v l : List R),
      vget (vwriteWhere early v (g.prev_ * g.gx_ * g.gy_ + (g.gy_ - g.borderSize_) * g.gx_)
        (l.take (g.gx_ * g.borderSize_).toNat)) k = vget v k := by
    intro v l
    apply (vwriteWhere_spec _ _ _ _).2.1
    intro h
    have := len l
    exact hB ⟨h.1, by omega⟩
  unfold Grid.arriveEarly
  dsimp only
  split_ifs <;> first | rw [bot, top] | rw [top] | rw [bot] | rfl

theorem list_eq_of_vget {R : Type} [Zero R] (v w : List R) (hl : v.length = w.length)
    (h : ∀ k : Int, 0 ≤ k → k < v.length → vget v k = vget w k) : v = w := by
  apply List.ext_getElem hl
  intro n h1 h2
  have := h n (by omega) (by omega)
  rwa [vget_of_lt v n h1, vget_of_lt w n h2] at this

theorem vslice_congr {R : Type} [Zero R] (v w : List R) (off cnt : Int) (hl : v.length = w.length)
    (hoff : 0 ≤ off) (hcnt : 0 ≤ cnt) (hlen : off + cnt ≤ v.length)
    (h : ∀ k : Int, off ≤ k → k < off + cnt → vget v k = vget w k) :
    vslice v off cnt = vslice w off cnt := by
  obtain ⟨l1, g1⟩ := vslice_spec v off cnt hoff hcnt hlen
  obtain ⟨l2, g2⟩ := vslice_spec w off cnt hoff hcnt (by omega)
  apply list_eq_of_vget _ _ (by omega)
  intro k hk hk'
  rw [g1 k hk (by omega), g2 k hk (by omega)]
  exact h _ (by omega) (by omega)

/-- The rows sent to the up and the down neighbour are not receive areas: the
two vertical messages do not depend on what has been stored early. -/
theorem arriveEarly_slices {R : Type} [Zero R] (early : Int → Bool) (inbox : Int → List R)
    (g : Grid R) (hs : g.Shaped) :
    vslice (g.arriveEarly early inbox).grid_
        (g.prev_ * g.gx_ * g.gy_ + g.gx_ * g.borderSize_) (g.gx_ * g.borderSize_) =
      vslice g.grid_ (g.prev_ * g.gx_ * g.gy_ + g.gx_ * g.borderSize_)
        (g.gx_ * g.borderSize_) ∧
    vslice (g.arriveEarly early inbox).grid_
        (g.prev_ * g.gx_ * g.gy_ + (g.gy_ - 2 * g.borderSize_) * g.gx_)
        (g.gx_ * g.borderSize_) =
      vslice g.grid_ (g.prev_ * g.gx_ * g.gy_ + (g.gy_ - 2 * g.borderSize_) * g.gx_)
        (g.gx_ * g.borderSize_) := by
  have hf := (arriveEarly_sameFrame early inbox g).2
  obtain ⟨s1, s2, s3, s4, s5, s6, s7⟩ := hs
  have hgx : 0 < g.gx_ := by omega
  have hgb : 0 ≤ g.gx_ * g.borderSize_ := Int.mul_nonneg (by omega) (by omega)
  have hP : 0 ≤ g.prev_ * g.gx_ * g.gy_ := by
    rcases s7 with ⟨_, h⟩ | ⟨_, h⟩ <;> rw [h]
    · rw [Int.one_mul]; exact Int.mul_nonneg (by omega) (by omega)
    · simp
  have hPl : g.prev_ * g.gx_ * g.gy_ + g.gx_ * g.gy_ ≤ 2 * g.gx_ * g.gy_ := by
    rcases s7 with ⟨_, h⟩ | ⟨_, h⟩ <;> rw [h]
    · have : (1 : Int) * g.gx_ * g.gy_ + g.gx_ * g.gy_ = 2 * g.gx_ * g.gy_ := by ring
      omega
    · have : 0 ≤ g.gx_ * g.gy_ := Int.mul_nonneg (by omega) (by omega)
      have e : (2 : Int) * g.gx_ * g.gy_ = 2 * (g.gx_ * g.gy_) := by ring
      rw [e]
      omega
  -- products of the row counts with the row length
  have m1 : g.gx_ * g.borderSize_ + g.gx_ * g.borderSize_ ≤
      (g.gy_ - 2 * g.borderSize_) * g.gx_ := by
    have := Int.mul_le_mul_of_nonneg_right (by omega : 2 * g.borderSize_ ≤ g.gy_ - 2 * g.borderSize_)
      (by omega : 0 ≤ g.gx_)
    have e : 2 * g.borderSize_ * g.gx_ = g.gx_ * g.borderSize_ + g.gx_ * g.borderSize_ := by ring
    omega
  have m2 : (g.gy_ - 2 * g.borderSize_) * g.gx_ + g.gx_ * g.borderSize_ =
      (g.gy_ - g.borderSize_) * g.gx_ := by ring
  have m3 : (g.gy_ - g.borderSize_) * g.gx_ + g.gx_ * g.borderSize_ = g.gx_ * g.gy_ := by ring
  constructor
  · apply vslice_congr _ _ _ _ hf (by omega) hgb (by rw [hf]; omega)
    intro k h1 h2
    exact arriveEarly_kept early inbox g k (by omega) (by omega)
  · apply vslice_congr _ _ _ _ hf (by omega) hgb (by rw [hf]; omega)
    intro k h1 h2
    exact arriveEarly_kept early inbox g k (by omega) (by omega)

/-- The method in a run with early messages is the method of
`Grid.transferHaloDataASync` applied to the state of `grid_` at the pack loop. -/
theorem transferEarly_eq {R : Type} [Zero R] (early : Int → Bool) (inbox : Int → List R)
    (g : Grid R) (hs : g.Shaped) :
    g.transferHaloDataASyncEarly early inbox =
      (g.arriveEarly early inbox).transferHaloDataASync := by
  obtain ⟨e1, e2⟩ := arriveEarly_slices early inbox g hs
  have key : ((Grid.botStage (Grid.topStage (g, 0))).1.arriveEarly early inbox,
      (Grid.botStage (Grid.topStage (g, 0))).2) =
      Grid.botStage (Grid.topStage (g.arriveEarly early inbox, 0)) := by
    unfold Grid.botStage Grid.topStage Grid.startPair
    have a1 : (g.arriveEarly early inbox).procTop_ = g.procTop_ := rfl
    have a2 : (g.arriveEarly early inbox).procBot_ = g.procBot_ := rfl
    dsimp only
    rw [a1]
    by_cases fT : g.procTop_ ≠ -1 <;> by_cases fB : g.procBot_ ≠ -1
    · rw [if_pos fT, if_pos fT]
      dsimp only
      rw [a2, if_pos fB, if_pos fB]
      dsimp only
      have b1 : (g.arriveEarly early inbox).prev_ = g.prev_ := rfl
      have b2 : (g.arriveEarly early inbox).gx_ = g.gx_ := rfl
      have b3 : (g.arriveEarly early inbox).gy_ = g.gy_ := rfl
      have b4 : (g.arriveEarly early inbox).borderSize_ = g.borderSize_ := rfl
      rw [b1, b2, b3, b4, e1, e2]
      rfl
    · rw [if_pos fT, if_pos fT]
      dsimp only
      rw [a2, if_neg fB, if_neg fB]
      dsimp only
      have b1 : (g.arriveEarly early inbox).prev_ = g.prev_ := rfl
      have b2 : (g.arriveEarly early inbox).gx_ = g.gx_ := rfl
      have b3 : (g.arriveEarly early inbox).gy_ = g.gy_ := rfl
      have b4 : (g.arriveEarly early inbox).borderSize_ = g.borderSize_ := rfl
      rw [b1, b2, b3, b4, e1]
      rfl
    · rw [if_neg fT, if_neg fT]
      dsimp only
      rw [a2, if_pos fB, if_pos fB]
      dsimp only
      have b1 : (g.arriveEarly early inbox).prev_ = g.prev_ := rfl
      have b2 : (g.arriveEarly early inbox).gx_ = g.gx_ := rfl
      have b3 : (g.arriveEarly early inbox).gy_ = g.gy_ := rfl
      have b4 : (g.arriveEarly early inbox).borderSize_ = g.borderSize_ := rfl
      rw [b1, b2, b3, b4, e2]
      rfl
    · rw [if_neg fT, if_neg fT]
      dsimp only
      rw [a2, if_neg fB, if_neg fB]
  unfold Grid.transferHaloDataASyncEarly
  rw [transfer_eq_stages]
  dsimp only
  rw [← key]

theorem exchangeEarly_eq {R : Type} [Zero R] (early : Int → Bool) (inbox : Int → List R)
    (g : Grid R) (hs : g.Shaped) :
    g.exchangeEarly early inbox = (g.arriveEarly early inbox).exchange inbox := by
  unfold Grid.exchangeEarly Grid.exchange
  rw [transferEarly_eq early inbox g hs]
/-- The content of a cell when the pack loop reads it: in a halo row that faces
an up or down neighbour it is the element of that neighbour's message if this
element has been stored early, and otherwise, as in every other row, the value
the cell had when the method was called. -/
theorem arriveEarly_read {R : Type} [Zero R] (early : Int → Bool) (inbox : Int → List R)
    (g : Grid R) (hs : g.Shaped) (sel x y : Int) (hsel : sel = 0 ∨ sel = 1)
    (hx : 0 ≤ x) (hx' : x < g.gx_) (hy : 0 ≤ y) (hy' : y < g.gy_) :
    (g.arriveEarly early inbox).read sel x y =
      if sel = g.prev_ ∧ g.procTop_ ≠ -1 ∧ y < g.borderSize_ ∧
          early (g.prev_ * g.gx_ * g.gy_ + y * g.gx_ + x) = true ∧
          y * g.gx_ + x < (inbox g.procTop_).length then
        vget (inbox g.procTop_) (y * g.gx_ + x)
      else if sel = g.prev_ ∧ g.procBot_ ≠ -1 ∧ g.gy_ - g.borderSize_ ≤ y ∧
          early (g.prev_ * g.gx_ * g.gy_ + y * g.gx_ + x) = true ∧
          (y - (g.gy_ - g.borderSize_)) * g.gx_ + x < (inbox g.procBot_).length then
        vget (inbox g.procBot_) ((y - (g.gy_ - g.borderSize_)) * g.gx_ + x)
      else g.read sel x y := by
  obtain ⟨s1, s2, s3, s4, s5, s6, s7⟩ := hs
  have hp : g.prev_ = 0 ∨ g.prev_ = 1 := by omega
  obtain ⟨b1, b2⟩ := cellIndex_bounds g.gx_ g.gy_ sel x y hsel hx hx' hy hy'
  have hgb : 0 ≤ g.gx_ * g.borderSize_ := Int.mul_nonneg (by omega) (by omega)
  have iT := row_block_iff g.gx_ g.gy_ g.borderSize_ sel g.prev_ x y 0 hsel hp hx hx' hy hy'
    (le_refl _) (by omega)
  have iB := row_block_iff g.gx_ g.gy_ g.borderSize_ sel g.prev_ x y (g.gy_ - g.borderSize_)
    hsel hp hx hx' hy hy' (by omega) (by omega)
  have z0 : (0 : Int) * g.gx_ = 0 := by ring
  rw [z0] at iT
  have hyg : 0 ≤ y * g.gx_ := Int.mul_nonneg hy (by omega)
  have yb : y < g.borderSize_ → y * g.gx_ + x < g.gx_ * g.borderSize_ := by
    intro h
    have := Int.mul_le_mul_of_nonneg_right (by omega : y + 1 ≤ g.borderSize_)
      (by omega : 0 ≤ g.gx_)
    have e1 : (y + 1) * g.gx_ = y * g.gx_ + g.gx_ := by ring
    have e2 : g.borderSize_ * g.gx_ = g.gx_ * g.borderSize_ := by ring
    omega
  have yb' : g.gy_ - g.borderSize_ ≤ y →
      (y - (g.gy_ - g.borderSize_)) * g.gx_ + x < g.gx_ * g.borderSize_ := by
    intro h
    have := Int.mul_le_mul_of_nonneg_right
      (by omega : y - (g.gy_ - g.borderSize_) + 1 ≤ g.borderSize_) (by omega : 0 ≤ g.gx_)
    have e1 : (y - (g.gy_ - g.borderSize_) + 1) * g.gx_ =
        (y - (g.gy_ - g.borderSize_)) * g.gx_ + g.gx_ := by ring
    have e2 : g.borderSize_ * g.gx_ = g.gx_ * g.borderSize_ := by ring
    omega
  have topVal : ∀ v : List R, (v.length : Int) = 2 * g.gx_ * g.gy_ → g.procTop_ ≠ -1 →
      vget (vwriteWhere early v (g.prev_ * g.gx_ * g.gy_)
        ((inbox g.procTop_).take (g.gx_ * g.borderSize_).toNat))
        (sel * g.gx_ * g.gy_ + y * g.gx_ + x) =
      if sel = g.prev_ ∧ g.procTop_ ≠ -1 ∧ y < g.borderSize_ ∧
          early (g.prev_ * g.gx_ * g.gy_ + y * g.gx_ + x) = true ∧
          y * g.gx_ + x < (inbox g.procTop_).length then
        vget (inbox g.procTop_) (y * g.gx_ + x)
      else vget v (sel * g.gx_ * g.gy_ + y * g.gx_ + x) := by
    intro v hv h
    obtain ⟨_, w2, w3⟩ := vwriteWhere_spec early v (g.prev_ * g.gx_ * g.gy_)
      ((inbox g.procTop_).take (g.gx_ * g.borderSize_).toNat)
    have hlen := List.length_take (g.gx_ * g.borderSize_).toNat (inbox g.procTop_)
    by_cases hc : sel = g.prev_ ∧ g.procTop_ ≠ -1 ∧ y < g.borderSize_ ∧
        early (g.prev_ * g.gx_ * g.gy_ + y * g.gx_ + x) = true ∧
        y * g.gx_ + x < (inbox g.procTop_).length
    · rw [if_pos hc]
      obtain ⟨c1, _, c2, c3, c4⟩ := hc
      have := yb c2
      rw [w3 _ (by rw [c1]; omega) (by rw [c1, hlen]; omega) (by rw [c1]; exact c3) b1
        (by omega), vget_take _ _ _ (by rw [c1]; omega)]
      congr 1
      rw [c1]
      ring
    · rw [if_neg hc]
      apply w2
      rintro ⟨h1, h2, h3⟩
      have hr := iT.1 ⟨by omega, by rw [hlen] at h2; omega⟩
      apply hc
      refine ⟨hr.1, h, by omega, by rw [← hr.1]; exact h3, ?_⟩
      rw [hlen, hr.1] at h2
      omega
  have botVal : ∀ v : List R, (v.length : Int) = 2 * g.gx_ * g.gy_ → g.procBot_ ≠ -1 →
      vget (vwriteWhere early v (g.prev_ * g.gx_ * g.gy_ + (g.gy_ - g.borderSize_) * g.gx_)
        ((inbox g.procBot_).take (g.gx_ * g.borderSize_).toNat))
        (sel * g.gx_ * g.gy_ + y * g.gx_ + x) =
      if sel = g.prev_ ∧ g.procBot_ ≠ -1 ∧ g.gy_ - g.borderSize_ ≤ y ∧
          early (g.prev_ * g.gx_ * g.gy_ + y * g.gx_ + x) = true ∧
          (y - (g.gy_ - g.borderSize_)) * g.gx_ + x < (inbox g.procBot_).length then
        vget (inbox g.procBot_) ((y - (g.gy_ - g.borderSize_)) * g.gx_ + x)
      else vget v (sel * g.gx_ * g.gy_ + y * g.gx_ + x) := by
    intro v hv h
    obtain ⟨_, w2, w3⟩ := vwriteWhere_spec early v
      (g.prev_ * g.gx_ * g.gy_ + (g.gy_ - g.borderSize_) * g.gx_)
      ((inbox g.procBot_).take (g.gx_ * g.borderSize_).toNat)
    have hlen := List.length_take (g.gx_ * g.borderSize_).toNat (inbox g.procBot_)
    have ey : (y - (g.gy_ - g.borderSize_)) * g.gx_ =
        y * g.gx_ - (g.gy_ - g.borderSize_) * g.gx_ := by ring
    by_cases hc : sel = g.prev_ ∧ g.procBot_ ≠ -1 ∧ g.gy_ - g.borderSize_ ≤ y ∧
        early (g.prev_ * g.gx_ * g.gy_ + y * g.gx_ + x) = true ∧
        (y - (g.gy_ - g.borderSize_)) * g.gx_ + x < (inbox g.procBot_).length
    · rw [if_pos hc]
      obtain ⟨c1, _, c2, c3, c4⟩ := hc
      have := yb' c2
      have hr := iB.2 ⟨c1, c2, by omega⟩
      rw [w3 _ hr.1 (by rw [c1, hlen]; omega) (by rw [c1]; exact c3) b1
        (by omega), vget_take _ _ _ (by rw [c1]; omega)]
      congr 1
      rw [c1]
      ring
    · rw [if_neg hc]
      apply w2
      rintro ⟨h1, h2, h3⟩
      have hr := iB.1 ⟨h1, by rw [hlen] at h2; omega⟩
      apply hc
      refine ⟨hr.1, h, hr.2.1, by rw [← hr.1]; exact h3, ?_⟩
      rw [hlen, hr.1] at h2
      omega
  have hTB : ¬ (y < g.borderSize_ ∧ g.gy_ - g.borderSize_ ≤ y) := by omega
  unfold Grid.arriveEarly Grid.read
  dsimp only
  by_cases fT : g.procTop_ ≠ -1 <;> by_cases fB : g.procBot_ ≠ -1
  · rw [if_pos fB, if_pos fT, botVal _ (by rw [(vwriteWhere_spec _ _ _ _).1]; exact s6) fB,
      topVal _ s6 fT]
    by_cases cT : sel = g.prev_ ∧ g.procTop_ ≠ -1 ∧ y < g.borderSize_ ∧
        early (g.prev_ * g.gx_ * g.gy_ + y * g.gx_ + x) = true ∧
        y * g.gx_ + x < (inbox g.procTop_).length
    · have cB : ¬ (sel = g.prev_ ∧ g.procBot_ ≠ -1 ∧ g.gy_ - g.borderSize_ ≤ y ∧
          early (g.prev_ * g.gx_ * g.gy_ + y * g.gx_ + x) = true ∧
          (y - (g.gy_ - g.borderSize_)) * g.gx_ + x < (inbox g.procBot_).length) :=
        fun h => hTB ⟨cT.2.2.1, h.2.2.1⟩
      simp only [if_pos cT, if_neg cB]
    · simp only [if_neg cT]
  · rw [if_neg fB, if_pos fT, topVal _ s6 fT]
    have cB : ¬ (sel = g.prev_ ∧ g.procBot_ ≠ -1 ∧ g.gy_ - g.borderSize_ ≤ y ∧
        early (g.prev_ * g.gx_ * g.gy_ + y * g.gx_ + x) = true ∧
        (y - (g.gy_ - g.borderSize_)) * g.gx_ + x < (inbox g.procBot_).length) :=
      fun h => fB h.2.1
    simp only [if_neg cB]
  · rw [if_pos fB, if_neg fT, botVal _ s6 fB]
    have cT : ¬ (sel = g.prev_ ∧ g.procTop_ ≠ -1 ∧ y < g.borderSize_ ∧
        early (g.prev_ * g.gx_ * g.gy_ + y * g.gx_ + x) = true ∧
        y * g.gx_ + x < (inbox g.procTop_).length) := fun h => fT h.2.1
    simp only [if_neg cT]
  · rw [if_neg fB, if_neg fT]
    have cT : ¬ (sel = g.prev_ ∧ g.procTop_ ≠ -1 ∧ y < g.borderSize_ ∧
        early (g.prev_ * g.gx_ * g.gy_ + y * g.gx_ + x) = true ∧
        y * g.gx_ + x < (inbox g.procTop_).length) := fun h => fT h.2.1
    have cB : ¬ (sel = g.prev_ ∧ g.procBot_ ≠ -1 ∧ g.gy_ - g.borderSize_ ≤ y ∧
        early (g.prev_ * g.gx_ * g.gy_ + y * g.gx_ + x) = true ∧
        (y - (g.gy_ - g.borderSize_)) * g.gx_ + x < (inbox g.procBot_).length) :=
      fun h => fB h.2.1
    simp only [if_neg cT, if_neg cB]

/-- The rows that are no receive area keep their content until the pack loop. -/
theorem arriveEarly_read_kept {R : Type} [Zero R] (early : Int → Bool) (inbox : Int → List R)
    (g : Grid R) (hs : g.Shaped) (sel x y : Int) (hsel : sel = 0 ∨ sel = 1)
    (hx : 0 ≤ x) (hx' : x < g.gx_) (hy : 0 ≤ y) (hy' : y < g.gy_)
    (hT : sel ≠ g.prev_ ∨ g.procTop_ = -1 ∨ g.borderSize_ ≤ y)
    (hB : sel ≠ g.prev_ ∨ g.procBot_ = -1 ∨ y < g.gy_ - g.borderSize_) :
    (g.arriveEarly early inbox).read sel x y = g.read sel x y := by
  rw [arriveEarly_read early inbox g hs sel x y hsel hx hx' hy hy',
    if_neg (fun h => by rcases hT with h' | h' | h' <;> [exact h' h.1; exact h.2.1 h'; omega]),
    if_neg (fun h => by rcases hB with h' | h' | h' <;> [exact h' h.1; exact h.2.1 h'; omega])]

/-- The state after the exchange round does not depend on which elements have
been stored early, when the messages have the posted lengths. -/
theorem exchangeEarly_read {R : Type} [Zero R] (early : Int → Bool) (inbox : Int → List R)
    (g : Grid R) (hs : g.Shaped) (hc : g.CommReady)
    (mT : g.procTop_ ≠ -1 → g.gx_ * g.borderSize_ ≤ (inbox g.procTop_).length)
    (mB : g.procBot_ ≠ -1 → g.gx_ * g.borderSize_ ≤ (inbox g.procBot_).length)
    (mR : g.procRight_ ≠ -1 → g.gy_ * g.borderSize_ ≤ (inbox g.procRight_).length)
    (mL : g.procLeft_ ≠ -1 → g.gy_ * g.borderSize_ ≤ (inbox g.procLeft_).length)
    (sel x y : Int) (hsel : sel = 0 ∨ sel = 1)
    (hx : 0 ≤ x) (hx' : x < g.gx_) (hy : 0 ≤ y) (hy' : y < g.gy_) :
    (g.exchangeEarly early inbox).read sel x y = (g.exchange inbox).read sel x y := by
  have a1 : (g.arriveEarly early inbox).prev_ = g.prev_ := rfl
  have a2 : (g.arriveEarly early inbox).procLeft_ = g.procLeft_ := rfl
  have a3 : (g.arriveEarly early inbox).procRight_ = g.procRight_ := rfl
  have a4 : (g.arriveEarly early inbox).procTop_ = g.procTop_ := rfl
  have a5 : (g.arriveEarly early inbox).procBot_ = g.procBot_ := rfl
  have a6 : (g.arriveEarly early inbox).borderSize_ = g.borderSize_ := rfl
  have a7 : (g.arriveEarly early inbox).nx_ = g.nx_ := rfl
  have a8 : (g.arriveEarly early inbox).gx_ = g.gx_ := rfl
  have a9 : (g.arriveEarly early inbox).gy_ = g.gy_ := rfl
  rw [exchangeEarly_eq early inbox g hs,
    exchange_read inbox (g.arriveEarly early inbox) (arriveEarly_shaped early inbox g hs)
      (arriveEarly_commReady early inbox g hc) (by rw [a4, a8, a6]; exact mT)
      (by rw [a5, a8, a6]; exact mB) (by rw [a3, a9, a6]; exact mR)
      (by rw [a2, a9, a6]; exact mL) sel x y hsel hx (by rw [a8]; exact hx')
      hy (by rw [a9]; exact hy'),
    exchange_read inbox g hs hc mT mB mR mL sel x y hsel hx hx' hy hy']
  rw [a1, a2, a3, a4, a5, a6, a7, a8, a9]
  by_cases h1 : sel = g.prev_ ∧ g.procLeft_ ≠ -1 ∧ x < g.borderSize_
  · rw [if_pos h1, if_pos h1]
  rw [if_neg h1, if_neg h1]
  by_cases h2 : sel = g.prev_ ∧ g.procRight_ ≠ -1 ∧ g.nx_ + g.borderSize_ ≤ x
  · rw [if_pos h2, if_pos h2]
  rw [if_neg h2, if_neg h2]
  by_cases h3 : sel = g.prev_ ∧ g.procTop_ ≠ -1 ∧ y < g.borderSize_
  · rw [if_pos h3, if_pos h3]
  rw [if_neg h3, if_neg h3]
  by_cases h4 : sel = g.prev_ ∧ g.procBot_ ≠ -1 ∧ g.gy_ - g.borderSize_ ≤ y
  · rw [if_pos h4, if_pos h4]
  rw [if_neg h4, if_neg h4]
  exact arriveEarly_read_kept early inbox g hs sel x y hsel hx hx' hy hy'
    (by by_contra hh; push_neg at hh; exact h3 ⟨hh.1, hh.2.1, hh.2.2⟩)
    (by by_contra hh; push_neg at hh; exact h4 ⟨hh.1, hh.2.1, by omega⟩)
/-! ## The run of four processes on a 6 x 6 grid -/

theorem raceParams_ofFile :
    simParams.ofFile 6 6 1 1 1 1000 2 0 2 true 0 1 0 0 = some raceParams := rfl

theorem raceRanks_ctor :
    Grid.ctor raceParams false 4 0 = .ok (raceRanks 0) ∧
    Grid.ctor raceParams false 4 1 = .ok (raceRanks 1) ∧
    Grid.ctor raceParams false 4 2 = .ok (raceRanks 2) ∧
    Grid.ctor raceParams false 4 3 = .ok (raceRanks 3) :=
  ⟨(ctor_ok_iff raceParams false 4 0 (raceRanks 0)).2
      ⟨_, 1, decomposition_block 6 6 2 0 0 (by decide) (by decide) (by decide) (by decide),
        rfl, by decide, by decide, rfl⟩,
    (ctor_ok_iff raceParams false 4 1 (raceRanks 1)).2
      ⟨_, 1, decomposition_block 6 6 2 0 1 (by decide) (by decide) (by decide) (by decide),
        rfl, by decide, by decide, rfl⟩,
    (ctor_ok_iff raceParams false 4 2 (raceRanks 2)).2
      ⟨_, 1, decomposition_block 6 6 2 1 0 (by decide) (by decide) (by decide) (by decide),
        rfl, by decide, by decide, rfl⟩,
    (ctor_ok_iff raceParams false 4 3 (raceRanks 3)).2
      ⟨_, 1, decomposition_block 6 6 2 1 1 (by decide) (by decide) (by decide) (by decide),
        rfl, by decide, by decide, rfl⟩⟩

/-! ## Horizontal halo exchange -/

/-- Storing messages early changes `grid_` only. -/
theorem arriveEarly_fields {R : Type} (early : Int → Bool) (inbox : Int → List R)
    (g : Grid R) :
    (g.arriveEarly early inbox).prev_ = g.prev_ ∧
    (g.arriveEarly early inbox).nx_ = g.nx_ ∧
    (g.arriveEarly early inbox).gx_ = g.gx_ ∧
    (g.arriveEarly early inbox).gy_ = g.gy_ ∧
    (g.arriveEarly early inbox).ny_ = g.ny_ ∧
    (g.arriveEarly early inbox).borderSize_ = g.borderSize_ ∧
    (g.arriveEarly early inbox).procLeft_ = g.procLeft_ ∧
    (g.arriveEarly early inbox).procRight_ = g.procRight_ ∧
    (g.arriveEarly early inbox).procTop_ = g.procTop_ ∧
    (g.arriveEarly early inbox).procBot_ = g.procBot_ ∧
    (g.arriveEarly early inbox).ourRank_ = g.ourRank_ ∧
    (g.arriveEarly early inbox).send_right_buffer_ = g.send_right_buffer_ ∧
    (g.arriveEarly early inbox).send_left_buffer_ = g.send_left_buffer_ ∧
    (g.arriveEarly early inbox).recv_right_buffer_ = g.recv_right_buffer_ ∧
    (g.arriveEarly early inbox).recv_left_buffer_ = g.recv_left_buffer_ :=
  ⟨rfl, rfl, rfl, rfl, rfl, rfl, rfl, rfl, rfl, rfl, rfl, rfl, rfl, rfl, rfl⟩

/-- The method reads of the delivered messages only those of the up and the
down neighbour. -/
theorem transferEarly_congr {R : Type} [Zero R] (early : Int → Bool)
    (inbox inbox' : Int → List R) (g : Grid R)
    (hT : inbox g.procTop_ = inbox' g.procTop_) (hB : inbox g.procBot_ = inbox' g.procBot_) :
    g.transferHaloDataASyncEarly early inbox = g.transferHaloDataASyncEarly early inbox' := by
  have key : ∀ s : Grid R, s.procTop_ = g.procTop_ → s.procBot_ = g.procBot_ →
      s.arriveEarly early inbox = s.arriveEarly early inbox' := by
    intro s h1 h2
    unfold Grid.arriveEarly
    rw [h1, h2, hT, hB]
  unfold Grid.transferHaloDataASyncEarly
  dsimp only
  rw [key]
  · unfold Grid.botStage Grid.topStage Grid.startPair
    dsimp only
    split_ifs <;> rfl
  · unfold Grid.botStage Grid.topStage Grid.startPair
    dsimp only
    split_ifs <;> rfl

/-- Claim C19 (amended): `transferHaloDataASync` packs into
`send_right_buffer_[i*b + j]` the content that the previous-generation cell
`(nx + j, i)` has when the pack loop reads it, and into
`send_left_buffer_[i*b + j]` that of cell `(b + j, i)`, for `0 ≤ i < gy`,
`0 ≤ j < b`, and hands the buffers to MPI addressed to the right and left
neighbour.  In the rows `b ≤ i < gy - b`, in the rows `i < b` of a rank without
up neighbour and in the rows `i ≥ gy - b` of a rank without down neighbour that
content is the value the cell had when the method was called; in a halo row
that faces an up or down neighbour it is the element of that neighbour's
message if MPI has stored it before the pack loop (the receive into the row is
started before the loop), and the value at the call otherwise.  `waitForRecvs`
unpacks `recv_left_buffer_[i*b + j]` into cell `(j, i)` and
`recv_right_buffer_[i*b + j]` into cell `(nx + b + j, i)`.  Hence, when the
right neighbour of `A` is `B` (same `gy` and border) and each buffer is
delivered unchanged, after the exchange the left halo of `B` holds the content
that `A.prev(nxA + j, i)` had at the pack loop of `A` and the right halo of `A`
that of `B.prev(b + j, i)`; these are the values before the exchange in every
row that is not a halo row of the sender facing an up or down neighbour.  When
nothing is stored early the method is the one described by
`Grid.transferHaloDataASync` and the content at the pack loop is the value at
the call in every row. -/
theorem horizontal_halo_exchange {R : Type} [Zero R] (A B : Grid R)
    (earlyA earlyB : Int → Bool) (inboxA inboxB : Int → List R)
    (hsA : A.Shaped) (hcA : A.CommReady) (hsB : B.Shaped) (hcB : B.CommReady)
    (hAB : A.procRight_ = B.ourRank_) (hBA : B.procLeft_ = A.ourRank_)
    (hrB : B.ourRank_ ≠ -1) (hrA : A.ourRank_ ≠ -1)
    (hgy : A.gy_ = B.gy_) (hb : A.borderSize_ = B.borderSize_)
    (hdB : inboxB A.ourRank_ =
      (A.transferHaloDataASyncEarly earlyA inboxA).send_right_buffer_)
    (hdA : inboxA B.ourRank_ =
      (B.transferHaloDataASyncEarly earlyB inboxB).send_left_buffer_) :
    some ({ dest := B.ourRank_,
            data := (A.transferHaloDataASyncEarly earlyA inboxA).send_right_buffer_ } :
      SendOp R) ∈ (A.transferHaloDataASyncEarly earlyA inboxA).send_requests_ ∧
    some ({ dest := A.ourRank_,
            data := (B.transferHaloDataASyncEarly earlyB inboxB).send_left_buffer_ } :
      SendOp R) ∈ (B.transferHaloDataASyncEarly earlyB inboxB).send_requests_ ∧
    (∀ i j, 0 ≤ i → i < A.gy_ → 0 ≤ j → j < A.borderSize_ →
      vget (A.transferHaloDataASyncEarly earlyA inboxA).send_right_buffer_
          (i * A.borderSize_ + j) =
        (A.arriveEarly earlyA inboxA).read A.prev_ (A.nx_ + j) i ∧
      vget (B.transferHaloDataASyncEarly earlyB inboxB).send_left_buffer_
          (i * B.borderSize_ + j) =
        (B.arriveEarly earlyB inboxB).read B.prev_ (B.borderSize_ + j) i) ∧
    (∀ (g : Grid R) (early : Int → Bool) (inbox : Int → List R), g.Shaped →
      ∀ x i, 0 ≤ x → x < g.gx_ → 0 ≤ i → i < g.gy_ →
        (g.arriveEarly early inbox).read g.prev_ x i =
          if g.procTop_ ≠ -1 ∧ i < g.borderSize_ ∧
              early (g.prev_ * g.gx_ * g.gy_ + i * g.gx_ + x) = true ∧
              i * g.gx_ + x < (inbox g.procTop_).length then
            vget (inbox g.procTop_) (i * g.gx_ + x)
          else if g.procBot_ ≠ -1 ∧ g.gy_ - g.borderSize_ ≤ i ∧
              early (g.prev_ * g.gx_ * g.gy_ + i * g.gx_ + x) = true ∧
              (i - (g.gy_ - g.borderSize_)) * g.gx_ + x < (inbox g.procBot_).length then
            vget (inbox g.procBot_) ((i - (g.gy_ - g.borderSize_)) * g.gx_ + x)
          else g.read g.prev_ x i) ∧
    (∀ (g : Grid R) (inbox : Int → List R),
      g.transferHaloDataASyncEarly (fun _ => false) inbox = g.transferHaloDataASync ∧
      g.arriveEarly (fun _ => false) inbox = g) ∧
    (∀ (s : Grid R) (inbox : Int → List R),
      s.waitForRecvs inbox = (s.completeAll inbox).unpackBuffers) ∧
    (∀ s : Grid R, s.Shaped → ∀ i j, 0 ≤ i → i < s.gy_ → 0 ≤ j → j < s.borderSize_ →
      (s.procLeft_ ≠ -1 →
        s.unpackBuffers.read s.prev_ j i = vget s.recv_left_buffer_ (i * s.borderSize_ + j)) ∧
      (s.procRight_ ≠ -1 →
        s.unpackBuffers.read s.prev_ (s.nx_ + s.borderSize_ + j) i =
          vget s.recv_right_buffer_ (i * s.borderSize_ + j))) ∧
    (∀ i j, 0 ≤ i → i < A.gy_ → 0 ≤ j → j < A.borderSize_ →
      (B.exchangeEarly earlyB inboxB).read B.prev_ j i =
        (A.arriveEarly earlyA inboxA).read A.prev_ (A.nx_ + j) i ∧
      (A.exchangeEarly earlyA inboxA).read A.prev_ (A.nx_ + A.borderSize_ + j) i =
        (B.arriveEarly earlyB inboxB).read B.prev_ (B.borderSize_ + j) i) ∧
    (∀ i j, 0 ≤ i → i < A.gy_ → 0 ≤ j → j < A.borderSize_ →
      (A.procTop_ = -1 ∨ A.borderSize_ ≤ i) →
      (A.procBot_ = -1 ∨ i < A.gy_ - A.borderSize_) →
      (B.exchangeEarly earlyB inboxB).read B.prev_ j i = A.read A.prev_ (A.nx_ + j) i) ∧
    (∀ i j, 0 ≤ i → i < A.gy_ → 0 ≤ j → j < A.borderSize_ →
      (B.procTop_ = -1 ∨ B.borderSize_ ≤ i) →
      (B.procBot_ = -1 ∨ i < B.gy_ - B.borderSize_) →
      (A.exchangeEarly earlyA inboxA).read A.prev_ (A.nx_ + A.borderSize_ + j) i =
        B.read B.prev_ (B.borderSize_ + j) i) := by
  have hR : A.procRight_ ≠ -1 := by rw [hAB]; exact hrB
  have hL : B.procLeft_ ≠ -1 := by rw [hBA]; exact hrA
  have hsA' := arriveEarly_shaped earlyA inboxA A hsA
  have hsB' := arriveEarly_shaped earlyB inboxB B hsB
  have hcA' := arriveEarly_commReady earlyA inboxA A hcA
  have hcB' := arriveEarly_commReady earlyB inboxB B hcB
  have eA := transferEarly_eq earlyA inboxA A hsA
  have eB := transferEarly_eq earlyB inboxB B hsB
  have hsA0 := hsA
  have hsB0 := hsB
  obtain ⟨a1, a2, a3, a4, a5, a6, a7⟩ := hsA0
  obtain ⟨b1, b2, b3, b4, b5, b6, b7⟩ := hsB0
  have hpA : A.prev_ = 0 ∨ A.prev_ = 1 := by omega
  have hpB : B.prev_ = 0 ∨ B.prev_ = 1 := by omega
  obtain ⟨_, pA2, _, pA4, _⟩ := packBuffers_spec (A.arriveEarly earlyA inboxA)
  obtain ⟨_, _, pB3, _, pB5⟩ := packBuffers_spec (B.arriveEarly earlyB inboxB)
  simp only [arriveEarly_fields] at pA2 pA4 pB3 pB5
  have tA : (A.transferHaloDataASyncEarly earlyA inboxA).send_right_buffer_ =
      (A.arriveEarly earlyA inboxA).packBuffers.send_right_buffer_ := by
    rw [eA, transfer_spec _ hcA']
  have tB : (B.transferHaloDataASyncEarly earlyB inboxB).send_left_buffer_ =
      (B.arriveEarly earlyB inboxB).packBuffers.send_left_buffer_ := by
    rw [eB, transfer_spec _ hcB']
  have lA := (hcA.2.2.1 hR).1
  have lB := (hcB.2.2.2 hL).1
  have packed : ∀ i j, 0 ≤ i → i < A.gy_ → 0 ≤ j → j < A.borderSize_ →
      vget (A.transferHaloDataASyncEarly earlyA inboxA).send_right_buffer_
          (i * A.borderSize_ + j) =
        (A.arriveEarly earlyA inboxA).read A.prev_ (A.nx_ + j) i ∧
      vget (B.transferHaloDataASyncEarly earlyB inboxB).send_left_buffer_
          (i * B.borderSize_ + j) =
        (B.arriveEarly earlyB inboxB).read B.prev_ (B.borderSize_ + j) i := by
    intro i j hi hi' hj hj'
    rw [tA, tB]
    exact ⟨pA4 hR lA i j hi hi' hj hj', pB5 hL lB i j hi (by omega) hj (by omega)⟩
  have content : ∀ (g : Grid R) (early : Int → Bool) (inbox : Int → List R), g.Shaped →
      ∀ x i, 0 ≤ x → x < g.gx_ → 0 ≤ i → i < g.gy_ →
        (g.arriveEarly early inbox).read g.prev_ x i =
          if g.procTop_ ≠ -1 ∧ i < g.borderSize_ ∧
              early (g.prev_ * g.gx_ * g.gy_ + i * g.gx_ + x) = true ∧
              i * g.gx_ + x < (inbox g.procTop_).length then
            vget (inbox g.procTop_) (i * g.gx_ + x)
          else if g.procBot_ ≠ -1 ∧ g.gy_ - g.borderSize_ ≤ i ∧
              early (g.prev_ * g.gx_ * g.gy_ + i * g.gx_ + x) = true ∧
              (i - (g.gy_ - g.borderSize_)) * g.gx_ + x < (inbox g.procBot_).length then
            vget (inbox g.procBot_) ((i - (g.gy_ - g.borderSize_)) * g.gx_ + x)
          else g.read g.prev_ x i := by
    intro g early inbox hs x i hx hx' hi hi'
    have hp : g.prev_ = 0 ∨ g.prev_ = 1 := by
      have := hs.2.2.2.2.2.2
      omega
    rw [arriveEarly_read early inbox g hs g.prev_ x i hp hx hx' hi hi']
    simp only [true_and]
  have got : ∀ i j, 0 ≤ i → i < A.gy_ → 0 ≤ j → j < A.borderSize_ →
      (B.exchangeEarly earlyB inboxB).read B.prev_ j i =
        (A.arriveEarly earlyA inboxA).read A.prev_ (A.nx_ + j) i ∧
      (A.exchangeEarly earlyA inboxA).read A.prev_ (A.nx_ + A.borderSize_ + j) i =
        (B.arriveEarly earlyB inboxB).read B.prev_ (B.borderSize_ + j) i := by
    intro i j hi hi' hj hj'
    obtain ⟨q1, q2⟩ := packed i j hi hi' hj hj'
    have cB := (exchange_read_cols inboxB (B.arriveEarly earlyB inboxB) hsB' hcB' j i hj
      (by rw [(arriveEarly_fields earlyB inboxB B).2.2.1]; omega) hi
      (by rw [(arriveEarly_fields earlyB inboxB B).2.2.2.1]; omega)).1
    have cA := (exchange_read_cols inboxA (A.arriveEarly earlyA inboxA) hsA' hcA'
      (A.nx_ + A.borderSize_ + j) i (by omega)
      (by rw [(arriveEarly_fields earlyA inboxA A).2.2.1]; omega) hi
      (by rw [(arriveEarly_fields earlyA inboxA A).2.2.2.1]; omega)).2
    simp only [arriveEarly_fields] at cB cA
    have hgb : A.gy_ * A.borderSize_ = B.gy_ * B.borderSize_ := by rw [hgy, hb]
    have hj2 : j < B.borderSize_ := by omega
    have hn2 : A.nx_ + A.borderSize_ ≤ A.nx_ + A.borderSize_ + j := by omega
    have lenB : B.gy_ * B.borderSize_ ≤ ((inboxB B.procLeft_).length : Int) := by
      rw [hBA, hdB, tA, pA2, lA, hgb]
    have lenA : A.gy_ * A.borderSize_ ≤ ((inboxA A.procRight_).length : Int) := by
      rw [hAB, hdA, tB, pB3, lB, hgb]
    have rB := cB hL hj2 lenB
    have rA := cA hR hn2 lenA
    constructor
    · rw [exchangeEarly_eq earlyB inboxB B hsB, rB, hBA, hdB, ← hb]
      exact q1
    · rw [exchangeEarly_eq earlyA inboxA A hsA, rA, hAB, hdA]
      rw [← q2, hb]
      congr 2
      omega
  refine ⟨?_, ?_, packed, content, fun g inbox => ⟨transferEarly_never inbox g, arriveEarly_never inbox g⟩,
    fun s inbox => rfl, ?_, got, ?_, ?_⟩
  · have := (transfer_send_requests (A.arriveEarly earlyA inboxA) hcA').1
    simp only [arriveEarly_fields] at this
    rw [eA, ← hAB]
    exact this hR
  · have := (transfer_send_requests (B.arriveEarly earlyB inboxB) hcB').2
    simp only [arriveEarly_fields] at this
    rw [eB, ← hBA]
    exact this hL
  · intro s hs i j hi hi' hj hj'
    have hs' := hs
    obtain ⟨s1, s2, s3, s4, s5, s6, s7⟩ := hs'
    have hp : s.prev_ = 0 ∨ s.prev_ = 1 := by omega
    constructor
    · intro h
      rw [unpackBuffers_read s hs s.prev_ j i hp hj (by omega) hi hi', if_pos ⟨rfl, h, hj'⟩]
    · intro h
      rw [unpackBuffers_read s hs s.prev_ _ i hp (by omega) (by omega) hi hi',
        if_neg (fun h => by omega), if_pos ⟨rfl, h, by omega⟩]
      congr 2
      omega
  · intro i j hi hi' hj hj' hT hB
    rw [(got i j hi hi' hj hj').1]
    exact arriveEarly_read_kept earlyA inboxA A hsA A.prev_ _ i hpA (by omega) (by omega) hi hi'
      (Or.inr hT) (Or.inr hB)
  · intro i j hi hi' hj hj' hT hB
    rw [(got i j hi hi' hj hj').2]
    exact arriveEarly_read_kept earlyB inboxB B hsB B.prev_ _ i hpB (by omega) (by omega) hi
      (by omega) (Or.inr hT) (Or.inr hB)
theorem horizontal_halo_exchange_witness :
    blockRank0.procRight_ = blockRank1.ourRank_ ∧
    blockRank1.procLeft_ = blockRank0.ourRank_ ∧
    blockRank0.gy_ = 7 ∧ blockRank0.borderSize_ = 1 ∧
    blockRank0.procTop_ = -1 ∧ blockRank0.procBot_ = 2 ∧
    (∀ i j, 0 ≤ i → i < blockRank0.gy_ → 0 ≤ j → j < blockRank0.borderSize_ →
      (blockRank0.procTop_ = -1 ∨ blockRank0.borderSize_ ≤ i) →
      (blockRank0.procBot_ = -1 ∨ i < blockRank0.gy_ - blockRank0.borderSize_) →
      (blockRank1.exchangeEarly (fun _ => true) blockInbox1).read blockRank1.prev_ j i =
        blockRank0.read blockRank0.prev_ (blockRank0.nx_ + j) i) :=
  ⟨rfl, rfl, rfl, rfl, rfl, rfl,
    (horizontal_halo_exchange blockRank0 blockRank1 (fun _ => true) (fun _ => true)
      blockInbox0 blockInbox1
      (ctor_shaped _ _ _ _ _ blockRank0_ctor) (ctor_commReady _ _ _ _ _ blockRank0_ctor)
      (ctor_shaped _ _ _ _ _ blockRank1_ctor) (ctor_commReady _ _ _ _ _ blockRank1_ctor)
      rfl rfl (by decide) (by decide) rfl rfl
      (congrArg Grid.send_right_buffer_
        (transferEarly_congr (fun _ => true) (fun _ => List.replicate 7 3) blockInbox0
          blockRank0 rfl rfl))
      (congrArg Grid.send_left_buffer_
        (transferEarly_congr (fun _ => true) (fun _ => List.replicate 7 4) blockInbox1
          blockRank1 rfl rfl))).2.2.2.2.2.2.2.2.1⟩

set_option maxRecDepth 100000 in
/-- Counterexample to C19 as stated, on states reached by the program.  Four
processes run `syncComputation` on the 6 x 6 grid of `raceParams`; after three
iterations in lock step each rank swaps its generations and starts the fourth
exchange.  Rank 2 (lower left block) has the right neighbour rank 3 and the up
neighbour rank 0.  The message of rank 0 is stored in the top halo row of
rank 2 before rank 2 runs its pack loop, so rank 2 packs for row 0 the value
`(4999/20000)^3` just received instead of the value 0 that its cell `(nx, 0)`
had before the exchange; the buffer is delivered unchanged, and after the
exchange the left halo cell `(0, 0)` of rank 3 differs from the value of
`A.prev(nx + 0, 0)` before the exchange. -/
theorem horizontal_halo_exchange_counterexample :
    simParams.ofFile 6 6 1 1 1 1000 2 0 2 true 0 1 0 0 = some raceParams ∧
    (Grid.ctor raceParams false 4 0 = .ok (raceRanks 0) ∧
      Grid.ctor raceParams false 4 1 = .ok (raceRanks 1) ∧
      Grid.ctor raceParams false 4 2 = .ok (raceRanks 2) ∧
      Grid.ctor raceParams false 4 3 = .ok (raceRanks 3)) ∧
    (raceStates 2).procRight_ = (raceStates 3).ourRank_ ∧
    (raceStates 3).procLeft_ = (raceStates 2).ourRank_ ∧
    (raceStates 2).gy_ = (raceStates 3).gy_ ∧
    (raceStates 2).borderSize_ = 1 ∧ (raceStates 2).gy_ = 5 ∧
    (raceStates 2).procTop_ = (raceStates 0).ourRank_ ∧
    raceInbox2 (raceStates 0).ourRank_ =
      vslice (raceStates 0).grid_
        ((raceStates 0).prev_ * (raceStates 0).gx_ * (raceStates 0).gy_ +
          ((raceStates 0).gy_ - 2 * (raceStates 0).borderSize_) * (raceStates 0).gx_)
        ((raceStates 0).gx_ * (raceStates 0).borderSize_) ∧
    raceInbox3 (raceStates 2).ourRank_ =
      ((raceStates 2).transferHaloDataASyncEarly (fun _ => true)
        raceInbox2).send_right_buffer_ ∧
    (raceStates 2).read (raceStates 2).prev_ ((raceStates 2).nx_ + 0) 0 = 0 ∧
    ((raceStates 3).exchangeEarly (fun _ => false) raceInbox3).read
      (raceStates 3).prev_ 0 0 = (4999 / 20000) ^ 3 ∧
    ((raceStates 3).exchangeEarly (fun _ => false) raceInbox3).read
        (raceStates 3).prev_ 0 0 ≠
      (raceStates 2).read (raceStates 2).prev_ ((raceStates 2).nx_ + 0) 0 :=
  ⟨raceParams_ofFile, raceRanks_ctor, by decide!⟩
/-! ## Vertical halo exchange -/

/-- Claim C20 (amended): `transferHaloDataASync` hands to MPI, addressed to the
up neighbour, the slice of `gx * b` previous-generation values of rows
`[b, 2b)`, and addressed to the down neighbour the slice of rows `[ny, ny + b)`,
whatever has been stored early; the wait loop of `waitForRecvs` leaves the
message of the up neighbour in rows `[0, b)` and that of the down neighbour in
rows `[ny + b, ny + 2b)`.  When the down neighbour of `A` is `B` (same `gx` and
border) and each message is delivered unchanged, then after the wait loop
`B.prev(x, y) = A.prev(x, nyA + y)` and `A.prev(x, nyA + b + y) = B.prev(x, b + y)`
for all `0 ≤ x < gx`, `0 ≤ y < b`, the right-hand sides being the values before
the exchange; after the whole exchange this holds for the columns that are not
halo columns of a left or right neighbour of the receiver, while in such halo
columns the unpack loop has stored in rows `[0, b)` of `B` and in rows
`[ny + b, ny + 2b)` of `A` the message of that left or right neighbour. -/
theorem vertical_halo_exchange {R : Type} [Zero R] (A B : Grid R)
    (earlyA earlyB : Int → Bool) (inboxA inboxB : Int → List R)
    (hsA : A.Shaped) (hcA : A.CommReady) (hsB : B.Shaped) (hcB : B.CommReady)
    (hAB : A.procBot_ = B.ourRank_) (hBA : B.procTop_ = A.ourRank_)
    (hrB : B.ourRank_ ≠ -1) (hrA : A.ourRank_ ≠ -1)
    (hgx : A.gx_ = B.gx_) (hb : A.borderSize_ = B.borderSize_)
    (hdB : inboxB A.ourRank_ =
      vslice A.grid_ (A.prev_ * A.gx_ * A.gy_ + (A.gy_ - 2 * A.borderSize_) * A.gx_)
        (A.gx_ * A.borderSize_))
    (hdA : inboxA B.ourRank_ =
      vslice B.grid_ (B.prev_ * B.gx_ * B.gy_ + B.borderSize_ * B.gx_)
        (B.gx_ * B.borderSize_)) :
    some ({ dest := B.ourRank_, data := inboxB A.ourRank_ } : SendOp R) ∈
      (A.transferHaloDataASyncEarly earlyA inboxA).send_requests_ ∧
    some ({ dest := A.ourRank_, data := inboxA B.ourRank_ } : SendOp R) ∈
      (B.transferHaloDataASyncEarly earlyB inboxB).send_requests_ ∧
    (∀ x y, 0 ≤ x → x < A.gx_ → 0 ≤ y → y < A.borderSize_ →
      vget (inboxB A.ourRank_) (y * A.gx_ + x) = A.read A.prev_ x (A.ny_ + y) ∧
      vget (inboxA B.ourRank_) (y * B.gx_ + x) = B.read B.prev_ x (B.borderSize_ + y)) ∧
    (∀ x y, 0 ≤ x → x < A.gx_ → 0 ≤ y → y < A.borderSize_ →
      (((B.transferHaloDataASyncEarly earlyB inboxB).waitForSends).completeAll inboxB).read
          B.prev_ x y = A.read A.prev_ x (A.ny_ + y) ∧
      (((A.transferHaloDataASyncEarly earlyA inboxA).waitForSends).completeAll inboxA).read
          A.prev_ x (A.ny_ + A.borderSize_ + y) = B.read B.prev_ x (B.borderSize_ + y)) ∧
    (∀ x y, 0 ≤ x → x < A.gx_ → 0 ≤ y → y < A.borderSize_ →
      (B.procLeft_ = -1 ∨ B.borderSize_ ≤ x) →
      (B.procRight_ = -1 ∨ x < B.nx_ + B.borderSize_) →
      (B.exchangeEarly earlyB inboxB).read B.prev_ x y = A.read A.prev_ x (A.ny_ + y)) ∧
    (∀ x y, 0 ≤ x → x < A.gx_ → 0 ≤ y → y < A.borderSize_ →
      (A.procLeft_ = -1 ∨ A.borderSize_ ≤ x) →
      (A.procRight_ = -1 ∨ x < A.nx_ + A.borderSize_) →
      (A.exchangeEarly earlyA inboxA).read A.prev_ x (A.ny_ + A.borderSize_ + y) =
        B.read B.prev_ x (B.borderSize_ + y)) ∧
    (∀ x y, 0 ≤ x → x < A.gx_ → 0 ≤ y → y < A.borderSize_ →
      (B.procLeft_ ≠ -1 → x < B.borderSize_ →
        B.gy_ * B.borderSize_ ≤ (inboxB B.procLeft_).length →
        (B.exchangeEarly earlyB inboxB).read B.prev_ x y =
          vget (inboxB B.procLeft_) (y * B.borderSize_ + x)) ∧
      (B.procRight_ ≠ -1 → B.nx_ + B.borderSize_ ≤ x →
        B.gy_ * B.borderSize_ ≤ (inboxB B.procRight_).length →
        (B.exchangeEarly earlyB inboxB).read B.prev_ x y =
          vget (inboxB B.procRight_)
            (y * B.borderSize_ + (x - B.nx_ - B.borderSize_)))) ∧
    (∀ x y, 0 ≤ x → x < A.gx_ → 0 ≤ y → y < A.borderSize_ →
      (A.procLeft_ ≠ -1 → x < A.borderSize_ →
        A.gy_ * A.borderSize_ ≤ (inboxA A.procLeft_).length →
        (A.exchangeEarly earlyA inboxA).read A.prev_ x (A.ny_ + A.borderSize_ + y) =
          vget (inboxA A.procLeft_) ((A.ny_ + A.borderSize_ + y) * A.borderSize_ + x)) ∧
      (A.procRight_ ≠ -1 → A.nx_ + A.borderSize_ ≤ x →
        A.gy_ * A.borderSize_ ≤ (inboxA A.procRight_).length →
        (A.exchangeEarly earlyA inboxA).read A.prev_ x (A.ny_ + A.borderSize_ + y) =
          vget (inboxA A.procRight_)
            ((A.ny_ + A.borderSize_ + y) * A.borderSize_ +
              (x - A.nx_ - A.borderSize_)))) := by
  have hB : A.procBot_ ≠ -1 := by rw [hAB]; exact hrB
  have hT : B.procTop_ ≠ -1 := by rw [hBA]; exact hrA
  have hsA' := arriveEarly_shaped earlyA inboxA A hsA
  have hsB' := arriveEarly_shaped earlyB inboxB B hsB
  have hcA' := arriveEarly_commReady earlyA inboxA A hcA
  have hcB' := arriveEarly_commReady earlyB inboxB B hcB
  have eA := transferEarly_eq earlyA inboxA A hsA
  have eB := transferEarly_eq earlyB inboxB B hsB
  have xA := exchangeEarly_eq earlyA inboxA A hsA
  have xB := exchangeEarly_eq earlyB inboxB B hsB
  have hsA0 := hsA
  have hsB0 := hsB
  obtain ⟨a1, a2, a3, a4, a5, a6, a7⟩ := hsA0
  obtain ⟨b1, b2, b3, b4, b5, b6, b7⟩ := hsB0
  obtain ⟨lenA, valA⟩ := rowSlice_spec A hsA (A.gy_ - 2 * A.borderSize_) (by omega) (by omega)
  obtain ⟨lenB, valB⟩ := rowSlice_spec B hsB B.borderSize_ (by omega) (by omega)
  rw [← hdB] at lenA valA
  rw [← hdA] at lenB valB
  have msgs : ∀ x y, 0 ≤ x → x < A.gx_ → 0 ≤ y → y < A.borderSize_ →
      vget (inboxB A.ourRank_) (y * A.gx_ + x) = A.read A.prev_ x (A.ny_ + y) ∧
      vget (inboxA B.ourRank_) (y * B.gx_ + x) = B.read B.prev_ x (B.borderSize_ + y) := by
    intro x y hx hx' hy hy'
    refine ⟨?_, valB x y hx (by omega) hy (by omega)⟩
    rw [valA x y hx hx' hy hy']
    congr 1
    omega
  have lrB := fun x y hx hx' hy hy' =>
    landed_read_rows inboxB (B.arriveEarly earlyB inboxB) hsB' x y hx hx' hy hy'
  have lrA := fun x y hx hx' hy hy' =>
    landed_read_rows inboxA (A.arriveEarly earlyA inboxA) hsA' x y hx hx' hy hy'
  simp only [arriveEarly_fields] at lrA lrB
  have landB : ∀ x y, 0 ≤ x → x < A.gx_ → 0 ≤ y → y < A.borderSize_ →
      ((B.arriveEarly earlyB inboxB).landed inboxB).read B.prev_ x y =
        A.read A.prev_ x (A.ny_ + y) := by
    intro x y hx hx' hy hy'
    have hgb : A.gx_ * A.borderSize_ = B.gx_ * B.borderSize_ := by rw [hgx, hb]
    rw [(lrB x y hx (by omega) hy (by omega)).1 hT
      (by rw [hBA, lenA, hgb]) (by omega), hBA, ← hgx]
    exact (msgs x y hx hx' hy hy').1
  have landA : ∀ x y, 0 ≤ x → x < A.gx_ → 0 ≤ y → y < A.borderSize_ →
      ((A.arriveEarly earlyA inboxA).landed inboxA).read A.prev_ x
          (A.ny_ + A.borderSize_ + y) = B.read B.prev_ x (B.borderSize_ + y) := by
    intro x y hx hx' hy hy'
    have hgb : A.gx_ * A.borderSize_ = B.gx_ * B.borderSize_ := by rw [hgx, hb]
    rw [(lrA x _ hx hx' (by omega) (by omega)).2 hB
      (by rw [hAB, lenB, hgb]) (by omega), hAB]
    have e : A.ny_ + A.borderSize_ + y - (A.gy_ - A.borderSize_) = y := by omega
    rw [← (msgs x y hx hx' hy hy').2, hgx, e]
  obtain ⟨sl1, sl2⟩ := arriveEarly_slices earlyA inboxA A hsA
  obtain ⟨sl3, sl4⟩ := arriveEarly_slices earlyB inboxB B hsB
  have emA := fun x y hx hx' hy hy' hl hr =>
    exchange_read_mid inboxA (A.arriveEarly earlyA inboxA) hsA' hcA' x y hx hx' hy hy' hl hr
  have emB := fun x y hx hx' hy hy' hl hr =>
    exchange_read_mid inboxB (B.arriveEarly earlyB inboxB) hsB' hcB' x y hx hx' hy hy' hl hr
  have ecA := fun x y hx hx' hy hy' =>
    exchange_read_cols inboxA (A.arriveEarly earlyA inboxA) hsA' hcA' x y hx hx' hy hy'
  have ecB := fun x y hx hx' hy hy' =>
    exchange_read_cols inboxB (B.arriveEarly earlyB inboxB) hsB' hcB' x y hx hx' hy hy'
  simp only [arriveEarly_fields] at emA emB ecA ecB
  refine ⟨?_, ?_, msgs, ?_, ?_, ?_, ?_, ?_⟩
  · have := (transfer_send_vertical (A.arriveEarly earlyA inboxA) hcA').2
    simp only [arriveEarly_fields] at this
    rw [sl2] at this
    rw [hdB, ← hAB, eA]
    exact this hB
  · have := (transfer_send_vertical (B.arriveEarly earlyB inboxB) hcB').1
    simp only [arriveEarly_fields] at this
    have e : B.borderSize_ * B.gx_ = B.gx_ * B.borderSize_ := by ring
    rw [e, sl3] at this
    rw [hdA, ← hBA, eB, e]
    exact this hT
  · intro x y hx hx' hy hy'
    obtain ⟨lA, _, eA'⟩ := received_eq inboxA (A.arriveEarly earlyA inboxA) hcA'
    obtain ⟨lB, _, eB'⟩ := received_eq inboxB (B.arriveEarly earlyB inboxB) hcB'
    rw [eA, eB, eA', eB']
    exact ⟨landB x y hx hx' hy hy', landA x y hx hx' hy hy'⟩
  · intro x y hx hx' hy hy' hl hr
    rw [xB, emB x y hx (by omega) hy (by omega) hl hr]
    exact landB x y hx hx' hy hy'
  · intro x y hx hx' hy hy' hl hr
    rw [xA, emA x _ hx hx' (by omega) (by omega) hl hr]
    exact landA x y hx hx' hy hy'
  · intro x y hx hx' hy hy'
    rw [xB]
    exact ecB x y hx (by omega) hy (by omega)
  · intro x y hx hx' hy hy'
    rw [xA]
    exact ecA x _ hx hx' (by omega) (by omega)

theorem vertical_halo_exchange_witness :
    blockRank1.procBot_ = blockRank3.ourRank_ ∧ blockRank3.procTop_ = blockRank1.ourRank_ ∧
    blockRank1.gx_ = blockRank3.gx_ ∧ blockRank1.borderSize_ = blockRank3.borderSize_ ∧
    blockRank3.procLeft_ = 2 ∧ blockRank3.procRight_ = -1 ∧
    (∀ x y, 0 ≤ x → x < blockRank1.gx_ → 0 ≤ y → y < blockRank1.borderSize_ →
      (blockRank3.procLeft_ = -1 ∨ blockRank3.borderSize_ ≤ x) →
      (blockRank3.procRight_ = -1 ∨ x < blockRank3.nx_ + blockRank3.borderSize_) →
      (blockRank3.exchangeEarly (fun _ => true)
        (fun _ => vslice blockRank1.grid_
          (blockRank1.prev_ * blockRank1.gx_ * blockRank1.gy_ +
            (blockRank1.gy_ - 2 * blockRank1.borderSize_) * blockRank1.gx_)
          (blockRank1.gx_ * blockRank1.borderSize_))).read blockRank3.prev_ x y =
        blockRank1.read blockRank1.prev_ x (blockRank1.ny_ + y)) :=
  ⟨rfl, rfl, rfl, rfl, rfl, rfl,
    (vertical_halo_exchange blockRank1 blockRank3 (fun _ => true) (fun _ => true)
      (fun _ => vslice blockRank3.grid_
        (blockRank3.prev_ * blockRank3.gx_ * blockRank3.gy_ +
          blockRank3.borderSize_ * blockRank3.gx_)
        (blockRank3.gx_ * blockRank3.borderSize_))
      (fun _ => vslice blockRank1.grid_
        (blockRank1.prev_ * blockRank1.gx_ * blockRank1.gy_ +
          (blockRank1.gy_ - 2 * blockRank1.borderSize_) * blockRank1.gx_)
        (blockRank1.gx_ * blockRank1.borderSize_))
      (ctor_shaped _ _ _ _ _ blockRank1_ctor) (ctor_commReady _ _ _ _ _ blockRank1_ctor)
      (ctor_shaped _ _ _ _ _ blockRank3_ctor) (ctor_commReady _ _ _ _ _ blockRank3_ctor)
      rfl rfl (by decide) (by decide) rfl rfl rfl rfl).2.2.2.2.1⟩

set_option maxRecDepth 100000 in
/-- Counterexample to C20 as stated, on states reached by the program.  In the
run of `raceParams` (four processes, three iterations in lock step, then
`swapState` and the fourth exchange) rank 1 is the up neighbour of rank 3 and
rank 2 its left neighbour.  Rank 1 sends its rows `[ny, ny + b)`; its cell
`(0, ny)` holds 0 before the exchange.  Rank 2 packs its send buffer after the
message of rank 0 has been stored in its top halo row.  Every message is
delivered unchanged, and after the exchange the cell `(0, 0)` of rank 3 holds
`(4999/20000)^3`, the value packed by rank 2, not the value 0 of
`A.prev(0, nyA + 0)`. -/
theorem vertical_halo_exchange_counterexample :
    simParams.ofFile 6 6 1 1 1 1000 2 0 2 true 0 1 0 0 = some raceParams ∧
    (Grid.ctor raceParams false 4 0 = .ok (raceRanks 0) ∧
      Grid.ctor raceParams false 4 1 = .ok (raceRanks 1) ∧
      Grid.ctor raceParams false 4 2 = .ok (raceRanks 2) ∧
      Grid.ctor raceParams false 4 3 = .ok (raceRanks 3)) ∧
    (raceStates 1).procBot_ = (raceStates 3).ourRank_ ∧
    (raceStates 3).procTop_ = (raceStates 1).ourRank_ ∧
    (raceStates 3).procLeft_ = (raceStates 2).ourRank_ ∧
    (raceStates 1).gx_ = (raceStates 3).gx_ ∧
    (raceStates 1).borderSize_ = 1 ∧ (raceStates 1).gx_ = 5 ∧ (raceStates 1).ny_ = 3 ∧
    raceInbox3 (raceStates 1).ourRank_ =
      vslice (raceStates 1).grid_
        ((raceStates 1).prev_ * (raceStates 1).gx_ * (raceStates 1).gy_ +
          ((raceStates 1).gy_ - 2 * (raceStates 1).borderSize_) * (raceStates 1).gx_)
        ((raceStates 1).gx_ * (raceStates 1).borderSize_) ∧
    raceInbox3 (raceStates 2).ourRank_ =
      ((raceStates 2).transferHaloDataASyncEarly (fun _ => true)
        raceInbox2).send_right_buffer_ ∧
    (raceStates 1).read (raceStates 1).prev_ 0 ((raceStates 1).ny_ + 0) = 0 ∧
    ((raceStates 3).exchangeEarly (fun _ => false) raceInbox3).read
      (raceStates 3).prev_ 0 0 = (4999 / 20000) ^ 3 ∧
    ((raceStates 3).exchangeEarly (fun _ => false) raceInbox3).read
        (raceStates 3).prev_ 0 0 ≠
      (raceStates 1).read (raceStates 1).prev_ 0 ((raceStates 1).ny_ + 0) :=
  ⟨raceParams_ofFile, raceRanks_ctor, by decide!⟩
/-! ## Checked accesses -/

theorem andThen_some {α β : Type} (a : α) (k : α → Option β) : andThen (some a) k = k a := rfl

theorem andThen_none {α β : Type} (k : α → Option β) : andThen none k = none := rfl

theorem andThen_eq_some {α β : Type} (o : Option α) (k : α → Option β) (b : β)
    (h : andThen o k = some b) : ∃ a, o = some a ∧ k a = some b := by
  cases o with
  | none => exact absurd h (by simp [andThen])
  | some a => exact ⟨a, rfl, h⟩

theorem intOp_some (z : Int) (h : InInt z) : intOp z = some z := by
  unfold intOp
  exact if_pos h

theorem intOp_eq_some (z w : Int) (h : intOp z = some w) : w = z ∧ InInt z := by
  unfold intOp at h
  split_ifs at h with hz
  exact ⟨(Option.some.inj h).symm, hz⟩

theorem intOp_none (z : Int) (h : INT_MAX < z) : intOp z = none := by
  unfold intOp
  exact if_neg (fun hz => by omega)

/-- A checked loop whose body succeeds with the value of an unchecked body on
every state that satisfies an invariant succeeds with the result of the
unchecked loop. -/
theorem forLoopC_eq {σ : Type} (Q : σ → Prop) (lo hi : Int) (bodyC : Int → σ → Option σ)
    (body : Int → σ → σ) (s : σ) (h0 : Q s)
    (hstep : ∀ i t, lo ≤ i → i < hi → Q t → bodyC i t = some (body i t) ∧ Q (body i t)) :
    forLoopC lo hi bodyC s = some (forLoop lo hi body s) ∧ Q (forLoop lo hi body s) := by
  unfold forLoopC forLoop
  have key : ∀ m : Nat, m ≤ (hi - lo).toNat →
      (List.range m).foldl (fun acc (k : Nat) => andThen acc (bodyC (lo + Int.ofNat k)))
          (some s) =
        some ((List.range m).foldl (fun acc (k : Nat) => body (lo + Int.ofNat k) acc) s) ∧
      Q ((List.range m).foldl (fun acc (k : Nat) => body (lo + Int.ofNat k) acc) s) := by
    intro m
    induction m with
    | zero => intro _; exact ⟨rfl, h0⟩
    | succ m ih =>
      intro hm
      obtain ⟨e, q⟩ := ih (by omega)
      rw [List.range_succ, List.foldl_append, List.foldl_append, e]
      simp only [List.foldl_cons, List.foldl_nil, andThen_some]
      exact hstep _ _ (by simp) (by simp only [Int.ofNat_eq_coe]; omega) q
  exact key _ (le_refl _)

theorem foldl_andThen_none {α σ : Type} (f : α → σ → Option σ) (l : List α) :
    l.foldl (fun acc a => andThen acc (f a)) none = none := by
  induction l with
  | nil => rfl
  | cons a l ih => rw [List.foldl_cons, andThen_none, ih]

/-- A checked loop fails when its body fails at some index on every state that
satisfies an invariant kept by the successful steps. -/
theorem forLoopC_none {σ : Type} (Q : σ → Prop) (lo hi : Int) (bodyC : Int → σ → Option σ)
    (s : σ) (h0 : Q s)
    (hkeep : ∀ i t t', lo ≤ i → i < hi → Q t → bodyC i t = some t' → Q t')
    (k : Int) (hk : lo ≤ k) (hk' : k < hi) (hfail : ∀ t, Q t → bodyC k t = none) :
    forLoopC lo hi bodyC s = none := by
  unfold forLoopC
  have key : ∀ m : Nat, m ≤ (hi - lo).toNat →
      (∀ t, (List.range m).foldl (fun acc (j : Nat) => andThen acc (bodyC (lo + Int.ofNat j)))
          (some s) = some t → Q t) ∧
      ((k - lo).toNat < m →
        (List.range m).foldl (fun acc (j : Nat) => andThen acc (bodyC (lo + Int.ofNat j)))
          (some s) = none) := by
    intro m
    induction m with
    | zero =>
      intro _
      refine ⟨?_, fun h => absurd h (by omega)⟩
      intro t ht
      have : s = t := Option.some.inj ht
      rw [← this]
      exact h0
    | succ m ih =>
      intro hm
      obtain ⟨q, e⟩ := ih (by omega)
      rw [List.range_succ, List.foldl_append]
      simp only [List.foldl_cons, List.foldl_nil]
      constructor
      · intro t ht
        obtain ⟨a, ha, hb⟩ := andThen_eq_some _ _ _ ht
        exact hkeep _ a t (by simp) (by simp only [Int.ofNat_eq_coe]; omega) (q a ha) hb
      · intro hlt
        by_cases hm' : (k - lo).toNat < m
        · rw [e hm', andThen_none]
        · have hkm : lo + Int.ofNat m = k := by
            simp only [Int.ofNat_eq_coe]
            omega
          rw [hkm]
          cases hprev : (List.range m).foldl
              (fun acc (j : Nat) => andThen acc (bodyC (lo + Int.ofNat j))) (some s) with
          | none => rfl
          | some a =>
            rw [andThen_some]
            exact hfail a (q a hprev)
  exact (key _ (le_refl _)).2 (by omega)

/-- The state reached by a successful checked loop satisfies every invariant
kept by its successful steps. -/
theorem forLoopC_keeps {σ : Type} (Q : σ → Prop) (lo hi : Int) (bodyC : Int → σ → Option σ)
    (s t : σ) (h0 : Q s)
    (hkeep : ∀ i u u', lo ≤ i → i < hi → Q u → bodyC i u = some u' → Q u')
    (h : forLoopC lo hi bodyC s = some t) : Q t := by
  unfold forLoopC at h
  have key : ∀ m : Nat, m ≤ (hi - lo).toNat →
      ∀ t, (List.range m).foldl (fun acc (j : Nat) => andThen acc (bodyC (lo + Int.ofNat j)))
          (some s) = some t → Q t := by
    intro m
    induction m with
    | zero =>
      intro _ t ht
      have : s = t := Option.some.inj ht
      rw [← this]
      exact h0
    | succ m ih =>
      intro hm t ht
      rw [List.range_succ, List.foldl_append] at ht
      simp only [List.foldl_cons, List.foldl_nil] at ht
      obtain ⟨a, ha, hb⟩ := andThen_eq_some _ _ _ ht
      exact hkeep _ a t (by simp) (by simp only [Int.ofNat_eq_coe]; omega)
        (ih (by omega) a ha) hb
  exact key _ (le_refl _) t h

/-- The index expression of `operator()` is computed without overflow, with its
exact value, for every cell of a grid whose storage can be indexed in `int`. -/
theorem index_eq {R : Type} (g : Grid R) (hgx : 0 < g.gx_) (hgy : 0 < g.gy_) (hf : g.FitsInt)
    (sel x y : Int) (hsel : sel = 0 ∨ sel = 1)
    (hx : 0 ≤ x) (hx' : x < g.gx_) (hy : 0 ≤ y) (hy' : y < g.gy_) :
    g.index sel x y = some (sel * g.gx_ * g.gy_ + y * g.gx_ + x) := by
  unfold Grid.FitsInt at hf
  have e2 : 2 * g.gx_ * g.gy_ = 2 * (g.gx_ * g.gy_) := by ring
  have h1 : g.gx_ * 1 ≤ g.gx_ * g.gy_ := Int.mul_le_mul_of_nonneg_left (by omega) (by omega)
  have h2 : y * g.gx_ ≤ (g.gy_ - 1) * g.gx_ :=
    Int.mul_le_mul_of_nonneg_right (by omega) (by omega)
  have e3 : (g.gy_ - 1) * g.gx_ = g.gx_ * g.gy_ - g.gx_ := by ring
  have h3 : 0 ≤ y * g.gx_ := Int.mul_nonneg hy (by omega)
  unfold Grid.index
  rcases hsel with rfl | rfl
  · have z1 : (0 : Int) * g.gx_ = 0 := by ring
    have z2 : (0 : Int) * g.gy_ = 0 := by ring
    rw [z1, intOp_some 0 (by unfold InInt INT_MIN INT_MAX; omega), andThen_some, z2,
      intOp_some 0 (by unfold InInt INT_MIN INT_MAX; omega), andThen_some,
      intOp_some _ (by unfold InInt INT_MIN INT_MAX; omega), andThen_some,
      intOp_some _ (by unfold InInt INT_MIN INT_MAX; omega), andThen_some,
      intOp_some _ (by unfold InInt INT_MIN INT_MAX; omega)]
  · have z1 : (1 : Int) * g.gx_ = g.gx_ := by ring
    rw [z1, intOp_some _ (by unfold InInt INT_MIN INT_MAX; omega), andThen_some,
      intOp_some _ (by unfold InInt INT_MIN INT_MAX; omega), andThen_some,
      intOp_some _ (by unfold InInt INT_MIN INT_MAX; omega), andThen_some,
      intOp_some _ (by unfold InInt INT_MIN INT_MAX; omega), andThen_some,
      intOp_some _ (by unfold InInt INT_MIN INT_MAX; omega)]

theorem fitsInt_of_sameFrame {R : Type} (g t : Grid R) (h : g.SameFrame t) (hf : g.FitsInt) :
    t.FitsInt := by
  obtain ⟨e1, e2, _⟩ := commFrame_of_sameFrame g t h
  unfold Grid.FitsInt
  rw [e1, e2]
  exact hf

/-- A checked read of a cell of the grid succeeds with the value read by
`operator()`. -/
theorem readC_eq {R : Type} [Zero R] (g : Grid R) (hs : g.Shaped) (hf : g.FitsInt)
    (sel x y : Int) (hsel : sel = 0 ∨ sel = 1)
    (hx : 0 ≤ x) (hx' : x < g.gx_) (hy : 0 ≤ y) (hy' : y < g.gy_) :
    g.readC sel x y = some (g.read sel x y) := by
  obtain ⟨s1, s2, s3, s4, s5, s6, s7⟩ := hs
  obtain ⟨b1, b2⟩ := cellIndex_bounds g.gx_ g.gy_ sel x y hsel hx hx' hy hy'
  unfold Grid.readC
  rw [if_pos ⟨hsel, hx, hx', hy, hy'⟩,
    index_eq g (by omega) (by omega) hf sel x y hsel hx hx' hy hy', andThen_some]
  unfold vgetC Grid.read
  rw [if_pos ⟨b1, by rw [s6]; exact b2⟩]

/-- A checked assignment to a cell of the grid succeeds with the state after
the assignment through `operator()`. -/
theorem writeC_eq {R : Type} (g : Grid R) (hs : g.Shaped) (hf : g.FitsInt)
    (sel x y : Int) (v : R) (hsel : sel = 0 ∨ sel = 1)
    (hx : 0 ≤ x) (hx' : x < g.gx_) (hy : 0 ≤ y) (hy' : y < g.gy_) :
    g.writeC sel x y v = some (g.write sel x y v) := by
  obtain ⟨s1, s2, s3, s4, s5, s6, s7⟩ := hs
  obtain ⟨b1, b2⟩ := cellIndex_bounds g.gx_ g.gy_ sel x y hsel hx hx' hy hy'
  unfold Grid.writeC
  rw [if_pos ⟨hsel, hx, hx', hy, hy'⟩,
    index_eq g (by omega) (by omega) hf sel x y hsel hx hx' hy hy', andThen_some]
  unfold vsetC Grid.write
  rw [if_pos ⟨b1, by rw [s6]; exact b2⟩, andThen_some]

theorem stencil2C_safe {R : Type} [Ring R] :
    StencilSafe (stencil2C : StencilC R) stencil2 1 := by
  intro t x y xcfl ycfl prev hs hf hp hx hx' hy hy'
  have r := fun x' y' h1 h2 h3 h4 => readC_eq t hs hf prev x' y' hp h1 h2 h3 h4
  unfold stencil2C stencil2
  rw [r x y (by omega) (by omega) (by omega) (by omega), andThen_some,
    r (x + 1) y (by omega) (by omega) (by omega) (by omega), andThen_some,
    r (x - 1) y (by omega) (by omega) (by omega) (by omega), andThen_some,
    r x (y + 1) (by omega) (by omega) (by omega) (by omega), andThen_some,
    r x (y - 1) (by omega) (by omega) (by omega) (by omega), andThen_some]

theorem stencil4C_safe {R : Type} [Ring R] :
    StencilSafe (stencil4C : StencilC R) stencil4 2 := by
  intro t x y xcfl ycfl prev hs hf hp hx hx' hy hy'
  have r := fun x' y' h1 h2 h3 h4 => readC_eq t hs hf prev x' y' hp h1 h2 h3 h4
  unfold stencil4C stencil4
  rw [r x y (by omega) (by omega) (by omega) (by omega), andThen_some,
    r (x + 2) y (by omega) (by omega) (by omega) (by omega), andThen_some,
    r (x + 1) y (by omega) (by omega) (by omega) (by omega), andThen_some,
    r (x - 1) y (by omega) (by omega) (by omega) (by omega), andThen_some,
    r (x - 2) y (by omega) (by omega) (by omega) (by omega), andThen_some,
    r x (y + 2) (by omega) (by omega) (by omega) (by omega), andThen_some,
    r x (y + 1) (by omega) (by omega) (by omega) (by omega), andThen_some,
    r x (y - 1) (by omega) (by omega) (by omega) (by omega), andThen_some,
    r x (y - 2) (by omega) (by omega) (by omega) (by omega), andThen_some]

theorem stencil8C_safe {R : Type} [Ring R] :
    StencilSafe (stencil8C : StencilC R) stencil8 4 := by
  intro t x y xcfl ycfl prev hs hf hp hx hx' hy hy'
  have r := fun x' y' h1 h2 h3 h4 => readC_eq t hs hf prev x' y' hp h1 h2 h3 h4
  unfold stencil8C stencil8
  rw [r x y (by omega) (by omega) (by omega) (by omega), andThen_some,
    r (x + 4) y (by omega) (by omega) (by omega) (by omega), andThen_some,
    r (x + 3) y (by omega) (by omega) (by omega) (by omega), andThen_some,
    r (x + 2) y (by omega) (by omega) (by omega) (by omega), andThen_some,
    r (x + 1) y (by omega) (by omega) (by omega) (by omega), andThen_some,
    r (x - 1) y (by omega) (by omega) (by omega) (by omega), andThen_some,
    r (x - 2) y (by omega) (by omega) (by omega) (by omega), andThen_some,
    r (x - 3) y (by omega) (by omega) (by omega) (by omega), andThen_some,
    r (x - 4) y (by omega) (by omega) (by omega) (by omega), andThen_some,
    r x (y + 4) (by omega) (by omega) (by omega) (by omega), andThen_some,
    r x (y + 3) (by omega) (by omega) (by omega) (by omega), andThen_some,
    r x (y + 2) (by omega) (by omega) (by omega) (by omega), andThen_some,
    r x (y + 1) (by omega) (by omega) (by omega) (by omega), andThen_some,
    r x (y - 1) (by omega) (by omega) (by omega) (by omega), andThen_some,
    r x (y - 2) (by omega) (by omega) (by omega) (by omega), andThen_some,
    r x (y - 3) (by omega) (by omega) (by omega) (by omega), andThen_some,
    r x (y - 4) (by omega) (by omega) (by omega) (by omega), andThen_some]
/-! ## The checked loop nests -/

/-- One checked stencil assignment at a cell whose distance to the edges is at
least the radius succeeds with the unchecked assignment. -/
theorem stencilWriteC_eq {R : Type} (stC : StencilC R) (st : Stencil R) (ρ : Int)
    (hst : StencilSafe stC st ρ) (g t : Grid R) (hs : g.Shaped) (hf : g.FitsInt)
    (hq : g.SameFrame t) (xcfl ycfl : R) (curr prev : Int)
    (hc : curr = 0 ∨ curr = 1) (hp : prev = 0 ∨ prev = 1) (x y : Int)
    (hx : ρ ≤ x) (hx' : x + ρ < g.gx_) (hy : ρ ≤ y) (hy' : y + ρ < g.gy_) (hρ : 0 ≤ ρ) :
    (andThen (stC t x y xcfl ycfl prev) fun v => t.writeC curr x y v) =
      some (t.write curr x y (st t x y xcfl ycfl prev)) ∧
    g.SameFrame (t.write curr x y (st t x y xcfl ycfl prev)) := by
  obtain ⟨e1, e2, _⟩ := commFrame_of_sameFrame g t hq
  have hs' := shaped_of_sameFrame g t hq hs
  have hf' := fitsInt_of_sameFrame g t hq hf
  rw [hst t x y xcfl ycfl prev hs' hf' hp hx (by omega) hy (by omega), andThen_some,
    writeC_eq t hs' hf' curr x y _ hc (by omega) (by omega) (by omega) (by omega)]
  exact ⟨rfl, sameFrame_write g t hq _ _ _ _⟩

theorem interiorPassC_eq {R : Type} (stC : StencilC R) (st : Stencil R) (ρ : Int)
    (hst : StencilSafe stC st ρ) (g : Grid R) (hs : g.Shaped) (hf : g.FitsInt)
    (hρ : ρ = g.borderSize_) (xcfl ycfl : R) (curr prev : Int)
    (hc : curr = 0 ∨ curr = 1) (hp : prev = 0 ∨ prev = 1) :
    interiorPassC stC xcfl ycfl curr prev g = some (interiorPass st xcfl ycfl curr prev g) ∧
    g.SameFrame (interiorPass st xcfl ycfl curr prev g) := by
  obtain ⟨s1, s2, s3, s4, s5, s6, s7⟩ := hs
  unfold interiorPassC interiorPass
  refine forLoopC_eq (fun t => g.SameFrame t) _ _ _ _ _ (sameFrame_refl g) ?_
  intro y t hy hy' hq
  obtain ⟨e1, e2, e3, e4, e5, _⟩ := commFrame_of_sameFrame g t hq
  refine forLoopC_eq (fun u => g.SameFrame u) _ _ _ _ _ hq ?_
  intro x u hx hx' hu
  exact stencilWriteC_eq stC st ρ hst g u ⟨s1, s2, s3, s4, s5, s6, s7⟩ hf hu xcfl ycfl curr
    prev hc hp x y (by omega) (by omega) (by omega) (by omega) (by omega)

theorem topBottomPassC_eq {R : Type} (stC : StencilC R) (st : Stencil R) (ρ : Int)
    (hst : StencilSafe stC st ρ) (g : Grid R) (hs : g.Shaped) (hf : g.FitsInt)
    (hρ : ρ = g.borderSize_) (xcfl ycfl : R) (curr prev : Int)
    (hc : curr = 0 ∨ curr = 1) (hp : prev = 0 ∨ prev = 1) :
    topBottomPassC stC xcfl ycfl curr prev g =
      some (topBottomPass st xcfl ycfl curr prev g) ∧
    g.SameFrame (topBottomPass st xcfl ycfl curr prev g) := by
  obtain ⟨s1, s2, s3, s4, s5, s6, s7⟩ := hs
  unfold topBottomPassC topBottomPass
  refine forLoopC_eq (fun t => g.SameFrame t) _ _ _ _ _ (sameFrame_refl g) ?_
  intro y t hy hy' hq
  obtain ⟨e1, e2, e3, e4, e5, _⟩ := commFrame_of_sameFrame g t hq
  dsimp only
  refine forLoopC_eq (fun u => g.SameFrame u) _ _ _ _ _ hq ?_
  intro x u hx hx' hu
  obtain ⟨a1, a2⟩ := stencilWriteC_eq stC st ρ hst g u ⟨s1, s2, s3, s4, s5, s6, s7⟩ hf hu
    xcfl ycfl curr prev hc hp x (y + t.borderSize_) (by omega) (by omega) (by omega)
    (by omega) (by omega)
  obtain ⟨c1, c2⟩ := stencilWriteC_eq stC st ρ hst g _ ⟨s1, s2, s3, s4, s5, s6, s7⟩ hf a2
    xcfl ycfl curr prev hc hp x (y + t.ny_) (by omega) (by omega) (by omega)
    (by omega) (by omega)
  refine ⟨?_, c2⟩
  obtain ⟨v1, hv1, hw1⟩ := andThen_eq_some _ _ _ a1
  rw [hv1, andThen_some, hw1, andThen_some]
  have : v1 = st u x (y + t.borderSize_) xcfl ycfl prev := by
    have := hst u x (y + t.borderSize_) xcfl ycfl prev
      (shaped_of_sameFrame g u hu ⟨s1, s2, s3, s4, s5, s6, s7⟩)
      (fitsInt_of_sameFrame g u hu hf) hp (by omega)
      (by rw [(commFrame_of_sameFrame g u hu).1]; omega) (by omega)
      (by rw [(commFrame_of_sameFrame g u hu).2.1]; omega)
    rw [hv1] at this
    exact Option.some.inj this
  exact c1

theorem leftRightPassC_eq {R : Type} (stC : StencilC R) (st : Stencil R) (ρ : Int)
    (hst : StencilSafe stC st ρ) (g : Grid R) (hs : g.Shaped) (hf : g.FitsInt)
    (hρ : ρ = g.borderSize_) (xcfl ycfl : R) (curr prev : Int)
    (hc : curr = 0 ∨ curr = 1) (hp : prev = 0 ∨ prev = 1) :
    leftRightPassC stC xcfl ycfl curr prev g =
      some (leftRightPass st xcfl ycfl curr prev g) ∧
    g.SameFrame (leftRightPass st xcfl ycfl curr prev g) := by
  obtain ⟨s1, s2, s3, s4, s5, s6, s7⟩ := hs
  unfold leftRightPassC leftRightPass
  refine forLoopC_eq (fun t => g.SameFrame t) _ _ _ _ _ (sameFrame_refl g) ?_
  intro y t hy hy' hq
  obtain ⟨e1, e2, e3, e4, e5, _⟩ := commFrame_of_sameFrame g t hq
  refine forLoopC_eq (fun u => g.SameFrame u) _ _ _ _ _ hq ?_
  intro x u hx hx' hu
  obtain ⟨f1, f2, f3, f4, f5, _⟩ := commFrame_of_sameFrame g u hu
  dsimp only
  obtain ⟨a1, a2⟩ := stencilWriteC_eq stC st ρ hst g u ⟨s1, s2, s3, s4, s5, s6, s7⟩ hf hu
    xcfl ycfl curr prev hc hp (x + u.borderSize_) y (by omega) (by omega) (by omega)
    (by omega) (by omega)
  obtain ⟨c1, c2⟩ := stencilWriteC_eq stC st ρ hst g _ ⟨s1, s2, s3, s4, s5, s6, s7⟩ hf a2
    xcfl ycfl curr prev hc hp (x + u.nx_) y (by omega) (by omega) (by omega)
    (by omega) (by omega)
  refine ⟨?_, c2⟩
  obtain ⟨v1, hv1, hw1⟩ := andThen_eq_some _ _ _ a1
  rw [hv1, andThen_some, hw1, andThen_some]
  have : v1 = st u (x + u.borderSize_) y xcfl ycfl prev := by
    have := hst u (x + u.borderSize_) y xcfl ycfl prev
      (shaped_of_sameFrame g u hu ⟨s1, s2, s3, s4, s5, s6, s7⟩)
      (fitsInt_of_sameFrame g u hu hf) hp (by omega) (by omega) (by omega) (by omega)
    rw [hv1] at this
    exact Option.some.inj this
  exact c1

/-- The three checked loop nests of an order branch succeed with the result of
the unchecked ones. -/
theorem syncBranchC_eq {R : Type} (stC : StencilC R) (st : Stencil R) (ρ : Int)
    (hst : StencilSafe stC st ρ) (params : simParams R) (g : Grid R) (hs : g.Shaped)
    (hf : g.FitsInt) (hρ : ρ = g.borderSize_) (curr prev : Int)
    (hc : curr = 0 ∨ curr = 1) (hp : prev = 0 ∨ prev = 1) :
    syncBranchC stC params curr prev g = some (syncBranch st params curr prev g) := by
  obtain ⟨a1, a2⟩ := interiorPassC_eq stC st ρ hst g hs hf hρ params.xcfl_ params.ycfl_
    curr prev hc hp
  have hs1 := shaped_of_sameFrame g _ a2 hs
  have hf1 := fitsInt_of_sameFrame g _ a2 hf
  have hb1 := (commFrame_of_sameFrame g _ a2).2.2.2.2.1
  obtain ⟨b1, b2⟩ := topBottomPassC_eq stC st ρ hst _ hs1 hf1 (by rw [hb1]; exact hρ)
    params.xcfl_ params.ycfl_ curr prev hc hp
  have hs2 := shaped_of_sameFrame _ _ b2 hs1
  have hf2 := fitsInt_of_sameFrame _ _ b2 hf1
  have hb2 := (commFrame_of_sameFrame _ _ b2).2.2.2.2.1
  obtain ⟨c1, _⟩ := leftRightPassC_eq stC st ρ hst _ hs2 hf2 (by rw [hb2, hb1]; exact hρ)
    params.xcfl_ params.ycfl_ curr prev hc hp
  unfold syncBranchC syncBranch
  rw [a1, andThen_some, b1, andThen_some, c1]
/-! ## The checked pack and unpack loops -/

theorem fitsInt_of_commFrame {R : Type} (g t : Grid R) (h : g.CommFrame t) (hf : g.FitsInt) :
    t.FitsInt := by
  obtain ⟨e1, e2, _⟩ := h
  unfold Grid.FitsInt
  rw [e1, e2]
  exact hf

/-- The index expression of the pack and unpack loops is computed without
overflow, with its exact value, and so are the sums with `borderSize_` and
`nx_` as long as the column stays inside the grid. -/
theorem rowIndex_eq {R : Type} (g : Grid R) (hs : g.Shaped) (hf : g.FitsInt) (i j : Int)
    (hi : 0 ≤ i) (hi' : i < g.gy_) (hj : 0 ≤ j) (hj' : j < g.borderSize_) :
    g.rowIndex i j = some (g.prev_ * g.gx_ * g.gy_ + g.gx_ * i + j) ∧
    InInt (g.prev_ * g.gx_ * g.gy_ + g.gx_ * i + j + g.borderSize_) ∧
    InInt (g.prev_ * g.gx_ * g.gy_ + g.gx_ * i + j + g.nx_) ∧
    InInt (g.prev_ * g.gx_ * g.gy_ + g.gx_ * i + j + g.nx_ + g.borderSize_) ∧
    (0 ≤ g.prev_ * g.gx_ * g.gy_ + g.gx_ * i + j ∧
      g.prev_ * g.gx_ * g.gy_ + g.gx_ * i + j + g.nx_ + g.borderSize_ <
        (g.grid_.length : Int)) := by
  obtain ⟨s1, s2, s3, s4, s5, s6, s7⟩ := hs
  unfold Grid.FitsInt at hf
  have e2 : 2 * g.gx_ * g.gy_ = 2 * (g.gx_ * g.gy_) := by ring
  have h1 : g.gx_ * 1 ≤ g.gx_ * g.gy_ := Int.mul_le_mul_of_nonneg_left (by omega) (by omega)
  have h2 : g.gx_ * i ≤ g.gx_ * (g.gy_ - 1) :=
    Int.mul_le_mul_of_nonneg_left (by omega) (by omega)
  have e3 : g.gx_ * (g.gy_ - 1) = g.gx_ * g.gy_ - g.gx_ := by ring
  have h3 : 0 ≤ g.gx_ * i := Int.mul_nonneg (by omega) hi
  unfold Grid.rowIndex
  rcases s7 with ⟨_, hp⟩ | ⟨_, hp⟩
  · rw [hp]
    have z1 : (1 : Int) * g.gx_ = g.gx_ := by ring
    rw [z1, intOp_some _ (by unfold InInt INT_MIN INT_MAX; omega), andThen_some,
      intOp_some _ (by unfold InInt INT_MIN INT_MAX; omega), andThen_some,
      intOp_some _ (by unfold InInt INT_MIN INT_MAX; omega), andThen_some,
      intOp_some _ (by unfold InInt INT_MIN INT_MAX; omega), andThen_some,
      intOp_some _ (by unfold InInt INT_MIN INT_MAX; omega)]
    refine ⟨rfl, ?_, ?_, ?_, ?_⟩
    · unfold InInt INT_MIN INT_MAX; omega
    · unfold InInt INT_MIN INT_MAX; omega
    · unfold InInt INT_MIN INT_MAX; omega
    · omega
  · rw [hp]
    have z1 : (0 : Int) * g.gx_ = 0 := by ring
    have z2 : (0 : Int) * g.gy_ = 0 := by ring
    rw [z1, intOp_some 0 (by unfold InInt INT_MIN INT_MAX; omega), andThen_some, z2,
      intOp_some 0 (by unfold InInt INT_MIN INT_MAX; omega), andThen_some,
      intOp_some _ (by unfold InInt INT_MIN INT_MAX; omega), andThen_some,
      intOp_some _ (by unfold InInt INT_MIN INT_MAX; omega), andThen_some,
      intOp_some _ (by unfold InInt INT_MIN INT_MAX; omega)]
    refine ⟨rfl, ?_, ?_, ?_, ?_⟩
    · unfold InInt INT_MIN INT_MAX; omega
    · unfold InInt INT_MIN INT_MAX; omega
    · unfold InInt INT_MIN INT_MAX; omega
    · omega

/-- The buffer index is computed without overflow and lies inside a buffer of
`gy * b` elements. -/
theorem bufIndex_eq {R : Type} (g : Grid R) (hs : g.Shaped) (hf : g.FitsInt) (i j : Int)
    (hi : 0 ≤ i) (hi' : i < g.gy_) (hj : 0 ≤ j) (hj' : j < g.borderSize_) :
    g.bufIndex i j = some (i * g.borderSize_ + j) ∧
    0 ≤ i * g.borderSize_ + j ∧ i * g.borderSize_ + j < g.gy_ * g.borderSize_ := by
  obtain ⟨b1, b2⟩ := bufIndex_bounds g.borderSize_ g.gy_ i j hi hi' hj hj'
  obtain ⟨s1, s2, s3, s4, s5, s6, s7⟩ := hs
  unfold Grid.FitsInt at hf
  have e2 : 2 * g.gx_ * g.gy_ = 2 * (g.gx_ * g.gy_) := by ring
  have h1 : g.gy_ * g.borderSize_ ≤ g.gy_ * g.gx_ :=
    Int.mul_le_mul_of_nonneg_left (by omega) (by omega)
  have e3 : g.gy_ * g.gx_ = g.gx_ * g.gy_ := by ring
  have h3 : 0 ≤ i * g.borderSize_ := Int.mul_nonneg hi (by omega)
  have h4 : 0 ≤ g.gx_ * g.gy_ := Int.mul_nonneg (by omega) (by omega)
  unfold Grid.bufIndex
  rw [intOp_some _ (by unfold InInt INT_MIN INT_MAX; omega), andThen_some,
    intOp_some _ (by unfold InInt INT_MIN INT_MAX; omega)]
  exact ⟨rfl, b1, b2⟩

theorem vgetC_eq {R : Type} [Zero R] (v : List R) (i : Int) (h0 : 0 ≤ i) (h1 : i < v.length) :
    vgetC v i = some (vget v i) := by
  unfold vgetC
  exact if_pos ⟨h0, h1⟩

theorem vsetC_eq {R : Type} (v : List R) (i : Int) (x : R) (h0 : 0 ≤ i) (h1 : i < v.length) :
    vsetC v i x = some (vset v i x) := by
  unfold vsetC
  exact if_pos ⟨h0, h1⟩

/-- The checked pack loop succeeds with the result of the unchecked one. -/
theorem packBuffersC_eq {R : Type} [Zero R] (g : Grid R) (hs : g.Shaped) (hf : g.FitsInt)
    (hR : g.procRight_ ≠ -1 → (g.send_right_buffer_.length : Int) = g.gy_ * g.borderSize_)
    (hL : g.procLeft_ ≠ -1 → (g.send_left_buffer_.length : Int) = g.gy_ * g.borderSize_) :
    g.packBuffersC = some g.packBuffers := by
  have hs0 := hs
  obtain ⟨s1, s2, s3, s4, s5, s6, s7⟩ := hs0
  unfold Grid.packBuffersC Grid.packBuffers
  split_ifs with hcond
  swap
  · rfl
  refine (forLoopC_eq (fun t : Grid R => g.PackFrame t ∧
      t.send_right_buffer_.length = g.send_right_buffer_.length ∧
      t.send_left_buffer_.length = g.send_left_buffer_.length) _ _ _ _ g
      ⟨show g.PackFrame g from rfl, rfl, rfl⟩ ?_).1
  intro i t hi hi' hq
  refine forLoopC_eq (fun t : Grid R => g.PackFrame t ∧
      t.send_right_buffer_.length = g.send_right_buffer_.length ∧
      t.send_left_buffer_.length = g.send_left_buffer_.length) _ _ _ _ _ hq ?_
  intro j u hj hj' ⟨hu, hur, hul⟩
  obtain ⟨f1, f2, f3, f4, f5, f6, f7, f8, f9, f10, f11, f12, f13, f14, f15, f16, f17⟩ :=
    packFrame_fields g u hu
  obtain ⟨t1, t2, t3, t4, t5, t6, t7, t8, t9, _⟩ := packFrame_fields g t hq.1
  have hsu : u.Shaped := by
    unfold Grid.Shaped
    rw [f1, f2, f3, f4, f5, f6, f7, f8]
    exact hs
  have hfu : u.FitsInt := by
    unfold Grid.FitsInt
    rw [f2, f3]
    exact hf
  obtain ⟨r1, r2, r3, r4, r5, r6⟩ := rowIndex_eq u hsu hfu i j hi (by omega) hj (by omega)
  obtain ⟨m1, m2, m3⟩ := bufIndex_eq u hsu hfu i j hi (by omega) hj (by omega)
  dsimp only
  -- the assignment for the left neighbour
  have left : (if u.procLeft_ ≠ -1 then
        andThen (u.rowIndex i j) fun k =>
        andThen (intOp (k + u.borderSize_)) fun k =>
        andThen (vgetC u.grid_ k) fun v =>
        andThen (u.bufIndex i j) fun m =>
        andThen (vsetC u.send_left_buffer_ m v) fun buf =>
        some { u with send_left_buffer_ := buf }
      else some u) =
      some (if u.procLeft_ ≠ -1 then
        { u with
          send_left_buffer_ :=
            vset u.send_left_buffer_ (i * u.borderSize_ + j)
              (vget u.grid_ (u.prev_ * u.gx_ * u.gy_ + u.gx_ * i + j + u.borderSize_)) }
      else u) := by
    split_ifs with hl
    · have hlen := hL (by rw [← f9]; exact hl)
      rw [r1, andThen_some, intOp_some _ r2, andThen_some,
        vgetC_eq _ _ (by omega) (by omega), andThen_some, m1, andThen_some,
        vsetC_eq _ _ _ m2 (by rw [hul, hlen, ← f3, ← f6]; exact m3), andThen_some]
    · rfl
  rw [left, andThen_some]
  split_ifs with hl hr hr
  · dsimp only
    have hlen := hR (by rw [← f10]; exact hr)
    have r1' : Grid.rowIndex
        { u with
          send_left_buffer_ :=
            vset u.send_left_buffer_ (i * u.borderSize_ + j)
              (vget u.grid_ (u.prev_ * u.gx_ * u.gy_ + u.gx_ * i + j + u.borderSize_)) }
        i j = some (u.prev_ * u.gx_ * u.gy_ + u.gx_ * i + j) := r1
    have m1' : Grid.bufIndex
        { u with
          send_left_buffer_ :=
            vset u.send_left_buffer_ (i * u.borderSize_ + j)
              (vget u.grid_ (u.prev_ * u.gx_ * u.gy_ + u.gx_ * i + j + u.borderSize_)) }
        i j = some (i * u.borderSize_ + j) := m1
    rw [r1', andThen_some, intOp_some _ r3, andThen_some,
      vgetC_eq _ _ (by omega) (by omega), andThen_some, m1', andThen_some,
      vsetC_eq _ _ _ m2 (by rw [hur, hlen, ← f3, ← f6]; exact m3), andThen_some]
    refine ⟨rfl, ?_, ?_, ?_⟩
    · unfold Grid.PackFrame
      rw [hu]
    · exact (vset_length _ _ _).trans hur
    · exact (vset_length _ _ _).trans hul
  · refine ⟨rfl, ?_, hur, ?_⟩
    · unfold Grid.PackFrame
      rw [hu]
    · exact (vset_length _ _ _).trans hul
  · have hlen := hR (by rw [← f10]; exact hr)
    rw [r1, andThen_some, intOp_some _ r3, andThen_some,
      vgetC_eq _ _ (by omega) (by omega), andThen_some, m1, andThen_some,
      vsetC_eq _ _ _ m2 (by rw [hur, hlen, ← f3, ← f6]; exact m3), andThen_some]
    refine ⟨rfl, ?_, ?_, hul⟩
    · unfold Grid.PackFrame
      rw [hu]
    · exact (vset_length _ _ _).trans hur
  · exact ⟨rfl, hu, hur, hul⟩

/-- The checked unpack loop succeeds with the result of the unchecked one. -/
theorem unpackBuffersC_eq {R : Type} [Zero R] (g : Grid R) (hs : g.Shaped) (hf : g.FitsInt)
    (hR : g.procRight_ ≠ -1 → (g.recv_right_buffer_.length : Int) = g.gy_ * g.borderSize_)
    (hL : g.procLeft_ ≠ -1 → (g.recv_left_buffer_.length : Int) = g.gy_ * g.borderSize_) :
    g.unpackBuffersC = some g.unpackBuffers := by
  have hs0 := hs
  obtain ⟨s1, s2, s3, s4, s5, s6, s7⟩ := hs0
  unfold Grid.unpackBuffersC Grid.unpackBuffers
  split_ifs with hcond
  swap
  · rfl
  refine (forLoopC_eq (fun t : Grid R => g.SameFrame t) _ _ _ _ g (sameFrame_refl g) ?_).1
  intro i t hi hi' hq
  refine forLoopC_eq (fun t : Grid R => g.SameFrame t) _ _ _ _ _ hq ?_
  intro j u hj hj' hu
  obtain ⟨t1, t2, t3, t4, t5, _⟩ := commFrame_of_sameFrame g t hq
  obtain ⟨f1, f2, f3, f4, f5, f6, f7, f8, f9, f10, f11, f12⟩ := commFrame_of_sameFrame g u hu
  have hsu := shaped_of_sameFrame g u hu hs
  have hfu := fitsInt_of_sameFrame g u hu hf
  have hsu0 := hsu
  obtain ⟨u1, u2, u3, u4, u5, u6, u7⟩ := hsu0
  have bufs : u.recv_left_buffer_ = g.recv_left_buffer_ ∧
      u.recv_right_buffer_ = g.recv_right_buffer_ := by
    rw [hu.1]
    exact ⟨rfl, rfl⟩
  obtain ⟨r1, r2, r3, r4, r5, r6⟩ := rowIndex_eq u hsu hfu i j hi (by omega) hj (by omega)
  obtain ⟨m1, m2, m3⟩ := bufIndex_eq u hsu hfu i j hi (by omega) hj (by omega)
  dsimp only
  have left : (if u.procLeft_ ≠ -1 then
        andThen (u.rowIndex i j) fun k =>
        andThen (u.bufIndex i j) fun m =>
        andThen (vgetC u.recv_left_buffer_ m) fun v =>
        andThen (vsetC u.grid_ k v) fun l =>
        some { u with grid_ := l }
      else some u) =
      some (if u.procLeft_ ≠ -1 then
        { u with
          grid_ :=
            vset u.grid_ (u.prev_ * u.gx_ * u.gy_ + u.gx_ * i + j)
              (vget u.recv_left_buffer_ (i * u.borderSize_ + j)) }
      else u) := by
    split_ifs with hl
    · have hlen := hL (by rw [← f8]; exact hl)
      rw [r1, andThen_some, m1, andThen_some,
        vgetC_eq _ _ m2 (by rw [bufs.1, hlen, ← f2, ← f5]; exact m3), andThen_some,
        vsetC_eq _ _ _ (by omega) (by omega), andThen_some]
    · rfl
  rw [left, andThen_some]
  have frame1 : g.SameFrame (if u.procLeft_ ≠ -1 then
        { u with
          grid_ :=
            vset u.grid_ (u.prev_ * u.gx_ * u.gy_ + u.gx_ * i + j)
              (vget u.recv_left_buffer_ (i * u.borderSize_ + j)) }
      else u) := by
    split_ifs
    · constructor
      · rw [hu.1]
      · exact (vset_length _ _ _).trans hu.2
    · exact hu
  generalize hw : (if u.procLeft_ ≠ -1 then
        { u with
          grid_ :=
            vset u.grid_ (u.prev_ * u.gx_ * u.gy_ + u.gx_ * i + j)
              (vget u.recv_left_buffer_ (i * u.borderSize_ + j)) }
      else u) = w at frame1
  obtain ⟨w1, w2, w3, w4, w5, w6, w7, w8, w9, w10, w11, w12⟩ := commFrame_of_sameFrame g w frame1
  have hsw := shaped_of_sameFrame g w frame1 hs
  have hfw := fitsInt_of_sameFrame g w frame1 hf
  have hsw0 := hsw
  obtain ⟨v1, v2, v3, v4, v5, v6, v7⟩ := hsw0
  have bufw : w.recv_right_buffer_ = g.recv_right_buffer_ := by
    rw [frame1.1]
  obtain ⟨q1, q2, q3, q4, q5, q6⟩ := rowIndex_eq w hsw hfw i j hi (by omega) hj (by omega)
  obtain ⟨n1, n2, n3⟩ := bufIndex_eq w hsw hfw i j hi (by omega) hj (by omega)
  split_ifs with hr
  · have hlen := hR (by rw [← w9]; exact hr)
    rw [q1, andThen_some, intOp_some _ q3, andThen_some, intOp_some _ q4, andThen_some,
      n1, andThen_some,
      vgetC_eq _ _ n2 (by rw [bufw, hlen, ← w2, ← w5]; exact n3), andThen_some,
      vsetC_eq _ _ _ (by omega) (by omega), andThen_some]
    refine ⟨rfl, ?_, ?_⟩
    · rw [frame1.1]
    · exact (vset_length _ _ _).trans frame1.2
  · exact ⟨rfl, frame1⟩

theorem sameShape_completeAll {R : Type} [Zero R] (inbox : Int → List R) (g : Grid R) :
    g.SameShape (g.completeAll inbox) ∧ g.SameSizes (g.completeAll inbox) := by
  unfold Grid.completeAll
  apply forLoop_preserves (fun s : Grid R => g.SameShape s ∧ g.SameSizes s)
  · exact ⟨sameShape_refl g, sameSizes_refl g⟩
  · rintro i s ⟨h1, h2⟩
    dsimp only
    split
    · rename_i op _
      constructor
      · refine sameShape_trans _ _ _ h1 ⟨?_, ?_⟩
        · exact commFrame_trans _ _ _ (completeRecv_commFrame inbox s op)
            ⟨rfl, rfl, rfl, rfl, rfl, rfl, rfl, rfl, rfl, rfl, rfl, rfl⟩
        · exact completeRecv_grid_length inbox s op
      · exact sameSizes_trans _ _ _ h2
          (sameSizes_trans _ _ _ (sameSizes_completeRecv inbox s op)
            ⟨rfl, rfl, rfl, rfl, rfl, rfl, rfl,
              (List.length_set _ _ _).trans
                (congrArg List.length (completeRecv_recv_requests inbox s op)).symm,
              rfl, rfl, rfl, rfl⟩)
    · exact ⟨h1, h2⟩

/-- The method `waitForRecvs` with the checked unpack loop succeeds with the
result of the method. -/
theorem waitForRecvsC_eq {R : Type} [Zero R] (inbox : Int → List R) (g : Grid R)
    (hs : g.Shaped) (hc : g.CommReady) (hf : g.FitsInt) :
    g.waitForRecvsC inbox = some (g.waitForRecvs inbox) := by
  obtain ⟨h1, h2⟩ := sameShape_completeAll inbox g
  have hs' := shaped_of_sameShape _ _ h1 hs
  have hc' := commReady_of_sameSizes _ _ hc h2
  have hf' := fitsInt_of_commFrame _ _ h1.1 hf
  unfold Grid.waitForRecvsC
  rw [unpackBuffersC_eq _ hs' hf' (fun h => (hc'.2.2.1 h).2) (fun h => (hc'.2.2.2 h).2)]
  rfl

/-- The method `transferHaloDataASync` with the checked pack loop succeeds with
the result of the method. -/
theorem transferC_eq {R : Type} [Zero R] (g : Grid R) (hs : g.Shaped) (hc : g.CommReady)
    (hf : g.FitsInt) : g.transferHaloDataASyncC = some g.transferHaloDataASync := by
  have key : ∀ p : Grid R × Int, p.1.Shaped → p.1.FitsInt →
      (p.1.procRight_ ≠ -1 →
        (p.1.send_right_buffer_.length : Int) = p.1.gy_ * p.1.borderSize_) →
      (p.1.procLeft_ ≠ -1 →
        (p.1.send_left_buffer_.length : Int) = p.1.gy_ * p.1.borderSize_) →
      (andThen p.1.packBuffersC fun g => some (Grid.leftStage (Grid.rightStage (g, p.2))).1) =
        some (Grid.leftStage (Grid.rightStage (p.1.packBuffers, p.2))).1 := by
    intro p h1 h2 h3 h4
    rw [packBuffersC_eq p.1 h1 h2 h3 h4, andThen_some]
  have frame : ∃ a b, (Grid.botStage (Grid.topStage (g, 0))).1 =
      { g with send_requests_ := a, recv_requests_ := b } := by
    unfold Grid.botStage Grid.topStage Grid.startPair
    dsimp only
    split_ifs <;> exact ⟨_, _, rfl⟩
  obtain ⟨a, b, hab⟩ := frame
  unfold Grid.transferHaloDataASyncC
  rw [transfer_eq_stages]
  dsimp only
  apply key
  · rw [hab]; exact hs
  · rw [hab]; exact hf
  · rw [hab]; exact fun h => (hc.2.2.1 h).1
  · rw [hab]; exact fun h => (hc.2.2.2 h).1
/-! ## The checked iterations -/

theorem asyncBranchC_eq {R : Type} [Zero R] (stC : StencilC R) (st : Stencil R) (ρ : Int)
    (hst : StencilSafe stC st ρ) (params : simParams R) (inbox : Int → List R) (g : Grid R)
    (hs : g.Shaped) (hc : g.CommReady) (hf : g.FitsInt) (hρ : ρ = g.borderSize_)
    (curr prev : Int) (hcu : curr = 0 ∨ curr = 1) (hp : prev = 0 ∨ prev = 1) :
    asyncBranchC stC params inbox curr prev g =
      some (asyncBranch st params inbox curr prev g) := by
  obtain ⟨a1, a2⟩ := interiorPassC_eq stC st ρ hst g hs hf hρ params.xcfl_ params.ycfl_
    curr prev hcu hp
  have hs1 := shaped_of_sameFrame g _ a2 hs
  have hf1 := fitsInt_of_sameFrame g _ a2 hf
  have hc1 := commReady_of_sameSizes g _ hc (sameSizes_of_sameFrame g _ a2)
  have hb1 := (commFrame_of_sameFrame g _ a2).2.2.2.2.1
  have hs2 := shaped_of_sameShape _ _ (sameShape_waitForSends _) hs1
  have hf2 := fitsInt_of_commFrame _ _ (sameShape_waitForSends _).1 hf1
  have hc2 := commReady_of_sameSizes _ _ hc1 (sameSizes_waitForSends _)
  have hb2 := (sameShape_waitForSends
    (interiorPass st params.xcfl_ params.ycfl_ curr prev g)).1.2.2.2.2.1
  have w := waitForRecvsC_eq inbox _ hs2 hc2 hf2
  have hs3 := shaped_of_sameShape _ _ (sameShape_waitForRecvs inbox _) hs2
  have hf3 := fitsInt_of_commFrame _ _ (sameShape_waitForRecvs inbox _).1 hf2
  have hb3 := (sameShape_waitForRecvs inbox
    (interiorPass st params.xcfl_ params.ycfl_ curr prev g).waitForSends).1.2.2.2.2.1
  obtain ⟨b1, b2⟩ := topBottomPassC_eq stC st ρ hst _ hs3 hf3
    (by rw [hb3, hb2, hb1]; exact hρ) params.xcfl_ params.ycfl_ curr prev hcu hp
  have hs4 := shaped_of_sameFrame _ _ b2 hs3
  have hf4 := fitsInt_of_sameFrame _ _ b2 hf3
  have hb4 := (commFrame_of_sameFrame _ _ b2).2.2.2.2.1
  obtain ⟨c1, _⟩ := leftRightPassC_eq stC st ρ hst _ hs4 hf4
    (by rw [hb4, hb3, hb2, hb1]; exact hρ) params.xcfl_ params.ycfl_ curr prev hcu hp
  unfold asyncBranchC asyncBranch
  rw [a1, andThen_some, w, andThen_some, b1, andThen_some, c1]

theorem swapState_fitsInt {R : Type} (g : Grid R) (hf : g.FitsInt) : g.swapState.FitsInt := hf

/-- One checked iteration of `syncComputation` succeeds with the result of the
unchecked iteration. -/
theorem syncIterationC_eq {R : Type} [Ring R] (inbox : Int → List R) (params : simParams R)
    (s : Grid R) (hs : s.Shaped) (hc : s.CommReady) (hf : s.FitsInt)
    (hb : borderSizeOf params.order_ = some s.borderSize_) :
    syncIterationC inbox params s = some (syncIteration inbox params s) := by
  have hs0 := swapState_shaped s hs
  have hc0 := swapState_commReady s hc
  have hf0 := swapState_fitsInt s hf
  have hcp := hs0.2.2.2.2.2.2
  have t1 := transferC_eq _ hs0 hc0 hf0
  have hs1 := shaped_of_sameShape _ _ (sameShape_transfer _ hc0) hs0
  have hf1 := fitsInt_of_commFrame _ _ (sameShape_transfer _ hc0).1 hf0
  have hc1 := commReady_of_sameSizes _ _ hc0 (sameSizes_transfer _ hc0)
  have hb1 := (sameShape_transfer _ hc0).1.2.2.2.2.1
  have hs2 := shaped_of_sameShape _ _ (sameShape_waitForSends _) hs1
  have hf2 := fitsInt_of_commFrame _ _ (sameShape_waitForSends _).1 hf1
  have hc2 := commReady_of_sameSizes _ _ hc1 (sameSizes_waitForSends _)
  have hb2 := (sameShape_waitForSends s.swapState.transferHaloDataASync).1.2.2.2.2.1
  have w := waitForRecvsC_eq inbox _ hs2 hc2 hf2
  have hs3 := shaped_of_sameShape _ _ (sameShape_waitForRecvs inbox _) hs2
  have hf3 := fitsInt_of_commFrame _ _ (sameShape_waitForRecvs inbox _).1 hf2
  have hb3 := (sameShape_waitForRecvs inbox
    s.swapState.transferHaloDataASync.waitForSends).1.2.2.2.2.1
  have hb0 : s.swapState.borderSize_ = s.borderSize_ := rfl
  have hcu : s.swapState.curr_ = 0 ∨ s.swapState.curr_ = 1 := by omega
  have hp : s.swapState.prev_ = 0 ∨ s.swapState.prev_ = 1 := by omega
  unfold syncIterationC syncIteration
  dsimp only
  rw [t1, andThen_some, w, andThen_some]
  rcases borderSizeOf_some _ _ hb with ⟨ho, hbs⟩ | ⟨ho, hbs⟩ | ⟨ho, hbs⟩
  · rw [if_pos ho, if_pos ho]
    exact syncBranchC_eq stencil2C stencil2 1 stencil2C_safe params _ hs3 hf3
      (by rw [hb3, hb2, hb1, hb0, hbs]) _ _ hcu hp
  · rw [if_neg (by omega), if_pos ho, if_neg (by omega), if_pos ho]
    exact syncBranchC_eq stencil4C stencil4 2 stencil4C_safe params _ hs3 hf3
      (by rw [hb3, hb2, hb1, hb0, hbs]) _ _ hcu hp
  · rw [if_neg (by omega), if_neg (by omega), if_pos ho, if_neg (by omega),
      if_neg (by omega), if_pos ho]
    exact syncBranchC_eq stencil8C stencil8 4 stencil8C_safe params _ hs3 hf3
      (by rw [hb3, hb2, hb1, hb0, hbs]) _ _ hcu hp

/-- One checked iteration of `asyncComputation` succeeds with the result of the
unchecked iteration. -/
theorem asyncIterationC_eq {R : Type} [Ring R] (inbox : Int → List R) (params : simParams R)
    (s : Grid R) (hs : s.Shaped) (hc : s.CommReady) (hf : s.FitsInt)
    (hb : borderSizeOf params.order_ = some s.borderSize_) :
    asyncIterationC inbox params s = some (asyncIteration inbox params s) := by
  have hs0 := swapState_shaped s hs
  have hc0 := swapState_commReady s hc
  have hf0 := swapState_fitsInt s hf
  have hcp := hs0.2.2.2.2.2.2
  have t1 := transferC_eq _ hs0 hc0 hf0
  have hs1 := shaped_of_sameShape _ _ (sameShape_transfer _ hc0) hs0
  have hf1 := fitsInt_of_commFrame _ _ (sameShape_transfer _ hc0).1 hf0
  have hc1 := commReady_of_sameSizes _ _ hc0 (sameSizes_transfer _ hc0)
  have hb1 := (sameShape_transfer _ hc0).1.2.2.2.2.1
  have hb0 : s.swapState.borderSize_ = s.borderSize_ := rfl
  have hcu : s.swapState.curr_ = 0 ∨ s.swapState.curr_ = 1 := by omega
  have hp : s.swapState.prev_ = 0 ∨ s.swapState.prev_ = 1 := by omega
  unfold asyncIterationC asyncIteration
  dsimp only
  rw [t1, andThen_some]
  rcases borderSizeOf_some _ _ hb with ⟨ho, hbs⟩ | ⟨ho, hbs⟩ | ⟨ho, hbs⟩
  · rw [if_pos ho, if_pos ho]
    exact asyncBranchC_eq stencil2C stencil2 1 stencil2C_safe params inbox _ hs1 hc1 hf1
      (by rw [hb1, hb0, hbs]) _ _ hcu hp
  · rw [if_neg (by omega), if_pos ho, if_neg (by omega), if_pos ho]
    exact asyncBranchC_eq stencil4C stencil4 2 stencil4C_safe params inbox _ hs1 hc1 hf1
      (by rw [hb1, hb0, hbs]) _ _ hcu hp
  · rw [if_neg (by omega), if_neg (by omega), if_pos ho, if_neg (by omega),
      if_neg (by omega), if_pos ho]
    exact asyncBranchC_eq stencil8C stencil8 4 stencil8C_safe params inbox _ hs1 hc1 hf1
      (by rw [hb1, hb0, hbs]) _ _ hcu hp

/-- The checked runs of both variants succeed with the results of the unchecked
runs when the storage of the start grid can be indexed in `int`. -/
theorem computationC_eq {R : Type} [Ring R] (env : Int → Int → List R) (G : Grid R)
    (params : simParams R) (hs : G.Shaped) (hc : G.CommReady) (hf : G.FitsInt)
    (hb : borderSizeOf params.order_ = some G.borderSize_) :
    syncComputationC env G params = some (syncComputation env G params) ∧
    asyncComputationC env G params = some (asyncComputation env G params) := by
  have step : ∀ (fC : (Int → List R) → simParams R → Grid R → Option (Grid R))
      (f : (Int → List R) → simParams R → Grid R → Grid R),
      (∀ inbox (g : Grid R), g.Shaped → g.CommReady → g.FitsInt →
        borderSizeOf params.order_ = some g.borderSize_ →
        fC inbox params g = some (f inbox params g)) →
      (∀ inbox (g : Grid R), g.CommReady → g.swapState.SameShape (f inbox params g)) →
      (∀ inbox (g : Grid R), g.CommReady → g.SameSizes (f inbox params g)) →
      forLoopC 0 params.iters_ (fun i g => fC (env i) params g) G =
        some (forLoop 0 params.iters_ (fun i g => f (env i) params g) G) := by
    intro fC f h0 h1 h2
    refine (forLoopC_eq (fun t : Grid R => t.Shaped ∧ t.CommReady ∧ t.FitsInt ∧
      t.borderSize_ = G.borderSize_) _ _ _ _ G ⟨hs, hc, hf, rfl⟩ ?_).1
    rintro i t _ _ ⟨a1, a2, a3, a4⟩
    have hsh := h1 (env i) t a2
    refine ⟨h0 (env i) t a1 a2 a3 (by rw [a4]; exact hb),
      shaped_of_sameShape _ _ hsh (swapState_shaped t a1),
      commReady_of_sameSizes t _ a2 (h2 (env i) t a2),
      fitsInt_of_commFrame _ _ hsh.1 (swapState_fitsInt t a3), ?_⟩
    exact hsh.1.2.2.2.2.1.trans a4
  exact ⟨step syncIterationC syncIteration
      (fun inbox g a b c d => syncIterationC_eq inbox params g a b c d)
      (fun inbox g h => sameShape_syncIteration inbox params g h)
      (fun inbox g h => sameSizes_syncIteration inbox params g h),
    step asyncIterationC asyncIteration
      (fun inbox g a b c d => asyncIterationC_eq inbox params g a b c d)
      (fun inbox g h => sameShape_asyncIteration inbox params g h)
      (fun inbox g h => sameSizes_asyncIteration inbox params g h)⟩
/-! ## Index safety -/

/-- A successful evaluation of the index expression of `operator()` has the
exact value of the expression, which is in the range of `int`. -/
theorem index_some {R : Type} (g : Grid R) (sel x y k : Int) (h : g.index sel x y = some k) :
    k = sel * g.gx_ * g.gy_ + y * g.gx_ + x ∧ InInt k := by
  unfold Grid.index at h
  obtain ⟨a, ha, h⟩ := andThen_eq_some _ _ _ h
  obtain ⟨b, hb, h⟩ := andThen_eq_some _ _ _ h
  obtain ⟨c, hc, h⟩ := andThen_eq_some _ _ _ h
  obtain ⟨d, hd, h⟩ := andThen_eq_some _ _ _ h
  obtain ⟨ea, _⟩ := intOp_eq_some _ _ ha
  obtain ⟨eb, _⟩ := intOp_eq_some _ _ hb
  obtain ⟨ec, _⟩ := intOp_eq_some _ _ hc
  obtain ⟨ed, _⟩ := intOp_eq_some _ _ hd
  obtain ⟨ek, hk⟩ := intOp_eq_some _ _ h
  refine ⟨?_, ?_⟩
  · rw [ek, ed, eb, ec, ea]
  · rw [ek]; exact hk

/-- The index expression of `operator()` overflows when its exact value is
larger than `INT_MAX`. -/
theorem index_none {R : Type} (g : Grid R) (sel x y : Int)
    (h : INT_MAX < sel * g.gx_ * g.gy_ + y * g.gx_ + x) : g.index sel x y = none := by
  cases hk : g.index sel x y with
  | none => rfl
  | some k =>
    obtain ⟨e, hi⟩ := index_some g sel x y k hk
    rw [e] at hi
    exact absurd hi.2 (by omega)

/-- What a successful checked read says: the generation is 0 or 1, the
coordinates are inside the grid, the index expression has been computed in
`int` without overflow, and the index is inside `grid_`. -/
theorem readC_some {R : Type} [Zero R] (t : Grid R) (sel x y : Int) (v : R)
    (h : t.readC sel x y = some v) :
    ((sel = 0 ∨ sel = 1) ∧ 0 ≤ x ∧ x < t.gx_ ∧ 0 ≤ y ∧ y < t.gy_) ∧
    t.index sel x y = some (sel * t.gx_ * t.gy_ + y * t.gx_ + x) ∧
    InInt (sel * t.gx_ * t.gy_ + y * t.gx_ + x) ∧
    (0 ≤ sel * t.gx_ * t.gy_ + y * t.gx_ + x ∧
      sel * t.gx_ * t.gy_ + y * t.gx_ + x < (t.grid_.length : Int)) ∧
    v = t.read sel x y := by
  unfold Grid.readC at h
  split_ifs at h with hr
  obtain ⟨k, hk, h⟩ := andThen_eq_some _ _ _ h
  obtain ⟨e, hi⟩ := index_some t sel x y k hk
  unfold vgetC at h
  split_ifs at h with hb
  rw [e] at hk hi hb h
  exact ⟨hr, hk, hi, hb, (Option.some.inj h).symm⟩

/-- What a successful checked assignment says. -/
theorem writeC_some {R : Type} (t t' : Grid R) (sel x y : Int) (v : R)
    (h : t.writeC sel x y v = some t') :
    ((sel = 0 ∨ sel = 1) ∧ 0 ≤ x ∧ x < t.gx_ ∧ 0 ≤ y ∧ y < t.gy_) ∧
    t.index sel x y = some (sel * t.gx_ * t.gy_ + y * t.gx_ + x) ∧
    InInt (sel * t.gx_ * t.gy_ + y * t.gx_ + x) ∧
    (0 ≤ sel * t.gx_ * t.gy_ + y * t.gx_ + x ∧
      sel * t.gx_ * t.gy_ + y * t.gx_ + x < (t.grid_.length : Int)) ∧
    t' = t.write sel x y v := by
  unfold Grid.writeC at h
  split_ifs at h with hr
  obtain ⟨k, hk, h⟩ := andThen_eq_some _ _ _ h
  obtain ⟨e, hi⟩ := index_some t sel x y k hk
  obtain ⟨l, hl, h⟩ := andThen_eq_some _ _ _ h
  unfold vsetC at hl
  split_ifs at hl with hb
  rw [e] at hk hi hb hl
  refine ⟨hr, hk, hi, hb, ?_⟩
  rw [← Option.some.inj h, ← Option.some.inj hl]
  rfl

theorem vgetC_some {R : Type} [Zero R] (v : List R) (i : Int) (x : R)
    (h : vgetC v i = some x) : (0 ≤ i ∧ i < v.length) ∧ x = vget v i := by
  unfold vgetC at h
  split_ifs at h with hb
  exact ⟨hb, (Option.some.inj h).symm⟩

theorem vsetC_some {R : Type} (v w : List R) (i : Int) (x : R)
    (h : vsetC v i x = some w) : (0 ≤ i ∧ i < v.length) ∧ w = vset v i x := by
  unfold vsetC at h
  split_ifs at h with hb
  exact ⟨hb, (Option.some.inj h).symm⟩
theorem writeC_commFrame {R : Type} (t t' : Grid R) (sel x y : Int) (v : R)
    (h : t.writeC sel x y v = some t') : t.CommFrame t' := by
  rw [(writeC_some t t' sel x y v h).2.2.2.2]
  exact commFrame_refl t

/-- The first loop nest of an order branch fails when the stencil fails at one
of its cells on every grid with the extents of the start grid. -/
theorem interiorPassC_none {R : Type} (stC : StencilC R) (xcfl ycfl : R) (curr prev : Int)
    (g : Grid R) (x0 y0 : Int) (hx : 2 * g.borderSize_ ≤ x0) (hx' : x0 < g.nx_)
    (hy : 2 * g.borderSize_ ≤ y0) (hy' : y0 < g.ny_)
    (hfail : ∀ u : Grid R, g.CommFrame u → stC u x0 y0 xcfl ycfl prev = none) :
    interiorPassC stC xcfl ycfl curr prev g = none := by
  have keepIn : ∀ (y x : Int) (u u' : Grid R), g.CommFrame u →
      (andThen (stC u x y xcfl ycfl prev) fun v => u.writeC curr x y v) = some u' →
      g.CommFrame u' := by
    intro y x u u' hu h
    obtain ⟨v, _, hw⟩ := andThen_eq_some _ _ _ h
    exact commFrame_trans _ _ _ hu (writeC_commFrame u u' curr x y v hw)
  unfold interiorPassC
  refine forLoopC_none (fun t : Grid R => g.CommFrame t) _ _ _ g (commFrame_refl g) ?_
    y0 hy hy' ?_
  · intro y t t' _ _ hq h
    exact forLoopC_keeps (fun u : Grid R => g.CommFrame u) _ _ _ t t' hq
      (fun x u u' _ _ hu hb => keepIn y x u u' hu hb) h
  · intro t hq
    obtain ⟨e1, e2, e3, e4, e5, _⟩ := hq
    refine forLoopC_none (fun u : Grid R => g.CommFrame u) _ _ _ t
      ⟨e1, e2, e3, e4, e5, by assumption⟩
      (fun x u u' _ _ hu hb => keepIn y0 x u u' hu hb) x0 (by omega) (by omega) ?_
    intro u hu
    rw [hfail u hu, andThen_none]

/-- Without a left and a right neighbour the pack and unpack loops do not run. -/
theorem transferC_vertical {R : Type} [Zero R] (g : Grid R) (hR : g.procRight_ = -1)
    (hL : g.procLeft_ = -1) : g.transferHaloDataASyncC = some g.transferHaloDataASync := by
  have hf := commFrame_trans _ _ _ (topStage_spec (g, 0)).1
    (botStage_spec (Grid.topStage (g, 0))).1
  obtain ⟨_, _, _, _, _, _, _, f8, f9, _⟩ := hf
  have hcond : ¬ ((Grid.botStage (Grid.topStage (g, 0))).1.procRight_ ≠ -1 ∨
      (Grid.botStage (Grid.topStage (g, 0))).1.procLeft_ ≠ -1) := by
    rw [f8, f9]
    intro h
    rcases h with h | h
    · exact h hR
    · exact h hL
  unfold Grid.transferHaloDataASyncC
  rw [transfer_eq_stages]
  dsimp only
  unfold Grid.packBuffersC Grid.packBuffers
  rw [if_neg hcond, if_neg hcond, andThen_some]

theorem waitForRecvsC_vertical {R : Type} [Zero R] (inbox : Int → List R) (g : Grid R)
    (hR : g.procRight_ = -1) (hL : g.procLeft_ = -1) :
    g.waitForRecvsC inbox = some (g.waitForRecvs inbox) := by
  obtain ⟨⟨_, _, _, _, _, _, _, f8, f9, _⟩, _⟩ := (sameShape_completeAll inbox g).1
  have hcond : ¬ ((g.completeAll inbox).procRight_ ≠ -1 ∨
      (g.completeAll inbox).procLeft_ ≠ -1) := by
    rw [f8, f9]
    intro h
    rcases h with h | h
    · exact h hR
    · exact h hL
  unfold Grid.waitForRecvsC
  rw [waitForRecvs_eq]
  unfold Grid.unpackBuffersC Grid.unpackBuffers
  rw [if_neg hcond, if_neg hcond]

theorem paramsLarge_ofFile :
    simParams.ofFile 40000 40000 1 1 1 1000 2 5 1 true 0 10 0 10 = some paramsLarge := rfl

theorem largeGrid_ctor : Grid.ctor paramsLarge false 1 0 = .ok largeGrid :=
  (ctor_ok_iff paramsLarge false 1 0 largeGrid).2
    ⟨_, 1, decomposition_stripe 40000 40000 1 0 (by decide) (by decide), rfl, by decide,
      by decide, rfl⟩

/-- The stencil of order 2 fails at cell `(2, 20000)` of generation 1 on every
grid with the extents of `largeGrid`: the index expression of its first read
overflows. -/
theorem stencil2C_large (u : Grid ℚ) (hx : u.gx_ = 40002) (hy : u.gy_ = 40002)
    (xcfl ycfl : ℚ) : stencil2C u 2 20000 xcfl ycfl 1 = none := by
  have hi : u.index 1 2 20000 = none :=
    index_none u 1 2 20000 (by rw [hx, hy]; unfold INT_MAX; decide)
  unfold stencil2C Grid.readC
  rw [hi, andThen_none]
  split_ifs <;> rfl

/-- The first iteration of either variant on `largeGrid` fails in its first loop
nest. -/
theorem largeGrid_iteration (inbox : Int → List ℚ) :
    syncIterationC inbox paramsLarge largeGrid = none ∧
    asyncIterationC inbox paramsLarge largeGrid = none := by
  have ho : paramsLarge.order_ = 2 := rfl
  have hp : largeGrid.swapState.prev_ = 1 := rfl
  have t1 := transferC_vertical largeGrid.swapState rfl rfl
  have f1 := transfer_commFrame largeGrid.swapState
  have f2 := commFrame_trans _ _ _ f1 (waitForSends_commFrame _)
  have f3 := commFrame_trans _ _ _ f2 (waitForRecvs_commFrame inbox _)
  have gx0 : largeGrid.swapState.gx_ = 40002 := rfl
  have gy0 : largeGrid.swapState.gy_ = 40002 := rfl
  have nx0 : largeGrid.swapState.nx_ = 40000 := rfl
  have ny0 : largeGrid.swapState.ny_ = 40000 := rfl
  have b0 : largeGrid.swapState.borderSize_ = 1 := rfl
  have fail : ∀ g : Grid ℚ, largeGrid.swapState.CommFrame g →
      interiorPassC stencil2C paramsLarge.xcfl_ paramsLarge.ycfl_ largeGrid.swapState.curr_
        largeGrid.swapState.prev_ g = none := by
    intro g hg
    obtain ⟨e1, e2, e3, e4, e5, _⟩ := hg
    refine interiorPassC_none stencil2C _ _ _ _ g 2 20000 (by omega) (by omega) (by omega)
      (by omega) ?_
    intro u hu
    rw [hp]
    exact stencil2C_large u (by rw [hu.1, e1, gx0]) (by rw [hu.2.1, e2, gy0]) _ _
  constructor
  · have w := waitForRecvsC_vertical inbox largeGrid.swapState.transferHaloDataASync.waitForSends
      (f2.2.2.2.2.2.2.2.2.1.trans rfl) (f2.2.2.2.2.2.2.2.1.trans rfl)
    unfold syncIterationC
    dsimp only
    rw [t1, andThen_some, w, andThen_some, if_pos ho]
    unfold syncBranchC
    rw [fail _ f3, andThen_none]
  · unfold asyncIterationC
    dsimp only
    rw [t1, andThen_some, if_pos ho]
    unfold asyncBranchC
    rw [fail _ f1, andThen_none]

/-- A checked loop with at least one turn fails when its body fails on the start
state. -/
theorem forLoopC_first {σ : Type} (lo hi : Int) (bodyC : Int → σ → Option σ) (s : σ)
    (h : lo < hi) (hfail : ∀ i, bodyC i s = none) : forLoopC lo hi bodyC s = none :=
  forLoopC_none (fun t => t = s) lo hi bodyC s rfl
    (fun i t t' _ _ ht hb => by rw [ht, hfail i] at hb; exact absurd hb (by simp))
    lo (le_refl _) h (fun t ht => by rw [ht]; exact hfail lo)

/-- Claim C23 (amended): for every constructed grid `G` (`nx > 2b`, `ny > 2b`,
storage length `2 * gx * gy`, order 2, 4 or 8) whose storage can be indexed in
`int`, that is `2 * gx * gy ≤ 2^31`, every read and write through `operator()`
in a run of `syncComputation` or `asyncComputation` of any length, and every
access of the pack loop of `transferHaloDataASync` and of the unpack loop of
`waitForRecvs` in it, is in range: the runs in which every such access is
checked succeed with the results of the unchecked runs, and so do the next
iteration, the pack loop and the unpack loop from every reached state `s`.  A
successful checked read or assignment has generation 0 or 1 and coordinates
`0 ≤ x < gx`, `0 ≤ y < gy`, its index expression is evaluated in `int` without
overflow to `generation * gx * gy + y * gx + x`, and this index lies inside
`grid_`, whose length in every reached state is `2 * gx * gy`; a successful
checked vector access has its index inside the vector.  In every reached state
the buffer index `i * b + j` of the pack and unpack loops is evaluated without
overflow and lies in `[0, gy * b)`, the length of the edge buffers of every
present horizontal neighbour. -/
theorem index_safety {R : Type} [Ring R] (params : simParams R) (debug : Bool)
    (P rank : Int) (G : Grid R) (h : Grid.ctor params debug P rank = .ok G)
    (hfit : 2 * G.gx_ * G.gy_ ≤ 2147483648)
    (env : Int → Int → List R) (s : Grid R)
    (hr : s = syncComputation env G params ∨ s = asyncComputation env G params)
    (inbox : Int → List R) :
    (G.nx_ > 2 * G.borderSize_ ∧ G.ny_ > 2 * G.borderSize_ ∧
      (G.grid_.length : Int) = 2 * G.gx_ * G.gy_ ∧
      (params.order_ = 2 ∨ params.order_ = 4 ∨ params.order_ = 8)) ∧
    (s.gx_ = G.gx_ ∧ s.gy_ = G.gy_ ∧ s.nx_ = G.nx_ ∧ s.ny_ = G.ny_ ∧
      s.borderSize_ = G.borderSize_ ∧ (s.grid_.length : Int) = 2 * s.gx_ * s.gy_) ∧
    (syncComputationC env G params = some (syncComputation env G params) ∧
      asyncComputationC env G params = some (asyncComputation env G params)) ∧
    (syncIterationC inbox params s = some (syncIteration inbox params s) ∧
      asyncIterationC inbox params s = some (asyncIteration inbox params s)) ∧
    (s.swapState.transferHaloDataASyncC = some s.swapState.transferHaloDataASync ∧
      s.swapState.packBuffersC = some s.swapState.packBuffers ∧
      (s.swapState.transferHaloDataASync.waitForSends).waitForRecvsC inbox =
        some ((s.swapState.transferHaloDataASync.waitForSends).waitForRecvs inbox) ∧
      ((s.swapState.transferHaloDataASync.waitForSends).completeAll inbox).unpackBuffersC =
        some ((s.swapState.transferHaloDataASync.waitForSends).completeAll
          inbox).unpackBuffers) ∧
    (∀ (t : Grid R) (sel x y : Int) (v : R), t.readC sel x y = some v →
      ((sel = 0 ∨ sel = 1) ∧ 0 ≤ x ∧ x < t.gx_ ∧ 0 ≤ y ∧ y < t.gy_) ∧
      t.index sel x y = some (sel * t.gx_ * t.gy_ + y * t.gx_ + x) ∧
      InInt (sel * t.gx_ * t.gy_ + y * t.gx_ + x) ∧
      (0 ≤ sel * t.gx_ * t.gy_ + y * t.gx_ + x ∧
        sel * t.gx_ * t.gy_ + y * t.gx_ + x < (t.grid_.length : Int)) ∧
      v = t.read sel x y) ∧
    (∀ (t t' : Grid R) (sel x y : Int) (v : R), t.writeC sel x y v = some t' →
      ((sel = 0 ∨ sel = 1) ∧ 0 ≤ x ∧ x < t.gx_ ∧ 0 ≤ y ∧ y < t.gy_) ∧
      t.index sel x y = some (sel * t.gx_ * t.gy_ + y * t.gx_ + x) ∧
      InInt (sel * t.gx_ * t.gy_ + y * t.gx_ + x) ∧
      (0 ≤ sel * t.gx_ * t.gy_ + y * t.gx_ + x ∧
        sel * t.gx_ * t.gy_ + y * t.gx_ + x < (t.grid_.length : Int)) ∧
      t' = t.write sel x y v) ∧
    (∀ (v : List R) (i : Int) (x : R), vgetC v i = some x →
      (0 ≤ i ∧ i < v.length) ∧ x = vget v i) ∧
    (∀ (v w : List R) (i : Int) (x : R), vsetC v i x = some w →
      (0 ≤ i ∧ i < v.length) ∧ w = vset v i x) ∧
    (∀ sel x y, sel = 0 ∨ sel = 1 → 0 ≤ x → x < s.gx_ → 0 ≤ y → y < s.gy_ →
      s.index sel x y = some (sel * s.gx_ * s.gy_ + y * s.gx_ + x) ∧
      0 ≤ sel * s.gx_ * s.gy_ + y * s.gx_ + x ∧
      sel * s.gx_ * s.gy_ + y * s.gx_ + x < 2 * s.gx_ * s.gy_) ∧
    (∀ i j, 0 ≤ i → i < s.gy_ → 0 ≤ j → j < s.borderSize_ →
      s.bufIndex i j = some (i * s.borderSize_ + j) ∧
      0 ≤ i * s.borderSize_ + j ∧ i * s.borderSize_ + j < s.gy_ * s.borderSize_ ∧
      s.rowIndex i j = some (s.prev_ * s.gx_ * s.gy_ + s.gx_ * i + j)) ∧
    ((s.procRight_ ≠ -1 →
        (s.send_right_buffer_.length : Int) = s.gy_ * s.borderSize_ ∧
        (s.recv_right_buffer_.length : Int) = s.gy_ * s.borderSize_) ∧
      (s.procLeft_ ≠ -1 →
        (s.send_left_buffer_.length : Int) = s.gy_ * s.borderSize_ ∧
        (s.recv_left_buffer_.length : Int) = s.gy_ * s.borderSize_)) := by
  have hS := ctor_shaped params debug P rank G h
  have hC := ctor_commReady params debug P rank G h
  have hB := ctor_border params debug P rank G h
  have hF : G.FitsInt := hfit
  obtain ⟨ss, sc, d1, d2, d3, d4, d5⟩ := shaped_computation env G params hS hC s hr
  have sf : s.FitsInt := by
    unfold Grid.FitsInt
    rw [d1, d2]
    exact hfit
  have sb : borderSizeOf params.order_ = some s.borderSize_ := by rw [d5]; exact hB
  have ho : params.order_ = 2 ∨ params.order_ = 4 ∨ params.order_ = 8 := by
    rcases borderSizeOf_some _ _ hB with ⟨o, _⟩ | ⟨o, _⟩ | ⟨o, _⟩
    · exact Or.inl o
    · exact Or.inr (Or.inl o)
    · exact Or.inr (Or.inr o)
  have hs0 := swapState_shaped s ss
  have hc0 := swapState_commReady s sc
  have hf0 := swapState_fitsInt s sf
  have hs1 := shaped_of_sameShape _ _ (sameShape_transfer _ hc0) hs0
  have hf1 := fitsInt_of_commFrame _ _ (sameShape_transfer _ hc0).1 hf0
  have hc1 := commReady_of_sameSizes _ _ hc0 (sameSizes_transfer _ hc0)
  have hs2 := shaped_of_sameShape _ _ (sameShape_waitForSends _) hs1
  have hf2 := fitsInt_of_commFrame _ _ (sameShape_waitForSends _).1 hf1
  have hc2 := commReady_of_sameSizes _ _ hc1 (sameSizes_waitForSends _)
  have w := waitForRecvsC_eq inbox _ hs2 hc2 hf2
  have ss' := ss
  obtain ⟨s1, s2, s3, s4, s5, s6, s7⟩ := ss'
  refine ⟨⟨hS.2.1, hS.2.2.1, hS.2.2.2.2.2.1, ho⟩, ⟨d1, d2, d3, d4, d5, s6⟩,
    computationC_eq env G params hS hC hF hB,
    ⟨syncIterationC_eq inbox params s ss sc sf sb,
      asyncIterationC_eq inbox params s ss sc sf sb⟩,
    ⟨transferC_eq _ hs0 hc0 hf0,
      packBuffersC_eq _ hs0 hf0 (fun h => (hc0.2.2.1 h).1) (fun h => (hc0.2.2.2 h).1),
      w, w⟩,
    readC_some, writeC_some, vgetC_some, vsetC_some, ?_, ?_, sc.2.2⟩
  · intro sel x y hsel hx hx' hy hy'
    obtain ⟨b1, b2⟩ := cellIndex_bounds s.gx_ s.gy_ sel x y hsel hx hx' hy hy'
    exact ⟨index_eq s (by omega) (by omega) sf sel x y hsel hx hx' hy hy', b1, b2⟩
  · intro i j hi hi' hj hj'
    obtain ⟨m1, m2, m3⟩ := bufIndex_eq s ss sf i j hi hi' hj hj'
    exact ⟨m1, m2, m3, (rowIndex_eq s ss sf i j hi hi' hj hj').1⟩

theorem index_safety_witness :
    Grid.ctor paramsBlock false 4 0 = .ok blockRank0 ∧
    2 * blockRank0.gx_ * blockRank0.gy_ ≤ 2147483648 ∧
    blockRank0.gx_ = 7 ∧ blockRank0.gy_ = 7 ∧ blockRank0.procRight_ ≠ -1 ∧
    syncComputationC (fun _ _ => []) blockRank0 paramsBlock =
      some (syncComputation (fun _ _ => []) blockRank0 paramsBlock) ∧
    asyncComputationC (fun _ _ => []) blockRank0 paramsBlock =
      some (asyncComputation (fun _ _ => []) blockRank0 paramsBlock) :=
  have hw := index_safety paramsBlock false 4 0 blockRank0 blockRank0_ctor (by decide)
    (fun _ _ => []) (syncComputation (fun _ _ => []) blockRank0 paramsBlock) (Or.inl rfl)
    (fun _ => [])
  ⟨blockRank0_ctor, by decide, rfl, rfl, by decide, hw.2.2.1.1, hw.2.2.1.2⟩

/-- Counterexample to C23 as stated: the grid constructed on a single process
from the default parameters with 40000 x 40000 points.  The constructor
accepts it (`gx * gy = 1600160004` is an `int`), and in the first iteration of
either variant the first loop nest applies `stencil2` at cell `(2, 20000)`,
which reads generation 1 there: the index expression
`1 * gx * gy + 20000 * gx + 2 = 2400200006` is larger than `INT_MAX`, so its
evaluation in `int` overflows (to `-1894767290` under wrap-around, outside
`[0, 2 * gx * gy)`), and the checked iterations and runs fail. -/
theorem index_safety_counterexample :
    simParams.ofFile 40000 40000 1 1 1 1000 2 5 1 true 0 10 0 10 = some paramsLarge ∧
    Grid.ctor paramsLarge false 1 0 = .ok largeGrid ∧
    (largeGrid.gx_ = 40002 ∧ largeGrid.gy_ = 40002 ∧ largeGrid.borderSize_ = 1 ∧
      largeGrid.nx_ > 2 * largeGrid.borderSize_ ∧ largeGrid.ny_ > 2 * largeGrid.borderSize_ ∧
      (largeGrid.grid_.length : Int) = 2 * largeGrid.gx_ * largeGrid.gy_ ∧
      paramsLarge.order_ = 2) ∧
    InInt (largeGrid.gx_ * largeGrid.gy_) ∧
    largeGrid.swapState.prev_ = 1 ∧
    (2, 20000) ∈ interiorCells largeGrid.borderSize_ largeGrid.nx_ largeGrid.ny_ ∧
    (1 : Int) * largeGrid.gx_ * largeGrid.gy_ + 20000 * largeGrid.gx_ + 2 = 2400200006 ∧
    INT_MAX < 2400200006 ∧
    largeGrid.swapState.index 1 2 20000 = none ∧
    largeGrid.swapState.index32 1 2 20000 = -1894767290 ∧
    (∀ u : Grid ℚ, u.gx_ = 40002 → u.gy_ = 40002 → ∀ xcfl ycfl : ℚ,
      stencil2C u 2 20000 xcfl ycfl 1 = none) ∧
    (∀ inbox : Int → List ℚ,
      syncIterationC inbox paramsLarge largeGrid = none ∧
      asyncIterationC inbox paramsLarge largeGrid = none) ∧
    (∀ env : Int → Int → List ℚ,
      syncComputationC env largeGrid paramsLarge = none ∧
      asyncComputationC env largeGrid paramsLarge = none) := by
  have hS := ctor_shaped _ _ _ _ _ largeGrid_ctor
  refine ⟨paramsLarge_ofFile, largeGrid_ctor,
    ⟨rfl, rfl, rfl, hS.2.1, hS.2.2.1, hS.2.2.2.2.2.1, rfl⟩, ?_, rfl, ?_, ?_, ?_, ?_, ?_,
    fun u hx hy xcfl ycfl => stencil2C_large u hx hy xcfl ycfl,
    largeGrid_iteration, ?_⟩
  · unfold InInt INT_MIN INT_MAX
    decide
  · rw [mem_interiorCells]
    decide
  · decide
  · unfold INT_MAX
    decide
  · exact index_none _ 1 2 20000 (by unfold INT_MAX; decide)
  · decide
  · intro env
    exact ⟨forLoopC_first 0 paramsLarge.iters_ _ largeGrid (by decide)
        (fun i => (largeGrid_iteration (env i)).1),
      forLoopC_first 0 paramsLarge.iters_ _ largeGrid (by decide)
        (fun i => (largeGrid_iteration (env i)).2)⟩

end Heat2D
